import Mathlib

/-!
LoWAPP frame codec, CRC engine, queues, sequence bookkeeping, state functions,
scheduler, callbacks, send command and configuration loading: a shallow
embedding.

The definitions below follow the C sources of the LoWAPP core
(`lowapp_msg.c`, `lowapp_utils_crc.c`, `lowapp_utils_conversion.c`,
`lowapp_utils_queue.c`, `lowapp_sm.c`, `lowapp_radio_evt.c`, `lowapp_atcmd.c`,
`lowapp_api.c`).  Machine integers are natural numbers
with an explicit reduction modulo `2^w` wherever the C code narrows a value.
A byte buffer is a list of naturals; reading past the end of the list yields
`0`.  Arrays indexed by a `uint8_t` (peer table, ring buffers) are functions
of the index.  The payload cipher (`LoRaMacPayloadEncrypt` /
`LoRaMacPayloadDecrypt` from the LoRaMac library) is a parameter of the
embedding, and so are the values the environment supplies (the nonce drawn by
`makeNonce`, the clock, the content of freshly allocated memory, random delays)
and, for `sm_run`, the table of state functions.  The floating-point
conversions between preamble time and symbols are parameters of
`load_full_config`.  Calls made through the system interface `_sys` are
recorded in order in the field `calls`.
-/

set_option linter.unusedVariables false

set_option maxRecDepth 100000

namespace Lowapp

/-! ## Definitions -/

/-! ### Constants (lowapp_core.h, lowapp_types.h, lowapp_msg.h, lowapp_utils_crc.h) -/

def TYPE_STDMSG : Nat := 0x1

def TYPE_ACK : Nat := 0x2

def TYPE_GWOUT : Nat := 0x3

def TYPE_GWIN : Nat := 0x4

def LOWAPP_CURRENT_VERSION : Nat := 0x1

def LOWAPP_ID_BROADCAST : Nat := 0xFF

def MAX_FRAME_SIZE : Nat := 255

def MAX_PAYLOAD_STD_SIZE : Nat := MAX_FRAME_SIZE - 4 - 2 - 3

def ACK_FRAME_LENGTH : Nat := 12

def ENCKEY_SIZE : Nat := 16

def CRC_TYPE_CCITT : Nat := 0

def CRC_TYPE_IBM : Nat := 1

def POLYNOMIAL_CCITT : Nat := 0x1021

def POLYNOMIAL_IBM : Nat := 0x8005

def CRC_CCITT_SEED : Nat := 0x1D0F

def CRC_CCITT_SEED_XMODEM : Nat := 0x0000

def CRC_IBM_SEED : Nat := 0xFFFF

def SEQ_ROLLOVER_LOW_THRESHOLD : Nat := 30

def SEQ_ROLLOVER_HIGH_THRESHOLD : Nat := 230

def MAXQSZ : Nat := 16

/-- The value of `sizeof(LORA_HDR_T)`: one byte of bit-fields, one length byte, two reserved bytes. -/
def sizeof_LORA_HDR_T : Nat := 4

/-- The value of `sizeof(ACKMSG_T)`: four one-byte fields. -/
def sizeof_ACKMSG_T : Nat := 4

/-! ### Byte buffers (lowapp_utils_conversion.c) -/

/-- Byte `i` of a buffer, `get_byte(buf + i)`; a read past the end yields 0. -/
def get_byte (buf : List Nat) (i : Nat) : Nat := buf.getD i 0

/-- The `n` bytes of `buf` starting at offset `off`. -/
def readBytes (buf : List Nat) (off n : Nat) : List Nat :=
  (List.range n).map (fun i => get_byte buf (off + i))

/-- The buffer `buf` after `bytes` have been stored at offset `off`. -/
def writeBytes (buf : List Nat) (off : Nat) (bytes : List Nat) : List Nat :=
  readBytes buf 0 off ++ bytes ++ buf.drop (off + bytes.length)

/-- The destination array after `memcpy(dst, src, n)`, where `bytes` are the `n` source bytes. -/
def memcpy (dst bytes : List Nat) : List Nat :=
  bytes ++ dst.drop bytes.length

/-- The buffer `buf` with bit `b` of byte `j` inverted. -/
def flipBit (buf : List Nat) (j b : Nat) : List Nat :=
  buf.set j ((get_byte buf j) ^^^ (1 <<< b))

/-- The byte that `wrap_byte` stores (the value narrowed to `uint8_t`). -/
def wrap_byte (value : Nat) : List Nat := [value % 256]

/-- The two bytes that `wrap_short` stores, most significant first. -/
def wrap_short (value : Nat) : List Nat :=
  wrap_byte ((value % 65536) >>> 8) ++ wrap_byte ((value % 65536) &&& 0xFF)

/-- The big-endian 16-bit value at offset `i`, `get_short(buf + i)` (also what `parse_short` reads). -/
def get_short (buf : List Nat) (i : Nat) : Nat :=
  (((get_byte buf i) <<< 8) % 65536) ||| get_byte buf (i + 1)

/-- The value of `*((uint16_t*)(buf + i))` on a little-endian host. -/
def host_short (buf : List Nat) (i : Nat) : Nat :=
  get_byte buf i + 256 * get_byte buf (i + 1)

/-! ### CRC engine (lowapp_utils_crc.c) -/

/-- One turn of the bit loop of `ComputeCrc` on the pair (crc, data). -/
def ComputeCrcBit (polynomial : Nat) (s : Nat × Nat) : Nat × Nat :=
  if (((s.1 &&& 0x8000) >>> 8) ^^^ (s.2 &&& 0x80)) ≠ 0 then
    ((((s.1 <<< 1) % 65536) ^^^ (polynomial % 65536)), (s.2 <<< 1) % 256)
  else
    ((s.1 <<< 1) % 65536, (s.2 <<< 1) % 256)

/-- The function `ComputeCrc(crc, data, polynomial)`: eight turns of the bit loop. -/
def ComputeCrc (crc data polynomial : Nat) : Nat :=
  ((ComputeCrcBit polynomial)^[8] (crc % 65536, data % 256)).1

/-- The function `PacketComputeCrc(buffer, bufferLength, crcType)`; both scalar
parameters are `uint8_t`, so the arguments are narrowed modulo 256. -/
def PacketComputeCrc (buffer : List Nat) (bufferLength crcType : Nat) : Nat :=
  let bufferLength := bufferLength % 256
  let crcType := crcType % 256
  let polynomial := if crcType = CRC_TYPE_IBM then POLYNOMIAL_IBM else POLYNOMIAL_CCITT
  let seed := if crcType = POLYNOMIAL_IBM then CRC_IBM_SEED else CRC_CCITT_SEED_XMODEM
  let crc := (readBytes buffer 0 bufferLength).foldl
    (fun crc b => ComputeCrc crc b polynomial) seed
  if crcType = CRC_TYPE_IBM then crc ^^^ 0xFFFF else crc

/-! ### Messages and configuration (lowapp_msg.h, lowapp_api.c) -/

/-- The struct `LORA_HDR`. -/
structure LORA_HDR where
  version : Nat
  type : Nat
  payloadLength : Nat
  rfu : Nat
deriving DecidableEq

/-- The struct `STDMSG`. -/
structure STDMSG where
  destId : Nat
  srcId : Nat
  txSeq : Nat
  payload : List Nat
deriving DecidableEq

/-- The struct `ACKMSG`. -/
structure ACKMSG where
  destId : Nat
  srcId : Nat
  rxdSeq : Nat
  expectedSeq : Nat
deriving DecidableEq

/-- The union `FMSG`, restricted to the two members the core reads and writes. -/
inductive FMSG where
  | std (s : STDMSG)
  | ack (a : ACKMSG)
deriving DecidableEq

/-- The member `content.std` of the union: the four leading bytes are shared with `content.ack`. -/
def FMSG.toStd : FMSG → STDMSG
  | .std s => s
  | .ack a => { destId := a.destId, srcId := a.srcId, txSeq := a.rxdSeq, payload := [a.expectedSeq] }

/-- The member `content.ack` of the union: the four leading bytes are shared with `content.std`. -/
def FMSG.toAck : FMSG → ACKMSG
  | .ack a => a
  | .std s => { destId := s.destId, srcId := s.srcId, rxdSeq := s.txSeq, expectedSeq := s.payload.getD 0 0 }

/-- The struct `MSG`. -/
structure MSG_T where
  hdr : LORA_HDR
  content : FMSG
deriving DecidableEq

/-- The enum `NODE_MODE`. -/
inductive NODE_MODE_T where
  | PULL | PUSH
deriving DecidableEq

/-- The configuration globals of lowapp_api.c: those the codec reads, and those
`check_configuration` and the connect command read and write, with their
initial values as defaults. -/
structure Config where
  _deviceId : Nat
  _groupId : Nat
  _encryptionKey : List Nat
  _preambleLen : Nat := 0
  _rsf : Nat := 0
  _rchanId : Nat := 255
  _connected : Bool := false
  _opMode : NODE_MODE_T := NODE_MODE_T.PULL
  _cad_interval : Nat := 0
deriving DecidableEq

/-- The payload cipher of the LoRaMac library, `LoRaMacPayloadEncrypt` and
`LoRaMacPayloadDecrypt`, as functions of (buffer, key, address, dir, sequenceCounter). -/
structure Cipher where
  LoRaMacPayloadEncrypt : List Nat → List Nat → Nat → Nat → Nat → List Nat
  LoRaMacPayloadDecrypt : List Nat → List Nat → Nat → Nat → Nat → List Nat

/-! ### Frame codec (lowapp_msg.c) -/

/-- The array `actualKey` that `encodeInPlace` and `decodeInPlace` fill in. -/
def actualKey (cfg : Config) (randomValueForNonce : Nat) : List Nat :=
  let actualNonce := ((cfg._groupId <<< 16) ||| (randomValueForNonce % 65536)) % 4294967296
  (List.range ENCKEY_SIZE).map (fun i =>
    (0 ||| ((get_byte cfg._encryptionKey i) ^^^ ((actualNonce >>> (4 * (i / 4))) &&& 0xFF))) % 256)

/-- The function `encodeInPlace`: the buffer after the `sizeToEncode` bytes at
offset `startEncode` have been replaced by the cipher's output. -/
def encodeInPlace (c : Cipher) (cfg : Config) (_appKey : List Nat) (randomValueForNonce : Nat)
    (buf : List Nat) (startEncode sizeToEncode : Nat) : List Nat :=
  let actualKey := actualKey cfg randomValueForNonce
  let encryptedBuffer :=
    c.LoRaMacPayloadEncrypt (readBytes buf startEncode sizeToEncode) _appKey 0 0 0
  writeBytes buf startEncode (readBytes encryptedBuffer 0 sizeToEncode)

/-- The function `decodeInPlace`: the buffer after the `sizeToEncode` bytes at
offset `encBuf` have been replaced by the cipher's output. -/
def decodeInPlace (c : Cipher) (cfg : Config) (_appKey : List Nat) (randomValueForNonce : Nat)
    (buf : List Nat) (encBuf sizeToEncode : Nat) : List Nat :=
  let actualKey := actualKey cfg randomValueForNonce
  let decBuffer :=
    c.LoRaMacPayloadDecrypt (readBytes buf encBuf sizeToEncode) _appKey 0 0 0
  writeBytes buf encBuf (readBytes decBuffer 0 sizeToEncode)

/-- The function `frameSize`; the result is narrowed to `uint8_t`. -/
def frameSize (msg : MSG_T) : Nat :=
  let packetSize :=
    if msg.hdr.type = TYPE_STDMSG then
      (sizeof_LORA_HDR_T + 2 + 3 + msg.hdr.payloadLength + 2) % 65536
    else if msg.hdr.type = TYPE_ACK then
      (sizeof_LORA_HDR_T + 2 + sizeof_ACKMSG_T + 2) % 65536
    else 0
  packetSize % 256

/-- The function `buildFrame`, with the value drawn by `makeNonce` and the
content of the output buffer on entry as arguments: the content of the buffer
when the function returns, and the returned size. -/
def buildFrame (c : Cipher) (cfg : Config) (nonce : Nat) (frameBuffer : List Nat) (msg : MSG_T) :
    List Nat × Nat :=
  if msg.hdr.type = TYPE_STDMSG then
    let std := msg.content.toStd
    let written := [((msg.hdr.version <<< 4) ||| msg.hdr.type) % 256]
      ++ wrap_byte msg.hdr.payloadLength
      ++ wrap_short msg.hdr.rfu
      ++ wrap_short nonce
      ++ wrap_byte std.destId
      ++ wrap_byte std.srcId
      ++ wrap_byte std.txSeq
      ++ readBytes std.payload 0 msg.hdr.payloadLength
    let frameBuffer := writeBytes frameBuffer 0 written
    let ptrBuf := written.length
    let crc := PacketComputeCrc frameBuffer ptrBuf POLYNOMIAL_IBM
    let frameBuffer := writeBytes frameBuffer ptrBuf (wrap_short crc)
    let ptrBuf := ptrBuf + 2
    let frameBuffer := encodeInPlace c cfg cfg._encryptionKey (host_short frameBuffer 4)
      frameBuffer 6 ((msg.hdr.payloadLength + 8) % 65536)
    (frameBuffer, ptrBuf % 65536)
  else if msg.hdr.type = TYPE_ACK then
    let ack := msg.content.toAck
    let written := [((msg.hdr.version <<< 4) ||| msg.hdr.type) % 256]
      ++ wrap_byte msg.hdr.payloadLength
      ++ wrap_short msg.hdr.rfu
      ++ wrap_short nonce
      ++ wrap_byte ack.destId
      ++ wrap_byte ack.srcId
      ++ wrap_byte ack.rxdSeq
      ++ wrap_byte ack.expectedSeq
    let frameBuffer := writeBytes frameBuffer 0 written
    let ptrBuf := written.length
    let crc := PacketComputeCrc frameBuffer ptrBuf POLYNOMIAL_IBM
    let frameBuffer := writeBytes frameBuffer ptrBuf (wrap_short crc)
    let ptrBuf := ptrBuf + 2
    let frameBuffer := encodeInPlace c cfg cfg._encryptionKey (host_short frameBuffer 4)
      frameBuffer 6 6
    (frameBuffer, ptrBuf % 65536)
  else
    (frameBuffer, 0)

/-- The function `retrieveMessage`: the return code and the message structure
as the function leaves it (`msg` is the structure's content on entry). -/
def retrieveMessage (c : Cipher) (cfg : Config) (msg : MSG_T) (frameBuffer : List Nat) :
    Int × MSG_T :=
  let hdr : LORA_HDR :=
    { version := (get_byte frameBuffer 0) >>> 4
      type := (get_byte frameBuffer 0) &&& 0xF
      payloadLength := get_byte frameBuffer 1
      rfu := get_short frameBuffer 2 }
  let nonce := get_short frameBuffer 4
  let msg := { msg with hdr := hdr }
  if hdr.version ≠ LOWAPP_CURRENT_VERSION then
    (-4, msg)
  else if hdr.type = TYPE_STDMSG then
    let frameBuffer := decodeInPlace c cfg cfg._encryptionKey nonce frameBuffer 6
      ((hdr.payloadLength + 8) % 65536)
    let std := { msg.content.toStd with
      destId := get_byte frameBuffer 6, srcId := get_byte frameBuffer 7 }
    let msg := { msg with content := FMSG.std std }
    let crcRetrieved := get_short frameBuffer (8 + 1 + hdr.payloadLength)
    let crcComputed := PacketComputeCrc frameBuffer (8 + 1 + hdr.payloadLength) POLYNOMIAL_IBM
    if crcComputed ≠ crcRetrieved then
      (-3, msg)
    else if std.destId = cfg._deviceId ∨ std.destId = LOWAPP_ID_BROADCAST then
      let std := { std with
        txSeq := get_byte frameBuffer 8
        payload := memcpy std.payload (readBytes frameBuffer 9 hdr.payloadLength) }
      (0, { msg with content := FMSG.std std })
    else
      (-2, msg)
  else if hdr.type = TYPE_ACK then
    let frameBuffer := decodeInPlace c cfg cfg._encryptionKey nonce frameBuffer 6 6
    let ack := { msg.content.toAck with
      destId := get_byte frameBuffer 6, srcId := get_byte frameBuffer 7 }
    let msg := { msg with content := FMSG.ack ack }
    let crcRetrieved := get_short frameBuffer (8 + 2)
    let crcComputed := PacketComputeCrc frameBuffer (8 + 2) POLYNOMIAL_IBM
    if crcComputed ≠ crcRetrieved then
      (-3, msg)
    else if ack.destId = cfg._deviceId then
      let ack := { ack with
        rxdSeq := get_byte frameBuffer 8
        expectedSeq := get_byte frameBuffer 9 }
      (0, { msg with content := FMSG.ack ack })
    else
      (-2, msg)
  else
    (-1, msg)

/-! ### Queues (lowapp_utils_queue.c) and the receive state (lowapp_sm.c) -/

/-- The enum `EVENTS`. -/
inductive EVENTS where
  | STATE_ENTER | STATE_EXIT | TXREQ | TXDONE | RXMSG | RXERROR | RXAT | CADDONE
  | CADTIMEOUT | TIMEOUT | RXTIMEOUT | TXTIMEOUT | TXUNBLOCK
deriving DecidableEq

/-- The enum `STATES`. -/
inductive STATES where
  | IDLE | RXING | SKIPPING_ACK | WAIT_SLOT_TX_ACK | TXING_ACK | TXING
  | WAIT_BEFORE_LISTENING_FOR_ACK | RXING_ACK | CAD | RESTART
deriving DecidableEq

/-- The struct `PEER`. -/
structure PEER_T where
  out_txseq : Nat
  out_rxseq : Nat
  in_expected : Nat
deriving DecidableEq

/-- The struct `MSG_RX_STATE`. -/
structure MSG_RX_STATE_T where
  duplicate_flag : Nat
  missing_frames : Nat
deriving DecidableEq

/-- The struct `MSG_RX_APP`; the pointer `msg` is represented by the message it points to. -/
structure MSG_RX_APP_T where
  state : MSG_RX_STATE_T
  msg : MSG_T
  rssi : Int
  snr : Int
deriving DecidableEq

/-- The struct `MSG_RXDONE`; `data` is `none` for a null pointer. -/
structure MSG_RXDONE_T where
  data : Option (List Nat)
  length : Nat
  rssi : Int
  snr : Int
deriving DecidableEq

/-- The struct `STAT`. -/
structure STAT_T where
  deviceId : Nat
  lastRssi : Int
  lastSeen : Nat
deriving DecidableEq

/-- What a `void*` of an event or of a queue element points to. -/
inductive DATA where
  | null
  | rxdone (d : MSG_RXDONE_T)
  | rxapp (m : MSG_RX_APP_T)
  | msg (m : MSG_T)
  | bytes (b : List Nat)
  | value (v : Nat)
deriving DecidableEq

/-- The struct `EVENT`. -/
structure EVENT_T where
  type : EVENTS
  data : DATA
  datalen : Nat
deriving DecidableEq

/-- The struct `QEL`. -/
structure QEL_T where
  data : DATA
  datalen : Nat
deriving DecidableEq

/-- The struct `QFIXED`: a ring buffer of `MAXQSZ` generic elements. -/
structure QFIXED_T where
  head : Nat
  tail : Nat
  count : Nat
  els : Nat → QEL_T

/-- The struct `QEVENT`: a ring buffer of `MAXQSZ` events. -/
structure QEVENT_T where
  head : Nat
  tail : Nat
  count : Nat
  evts : Nat → EVENT_T

/-- The struct `QSTAT`. -/
structure QSTAT_T where
  count : Nat
  els : Nat → STAT_T

/-- The value of a `uint8_t` returned as `int8_t`. -/
def toInt8 (n : Nat) : Int :=
  if n % 256 < 128 then ((n % 256 : Nat) : Int) else ((n % 256 : Nat) : Int) - 256

/-- The value of `sizeof(MSG_RX_APP_T)` on the 32-bit target. -/
def sizeof_MSG_RX_APP_T : Nat := 12

/-- The function `add_to_queue`: the return value and the queue afterwards. -/
def add_to_queue (q : QFIXED_T) (d : DATA) (dlen : Nat) : Int × QFIXED_T :=
  if q.count = MAXQSZ then
    (-1, q)
  else
    let els := Function.update q.els q.head { data := d, datalen := dlen % 65536 }
    let head := (q.head + 1) % MAXQSZ
    let count := (q.count + 1) % 256
    (toInt8 count, { q with els := els, head := head, count := count })

/-- One turn of the search loop of `add_to_statqueue` on (els, foundAtPos, oldestRecordI). -/
def statLoop (d : STAT_T) (st : (Nat → STAT_T) × Nat × Nat) (i : Nat) :
    (Nat → STAT_T) × Nat × Nat :=
  if (st.1 i).deviceId = d.deviceId then
    (Function.update st.1 i d, i, st.2.2)
  else if (st.1 i).lastSeen < (st.1 st.2.2).lastSeen then
    (st.1, st.2.1, i)
  else
    st

/-- The function `add_to_statqueue`: the return value and the table afterwards. -/
def add_to_statqueue (q : QSTAT_T) (d : STAT_T) : Int × QSTAT_T :=
  let r := (List.range (q.count % 256)).foldl (statLoop d) (q.els, MAXQSZ, 0)
  let els := r.1
  let foundAtPos := r.2.1
  let oldestRecordI := r.2.2
  let q :=
    if foundAtPos = MAXQSZ then
      if q.count = MAXQSZ then
        { q with els := Function.update els oldestRecordI d }
      else
        { count := (q.count + 1) % 256, els := Function.update els q.count d }
    else
      { q with els := els }
  (toInt8 q.count, q)

/-- A call of the system interface `_sys` made by the core. -/
inductive SysCall where
  | radioRx (timeout : Nat)
  | cmdResponse (text : String)
  | setTimer2 (timems : Nat)
  | setRepetitiveTimer (timems : Nat)
  | setTimer (timems : Nat)
  | radioLBT (chan : Nat)
  | radioTx (data : List Nat) (dlen : Nat)
  | radioCAD
  | radioSetPreamble (preambleLen : Nat)
  | radioSetTxFixLen (fixLen : Bool)
  | radioSetRxFixLen (fixLen : Bool) (payloadLen : Nat)
  | radioSetTxTimeout (timeout : Nat)
  | radioSetRxContinuous (rxContinuous : Bool)
  | radioSetTxConfig (power : Int) (bandwidth datarate coderate preambleLen timeout : Nat)
      (fixLen : Bool)
  | radioSetRxConfig (bandwidth datarate coderate preambleLen : Nat) (fixLen : Bool)
      (payloadLen : Nat) (rxContinuous : Bool)
  | radioSetChannel (freq : Nat)
  | radioSleep
deriving DecidableEq

/-- The globals of `lowapp_sm.c` (peer table, queues, current state, pending
transmission), the configuration globals, the safeguard timers, and the calls
made so far through `_sys` (the calls that only return a value, such as
`SYS_getTimeMs`, `SYS_radioTimeOnAir` and `SYS_getConfig`, are not recorded).
The last fields are the safeguard timers and the configuration globals of
`lowapp_api.c` that `load_full_config` and `update_safeguard_timers` use, with
their initial values. -/
structure Core where
  cfg : Config
  peers : Nat → PEER_T
  _rx_pkt_list : QFIXED_T
  _tx_pkt_list : QFIXED_T
  _atcmd_list : QFIXED_T
  _eventQ : QEVENT_T
  _coldEventQ : QEVENT_T
  statisticsWho : QSTAT_T
  _currentState : STATES
  cad_flag : Nat
  ackMsg : Option MSG_T
  lastDestination : Nat
  currentTxMsg : Option MSG_T
  currentTxFrame : List Nat
  txFrameFilled : Bool
  currentTxLength : Nat
  retryTxFrame : Nat
  txBlocked : Bool
  timer_safeguard_rxing_std : Nat
  calls : List SysCall
  timer_safeguard_rxing_ack : Nat := 0
  timer_safeguard_txing_std : Nat := 0
  timer_safeguard_txing_ack : Nat := 0
  preambleTime : Nat := 0
  _gwMask : Nat := 0
  _bandwidth : Nat := 0
  _coderate : Nat := 1
  _power : Int := 14

/-- The function `state_rxing`.  `now` is the value `SYS_getTimeMs` returns,
`uninit` and `uninitAck` are the contents of the two `MSG_T` blocks that
`malloc` returns (for the received message and for the Ack).  The RX queue
holds a pointer to `msg_rx_app`, so the flags written after the message was
queued are written to the queued element. -/
def state_rxing (c : Cipher) (s : Core) (now : Nat) (uninit uninitAck : MSG_T) (evt : EVENT_T) :
    STATES × Core :=
  match evt.type with
  | EVENTS.STATE_ENTER =>
    (s._currentState, { s with calls := s.calls ++ [SysCall.radioRx s.timer_safeguard_rxing_std] })
  | EVENTS.RXMSG =>
    match evt.data with
    | DATA.rxdone rxDoneMessage =>
      match rxDoneMessage.data with
      | none => (STATES.IDLE, s)
      | some frame =>
        let r := retrieveMessage c s.cfg uninit frame
        let msg := r.2
        if r.1 = 0 then
          let msg_rx_app : MSG_RX_APP_T :=
            { state := { duplicate_flag := 0, missing_frames := 0 }, msg := msg,
              rssi := rxDoneMessage.rssi, snr := rxDoneMessage.snr }
          let slot := s._rx_pkt_list.head
          let a := add_to_queue s._rx_pkt_list (DATA.rxapp msg_rx_app) sizeof_MSG_RX_APP_T
          let received := a.1
          let stat : STAT_T :=
            { deviceId := msg.content.toStd.srcId, lastRssi := msg_rx_app.rssi, lastSeen := now }
          let s := { s with _rx_pkt_list := a.2,
                            statisticsWho := (add_to_statqueue s.statisticsWho stat).2 }
          if received ≠ -1 then
            let src := msg.content.toStd.srcId
            let txSeq := msg.content.toStd.txSeq
            if msg.content.toStd.destId = LOWAPP_ID_BROADCAST then
              (STATES.IDLE, s)
            else
              let peers :=
                if txSeq = 0 ∧ (s.peers src).in_expected ≠ 0 then
                  Function.update s.peers src { out_txseq := 0, out_rxseq := 0, in_expected := 0 }
                else s.peers
              let expected := (peers src).in_expected
              let currentTxMsg : MSG_T :=
                { hdr := { uninitAck.hdr with
                    payloadLength := 0, type := TYPE_ACK, version := LOWAPP_CURRENT_VERSION },
                  content := FMSG.ack
                    { destId := src, srcId := s.cfg._deviceId,
                      rxdSeq := txSeq, expectedSeq := expected } }
              let cls : (Nat → PEER_T) × MSG_RX_STATE_T :=
                if txSeq = expected then
                  (Function.update peers src { peers src with in_expected := (expected % 255) + 1 },
                    msg_rx_app.state)
                else if txSeq > expected ∨
                    (txSeq < SEQ_ROLLOVER_LOW_THRESHOLD ∧ expected > SEQ_ROLLOVER_HIGH_THRESHOLD) then
                  (Function.update peers src { peers src with in_expected := (txSeq % 255) + 1 },
                    { msg_rx_app.state with missing_frames := (txSeq + 256 - expected % 256) % 256 })
                else if (txSeq < expected ∨
                    (txSeq > SEQ_ROLLOVER_HIGH_THRESHOLD ∧ expected < SEQ_ROLLOVER_LOW_THRESHOLD))
                    ∧ ((expected : Int) - (txSeq : Int) < 10) then
                  (peers, { msg_rx_app.state with duplicate_flag := 1 })
                else
                  (peers, msg_rx_app.state)
              let queued : QEL_T :=
                { data := DATA.rxapp { msg_rx_app with state := cls.2 },
                  datalen := sizeof_MSG_RX_APP_T % 65536 }
              (STATES.WAIT_SLOT_TX_ACK,
                { s with peers := cls.1, currentTxMsg := some currentTxMsg,
                         _rx_pkt_list := { s._rx_pkt_list with
                           els := Function.update s._rx_pkt_list.els slot queued } })
          else
            (STATES.IDLE, s)
        else if r.1 = -2 ∧ msg.hdr.type = TYPE_STDMSG then
          (STATES.SKIPPING_ACK, s)
        else
          (STATES.IDLE, s)
    | _ => (STATES.IDLE, s)
  | EVENTS.RXERROR => (STATES.IDLE, s)
  | EVENTS.RXTIMEOUT => (STATES.IDLE, s)
  | EVENTS.TIMEOUT => (STATES.IDLE, s)
  | _ => (s._currentState, s)

/-! ### Event queues and queue pops (lowapp_utils_queue.c) -/

/-- The function `add_event`: the return value and the queue afterwards. -/
def add_event (q : QEVENT_T) (t : EVENTS) (d : DATA) (dlen : Nat) : Int × QEVENT_T :=
  if q.count = MAXQSZ then
    (-1, q)
  else
    let evts := Function.update q.evts q.head { type := t, data := d, datalen := dlen % 65536 }
    let head := (q.head + 1) % MAXQSZ
    let count := (q.count + 1) % 256
    (toInt8 count, { q with evts := evts, head := head, count := count })

/-- The function `add_simple_event`. -/
def add_simple_event (q : QEVENT_T) (t : EVENTS) : Int × QEVENT_T :=
  add_event q t DATA.null 0

/-- The function `get_event`: the return value, the content of the three
output parameters (`evt` is their content on entry) and the queue afterwards. -/
def get_event (q : QEVENT_T) (evt : EVENT_T) : Int × EVENT_T × QEVENT_T :=
  if q.count = 0 then
    (-1, evt, q)
  else
    let out := q.evts q.tail
    let evts := Function.update q.evts q.tail
      { type := EVENTS.STATE_ENTER, data := DATA.null, datalen := 0 }
    let tail := (q.tail + 1) % MAXQSZ
    let count := (q.count + 255) % 256
    (toInt8 count, out, { q with evts := evts, tail := tail, count := count })

/-- The function `get_from_queue`: the return value, the content of the two
output parameters (`out` is their content on entry) and the queue afterwards. -/
def get_from_queue (q : QFIXED_T) (out : QEL_T) : Int × QEL_T × QFIXED_T :=
  if q.count = 0 then
    (-1, out, q)
  else
    let el := q.els q.tail
    let els := Function.update q.els q.tail { data := DATA.null, datalen := 0 }
    let tail := (q.tail + 1) % MAXQSZ
    let count := (q.count + 255) % 256
    (toInt8 count, el, { q with els := els, tail := tail, count := count })

/-! ### Sequence reconciliation and transmission (lowapp_sm.c, lowapp_msg.c) -/

def MAX_TX_FRAME_RETRY : Nat := 3
def jsonMissingAck : String := "OK TX \x7b\"missingAck\":"
def jsonMissingFrame : String := "\"missingFrames\":"
def jsonPrefixOkTx : String := "OK TX \x7b\""
def jsonSuffix : String := "\"\x7d"
def jsonNokTx : String := "NOK TX"
def jsonPrefixNokTxRetry : String := "NOK TX \x7b\"retry\":\""
def jsonErrorTxFail : String := "NOK TX \x7b\"status\":\"FAILED\"\x7d"

/-- The characters that `FillBuffer8_t` stores for one `uint8_t` value (no end
character): its decimal digits without leading zeros, as `DecimalAsciiConversion`
produces them. -/
def FillBuffer8_t (value : Nat) : String :=
  let decimal := value % 256
  let ones := decimal % 10
  let tens := decimal / 10 % 10
  let hundreds := decimal / 10 / 10 % 10
  let unit := Char.ofNat (ones ||| 0x30)
  let decade := Char.ofNat (tens ||| 0x30)
  let hundred := Char.ofNat (hundreds ||| 0x30)
  if hundred ≠ Char.ofNat 48 then String.mk [hundred, decade, unit]
  else if decade ≠ Char.ofNat 48 then String.mk [decade, unit]
  else String.mk [unit]

/-- The function `process_ack`: the globals after the Ack `msg` was processed. -/
def process_ack (s : Core) (msg : MSG_T) : Core :=
  let ack := msg.content.toAck
  let src := ack.srcId
  let out_rxseq := (s.peers src).out_rxseq
  if ack.expectedSeq = 0 ∧ ack.rxdSeq ≠ 0 then
    { s with
      peers := Function.update s.peers src { out_txseq := 1, out_rxseq := 1, in_expected := 0 },
      calls := s.calls ++ [SysCall.cmdResponse "OK TX"] }
  else if ack.rxdSeq = ack.expectedSeq then
    if out_rxseq = ack.expectedSeq then
      { s with
        peers := Function.update s.peers src
          { s.peers src with out_rxseq := (out_rxseq % 255) + 1 },
        calls := s.calls ++ [SysCall.cmdResponse "OK TX"] }
    else if out_rxseq < ack.expectedSeq ∨
        (out_rxseq > SEQ_ROLLOVER_HIGH_THRESHOLD ∧ ack.expectedSeq < SEQ_ROLLOVER_LOW_THRESHOLD) then
      { s with
        calls := s.calls ++
          [SysCall.cmdResponse (jsonMissingAck ++ FillBuffer8_t s.retryTxFrame ++ jsonSuffix)],
        peers := Function.update s.peers src
          { s.peers src with out_rxseq := (ack.expectedSeq % 255) + 1 } }
    else if out_rxseq > ack.expectedSeq ∨
        (ack.expectedSeq > SEQ_ROLLOVER_HIGH_THRESHOLD ∧ out_rxseq < SEQ_ROLLOVER_LOW_THRESHOLD) then
      { s with calls := s.calls ++ [SysCall.cmdResponse jsonNokTx] }
    else
      { s with calls := s.calls ++ [SysCall.cmdResponse jsonNokTx] }
  else
    let s :=
      if out_rxseq = ack.expectedSeq then
        let nMissing := (ack.rxdSeq + 256 - ack.expectedSeq % 256) % 256
        { s with
          calls := s.calls ++ [SysCall.cmdResponse
            (jsonPrefixOkTx ++ jsonMissingFrame ++ FillBuffer8_t nMissing ++ jsonSuffix)],
          peers := Function.update s.peers src
            { s.peers src with out_rxseq := (out_rxseq % 255) + 1 } }
      else if out_rxseq < ack.expectedSeq ∨
          (out_rxseq > SEQ_ROLLOVER_HIGH_THRESHOLD ∧
            ack.expectedSeq < SEQ_ROLLOVER_LOW_THRESHOLD) then
        let nMissing := (ack.expectedSeq + 256 - out_rxseq % 256) % 256
        { s with
          calls := s.calls ++ [SysCall.cmdResponse
            (jsonMissingAck ++ FillBuffer8_t nMissing ++ jsonSuffix)] }
      else if out_rxseq > ack.expectedSeq ∨
          (ack.expectedSeq > SEQ_ROLLOVER_HIGH_THRESHOLD ∧
            out_rxseq < SEQ_ROLLOVER_LOW_THRESHOLD) then
        { s with calls := s.calls ++ [SysCall.cmdResponse jsonNokTx] }
      else
        { s with calls := s.calls ++ [SysCall.cmdResponse jsonNokTx] }
    if ack.rxdSeq > ack.expectedSeq then
      { s with
        peers := Function.update s.peers src
          { s.peers src with out_rxseq := (ack.rxdSeq % 255) + 1 } }
    else s

/-- The function `setTimerForUnblockingTx`.  `preambleMs` is the value of
`preamble_symbols_to_timems(_preambleLen)` (a floating-point computation) and
`r` the value drawn by `randr`. -/
def setTimerForUnblockingTx (s : Core) (preambleMs r : Nat) : Core :=
  { s with txBlocked := true,
           calls := s.calls ++ [SysCall.setTimer2 ((preambleMs + r) % 4294967296)] }

/-- The function `state_txing`; `none` when the handler dereferences a null
`currentTxMsg`.  `preambleMs` and `r` are as in `setTimerForUnblockingTx`. -/
def state_txing (s : Core) (preambleMs r : Nat) (evt : EVENT_T) : Option (STATES × Core) :=
  match evt.type with
  | EVENTS.STATE_ENTER => some (s._currentState, s)
  | EVENTS.TXDONE =>
    let s := { s with
      peers := Function.update s.peers s.lastDestination
        { s.peers s.lastDestination with
          out_txseq := ((s.peers s.lastDestination).out_txseq % 255) + 1 },
      txFrameFilled := false }
    match s.currentTxMsg with
    | none => none
    | some currentTxMsg =>
      if currentTxMsg.content.toStd.destId = LOWAPP_ID_BROADCAST then
        let s := setTimerForUnblockingTx s preambleMs r
        some (STATES.IDLE, { s with currentTxMsg := none })
      else
        some (STATES.WAIT_BEFORE_LISTENING_FOR_ACK,
          { s with txBlocked := true, currentTxMsg := none })
  | EVENTS.TIMEOUT | EVENTS.TXTIMEOUT =>
    let s := setTimerForUnblockingTx s preambleMs r
    let s := { s with retryTxFrame := (s.retryTxFrame + 1) % 256 }
    if s.retryTxFrame < MAX_TX_FRAME_RETRY then
      some (STATES.IDLE, { s with calls := s.calls ++ [SysCall.cmdResponse
        (jsonPrefixNokTxRetry ++ FillBuffer8_t s.retryTxFrame ++ jsonSuffix)] })
    else
      some (STATES.IDLE, { s with
        calls := s.calls ++ [SysCall.cmdResponse jsonErrorTxFail],
        txFrameFilled := false, currentTxMsg := none })
  | _ => some (s._currentState, s)

/-! ### Configuration check and connect command (lowapp_sm.c, lowapp_atcmd.c) -/

def MIN_DEVICE_ID : Nat := 1
def MAX_DEVICE_ID : Nat := 250
def MAX_RCHAN_ID : Nat := 15
def MIN_SPREADINGFACTOR : Nat := 7
def MAX_SPREADINGFACTOR : Nat := 12
def LOWAPP_ERR_INVAL : Int := -1

/-- The function `check_configuration`. -/
def check_configuration (cfg : Config) : Bool :=
  let j := (List.range ENCKEY_SIZE).foldl
    (fun j i => if get_byte cfg._encryptionKey i = 0 then (j + 1) % 256 else j) 0
  if j = ENCKEY_SIZE then false
  else if cfg._preambleLen = 0 then false
  else if cfg._deviceId > MAX_DEVICE_ID ∨ cfg._deviceId < MIN_DEVICE_ID then false
  else if cfg._rsf < MIN_SPREADINGFACTOR ∨ cfg._rsf > MAX_SPREADINGFACTOR then false
  else if cfg._rchanId > MAX_RCHAN_ID then false
  else true

/-- The function `cmd_connect`: the return value, the string stored in `*err`
(`none` when it is left untouched) and the globals afterwards. -/
def cmd_connect (s : Core) : Int × Option String × Core :=
  let s := { s with cfg := { s.cfg with _opMode := NODE_MODE_T.PULL } }
  if ¬ s.cfg._connected then
    if check_configuration s.cfg then
      let s := { s with cfg := { s.cfg with _connected := true },
                        calls := s.calls ++ [SysCall.setRepetitiveTimer s.cfg._cad_interval] }
      (0, none, { s with calls := s.calls ++ [SysCall.cmdResponse "OK CONNECT"] })
    else
      (LOWAPP_ERR_INVAL, some "Invalid configuration", s)
  else
    (0, none, { s with calls := s.calls ++ [SysCall.cmdResponse "OK CONNECT"] })

/-! ### The scheduler (lowapp_sm.c) -/

def LOWAPP_SM_SHALLOW_SLEEP : Nat := 0
def LOWAPP_SM_DEEP_SLEEP : Nat := 1
def LOWAPP_SM_TX : Nat := 2
def LOWAPP_SM_RX : Nat := 3

/-- The queue an event of `sm_run` was taken from. -/
inductive EventSource where
  | hot | cold
deriving DecidableEq

/-- The outcome of the first half of one turn of the loop of `sm_run`: either
an event to dispatch, with the queue it was taken from, or the value `sm_run`
returns; in both cases with the globals at that point. -/
inductive Fetched where
  | event (src : EventSource) (evt : EVENT_T) (s : Core)
  | returned (code : Nat) (s : Core)

/-- The first half of one turn of the loop of `sm_run`, from the `get_event`
on the standard queue to the dispatch; `evt` is the content of the local
variable `evt` on entry. -/
def sm_fetch (s : Core) (evt : EVENT_T) : Fetched :=
  let h := get_event s._eventQ evt
  let qs := h.1
  let evt := h.2.1
  let s := { s with _eventQ := h.2.2 }
  if qs < 0 then
    if s._currentState = STATES.IDLE then
      let c := get_event s._coldEventQ evt
      let qs := c.1
      let evt := c.2.1
      let s := { s with _coldEventQ := c.2.2 }
      if qs < 0 then
        Fetched.returned LOWAPP_SM_DEEP_SLEEP s
      else
        Fetched.event EventSource.cold evt s
    else
      match s._currentState with
      | STATES.TXING | STATES.TXING_ACK => Fetched.returned LOWAPP_SM_TX s
      | STATES.RXING | STATES.RXING_ACK => Fetched.returned LOWAPP_SM_RX s
      | _ => Fetched.returned LOWAPP_SM_SHALLOW_SLEEP s
  else
    Fetched.event EventSource.hot evt s

/-- The transition loop of `sm_run`, `while (newState != _currentState)`, for a
table `SM` of state functions; `none` when `fuel` turns do not end it. -/
def sm_transition (SM : STATES → Core → EVENT_T → STATES × Core) :
    Nat → Core → EVENT_T → STATES → Option Core
  | 0, s, _, newState => if newState ≠ s._currentState then none else some s
  | fuel + 1, s, evt, newState =>
    if newState ≠ s._currentState then
      let evt := { evt with type := EVENTS.STATE_EXIT }
      let s := (SM s._currentState s evt).2
      let evt := { evt with type := EVENTS.STATE_ENTER }
      let s := { s with _currentState := newState }
      let r := SM newState s evt
      sm_transition SM fuel r.2 evt r.1
    else some s

/-- The second half of one turn of the loop of `sm_run`: the state function of
the current state is run on the event, then the transition loop. -/
def sm_dispatch (SM : STATES → Core → EVENT_T → STATES × Core) (fuel : Nat) (s : Core)
    (evt : EVENT_T) : Option Core :=
  let r := SM s._currentState s evt
  sm_transition SM fuel r.2 evt r.1

/-- The globals at the point the first half of a turn has reached. -/
def Fetched.core : Fetched → Core
  | Fetched.event _ _ s => s
  | Fetched.returned _ s => s

/-- One record per turn of the loop of `sm_run`: the globals and the content of
the local variable `evt` when the turn started, and what the first half of the
turn produced. -/
structure Turn where
  before : Core
  evt0 : EVENT_T
  fetched : Fetched

/-- The function `sm_run` for a table `SM` of state functions: the turns of
its loop in order, and the returned value with the globals at that point, or
`none` when the loops do not end within `fuel` turns each.  The local variable
`evt` is declared in the loop body without a value: `uninitEvt n` is its
content when turn `n` starts. -/
def sm_run (SM : STATES → Core → EVENT_T → STATES × Core) (uninitEvt : Nat → EVENT_T) :
    Nat → Nat → Core → List Turn × Option (Nat × Core)
  | 0, _, _ => ([], none)
  | fuel + 1, n, s =>
    match sm_fetch s (uninitEvt n) with
    | Fetched.returned code s1 =>
      ([{ before := s, evt0 := uninitEvt n, fetched := Fetched.returned code s1 }],
        some (code, s1))
    | Fetched.event src e s1 =>
      match sm_dispatch SM (fuel + 1) s1 e with
      | none => ([{ before := s, evt0 := uninitEvt n, fetched := Fetched.event src e s1 }], none)
      | some s2 =>
        ({ before := s, evt0 := uninitEvt n, fetched := Fetched.event src e s1 }
            :: (sm_run SM uninitEvt fuel (n + 1) s2).1,
          (sm_run SM uninitEvt fuel (n + 1) s2).2)

/-! ### Transmission attempts and the other state functions (lowapp_sm.c) -/

def TIMER_ACK_SLOT_START : Nat := 1000
def TIMER_ACK_SLOT_LENGTH : Nat := 1000
def TIMER_CHANNEL_FREE_INTERVAL : Nat := 10
def TIMER_ACK_SLOT_TX : Nat :=
  TIMER_ACK_SLOT_START + (TIMER_ACK_SLOT_LENGTH / 2) - TIMER_CHANNEL_FREE_INTERVAL
def PREAMBLE_ACK : Nat := 8
def jsonErrorMaxRetry : String := "NOK TX \x7b\"retry\":\"MAX\"\x7d"
def jsonNokTxRxError : String := "NOK TX \x7b\"status\":\"RXERROR\"\x7d"
def jsonNokTxRxTimeout : String := "NOK TX \x7b\"status\":\"RXTIMEOUT\"\x7d"

/-- The value of `sizeof(MSG_T)` on the 32-bit target. -/
def sizeof_MSG_T : Nat := 256

/-- The function `queue_size`. -/
def queue_size (q : QFIXED_T) : Nat := q.count

/-- The function `tryTxFrame`.  `lbt` is the value `SYS_radioLBT` returns,
`timeOnAirMax` the value `SYS_radioTimeOnAir(MAX_FRAME_SIZE)` returns and
`randr` the value drawn by `randr`. -/
def tryTxFrame (s : Core) (lbt : Bool) (timeOnAirMax randr : Nat) : STATES × Core :=
  let s := { s with calls := s.calls ++ [SysCall.radioLBT s.cfg._rchanId] }
  if lbt then
    (STATES.TXING,
      { s with txBlocked := true,
               calls := s.calls ++ [SysCall.radioTx s.currentTxFrame (s.currentTxLength % 256)] })
  else
    let s := { s with retryTxFrame := (s.retryTxFrame + 1) % 256 }
    if s.retryTxFrame < MAX_TX_FRAME_RETRY then
      let r := (timeOnAirMax + randr + TIMER_ACK_SLOT_START + TIMER_ACK_SLOT_LENGTH) % 4294967296
      (STATES.RXING,
        { s with txBlocked := true,
                 calls := s.calls ++ [SysCall.setTimer2 r, SysCall.cmdResponse
                   (jsonPrefixNokTxRetry ++ FillBuffer8_t s.retryTxFrame ++ jsonSuffix)] })
    else
      (STATES.RXING,
        { s with currentTxFrame := memcpy s.currentTxFrame (List.replicate MAX_FRAME_SIZE 0),
                 txFrameFilled := false,
                 calls := s.calls ++ [SysCall.cmdResponse jsonErrorMaxRetry] })

/-- The function `tryTxCurrent`; `none` when it dereferences a null
`currentTxMsg`.  `nonce` is the value drawn by `makeNonce`; `lbt`,
`timeOnAirMax` and `randr` are as in `tryTxFrame`. -/
def tryTxCurrent (c : Cipher) (nonce : Nat) (s : Core) (lbt : Bool) (timeOnAirMax randr : Nat) :
    Option (STATES × Core) :=
  match s.currentTxMsg with
  | none => none
  | some m =>
    if m.hdr.type = TYPE_STDMSG then
      let s := { s with currentTxLength := frameSize m }
      let std : STDMSG :=
        { m.content.toStd with txSeq := (s.peers m.content.toStd.destId).out_txseq }
      let m : MSG_T := { m with content := FMSG.std std }
      let s := { s with currentTxMsg := some m, lastDestination := m.content.toStd.destId }
      let b := buildFrame c s.cfg nonce s.currentTxFrame m
      let s := { s with currentTxFrame := b.1, currentTxLength := b.2, txFrameFilled := true,
                        retryTxFrame := 0 }
      some (tryTxFrame s lbt timeOnAirMax randr)
    else if m.hdr.type = TYPE_ACK then
      let b := buildFrame c s.cfg nonce (List.replicate ACK_FRAME_LENGTH 0) m
      some (STATES.TXING_ACK,
        { s with currentTxLength := b.2,
                 calls := s.calls ++
                   [SysCall.radioSetTxFixLen true, SysCall.radioSetPreamble PREAMBLE_ACK,
                    SysCall.radioSetTxTimeout s.timer_safeguard_txing_ack,
                    SysCall.radioTx b.1 (b.2 % 256)],
                 currentTxMsg := none })
    else
      some (STATES.IDLE, { s with currentTxMsg := none })

/-- The function `tryTxFromQueue`; `none` when the element taken from the TX
queue is not a message, or when `tryTxCurrent` dereferences a null pointer. -/
def tryTxFromQueue (c : Cipher) (nonce : Nat) (s : Core) (lbt : Bool)
    (timeOnAirMax randr : Nat) : Option (STATES × Core) :=
  let out : QEL_T :=
    { data := (match s.currentTxMsg with
        | some m => DATA.msg m
        | none => DATA.null),
      datalen := s.currentTxLength }
  let r := get_from_queue s._tx_pkt_list out
  match r.2.1.data with
  | DATA.msg m =>
    tryTxCurrent c nonce
      { s with _tx_pkt_list := r.2.2, currentTxMsg := some m, currentTxLength := r.2.1.datalen }
      lbt timeOnAirMax randr
  | DATA.null =>
    tryTxCurrent c nonce
      { s with _tx_pkt_list := r.2.2, currentTxMsg := none, currentTxLength := r.2.1.datalen }
      lbt timeOnAirMax randr
  | _ => none

/-- The values the state functions take from their environment: the cipher,
the nonce `makeNonce` draws, the clock, the contents of the blocks `malloc`
returns for a received message and for an Ack, the value of
`preamble_symbols_to_timems(_preambleLen)`, the value `randr` draws, the values
`SYS_radioLBT` and `SYS_radioTimeOnAir(MAX_FRAME_SIZE)` return, and the effect
on the globals of the two functions of the AT layer that `state_idle` calls. -/
structure SMEnv where
  cipher : Cipher
  nonce : Nat
  now : Nat
  uninit : MSG_T
  uninitAck : MSG_T
  preambleMs : Nat
  randr : Nat
  radioLBT : Bool
  timeOnAirMax : Nat
  at_queue_process : Core → Core
  response_rx_packets : Core → Core

/-- The block that `state_idle` runs to start a transmission (on STATE_ENTER
and TXREQ when TX is not blocked, and on TXUNBLOCK): the pending frame first,
otherwise a message of the TX queue, otherwise nothing. -/
def state_idle_tx (env : SMEnv) (s : Core) : Option (STATES × Core) :=
  if s.txFrameFilled then
    some (tryTxFrame s env.radioLBT env.timeOnAirMax env.randr)
  else if queue_size s._tx_pkt_list > 0 then
    tryTxFromQueue env.cipher env.nonce s env.radioLBT env.timeOnAirMax env.randr
  else
    some (s._currentState, s)

/-- The function `state_idle`; `none` when a null or ill-typed pointer is
dereferenced on the way. -/
def state_idle (env : SMEnv) (s : Core) (evt : EVENT_T) : Option (STATES × Core) :=
  match evt.type with
  | EVENTS.STATE_ENTER =>
    let s := if queue_size s._atcmd_list > 0 then env.at_queue_process s else s
    let s :=
      if s.cfg._opMode = NODE_MODE_T.PUSH ∧ queue_size s._rx_pkt_list > 0 then
        env.response_rx_packets s
      else s
    if ¬ s.txBlocked then state_idle_tx env s
    else some (s._currentState, s)
  | EVENTS.TXUNBLOCK => state_idle_tx env s
  | EVENTS.RXAT =>
    let s := if queue_size s._atcmd_list > 0 then env.at_queue_process s else s
    some (s._currentState, s)
  | EVENTS.TXREQ =>
    if ¬ s.txBlocked then state_idle_tx env s
    else some (s._currentState, s)
  | EVENTS.CADTIMEOUT => some (STATES.CAD, s)
  | _ => some (s._currentState, s)

/-- The function `state_skipping_ack`. -/
def state_skipping_ack (s : Core) (evt : EVENT_T) : STATES × Core :=
  match evt.type with
  | EVENTS.STATE_ENTER =>
    (s._currentState,
      { s with calls := s.calls ++
          [SysCall.setTimer (TIMER_ACK_SLOT_START + TIMER_ACK_SLOT_LENGTH)] })
  | EVENTS.TIMEOUT => (STATES.IDLE, s)
  | _ => (s._currentState, s)

/-- The function `state_wait_slot_tx_ack`; `none` when `tryTxCurrent`
dereferences a null `currentTxMsg`. -/
def state_wait_slot_tx_ack (env : SMEnv) (s : Core) (evt : EVENT_T) : Option (STATES × Core) :=
  match evt.type with
  | EVENTS.STATE_ENTER =>
    some (s._currentState, { s with calls := s.calls ++ [SysCall.setTimer TIMER_ACK_SLOT_TX] })
  | EVENTS.TIMEOUT =>
    tryTxCurrent env.cipher env.nonce s env.radioLBT env.timeOnAirMax env.randr
  | _ => some (s._currentState, s)

/-- The function `state_txingack`. -/
def state_txingack (s : Core) (evt : EVENT_T) : STATES × Core :=
  match evt.type with
  | EVENTS.STATE_ENTER => (s._currentState, s)
  | EVENTS.TXDONE | EVENTS.TIMEOUT | EVENTS.TXTIMEOUT =>
    (STATES.IDLE,
      { s with calls := s.calls ++
          [SysCall.radioSetTxFixLen false, SysCall.radioSetPreamble s.cfg._preambleLen,
           SysCall.radioSetTxTimeout s.timer_safeguard_txing_std] })
  | _ => (s._currentState, s)

/-- The function `state_wait_before_listening_ack`. -/
def state_wait_before_listening_ack (s : Core) (evt : EVENT_T) : STATES × Core :=
  match evt.type with
  | EVENTS.STATE_ENTER =>
    (s._currentState, { s with calls := s.calls ++ [SysCall.setTimer TIMER_ACK_SLOT_START] })
  | EVENTS.TIMEOUT => (STATES.RXING_ACK, s)
  | _ => (s._currentState, s)

/-- The three calls by which `state_rxing_ack` puts the radio back in its
standard reception configuration. -/
def rxConfigStandard (s : Core) : Core :=
  { s with calls := s.calls ++
      [SysCall.radioSetRxFixLen false 0, SysCall.radioSetPreamble s.cfg._preambleLen,
       SysCall.radioSetRxContinuous true] }

/-- The function `state_rxing_ack` (the build for the target, without the
simulated reception failures).  `uninit` is the content of the block `malloc`
returns for the received message; `preambleMs` and `r` are as in
`setTimerForUnblockingTx`. -/
def state_rxing_ack (c : Cipher) (s : Core) (uninit : MSG_T) (preambleMs r : Nat)
    (evt : EVENT_T) : STATES × Core :=
  match evt.type with
  | EVENTS.STATE_ENTER =>
    (s._currentState,
      { s with calls := s.calls ++
          [SysCall.radioSetRxFixLen true ACK_FRAME_LENGTH, SysCall.radioSetPreamble PREAMBLE_ACK,
           SysCall.radioSetRxContinuous true, SysCall.radioRx s.timer_safeguard_rxing_ack] })
  | EVENTS.RXMSG =>
    let s := rxConfigStandard s
    match evt.data with
    | DATA.rxdone rxDoneMessage =>
      match rxDoneMessage.data with
      | none => (STATES.IDLE, s)
      | some frame =>
        let got := retrieveMessage c s.cfg uninit frame
        let s :=
          if got.1 = 0 ∧ got.2.hdr.type = TYPE_ACK then process_ack s got.2
          else { s with calls := s.calls ++ [SysCall.cmdResponse jsonNokTx] }
        (STATES.IDLE, setTimerForUnblockingTx s preambleMs r)
    | _ => (STATES.IDLE, s)
  | EVENTS.RXERROR =>
    let s := rxConfigStandard (setTimerForUnblockingTx s preambleMs r)
    (STATES.IDLE, { s with calls := s.calls ++ [SysCall.cmdResponse jsonNokTxRxError] })
  | EVENTS.RXTIMEOUT =>
    let s := rxConfigStandard (setTimerForUnblockingTx s preambleMs r)
    (STATES.IDLE, { s with calls := s.calls ++ [SysCall.cmdResponse jsonNokTxRxTimeout] })
  | EVENTS.TIMEOUT =>
    let s := rxConfigStandard (setTimerForUnblockingTx s preambleMs r)
    (STATES.IDLE, { s with calls := s.calls ++ [SysCall.cmdResponse jsonNokTx] })
  | _ => (s._currentState, s)

/-- The function `state_cad`.  The data of a CADDONE event is a value passed
in place of a pointer; a null pointer reads as 0. -/
def state_cad (s : Core) (evt : EVENT_T) : Option (STATES × Core) :=
  match evt.type with
  | EVENTS.STATE_ENTER =>
    some (s._currentState, { s with cad_flag := 0, calls := s.calls ++ [SysCall.radioCAD] })
  | EVENTS.CADDONE =>
    match evt.data with
    | DATA.value v => some (if v % 256 = 1 then STATES.RXING else STATES.IDLE, s)
    | DATA.null => some (STATES.IDLE, s)
    | _ => none
  | _ => some (s._currentState, s)

/-- The function `state_restart`. -/
def state_restart (s : Core) (evt : EVENT_T) : STATES × Core :=
  match evt.type with
  | EVENTS.STATE_ENTER => (STATES.IDLE, s)
  | _ => (s._currentState, s)

/-- The array `SM` of state functions, in the environment `env`; `none` when
the state function dereferences a null or ill-typed pointer. -/
def SM (env : SMEnv) : STATES → Core → EVENT_T → Option (STATES × Core)
  | STATES.IDLE, s, evt => state_idle env s evt
  | STATES.RXING, s, evt => some (state_rxing env.cipher s env.now env.uninit env.uninitAck evt)
  | STATES.SKIPPING_ACK, s, evt => some (state_skipping_ack s evt)
  | STATES.WAIT_SLOT_TX_ACK, s, evt => state_wait_slot_tx_ack env s evt
  | STATES.TXING_ACK, s, evt => some (state_txingack s evt)
  | STATES.TXING, s, evt => state_txing s env.preambleMs env.randr evt
  | STATES.WAIT_BEFORE_LISTENING_FOR_ACK, s, evt => some (state_wait_before_listening_ack s evt)
  | STATES.RXING_ACK, s, evt => some (state_rxing_ack env.cipher s env.uninit env.preambleMs env.randr evt)
  | STATES.CAD, s, evt => state_cad s evt
  | STATES.RESTART, s, evt => some (state_restart s evt)

/-! ### ASCII conversions and the send command (lowapp_utils_conversion.c, lowapp_atcmd.c) -/

def LOWAPP_ERR_PAYLOAD : Int := -13
def LOWAPP_ERR_DESTID : Int := -14
def LOWAPP_ERR_DISCONNECT : Int := -16
def LOWAPP_ERR_NOTIMPL : Int := -103

/-- The value of an ASCII character that the hexadecimal conversions accept
(0-9 and A-F), as they compute it. -/
def hexCharValue (ch : Nat) : Option Nat :=
  if ch ≥ 48 ∧ ch ≤ 57 then some (ch - 48)
  else if ch ≥ 65 ∧ ch ≤ 70 then some (ch - 55)
  else none

/-- One turn of the outer loop of `AsciiHexStringConversionBI8_t`, for the
pair of characters number `p`: the state is the value to return (1 while no
invalid character was met) and the output buffer. -/
def hexPairBI (InBuffer : List Nat) (last : Nat) (st : Nat × List Nat) (p : Nat) :
    Nat × List Nat :=
  if st.1 = 0 then st
  else
    let k := last - p
    let out := writeBytes st.2 k [0]
    match hexCharValue (get_byte InBuffer (2 * p)) with
    | none => (0, out)
    | some hi =>
      let out := writeBytes out k [(get_byte out k + hi * 16) % 256]
      match hexCharValue (get_byte InBuffer (2 * p + 1)) with
      | none => (0, out)
      | some lo => (1, writeBytes out k [(get_byte out k + lo) % 256])

/-- The function `AsciiHexStringConversionBI8_t`: the returned value and the
content of the output buffer (`OutBuffer` is its content on entry). -/
def AsciiHexStringConversionBI8_t (OutBuffer InBuffer : List Nat) (BufSize : Nat) :
    Nat × List Nat :=
  let n := BufSize % 256 / 2
  (List.range n).foldl (hexPairBI InBuffer (n - 1)) (1, OutBuffer)

/-- The function `AsciiHexConversionOneValueBI8_t`. -/
def AsciiHexConversionOneValueBI8_t (OutBuffer InBuffer : List Nat) : Nat × List Nat :=
  if ¬ (get_byte InBuffer 1 ≥ 48 ∧ get_byte InBuffer 1 ≤ 57) ∧
      ¬ (get_byte InBuffer 1 ≥ 65 ∧ get_byte InBuffer 1 ≤ 70) then
    AsciiHexStringConversionBI8_t OutBuffer [48, get_byte InBuffer 0] 2
  else
    AsciiHexStringConversionBI8_t OutBuffer InBuffer 2

/-- The loop of `cmd_send` that measures the payload: `size` grows while it is
below `limit` and the character at `size` is not the end of the string. -/
def payloadSize (p2 : List Nat) (limit : Nat) : Nat → Nat → Nat
  | 0, size => size
  | fuel + 1, size =>
    if size < limit ∧ get_byte p2 size ≠ 0 then payloadSize p2 limit fuel (size + 1) else size

/-- The function `lowapp_tx`. -/
def lowapp_tx (s : Core) (msg : MSG_T) : Int × Core :=
  let a := add_to_queue s._tx_pkt_list (DATA.msg msg) sizeof_MSG_T
  if a.1 = -1 then (-1, { s with _tx_pkt_list := a.2 })
  else (0, { s with _tx_pkt_list := a.2 })

/-- The function `cmd_send` in the classic message format: the return value,
the string stored in `*err` (`none` when it is left untouched) and the globals
afterwards.  `p1` and `p2` are the two parameters (`none` for a null pointer,
otherwise the characters of the string, read as 0 past their end) and
`uninit` is the content of the block `malloc` returns. -/
def cmd_send (s : Core) (p1 p2 : Option (List Nat)) (uninit : MSG_T) (uninitDest : Nat) :
    Int × Option String × Core :=
  match p1, p2 with
  | some p1, some p2 =>
    let destination := get_byte (AsciiHexConversionOneValueBI8_t [uninitDest] p1).2 0
    if ¬ s.cfg._connected then
      (LOWAPP_ERR_DISCONNECT, some "NOK TX (DISCONNECTED)", s)
    else if destination = 0 then
      (LOWAPP_ERR_NOTIMPL, some "Gateway functionality not implemented", s)
    else if ¬ ((destination ≥ MIN_DEVICE_ID ∧ destination ≤ MAX_DEVICE_ID) ∨
        destination = LOWAPP_ID_BROADCAST) then
      (LOWAPP_ERR_DESTID, some "Invalid destination id", s)
    else
      let size := payloadSize p2 (MAX_PAYLOAD_STD_SIZE - 1) (MAX_PAYLOAD_STD_SIZE - 1) 0
      if size = MAX_PAYLOAD_STD_SIZE - 1 ∧ get_byte p2 size ≠ 0 then
        (LOWAPP_ERR_PAYLOAD, some "Payload too big for transmission", s)
      else
        let hdr : LORA_HDR :=
          { uninit.hdr with
            type := TYPE_STDMSG, version := LOWAPP_CURRENT_VERSION, payloadLength := size % 256 }
        let std : STDMSG :=
          { destId := destination, srcId := s.cfg._deviceId, txSeq := 0,
            payload := memcpy uninit.content.toStd.payload (readBytes p2 0 (size % 256)) }
        let msg : MSG_T := { hdr := hdr, content := FMSG.std std }
        let t := lowapp_tx s msg
        let s := t.2
        if t.1 = -1 then
          (0, none, { s with calls := s.calls ++ [SysCall.cmdResponse "NOK TX (QUEUE FULL)"] })
        else if s.txBlocked then
          (0, none, { s with calls := s.calls ++ [SysCall.cmdResponse "SEND DELAYED"] })
        else
          let s :=
            if queue_size s._tx_pkt_list > 1 then
              { s with calls := s.calls ++ [SysCall.cmdResponse "SEND DELAYED"] }
            else
              { s with calls := s.calls ++ [SysCall.cmdResponse "SEND REQUEST"] }
          (0, none, { s with _coldEventQ := (add_simple_event s._coldEventQ EVENTS.TXREQ).2 })
  | _, _ => (LOWAPP_ERR_INVAL, some "missing params", s)

/-! ### Loading the configuration (lowapp_atcmd.c, lowapp_sm.c, lowapp_msg.c) -/

def strRchanId : String := "chanId"
def strRsf : String := "txDatarate"
def strGwMask : String := "gwMask"
def strDeviceId : String := "deviceId"
def strGroupId : String := "groupId"
def strPreambleTime : String := "pTime"
def strEncKey : String := "encKey"

/-- The table `channelFrequencies`: 16 channels from 863.125 MHz, 300 kHz
apart. -/
def channelFrequencies : List Nat := (List.range 16).map (fun i => 863125000 + 300000 * i)

/-- What `load_full_config` and `update_safeguard_timers` take from their
environment: the value `SYS_getConfig` stores for a key (`none` when it returns
a negative value; otherwise the characters of the string, read as 0 past their
end), the value `SYS_radioTimeOnAir` returns for a length after the calls made
so far, the floating-point functions `preamble_timems_to_symbols` and
`preamble_symbols_to_timems` of lowapp_msg.c as functions of the spreading
factor, the bandwidth index and their argument, the value of `ceil(t * 1.2)`,
and the words of memory that follow the table `channelFrequencies`. -/
structure ConfigEnv where
  getConfig : String → Option (List Nat)
  radioTimeOnAir : List SysCall → Nat → Nat
  preamble_timems_to_symbols : Nat → Nat → Nat → Nat
  preamble_symbols_to_timems : Nat → Nat → Nat → Nat
  ceilScaled : Nat → Nat
  pastChannelFrequencies : Nat → Nat

/-- The function `strlen` on the characters of a string. -/
def strlen (l : List Nat) : Nat := (l.takeWhile (fun ch => ch ≠ 0)).length

/-- The `n` bytes of a value in memory, least significant first. -/
def bytesLE (v : Nat) (n : Nat) : List Nat := (List.range n).map (fun i => (v / 256 ^ i) % 256)

/-- The value held by the first `n` bytes of `l`, least significant first. -/
def ofBytesLE (l : List Nat) (n : Nat) : Nat :=
  (List.range n).foldl (fun v i => v + (get_byte l i % 256) * 256 ^ i) 0

/-- One turn of the loop of `AsciiDecStringConversion_t`: `none` once a
character that is not a digit was met. -/
def decDigit (InBuffer : List Nat) (st : Option Nat) (j : Nat) : Option Nat :=
  match st with
  | none => none
  | some val =>
    if get_byte InBuffer (j + 1) ≥ 48 ∧ get_byte InBuffer (j + 1) ≤ 57 then
      some ((val * 10 % 65536 + (get_byte InBuffer (j + 1) - 48)) % 65536)
    else none

/-- The function `AsciiDecStringConversion_t`. -/
def AsciiDecStringConversion_t (InBuffer : List Nat) (BufSize : Nat) : Nat :=
  let val :=
    if get_byte InBuffer 0 ≥ 48 ∧ get_byte InBuffer 0 ≤ 57 then get_byte InBuffer 0 - 48 else 0
  match (List.range (BufSize % 256 - 1)).foldl (decDigit InBuffer) (some val) with
  | some v => v
  | none => 0

/-- The function `update_safeguard_timers`.  The four timers are declared
`uint16_t` in lowapp_sm.c. -/
def update_safeguard_timers (env : ConfigEnv) (s : Core) : Core :=
  let s := { s with calls := s.calls ++
    [SysCall.radioSetTxConfig s._power s._bandwidth s.cfg._rsf s._coderate PREAMBLE_ACK
      s.timer_safeguard_txing_ack true] }
  let txingAck := env.ceilScaled (env.radioTimeOnAir s.calls ACK_FRAME_LENGTH) % 65536
  let s := { s with timer_safeguard_txing_ack := txingAck }
  let rxingAck := (TIMER_ACK_SLOT_LENGTH + s.timer_safeguard_txing_ack) % 65536
  let s := { s with timer_safeguard_rxing_ack := rxingAck }
  let s := { s with calls := s.calls ++
    [SysCall.radioSetRxConfig s._bandwidth s.cfg._rsf s._coderate s.cfg._preambleLen false 0 true,
     SysCall.radioSetTxFixLen false] }
  let rxingStd := env.ceilScaled (env.radioTimeOnAir s.calls MAX_FRAME_SIZE) % 65536
  let s := { s with timer_safeguard_rxing_std := rxingStd }
  let s := { s with timer_safeguard_txing_std := s.timer_safeguard_rxing_std }
  { s with calls := s.calls ++ [SysCall.radioSetTxTimeout s.timer_safeguard_txing_std] }

/-- The locals `ret` and `updateRadioAttr` of `load_full_config`, with the
globals. -/
structure LoadState where
  ret : Int
  updateRadioAttr : Nat
  s : Core

/-- The block of `load_full_config` that retrieves the gateway mask. -/
def load_gwMask (env : ConfigEnv) (st : LoadState) : LoadState :=
  match env.getConfig strGwMask with
  | some value =>
    let r := AsciiHexStringConversionBI8_t (bytesLE st.s._gwMask 4) value 8
    { st with ret := if r.1 ≠ 1 then -2 else st.ret,
              s := { st.s with _gwMask := ofBytesLE r.2 4 } }
  | none => { st with ret := -1 }

/-- The block of `load_full_config` that retrieves the device id. -/
def load_deviceId (env : ConfigEnv) (st : LoadState) : LoadState :=
  match env.getConfig strDeviceId with
  | some value =>
    let r := AsciiHexStringConversionBI8_t (bytesLE st.s.cfg._deviceId 1) value 2
    { st with ret := if r.1 ≠ 1 then -2 else st.ret,
              s := { st.s with cfg := { st.s.cfg with _deviceId := ofBytesLE r.2 1 } } }
  | none => { st with ret := -1 }

/-- The block of `load_full_config` that retrieves the group id. -/
def load_groupId (env : ConfigEnv) (st : LoadState) : LoadState :=
  match env.getConfig strGroupId with
  | some value =>
    let r := AsciiHexStringConversionBI8_t (bytesLE st.s.cfg._groupId 2) value 4
    { st with ret := if r.1 ≠ 1 then -2 else st.ret,
              s := { st.s with cfg := { st.s.cfg with _groupId := ofBytesLE r.2 2 } } }
  | none => { st with ret := -1 }

/-- The block of `load_full_config` that retrieves the radio channel;
`uninit` is the content of the local `newRchanid` on entry. -/
def load_rchanId (env : ConfigEnv) (uninit : Nat) (st : LoadState) : LoadState :=
  match env.getConfig strRchanId with
  | some value =>
    let r := AsciiHexStringConversionBI8_t [uninit] value 2
    let newRchanid := get_byte r.2 0
    if r.1 ≠ 1 then { st with ret := -2 }
    else if st.s.cfg._rchanId ≠ newRchanid then
      let freq :=
        if newRchanid < 16 then get_byte channelFrequencies newRchanid
        else env.pastChannelFrequencies newRchanid
      { st with s := { st.s with cfg := { st.s.cfg with _rchanId := newRchanid },
                                 calls := st.s.calls ++ [SysCall.radioSetChannel freq] } }
    else st
  | none => { st with ret := -1 }

/-- The block of `load_full_config` that retrieves the spreading factor. -/
def load_rsf (env : ConfigEnv) (st : LoadState) : LoadState :=
  match env.getConfig strRsf with
  | some value =>
    let r := AsciiHexStringConversionBI8_t [0] value 2
    let newRsf := get_byte r.2 0
    if r.1 ≠ 1 then { st with ret := -2 }
    else if st.s.cfg._rsf ≠ newRsf then
      { st with s := { st.s with cfg := { st.s.cfg with _rsf := newRsf } },
                updateRadioAttr := (st.updateRadioAttr + 1) % 256 }
    else st
  | none => { st with ret := -1 }

/-- The block of `load_full_config` that retrieves the preamble time. -/
def load_preambleTime (env : ConfigEnv) (st : LoadState) : LoadState :=
  match env.getConfig strPreambleTime with
  | some value =>
    let newPreamble := AsciiDecStringConversion_t value (strlen value)
    if newPreamble = 0 then { st with ret := -2 }
    else if newPreamble ≠ st.s.preambleTime then
      { st with s := { st.s with preambleTime := newPreamble },
                updateRadioAttr := (st.updateRadioAttr + 1) % 256 }
    else st
  | none => { st with ret := -1 }

/-- The block of `load_full_config` that retrieves the encryption key. -/
def load_encKey (env : ConfigEnv) (st : LoadState) : LoadState :=
  match env.getConfig strEncKey with
  | some value =>
    let r := AsciiHexStringConversionBI8_t st.s.cfg._encryptionKey value 32
    { st with ret := if r.1 ≠ 1 then -2 else st.ret,
              s := { st.s with cfg := { st.s.cfg with _encryptionKey := r.2 } } }
  | none => { st with ret := -1 }

/-- The last block of `load_full_config`: the radio timing is recomputed when
the configuration is valid and a radio attribute changed. -/
def load_finish (env : ConfigEnv) (st : LoadState) : Int × Core :=
  if st.ret = 0 ∧ st.updateRadioAttr > 0 then
    let s := st.s
    let symbols := env.preamble_timems_to_symbols s.cfg._rsf s._bandwidth s.preambleTime % 65536
    let s := { s with cfg := { s.cfg with _preambleLen := (symbols + 10) % 65536 } }
    let interval := env.preamble_symbols_to_timems s.cfg._rsf s._bandwidth
      ((s.cfg._preambleLen + 65536 - 10) % 65536) % 4294967296
    let s := { s with cfg := { s.cfg with _cad_interval := interval } }
    let s := update_safeguard_timers env s
    let s :=
      if s.cfg._connected then
        { s with calls := s.calls ++ [SysCall.setRepetitiveTimer s.cfg._cad_interval] }
      else s
    (st.ret, s)
  else (st.ret, st.s)

/-- The function `load_full_config`: the return value and the globals
afterwards.  `uninit` is the content of the local `newRchanid` on entry. -/
def load_full_config (env : ConfigEnv) (uninit : Nat) (s : Core) : Int × Core :=
  load_finish env
    (load_encKey env (load_preambleTime env (load_rsf env (load_rchanId env uninit
      (load_groupId env (load_deviceId env (load_gwMask env
        { ret := 0, updateRadioAttr := 0, s := s })))))))

/-! ### Concrete inputs used to evaluate the codec -/

/-- A keystream cipher used to run the codec on concrete inputs: byte `i` is
XOR-ed with byte `i mod 16` of the key (an involution, like the counter-mode
primitive of the LoRaMac library). -/
def xorCipher : Cipher where
  LoRaMacPayloadEncrypt := fun buffer key _ _ _ =>
    (List.range buffer.length).map (fun i => (get_byte buffer i) ^^^ (get_byte key (i % 16) % 256))
  LoRaMacPayloadDecrypt := fun buffer key _ _ _ =>
    (List.range buffer.length).map (fun i => (get_byte buffer i) ^^^ (get_byte key (i % 16) % 256))

/-- A node of device id 2 in group 0x1234. -/
def cfgA : Config := { _deviceId := 2, _groupId := 0x1234, _encryptionKey := List.range 16 |>.map (· + 17) }

/-- The Standard message "HELLO" from node 1 to node 2 with sequence number 7. -/
def msgHello : MSG_T :=
  { hdr := { version := 1, type := 1, payloadLength := 5, rfu := 0 }
    content := .std { destId := 2, srcId := 1, txSeq := 7, payload := [72, 69, 76, 76, 79] } }

/-- An all-zero message structure. -/
def msgZero : MSG_T :=
  { hdr := { version := 0, type := 0, payloadLength := 0, rfu := 0 }
    content := .std { destId := 0, srcId := 0, txSeq := 0, payload := [] } }

/-! ### Auxiliary definitions of the proofs -/

/-- The bytes `buildFrame` stores for a Standard message before the CRC. -/
def stdWritten (nonce : Nat) (msg : MSG_T) : List Nat :=
  [((msg.hdr.version <<< 4) ||| msg.hdr.type) % 256]
    ++ wrap_byte msg.hdr.payloadLength
    ++ wrap_short msg.hdr.rfu
    ++ wrap_short nonce
    ++ wrap_byte msg.content.toStd.destId
    ++ wrap_byte msg.content.toStd.srcId
    ++ wrap_byte msg.content.toStd.txSeq
    ++ readBytes msg.content.toStd.payload 0 msg.hdr.payloadLength

/-- The buffer of `buildFrame` for a Standard message just before `encodeInPlace`. -/
def stdPlain (nonce : Nat) (frameBuffer : List Nat) (msg : MSG_T) : List Nat :=
  writeBytes (writeBytes frameBuffer 0 (stdWritten nonce msg)) (9 + msg.hdr.payloadLength)
    (wrap_short (PacketComputeCrc (writeBytes frameBuffer 0 (stdWritten nonce msg))
      (9 + msg.hdr.payloadLength) POLYNOMIAL_IBM))

/-- The bytes `buildFrame` stores for an Ack message before the CRC. -/
def ackWritten (nonce : Nat) (msg : MSG_T) : List Nat :=
  [((msg.hdr.version <<< 4) ||| msg.hdr.type) % 256]
    ++ wrap_byte msg.hdr.payloadLength
    ++ wrap_short msg.hdr.rfu
    ++ wrap_short nonce
    ++ wrap_byte msg.content.toAck.destId
    ++ wrap_byte msg.content.toAck.srcId
    ++ wrap_byte msg.content.toAck.rxdSeq
    ++ wrap_byte msg.content.toAck.expectedSeq

/-- The buffer of `buildFrame` for an Ack message just before `encodeInPlace`. -/
def ackPlain (nonce : Nat) (frameBuffer : List Nat) (msg : MSG_T) : List Nat :=
  writeBytes (writeBytes frameBuffer 0 (ackWritten nonce msg)) 10
    (wrap_short (PacketComputeCrc (writeBytes frameBuffer 0 (ackWritten nonce msg))
      10 POLYNOMIAL_IBM))

/-- Every element of the list is a byte. -/
def IsBytes (l : List Nat) : Prop := ∀ x ∈ l, x < 256

instance (l : List Nat) : Decidable (IsBytes l) := by
  unfold IsBytes
  infer_instance

/-- The cipher writes as many bytes as it is given and its decryption inverts
its encryption under the same key (on byte buffers, with the address, direction
and sequence counter the codec passes). -/
def Cipher.Inverts (c : Cipher) : Prop :=
  ∀ (buf key : List Nat), IsBytes buf →
    (c.LoRaMacPayloadEncrypt buf key 0 0 0).length = buf.length ∧
    c.LoRaMacPayloadDecrypt (c.LoRaMacPayloadEncrypt buf key 0 0 0) key 0 0 0 = buf

/-- The header `retrieveMessage` parses from the first four bytes of a frame. -/
def parsedHdr (frameBuffer : List Nat) : LORA_HDR :=
  { version := (get_byte frameBuffer 0) >>> 4
    type := (get_byte frameBuffer 0) &&& 0xF
    payloadLength := get_byte frameBuffer 1
    rfu := get_short frameBuffer 2 }

/-- The frame buffer of `retrieveMessage` after `decodeInPlace` has run (Standard frame). -/
def decodedStd (c : Cipher) (cfg : Config) (frameBuffer : List Nat) : List Nat :=
  decodeInPlace c cfg cfg._encryptionKey (get_short frameBuffer 4) frameBuffer 6
    ((get_byte frameBuffer 1 + 8) % 65536)

/-- The frame buffer of `retrieveMessage` after `decodeInPlace` has run (Ack frame). -/
def decodedAck (c : Cipher) (cfg : Config) (frameBuffer : List Nat) : List Nat :=
  decodeInPlace c cfg cfg._encryptionKey (get_short frameBuffer 4) frameBuffer 6 6

/-- The Standard branch of `retrieveMessage`, from the decrypted buffer `d` on. -/
def retrieveStd (cfg : Config) (msg : MSG_T) (hdr : LORA_HDR) (d : List Nat) : Int × MSG_T :=
  let std : STDMSG :=
    { destId := get_byte d 6, srcId := get_byte d 7, txSeq := msg.content.toStd.txSeq,
      payload := msg.content.toStd.payload }
  let stdFull : STDMSG :=
    { destId := get_byte d 6, srcId := get_byte d 7, txSeq := get_byte d 8,
      payload := memcpy msg.content.toStd.payload (readBytes d 9 hdr.payloadLength) }
  if PacketComputeCrc d (8 + 1 + hdr.payloadLength) POLYNOMIAL_IBM
      ≠ get_short d (8 + 1 + hdr.payloadLength) then
    (-3, { hdr := hdr, content := FMSG.std std })
  else if get_byte d 6 = cfg._deviceId ∨ get_byte d 6 = LOWAPP_ID_BROADCAST then
    (0, { hdr := hdr, content := FMSG.std stdFull })
  else
    (-2, { hdr := hdr, content := FMSG.std std })

/-- The Ack branch of `retrieveMessage`, from the decrypted buffer `d` on. -/
def retrieveAck (cfg : Config) (msg : MSG_T) (hdr : LORA_HDR) (d : List Nat) : Int × MSG_T :=
  let ack : ACKMSG :=
    { destId := get_byte d 6, srcId := get_byte d 7, rxdSeq := msg.content.toAck.rxdSeq,
      expectedSeq := msg.content.toAck.expectedSeq }
  let ackFull : ACKMSG :=
    { destId := get_byte d 6, srcId := get_byte d 7, rxdSeq := get_byte d 8,
      expectedSeq := get_byte d 9 }
  if PacketComputeCrc d (8 + 2) POLYNOMIAL_IBM ≠ get_short d (8 + 2) then
    (-3, { hdr := hdr, content := FMSG.ack ack })
  else if get_byte d 6 = cfg._deviceId then
    (0, { hdr := hdr, content := FMSG.ack ackFull })
  else
    (-2, { hdr := hdr, content := FMSG.ack ack })

/-- A Standard message as `buildFrame` expects it: current version, Standard
type, a payload length within `MAX_PAYLOAD_STD_SIZE`, one-byte fields, and at
least `payloadLength` payload bytes. -/
def MSG_T.IsStd (m : MSG_T) : Prop :=
  m.hdr.version = LOWAPP_CURRENT_VERSION ∧ m.hdr.type = TYPE_STDMSG ∧
  m.hdr.payloadLength ≤ MAX_PAYLOAD_STD_SIZE ∧
  m.content.toStd.destId < 256 ∧ m.content.toStd.srcId < 256 ∧ m.content.toStd.txSeq < 256 ∧
  m.hdr.payloadLength ≤ m.content.toStd.payload.length ∧ IsBytes m.content.toStd.payload

instance (m : MSG_T) : Decidable m.IsStd := by
  unfold MSG_T.IsStd
  infer_instance

/-- An Ack message as `buildFrame` expects it: current version, Ack type and
one-byte fields (the header's payload length is any byte). -/
def MSG_T.IsAck (m : MSG_T) : Prop :=
  m.hdr.version = LOWAPP_CURRENT_VERSION ∧ m.hdr.type = TYPE_ACK ∧
  m.hdr.payloadLength < 256 ∧
  m.content.toAck.destId < 256 ∧ m.content.toAck.srcId < 256 ∧
  m.content.toAck.rxdSeq < 256 ∧ m.content.toAck.expectedSeq < 256

instance (m : MSG_T) : Decidable m.IsAck := by
  unfold MSG_T.IsAck
  infer_instance

/-- An Ack from node 1 to node 2 whose header announces 200 payload bytes. -/
def msgAck : MSG_T :=
  { hdr := { version := 1, type := 2, payloadLength := 200, rfu := 0 }
    content := .ack { destId := 2, srcId := 1, rxdSeq := 7, expectedSeq := 7 } }

/-- The 16-bit field at offset `n` of the decrypted frame `d` equals the CRC
that `retrieveMessage` computes over the `n` bytes before it. -/
def crcFieldValid (d : List Nat) (n : Nat) : Prop :=
  PacketComputeCrc d n POLYNOMIAL_IBM = get_short d n

instance (d : List Nat) (n : Nat) : Decidable (crcFieldValid d n) := by
  unfold crcFieldValid
  infer_instance

/-- An Ack frame addressed to 0xFF, as built by a node of the same key. -/
def msgAckBroadcast : MSG_T :=
  { hdr := { version := 1, type := 2, payloadLength := 0, rfu := 0 }
    content := .ack { destId := 0xFF, srcId := 1, rxdSeq := 7, expectedSeq := 7 } }

/-- A cipher whose output is the key it was handed, used to observe that key. -/
def keyProbe : Cipher where
  LoRaMacPayloadEncrypt := fun _ key _ _ _ => key
  LoRaMacPayloadDecrypt := fun _ key _ _ _ => key

/-- A node with the key and device id of `cfgA` and another group id. -/
def cfgB : Config := { cfgA with _groupId := 0x4321 }

/-- The IBM-variant CRC as the specification words it: the MSB-first
bit-at-a-time CRC with polynomial 0x8005 from the given seed, final value
bit-inverted. -/
def ibmVariantCrc (seed : Nat) (bytes : List Nat) : Nat :=
  (bytes.foldl (fun crc b => ComputeCrc crc b POLYNOMIAL_IBM) seed) ^^^ 0xFFFF

/-- A Standard message of 245 payload bytes, the longest that `cmd_send` accepts. -/
def msg245 : MSG_T :=
  { hdr := { version := 1, type := 1, payloadLength := 245, rfu := 0 }
    content := .std { destId := 2, srcId := 1, txSeq := 7, payload := List.replicate 245 65 } }

/-- The relation between two runs of the bit loop whose data bytes differ in one bit. -/
def FlipInv (j : Nat) (m m' : Nat × Nat) : Prop :=
  (j ≤ 7 ∧ m.1 = m'.1 ∧ m'.2 = m.2 ^^^ (1 <<< j) ∧ m.2 < 256) ∨
  (8 ≤ j ∧ m.1 ≠ m'.1 ∧ m.2 = m'.2 ∧ m.1 < 65536 ∧ m'.1 < 65536)

/-- The cipher is a keystream XOR: under a key, byte `i` of the output is byte
`i` of the input XOR-ed with byte `i` of a keystream that depends on the key
only, for encryption and decryption alike. -/
def Cipher.IsKeystream (c : Cipher) : Prop :=
  ∃ ks : List Nat → Nat → Nat, (∀ key i, ks key i < 256) ∧
    ∀ (buf key : List Nat), IsBytes buf →
      c.LoRaMacPayloadEncrypt buf key 0 0 0
        = (List.range buf.length).map (fun i => (get_byte buf i) ^^^ (ks key i)) ∧
      c.LoRaMacPayloadDecrypt buf key 0 0 0
        = (List.range buf.length).map (fun i => (get_byte buf i) ^^^ (ks key i))

/-- A zero-initialised generic queue. -/
def emptyQueue : QFIXED_T :=
  { head := 0, tail := 0, count := 0, els := fun _ => { data := DATA.null, datalen := 0 } }

/-- A zero-initialised event queue. -/
def emptyEventQueue : QEVENT_T :=
  { head := 0, tail := 0, count := 0,
    evts := fun _ => { type := EVENTS.STATE_ENTER, data := DATA.null, datalen := 0 } }

/-- A node state with empty queues in which every peer is expected to send sequence number 7. -/
def coreA : Core :=
  { cfg := cfgA
    peers := fun _ => { out_txseq := 0, out_rxseq := 0, in_expected := 7 }
    _rx_pkt_list := emptyQueue
    _tx_pkt_list := emptyQueue
    _atcmd_list := emptyQueue
    _eventQ := emptyEventQueue
    _coldEventQ := emptyEventQueue
    statisticsWho := { count := 0, els := fun _ => { deviceId := 0, lastRssi := 0, lastSeen := 0 } }
    _currentState := STATES.RXING
    cad_flag := 0
    ackMsg := none
    lastDestination := 2
    currentTxMsg := none
    currentTxFrame := List.replicate 255 0
    txFrameFilled := false
    currentTxLength := 0
    retryTxFrame := 0
    txBlocked := false
    timer_safeguard_rxing_std := 0
    calls := [] }

/-- The RXMSG event posted for a received frame. -/
def rxmsgEvent (frame : List Nat) (len dlen : Nat) (rssi snr : Int) : EVENT_T :=
  { type := EVENTS.RXMSG,
    data := DATA.rxdone { data := some frame, length := len, rssi := rssi, snr := snr },
    datalen := dlen }

/-- The duplicate and missing-frame flags of the received message held in slot
`slot` of the RX queue, if that slot holds one. -/
def deliveredState (s : Core) (slot : Nat) : Option MSG_RX_STATE_T :=
  match (s._rx_pkt_list.els slot).data with
  | DATA.rxapp a => some a.state
  | _ => none

/-- The successor in the wrapping sequence space 1..255, as the specification
words it: x goes to (x mod 255) + 1. -/
def seqSucc (x : Nat) : Nat := (x % 255) + 1

/-- The message "HELLO" from node 1 to node 2 with sequence number `n`. -/
def msgSeq (n : Nat) : MSG_T :=
  { hdr := { version := 1, type := 1, payloadLength := 5, rfu := 0 }
    content := .std { destId := 2, srcId := 1, txSeq := n, payload := [72, 69, 76, 76, 79] } }

/-- The node state `coreA` with every peer expected to send sequence number `e`. -/
def coreE (e : Nat) : Core :=
  { coreA with peers := fun _ => { out_txseq := 0, out_rxseq := 0, in_expected := e } }

/-- A complete configuration: the node `cfgA` with preamble length 8,
spreading factor 7, channel 0 and a CAD period of 2000 ms. -/
def cfgValid : Config :=
  { cfgA with _preambleLen := 8, _rsf := 7, _rchanId := 0, _cad_interval := 2000 }

/-- The configuration `cfgValid` with an all-zero encryption key. -/
def cfgZeroKey : Config := { cfgValid with _encryptionKey := List.replicate 16 0 }

/-- The ring buffer (head, tail, count, slots) holds the items of the list
`l`, oldest first: the count is the length, at most 16 items are held, the
head is the tail advanced by the length, and item `i` sits `i` slots after the
tail. -/
def RingRep {α : Type} (head tail count : Nat) (slots : Nat → α) (l : List α) : Prop :=
  tail < 16 ∧ count = l.length ∧ l.length ≤ 16 ∧ head = (tail + l.length) % 16 ∧
  ∀ i, i < l.length → l[i]? = some (slots ((tail + i) % 16))

instance {α : Type} [DecidableEq α] (head tail count : Nat) (slots : Nat → α) (l : List α) :
    Decidable (RingRep head tail count slots l) := by
  unfold RingRep
  infer_instance

/-- The event queue `q` holds the events `l`, oldest first. -/
def QEVENT_T.Holds (q : QEVENT_T) (l : List EVENT_T) : Prop :=
  RingRep q.head q.tail q.count q.evts l

instance (q : QEVENT_T) (l : List EVENT_T) : Decidable (q.Holds l) := by
  unfold QEVENT_T.Holds
  infer_instance

/-- The generic queue `q` holds the elements `l`, oldest first. -/
def QFIXED_T.Holds (q : QFIXED_T) (l : List QEL_T) : Prop :=
  RingRep q.head q.tail q.count q.els l

instance (q : QFIXED_T) (l : List QEL_T) : Decidable (q.Holds l) := by
  unfold QFIXED_T.Holds
  infer_instance

/-- A call on a queue: a push of an element, or a pop. -/
inductive QOp (α : Type) where
  | push (x : α)
  | pop

/-- What a caller observes of a call on a queue: the value returned by a push,
or the value returned by a pop with the content of the output parameters. -/
inductive QObs (α : Type) where
  | pushed (ret : Int)
  | popped (ret : Int) (out : α)

/-- The bounded FIFO of the specification, a list of capacity 16: a push
appends at the back and returns the new length, or returns -1 when 16 items are
held. -/
def fifoPush {α : Type} (l : List α) (x : α) : Int × List α :=
  if l.length < 16 then (((l.length + 1 : Nat) : Int), l ++ [x]) else (-1, l)

/-- The bounded FIFO of the specification: a pop returns the oldest item and
the new length, or returns -1 and changes nothing when no item is held. -/
def fifoPop {α : Type} (l : List α) (out : α) : Int × α × List α :=
  match l with
  | [] => (-1, out, [])
  | x :: t => (((t.length : Nat) : Int), x, t)

/-- The observations of a sequence of calls on the bounded FIFO of the
specification; `out` is the content of the output parameters. -/
def runFifo {α : Type} : List (QOp α) → List α → α → List (QObs α)
  | [], _, _ => []
  | QOp.push x :: ops, l, out =>
    QObs.pushed (fifoPush l x).1 :: runFifo ops (fifoPush l x).2 out
  | QOp.pop :: ops, l, out =>
    QObs.popped (fifoPop l out).1 (fifoPop l out).2.1
      :: runFifo ops (fifoPop l out).2.2 (fifoPop l out).2.1

/-- The observations of a sequence of `add_event` and `get_event` calls on an
event queue; `out` is the content of the output parameters. -/
def runEventQueue : List (QOp EVENT_T) → QEVENT_T → EVENT_T → List (QObs EVENT_T)
  | [], _, _ => []
  | QOp.push x :: ops, q, out =>
    QObs.pushed (add_event q x.type x.data x.datalen).1
      :: runEventQueue ops (add_event q x.type x.data x.datalen).2 out
  | QOp.pop :: ops, q, out =>
    QObs.popped (get_event q out).1 (get_event q out).2.1
      :: runEventQueue ops (get_event q out).2.2 (get_event q out).2.1

/-- The observations of a sequence of `add_to_queue` and `get_from_queue`
calls on a generic queue; `out` is the content of the output parameters. -/
def runQueue : List (QOp QEL_T) → QFIXED_T → QEL_T → List (QObs QEL_T)
  | [], _, _ => []
  | QOp.push x :: ops, q, out =>
    QObs.pushed (add_to_queue q x.data x.datalen).1
      :: runQueue ops (add_to_queue q x.data x.datalen).2 out
  | QOp.pop :: ops, q, out =>
    QObs.popped (get_from_queue q out).1 (get_from_queue q out).2.1
      :: runQueue ops (get_from_queue q out).2.2 (get_from_queue q out).2.1

/-- Every element pushed by the calls `ops` has a length that fits the
`uint16_t` parameter of the push functions. -/
def QOp.fits {α : Type} (datalen : α → Nat) : List (QOp α) → Bool
  | [] => true
  | QOp.push x :: ops => decide (datalen x < 65536) && QOp.fits datalen ops
  | QOp.pop :: ops => QOp.fits datalen ops

/-- The elements that `n` successive `get_event` calls return. -/
def drainEvents : Nat → QEVENT_T → EVENT_T → List EVENT_T
  | 0, _, _ => []
  | n + 1, q, out =>
    (get_event q out).2.1 :: drainEvents n (get_event q out).2.2 (get_event q out).2.1

/-- The elements that `n` successive `get_from_queue` calls return. -/
def drainQueue : Nat → QFIXED_T → QEL_T → List QEL_T
  | 0, _, _ => []
  | n + 1, q, out =>
    (get_from_queue q out).2.1
      :: drainQueue n (get_from_queue q out).2.2 (get_from_queue q out).2.1

/-- The event queue after the events TXREQ with data 0, 1, ..., n-1 were pushed
on a zero-initialised queue. -/
def eventQueueOf (n : Nat) : QEVENT_T :=
  (List.range n).foldl (fun q i => (add_event q EVENTS.TXREQ (DATA.value i) 4).2)
    emptyEventQueue

/-- The generic queue after the elements 0, 1, ..., n-1 were pushed on a
zero-initialised queue. -/
def queueOf (n : Nat) : QFIXED_T :=
  (List.range n).foldl (fun q i => (add_to_queue q (DATA.value i) 4).2) emptyQueue

/-- Two pushes followed by three pops on an event queue. -/
def evOpsA : List (QOp EVENT_T) :=
  [QOp.push { type := EVENTS.TXREQ, data := DATA.value 1, datalen := 4 },
   QOp.push { type := EVENTS.RXMSG, data := DATA.value 2, datalen := 8 },
   QOp.pop, QOp.pop, QOp.pop]

/-- Two pushes followed by three pops on a generic queue. -/
def elOpsA : List (QOp QEL_T) :=
  [QOp.push { data := DATA.value 1, datalen := 4 },
   QOp.push { data := DATA.value 2, datalen := 8 },
   QOp.pop, QOp.pop, QOp.pop]

/-- An Ack from node 2 to node 1 with rxdSeq 5 and expectedSeq 0. -/
def msgAckReboot : MSG_T :=
  { hdr := { version := 1, type := 2, payloadLength := 0, rfu := 0 }
    content := .ack { destId := 1, srcId := 2, rxdSeq := 5, expectedSeq := 0 } }

/-- The values one exchange takes from its environment: the preamble time and
random delay of `setTimerForUnblockingTx`, the nonce and frame buffer of the
sender, the clock, allocated blocks and radio figures of the reception, the
nonce and frame buffer of the Ack, and the block allocated for the received
Ack. -/
structure ExchangeEnv where
  preambleMs : Nat
  r : Nat
  nonce : Nat
  buf : List Nat
  now : Nat
  uninit : MSG_T
  uninitAck : MSG_T
  len : Nat
  dlen : Nat
  rssi : Int
  snr : Int
  nonceAck : Nat
  bufAck : List Nat
  uninitRx : MSG_T

/-- The two nodes after one exchange, and the flags of the message delivered
to the receiver's application. -/
structure Exchanged where
  sender : Core
  receiver : Core
  delivered : Option MSG_RX_STATE_T

/-- One lossless exchange between the sender `a` and the receiver `b`: `a` has
sent the frame `buildFrame` made of its `currentTxMsg` and handles TXDONE in
`state_txing`; `b` handles the RXMSG event of that frame in `state_rxing` and
moves to WAIT_SLOT_TX_ACK; the frame `buildFrame` makes of the Ack `b`
prepared reaches `a`, where `retrieveMessage` returns 0 with type Ack, so that
`state_rxing_ack` calls `process_ack`.  The result is `none` when one of these
steps does not take place. -/
def losslessExchange (c : Cipher) (a b : Core) (env : ExchangeEnv) : Option Exchanged :=
  match a.currentTxMsg with
  | none => none
  | some m =>
    let frame := (buildFrame c a.cfg env.nonce env.buf m).1
    match state_txing a env.preambleMs env.r
        { type := EVENTS.TXDONE, data := DATA.null, datalen := 0 } with
    | none => none
    | some a1 =>
      let b1 := state_rxing c b env.now env.uninit env.uninitAck
        (rxmsgEvent frame env.len env.dlen env.rssi env.snr)
      if b1.1 = STATES.WAIT_SLOT_TX_ACK then
        match b1.2.currentTxMsg with
        | none => none
        | some ack =>
          let ackFrame := (buildFrame c b1.2.cfg env.nonceAck env.bufAck ack).1
          let got := retrieveMessage c a1.2.cfg env.uninitRx ackFrame
          if got.1 = 0 ∧ got.2.hdr.type = TYPE_ACK then
            some { sender := process_ack a1.2 got.2, receiver := b1.2,
                   delivered := deliveredState b1.2 b._rx_pkt_list.head }
          else none
      else none

/-- A node of device id 1 with the key of `cfgA`, about to learn that its
frame `msgSeq n` for node 2 was sent, with out_txseq = out_rxseq = n for every
peer. -/
def coreS (n : Nat) : Core :=
  { coreA with
    cfg := { cfgA with _deviceId := 1 }
    peers := fun _ => { out_txseq := n, out_rxseq := n, in_expected := 0 }
    _currentState := STATES.TXING
    lastDestination := 2
    currentTxMsg := some (msgSeq n) }

/-- Environment values for one exchange. -/
def envA : ExchangeEnv :=
  { preambleMs := 50, r := 3, nonce := 0xBEEF, buf := [], now := 1000, uninit := msgZero,
    uninitAck := msgZero, len := 16, dlen := 12, rssi := -40, snr := 5, nonceAck := 0x1234,
    bufAck := [], uninitRx := msgZero }

/-- A sample table of state functions for running `sm_run`: IDLE starts a
transmission on TXREQ, TXING is `state_txing`, every other state ignores its
events. -/
def smSample : STATES → Core → EVENT_T → STATES × Core
  | STATES.IDLE, s, evt =>
    match evt.type with
    | EVENTS.TXREQ => (STATES.TXING, s)
    | _ => (s._currentState, s)
  | STATES.TXING, s, evt =>
    match state_txing s 50 3 evt with
    | some r => r
    | none => (STATES.IDLE, s)
  | _, s, _ => (s._currentState, s)

/-- A node in state TXING with a TXTIMEOUT event in the standard queue and two
TXREQ events in the cold queue. -/
def coreW : Core :=
  { coreS 7 with
    _eventQ := (add_simple_event emptyEventQueue EVENTS.TXTIMEOUT).2
    _coldEventQ := (add_simple_event
      (add_simple_event emptyEventQueue EVENTS.TXREQ).2 EVENTS.TXREQ).2 }

/-- The turns of `sm_run` from `coreW` with the sample table. -/
def turnsW : List Turn :=
  (sm_run smSample (fun _ => { type := EVENTS.STATE_ENTER, data := DATA.null, datalen := 0 })
    3 0 coreW).1

/-- What a turn shows of the cold-queue guard: the state and the count of the
standard queue when it started, the queue its event came from, and the count
of the cold queue before and after its first half. -/
def Turn.summary (t : Turn) : STATES × Nat × Option EventSource × Nat × Nat :=
  (t.before._currentState, t.before._eventQ.count,
    (match t.fetched with
      | Fetched.event src _ _ => some src
      | Fetched.returned _ _ => none),
    t.before._coldEventQ.count, t.fetched.core._coldEventQ.count)

/-- The second turn of `sm_run` from `coreW`. -/
def turnW : Turn := turnsW.get ⟨1, by decide⟩

/-- The message `msgSeq n` addressed to every node (destId 0xFF). -/
def msgBroadcast (n : Nat) : MSG_T :=
  { hdr := { version := 1, type := 1, payloadLength := 5, rfu := 0 }
    content := .std { destId := 0xFF, srcId := 1, txSeq := n, payload := [72, 69, 76, 76, 79] } }

/-- A message whose header announces the gateway-out type. -/
def msgGwOut : MSG_T :=
  { hdr := { version := 1, type := 3, payloadLength := 5, rfu := 0 }
    content := .std { destId := 2, srcId := 1, txSeq := 7, payload := [72, 69, 76, 76, 79] } }

/-- An event without data. -/
def simpleEvent (t : EVENTS) : EVENT_T := { type := t, data := DATA.null, datalen := 0 }

/-- The events each state function treats in a `case` of its own (every other
event falls to its `default`), read off the ten `switch` statements. -/
def handled : STATES → EVENTS → Bool
  | STATES.IDLE, e =>
    e = EVENTS.STATE_ENTER || e = EVENTS.TXUNBLOCK || e = EVENTS.RXAT || e = EVENTS.TXREQ
      || e = EVENTS.CADTIMEOUT
  | STATES.RXING, e =>
    e = EVENTS.STATE_ENTER || e = EVENTS.RXMSG || e = EVENTS.RXERROR || e = EVENTS.RXTIMEOUT
      || e = EVENTS.TIMEOUT
  | STATES.SKIPPING_ACK, e => e = EVENTS.STATE_ENTER || e = EVENTS.TIMEOUT
  | STATES.WAIT_SLOT_TX_ACK, e => e = EVENTS.STATE_ENTER || e = EVENTS.TIMEOUT
  | STATES.TXING_ACK, e =>
    e = EVENTS.STATE_ENTER || e = EVENTS.TXDONE || e = EVENTS.TIMEOUT || e = EVENTS.TXTIMEOUT
  | STATES.TXING, e =>
    e = EVENTS.STATE_ENTER || e = EVENTS.TXDONE || e = EVENTS.TIMEOUT || e = EVENTS.TXTIMEOUT
  | STATES.WAIT_BEFORE_LISTENING_FOR_ACK, e => e = EVENTS.STATE_ENTER || e = EVENTS.TIMEOUT
  | STATES.RXING_ACK, e =>
    e = EVENTS.STATE_ENTER || e = EVENTS.RXMSG || e = EVENTS.RXERROR || e = EVENTS.RXTIMEOUT
      || e = EVENTS.TIMEOUT
  | STATES.CAD, e => e = EVENTS.STATE_ENTER || e = EVENTS.CADDONE
  | STATES.RESTART, e => e = EVENTS.STATE_ENTER

/-- Environment values for running the state functions; the two functions of
the AT layer leave the globals as they are. -/
def envSM : SMEnv :=
  { cipher := xorCipher, nonce := 0xBEEF, now := 1000, uninit := msgZero, uninitAck := msgZero,
    preambleMs := 50, randr := 3, radioLBT := true, timeOnAirMax := 400,
    at_queue_process := fun s => s, response_rx_packets := fun s => s }

/-- A node in state IDLE with the CAD flag raised, TX blocked and nothing
queued. -/
def coreIdleCad : Core :=
  { coreA with _currentState := STATES.IDLE, cad_flag := 1, txBlocked := true }

/-- The globals when `sm_run` returns from `coreW` with the sample table. -/
def coreWEnd : Core :=
  match (sm_run smSample (fun _ => simpleEvent EVENTS.STATE_ENTER) 3 0 coreW).2 with
  | some r => r.2
  | none => coreW

/-- A node in state RXING_ACK, TX blocked since its frame was sent, no call
made yet. -/
def coreAckWait : Core :=
  { coreS 7 with _currentState := STATES.RXING_ACK, txBlocked := true, currentTxMsg := none }

/-- One round of the retry cycle of a pending frame: in IDLE the TXUNBLOCK
event makes `state_idle` try the frame; when the frame is sent (next state
TXING) the transmission ends with the event `t`, handled by `state_txing`.
The result is what `state_txing` returns, or `none` when the frame was not
sent. -/
def retryRound (env : SMEnv) (t : EVENTS) (s : Core) : Option (STATES × Core) :=
  match state_idle env s (simpleEvent EVENTS.TXUNBLOCK) with
  | some (STATES.TXING, s1) => state_txing s1 env.preambleMs env.randr (simpleEvent t)
  | _ => none

/-- The four calls of one round of the retry cycle that ends with the
response `text`: listen before talk, transmission of the pending frame,
timer 2, response. -/
def roundCalls (env : SMEnv) (s : Core) (text : String) : List SysCall :=
  [SysCall.radioLBT s.cfg._rchanId,
   SysCall.radioTx s.currentTxFrame (s.currentTxLength % 256),
   SysCall.setTimer2 ((env.preambleMs + env.randr) % 4294967296),
   SysCall.cmdResponse text]

/-- A node in IDLE whose frame for node 2 has just been built (retry counter
0) and waits for the TXUNBLOCK event. -/
def corePending : Core :=
  { coreS 7 with _currentState := STATES.IDLE, txFrameFilled := true, txBlocked := true,
                 currentTxFrame := (buildFrame xorCipher cfgA 0xBEEF [] (msgSeq 7)).1,
                 currentTxLength := 16 }

/-- Successive rounds of the retry cycle, one per event of the list; `none`
when in some round the frame was not sent. -/
def retryRounds (env : SMEnv) : List EVENTS → Core → Option Core
  | [], s => some s
  | t :: ts, s =>
    match retryRound env t s with
    | some r => retryRounds env ts r.2
    | none => none

/-- The text of a response to the application, for the other calls nothing. -/
def responseText : SysCall → Option String
  | SysCall.cmdResponse text => some text
  | _ => none

/-- The frames handed to the radio for transmission. -/
def sentFrames (calls : List SysCall) : List (List Nat) :=
  calls.filterMap (fun call => match call with
    | SysCall.radioTx data _ => some data
    | _ => none)

/-- A connected node in state IDLE with a complete configuration and empty
queues. -/
def coreConn : Core :=
  { coreA with cfg := { cfgValid with _connected := true }, _currentState := STATES.IDLE }

/-- A payload of 245 characters `A`. -/
def payload245 : List Nat := List.replicate 245 65

/-- The message held in slot `slot` of a queue, if the slot holds one. -/
def queuedMsg (q : QFIXED_T) (slot : Nat) : Option MSG_T :=
  match (q.els slot).data with
  | DATA.msg m => some m
  | _ => none

/-- The lengths handed to the radio with the frames to transmit. -/
def sentLengths (calls : List SysCall) : List Nat :=
  calls.filterMap (fun call => match call with
    | SysCall.radioTx _ dlen => some dlen
    | _ => none)

/-- The statistics table holds `n` entries as the search loop of
`add_to_statqueue` leaves it after `n` turns, started on the table `els0` for
the record `d`: the entries of `d`'s device among the first `n` are replaced
by `d`; the position found is MAXQSZ as long as none was met; and while none
was met the oldest record is a first entry of smallest lastSeen. -/
def StatLoopInv (els0 : Nat → STAT_T) (d : STAT_T) (n : Nat)
    (st : (Nat → STAT_T) × Nat × Nat) : Prop :=
  (∀ j, st.1 j = if j < n ∧ (els0 j).deviceId = d.deviceId then d else els0 j) ∧
  ((∀ j, j < n → (els0 j).deviceId ≠ d.deviceId) → st.2.1 = MAXQSZ) ∧
  ((∃ j, j < n ∧ (els0 j).deviceId = d.deviceId) → st.2.1 < n) ∧
  ((∀ j, j < n → (els0 j).deviceId ≠ d.deviceId) →
    (st.2.2 < n ∨ (n = 0 ∧ st.2.2 = 0)) ∧
    ∀ j, j < n → (els0 st.2.2).lastSeen ≤ (els0 j).lastSeen)

/-- The table of `n` entries for the devices 1, 2, ..., n, last seen at the
times 100, 99, ... (device `i + 1` at time `100 - i`). -/
def statTable (n : Nat) : QSTAT_T :=
  { count := n, els := fun i => { deviceId := i + 1, lastRssi := -40, lastSeen := 100 - i } }

/-- The table `bandwidthValues`. -/
def bandwidthValues : List Nat := [125000, 250000, 500000, 0]

/-- The value of `preamble_timems_to_symbols` in exact arithmetic:
the floor of `(t / 1000) / (2 ^ rsf / bandwidth) - 4.25`. -/
def symbolsExact (rsf bw t : Nat) : Nat :=
  (4 * t * get_byte bandwidthValues bw - 17000 * 2 ^ rsf) / (4000 * 2 ^ rsf)

/-- The value of `preamble_symbols_to_timems` in exact arithmetic:
the floor of `(len + 4.25) * (2 ^ rsf / bandwidth) * 1000`. -/
def timemsExact (rsf bw len : Nat) : Nat :=
  ((4 * len + 17) * 2 ^ rsf * 1000) / (4 * get_byte bandwidthValues bw)

/-- A complete configuration store: spreading factor 8, preamble time 500 ms,
channel 3, device 5 of group 1, a key of bytes 0xAA. -/
def storeFull (key : String) : Option (List Nat) :=
  if key = strGwMask then some [48, 48, 48, 48, 48, 48, 48, 49]
  else if key = strDeviceId then some [48, 53]
  else if key = strGroupId then some [48, 48, 48, 49]
  else if key = strRchanId then some [48, 51]
  else if key = strRsf then some [48, 56]
  else if key = strPreambleTime then some [53, 48, 48]
  else if key = strEncKey then some (List.replicate 32 65)
  else none

/-- The store `storeFull` without a gateway mask. -/
def storeNoMask (key : String) : Option (List Nat) :=
  if key = strGwMask then none else storeFull key

/-- An environment over the store `storeFull`: a time on air of one
millisecond per byte, exact conversions. -/
def envFull : ConfigEnv :=
  { getConfig := storeFull, radioTimeOnAir := fun _ len => len,
    preamble_timems_to_symbols := symbolsExact, preamble_symbols_to_timems := timemsExact,
    ceilScaled := fun t => (12 * t + 9) / 10, pastChannelFrequencies := fun _ => 0 }

/-- The environment `envFull` over the store `storeNoMask`. -/
def envNoMask : ConfigEnv := { envFull with getConfig := storeNoMask }

/-- The message "HELLO" from node 1 to node 9, another node than `cfgA`. -/
def msgElsewhere : MSG_T :=
  { hdr := { version := 1, type := 1, payloadLength := 5, rfu := 0 }
    content := .std { destId := 9, srcId := 1, txSeq := 7, payload := [72, 69, 76, 76, 79] } }

/-- The value of `*((uint16_t*)(frameBuffer+4))` on a little-endian host once
`wrap_short` has stored the nonce at offset 4. -/
def encoderNonce (nonce : Nat) : Nat := host_short (wrap_short nonce) 0

/-- An Ack from node 2 to node 1 with rxdSeq = expectedSeq = 5. -/
def msgAckAhead : MSG_T :=
  { hdr := { version := 1, type := 2, payloadLength := 0, rfu := 0 }
    content := .ack { destId := 1, srcId := 2, rxdSeq := 5, expectedSeq := 5 } }

/-- An Ack from node 2 to node 1 with rxdSeq 6 and expectedSeq 5. -/
def msgAckAheadGap : MSG_T :=
  { hdr := { version := 1, type := 2, payloadLength := 0, rfu := 0 }
    content := .ack { destId := 1, srcId := 2, rxdSeq := 6, expectedSeq := 5 } }

/-- The representation invariant of a ring buffer of 16 slots: head and tail
are slot indices, at most 16 items are held, the head is the tail advanced by
the count, and every slot outside the live range, which starts at the tail and
holds `count` slots, has the value `cleared`. -/
def RingInv {α : Type} (cleared : α) (head tail count : Nat) (slots : Nat → α) : Prop :=
  head < 16 ∧ tail < 16 ∧ count ≤ 16 ∧ head = (tail + count) % 16 ∧
  ∀ i, i < 16 → (∀ k, k < count → i ≠ (tail + k) % 16) → slots i = cleared

/-- The value `get_event` leaves in the slot it has read. -/
def clearedEvent : EVENT_T := { type := EVENTS.STATE_ENTER, data := DATA.null, datalen := 0 }

/-- The value `get_from_queue` leaves in the slot it has read. -/
def clearedElement : QEL_T := { data := DATA.null, datalen := 0 }

/-- The representation invariant of an event queue. -/
def QEVENT_T.Inv (q : QEVENT_T) : Prop := RingInv clearedEvent q.head q.tail q.count q.evts

/-- The representation invariant of a generic queue. -/
def QFIXED_T.Inv (q : QFIXED_T) : Prop := RingInv clearedElement q.head q.tail q.count q.els

/-- The event queue after a sequence of `add_event` and `get_event` calls;
`out` is the content of the output parameters. -/
def eventQueueAfter : List (QOp EVENT_T) → QEVENT_T → EVENT_T → QEVENT_T
  | [], q, _ => q
  | QOp.push x :: ops, q, out =>
    eventQueueAfter ops (add_event q x.type x.data x.datalen).2 out
  | QOp.pop :: ops, q, out =>
    eventQueueAfter ops (get_event q out).2.2 (get_event q out).2.1

/-- The generic queue after a sequence of `add_to_queue` and `get_from_queue`
calls; `out` is the content of the output parameters. -/
def queueAfter : List (QOp QEL_T) → QFIXED_T → QEL_T → QFIXED_T
  | [], q, _ => q
  | QOp.push x :: ops, q, out =>
    queueAfter ops (add_to_queue q x.data x.datalen).2 out
  | QOp.pop :: ops, q, out =>
    queueAfter ops (get_from_queue q out).2.2 (get_from_queue q out).2.1

/-! ### The scheduler over the table `SM`, callbacks and start-up (lowapp_sm.c, lowapp_radio_evt.c) -/

/-- How the transition loop of `sm_run` ends when a state function may fail to
return: it stops after a number of state changes (assignments to
`_currentState`), or a state function dereferences a null or ill-typed
pointer, or the loop is still running when the fuel is spent. -/
inductive LoopEnd where
  | stopped (changes : Nat) (s : Core)
  | noReturn
  | running

/-- The transition loop of `sm_run`, `while (newState != _currentState)`, for a
table of state functions that may fail to return; `n` counts the state changes
made so far. -/
def sm_transition_opt (SM : STATES → Core → EVENT_T → Option (STATES × Core)) :
    Nat → Nat → Core → EVENT_T → STATES → LoopEnd
  | 0, n, s, _, newState =>
    if newState ≠ s._currentState then LoopEnd.running else LoopEnd.stopped n s
  | fuel + 1, n, s, evt, newState =>
    if newState ≠ s._currentState then
      match SM s._currentState s { evt with type := EVENTS.STATE_EXIT } with
      | none => LoopEnd.noReturn
      | some x =>
        match SM newState { x.2 with _currentState := newState }
            { evt with type := EVENTS.STATE_ENTER } with
        | none => LoopEnd.noReturn
        | some r =>
          sm_transition_opt SM fuel (n + 1) r.2 { evt with type := EVENTS.STATE_ENTER } r.1
    else LoopEnd.stopped n s

/-- The second half of one turn of the loop of `sm_run` for a table of state
functions that may fail to return. -/
def sm_dispatch_opt (SM : STATES → Core → EVENT_T → Option (STATES × Core)) (fuel : Nat)
    (s : Core) (evt : EVENT_T) : LoopEnd :=
  match SM s._currentState s evt with
  | none => LoopEnd.noReturn
  | some r => sm_transition_opt SM fuel 0 r.2 evt r.1

/-- How a call of `sm_run` ends when a state function may fail to return. -/
inductive RunEnd where
  | returned (code : Nat) (s : Core)
  | noReturn
  | running

/-- The function `sm_run` for a table of state functions that may fail to
return; `uninitEvt n` is the content of the local variable `evt` when turn `n`
starts. -/
def sm_run_opt (SM : STATES → Core → EVENT_T → Option (STATES × Core))
    (uninitEvt : Nat → EVENT_T) : Nat → Nat → Core → RunEnd
  | 0, _, _ => RunEnd.running
  | fuel + 1, n, s =>
    match sm_fetch s (uninitEvt n) with
    | Fetched.returned code s1 => RunEnd.returned code s1
    | Fetched.event _ e s1 =>
      match sm_dispatch_opt SM (fuel + 1) s1 e with
      | LoopEnd.stopped _ s2 => sm_run_opt SM uninitEvt fuel (n + 1) s2
      | LoopEnd.noReturn => RunEnd.noReturn
      | LoopEnd.running => RunEnd.running

/-- The value of `sizeof(MSG_RXDONE_T)` on the 32-bit target. -/
def sizeof_MSG_RXDONE_T : Nat := 12

/-- The radio callback `rxDone`; `payload` is `none` for a null pointer. -/
def rxDone (s : Core) (payload : Option (List Nat)) (size : Nat) (rssi snr : Int) : Core :=
  let s := { s with calls := s.calls ++ [SysCall.radioSleep] }
  let rxDoneMessage : MSG_RXDONE_T :=
    { data := payload, length := size % 65536, rssi := rssi, snr := snr }
  { s with _eventQ :=
      (add_event s._eventQ EVENTS.RXMSG (DATA.rxdone rxDoneMessage) sizeof_MSG_RXDONE_T).2 }

/-- The radio callback `txDone`. -/
def txDone (s : Core) : Core :=
  let s := { s with calls := s.calls ++ [SysCall.radioSleep] }
  { s with _eventQ := (add_simple_event s._eventQ EVENTS.TXDONE).2 }

/-- The timer callback `timeoutCB`. -/
def timeoutCB (s : Core) : Core :=
  { s with _eventQ := (add_event s._eventQ EVENTS.TIMEOUT DATA.null 0).2 }

/-- The timer callback `timeoutCB2`. -/
def timeoutCB2 (s : Core) : Core :=
  let s := { s with txBlocked := false }
  { s with _eventQ := (add_event s._eventQ EVENTS.TXUNBLOCK DATA.null 0).2 }

/-- The function `core_init` (the build for the target). -/
def core_init (s : Core) : Core :=
  let s := { s with
    peers := fun _ => { out_txseq := 0, out_rxseq := 0, in_expected := 0 },
    _rx_pkt_list := emptyQueue, _tx_pkt_list := emptyQueue,
    _eventQ := emptyEventQueue, _coldEventQ := emptyEventQueue }
  let s := { s with lastDestination := s.cfg._deviceId }
  let s := { s with currentTxFrame := memcpy s.currentTxFrame (List.replicate MAX_FRAME_SIZE 0) }
  { s with _eventQ := (add_simple_event s._eventQ EVENTS.STATE_ENTER).2 }

/-- The globals when the transition loop has stopped. -/
def LoopEnd.core : LoopEnd → Option Core
  | LoopEnd.stopped _ s => some s
  | _ => none

/-- The number of state changes when the transition loop has stopped. -/
def LoopEnd.changes : LoopEnd → Option Nat
  | LoopEnd.stopped n _ => some n
  | _ => none

/-- What acts on the node between two calls of `sm_run`, or a call of `sm_run`
itself: the AT layer running `cmd_connect` or `cmd_send`, a radio or timer
callback, or `sm_run` in an environment. -/
inductive Stimulus where
  | connect
  | send (p1 p2 : List Nat)
  | rxDone (payload : List Nat) (size : Nat) (rssi snr : Int)
  | txDone
  | timeout
  | timeout2
  | run (env : SMEnv)

/-- The globals after a stimulus; `none` when `sm_run` does not return. -/
def stimulate (s : Core) : Stimulus → Option Core
  | Stimulus.connect => some (cmd_connect s).2.2
  | Stimulus.send p1 p2 => some (cmd_send s (some p1) (some p2) msgZero 0).2.2
  | Stimulus.rxDone payload size rssi snr => some (rxDone s (some payload) size rssi snr)
  | Stimulus.txDone => some (txDone s)
  | Stimulus.timeout => some (timeoutCB s)
  | Stimulus.timeout2 => some (timeoutCB2 s)
  | Stimulus.run env =>
    match sm_run_opt (SM env) (fun _ => simpleEvent EVENTS.STATE_ENTER) 4 0 s with
    | RunEnd.returned _ s2 => some s2
    | _ => none

/-- The globals after a sequence of stimuli. -/
def runStimuli : List Stimulus → Core → Option Core
  | [], s => some s
  | x :: xs, s =>
    match stimulate s x with
    | some s2 => runStimuli xs s2
    | none => none

/-- The globals before `core_init`: the static initial values, with the
configuration `cfgValid` of node 2 loaded. -/
def coreStatic : Core := { coreA with cfg := cfgValid, _currentState := STATES.RESTART }

/-- The environment `envSM` with a busy channel. -/
def envBusy : SMEnv := { envSM with radioLBT := false }

/-- The frame of the message "HELLO" with sequence number 7 that node 1 sends
to node 2. -/
def frameHello : List Nat := (buildFrame xorCipher cfgA 0xBEEF [] (msgSeq 7)).1

/-- Node 2 starts, connects and is asked to send "A" to node 1; the channel is
busy, so the frame stays pending and the node listens. -/
def stimuliPending : List Stimulus :=
  [Stimulus.run envSM, Stimulus.connect, Stimulus.send [48, 49] [65], Stimulus.run envBusy]

/-- Then the frame of node 1 arrives and is accepted. -/
def stimuliAckPrepared : List Stimulus :=
  stimuliPending ++ [Stimulus.rxDone frameHello 16 (-40) 5, Stimulus.run envSM]

/-- Then the Ack slot starts and the Ack is sent. -/
def stimuliAckSent : List Stimulus :=
  stimuliAckPrepared ++ [Stimulus.timeout, Stimulus.run envSM]

/-- Then the transmission of the Ack ends, timer 2 unblocks TX, the pending
frame is sent on a free channel, and its transmission ends. -/
def stimuliResent : List Stimulus :=
  stimuliAckSent ++ [Stimulus.txDone, Stimulus.run envSM, Stimulus.timeout2, Stimulus.run envSM,
    Stimulus.txDone]

/-- What is observed of the pending transmission: the state, the flag
`txFrameFilled`, and the type of the message `currentTxMsg` points to (`none`
for a null pointer). -/
def pendingView (s : Core) : STATES × Bool × Option Nat :=
  (s._currentState, s.txFrameFilled, s.currentTxMsg.map (fun m => m.hdr.type))

/-- Whether a call of `sm_run` met a state function that does not return. -/
def RunEnd.failed : RunEnd → Bool
  | RunEnd.noReturn => true
  | _ => false

/-- A node in SKIPPING_ACK with the pending frame of `corePending` and TX not
blocked. -/
def coreSkipping : Core :=
  { corePending with _currentState := STATES.SKIPPING_ACK, txBlocked := false }

/-! ## Theorems -/

theorem get_byte_lt_length (buf : List Nat) (i : Nat) (h : i < buf.length) :
    get_byte buf i = buf.get ⟨i, h⟩ := by
  simp [get_byte, List.getD_eq_getElem?_getD, List.getElem?_eq_getElem h]

theorem get_byte_ge_length (buf : List Nat) (i : Nat) (h : buf.length ≤ i) :
    get_byte buf i = 0 := by
  simp [get_byte, List.getD_eq_getElem?_getD, List.getElem?_eq_none h]

@[simp] theorem readBytes_length (buf : List Nat) (off n : Nat) :
    (readBytes buf off n).length = n := by
  simp [readBytes]

theorem get_byte_readBytes (buf : List Nat) (off n i : Nat) (h : i < n) :
    get_byte (readBytes buf off n) i = get_byte buf (off + i) := by
  rw [get_byte_lt_length _ _ (by simpa using h)]
  simp [readBytes]

theorem get_byte_append_left (a b : List Nat) (i : Nat) (h : i < a.length) :
    get_byte (a ++ b) i = get_byte a i := by
  simp [get_byte, List.getD_eq_getElem?_getD, List.getElem?_append_left h]

theorem get_byte_append_right (a b : List Nat) (i : Nat) (h : a.length ≤ i) :
    get_byte (a ++ b) i = get_byte b (i - a.length) := by
  simp [get_byte, List.getD_eq_getElem?_getD, List.getElem?_append_right h]

theorem get_byte_drop (a : List Nat) (n i : Nat) :
    get_byte (a.drop n) i = get_byte a (n + i) := by
  simp [get_byte, List.getD_eq_getElem?_getD, List.getElem?_drop]

theorem get_byte_writeBytes_lt (buf bytes : List Nat) (off i : Nat) (h : i < off) :
    get_byte (writeBytes buf off bytes) i = get_byte buf i := by
  unfold writeBytes
  rw [List.append_assoc, get_byte_append_left _ _ _ (by simpa using h),
    get_byte_readBytes _ _ _ _ h, Nat.zero_add]

theorem get_byte_writeBytes_mid (buf bytes : List Nat) (off i : Nat) (h : i < bytes.length) :
    get_byte (writeBytes buf off bytes) (off + i) = get_byte bytes i := by
  unfold writeBytes
  rw [List.append_assoc, get_byte_append_right _ _ _ (by simp),
    get_byte_append_left _ _ _ (by simpa using h)]
  simp

theorem get_byte_writeBytes_ge (buf bytes : List Nat) (off i : Nat)
    (h : off + bytes.length ≤ i) :
    get_byte (writeBytes buf off bytes) i = get_byte buf i := by
  unfold writeBytes
  rw [get_byte_append_right _ _ _ (by simp; omega), get_byte_drop]
  congr 1
  simp
  omega

theorem readBytes_ext (a b : List Nat) (offa offb n : Nat)
    (h : ∀ i, i < n → get_byte a (offa + i) = get_byte b (offb + i)) :
    readBytes a offa n = readBytes b offb n := by
  unfold readBytes
  apply List.map_congr_left
  intro i hi
  exact h i (List.mem_range.mp hi)

theorem readBytes_eq_self (a : List Nat) : readBytes a 0 a.length = a := by
  apply List.ext_getElem (by simp)
  intro i h1 h2
  simp [readBytes, get_byte, List.getD_eq_getElem?_getD, List.getElem?_eq_getElem h2]

theorem readBytes_writeBytes_same (buf bytes : List Nat) (off : Nat) :
    readBytes (writeBytes buf off bytes) off bytes.length = bytes := by
  conv_rhs => rw [← readBytes_eq_self bytes]
  apply readBytes_ext
  intro i hi
  rw [get_byte_writeBytes_mid _ _ _ _ hi, Nat.zero_add]

theorem readBytes_writeBytes_before (buf bytes : List Nat) (off n : Nat) (h : n ≤ off) :
    readBytes (writeBytes buf off bytes) 0 n = readBytes buf 0 n := by
  apply readBytes_ext
  intro i hi
  rw [Nat.zero_add, get_byte_writeBytes_lt _ _ _ _ (by omega)]

theorem writeBytes_length_ge (buf bytes : List Nat) (off : Nat) :
    off + bytes.length ≤ (writeBytes buf off bytes).length := by
  simp [writeBytes]

theorem get_byte_flipBit_same (buf : List Nat) (j b : Nat) (h : j < buf.length) :
    get_byte (flipBit buf j b) j = (get_byte buf j) ^^^ (1 <<< b) := by
  simp [flipBit, get_byte, List.getD_eq_getElem?_getD, List.getElem?_set, h]

theorem get_byte_flipBit_ne (buf : List Nat) (j b i : Nat) (h : i ≠ j) :
    get_byte (flipBit buf j b) i = get_byte buf i := by
  simp [flipBit, get_byte, List.getD_eq_getElem?_getD, List.getElem?_set, Ne.symm h]

theorem stdWritten_length (nonce : Nat) (msg : MSG_T) :
    (stdWritten nonce msg).length = 9 + msg.hdr.payloadLength := by
  simp [stdWritten, wrap_byte, wrap_short]
  omega

theorem ackWritten_length (nonce : Nat) (msg : MSG_T) :
    (ackWritten nonce msg).length = 10 := by
  simp [ackWritten, wrap_byte, wrap_short]

theorem buildFrame_std (c : Cipher) (cfg : Config) (nonce : Nat) (frameBuffer : List Nat)
    (msg : MSG_T) (h : msg.hdr.type = TYPE_STDMSG) :
    buildFrame c cfg nonce frameBuffer msg =
      (encodeInPlace c cfg cfg._encryptionKey (host_short (stdPlain nonce frameBuffer msg) 4)
        (stdPlain nonce frameBuffer msg) 6 ((msg.hdr.payloadLength + 8) % 65536),
       (9 + msg.hdr.payloadLength + 2) % 65536) := by
  have key : buildFrame c cfg nonce frameBuffer msg =
      (encodeInPlace c cfg cfg._encryptionKey
        (host_short (writeBytes (writeBytes frameBuffer 0 (stdWritten nonce msg))
          (stdWritten nonce msg).length
          (wrap_short (PacketComputeCrc (writeBytes frameBuffer 0 (stdWritten nonce msg))
            (stdWritten nonce msg).length POLYNOMIAL_IBM))) 4)
        (writeBytes (writeBytes frameBuffer 0 (stdWritten nonce msg))
          (stdWritten nonce msg).length
          (wrap_short (PacketComputeCrc (writeBytes frameBuffer 0 (stdWritten nonce msg))
            (stdWritten nonce msg).length POLYNOMIAL_IBM)))
        6 ((msg.hdr.payloadLength + 8) % 65536),
       ((stdWritten nonce msg).length + 2) % 65536) := by
    unfold buildFrame
    rw [if_pos h]
    rfl
  rw [key, stdWritten_length]
  rfl

theorem buildFrame_ack (c : Cipher) (cfg : Config) (nonce : Nat) (frameBuffer : List Nat)
    (msg : MSG_T) (h : msg.hdr.type = TYPE_ACK) :
    buildFrame c cfg nonce frameBuffer msg =
      (encodeInPlace c cfg cfg._encryptionKey (host_short (ackPlain nonce frameBuffer msg) 4)
        (ackPlain nonce frameBuffer msg) 6 6, 12) := by
  have hne : ¬ (msg.hdr.type = TYPE_STDMSG) := by rw [h]; decide
  have key : buildFrame c cfg nonce frameBuffer msg =
      (encodeInPlace c cfg cfg._encryptionKey
        (host_short (writeBytes (writeBytes frameBuffer 0 (ackWritten nonce msg))
          (ackWritten nonce msg).length
          (wrap_short (PacketComputeCrc (writeBytes frameBuffer 0 (ackWritten nonce msg))
            (ackWritten nonce msg).length POLYNOMIAL_IBM))) 4)
        (writeBytes (writeBytes frameBuffer 0 (ackWritten nonce msg))
          (ackWritten nonce msg).length
          (wrap_short (PacketComputeCrc (writeBytes frameBuffer 0 (ackWritten nonce msg))
            (ackWritten nonce msg).length POLYNOMIAL_IBM)))
        6 6,
       ((ackWritten nonce msg).length + 2) % 65536) := by
    unfold buildFrame
    rw [if_neg hne, if_pos h]
    rfl
  rw [key, ackWritten_length]
  rfl

theorem get_byte_encodeInPlace_lt (c : Cipher) (cfg : Config) (key : List Nat)
    (n : Nat) (buf : List Nat) (off sz i : Nat) (h : i < off) :
    get_byte (encodeInPlace c cfg key n buf off sz) i = get_byte buf i := by
  unfold encodeInPlace
  exact get_byte_writeBytes_lt _ _ _ _ h

theorem get_byte_decodeInPlace_lt (c : Cipher) (cfg : Config) (key : List Nat)
    (n : Nat) (buf : List Nat) (off sz i : Nat) (h : i < off) :
    get_byte (decodeInPlace c cfg key n buf off sz) i = get_byte buf i := by
  unfold decodeInPlace
  exact get_byte_writeBytes_lt _ _ _ _ h

theorem encodeInPlace_length_ge (c : Cipher) (cfg : Config) (key : List Nat)
    (n : Nat) (buf : List Nat) (off sz : Nat) :
    off + sz ≤ (encodeInPlace c cfg key n buf off sz).length := by
  unfold encodeInPlace
  have := writeBytes_length_ge buf
    (readBytes (c.LoRaMacPayloadEncrypt (readBytes buf off sz) key 0 0 0) 0 sz) off
  simpa using this

theorem get_byte_stdPlain_lt (nonce : Nat) (buf : List Nat) (msg : MSG_T) (i : Nat)
    (h : i < 9 + msg.hdr.payloadLength) :
    get_byte (stdPlain nonce buf msg) i = get_byte (stdWritten nonce msg) i := by
  unfold stdPlain
  rw [get_byte_writeBytes_lt _ _ _ _ h]
  have := get_byte_writeBytes_mid buf (stdWritten nonce msg) 0 i
    (by rw [stdWritten_length]; exact h)
  rwa [Nat.zero_add] at this

theorem get_byte_ackPlain_lt (nonce : Nat) (buf : List Nat) (msg : MSG_T) (i : Nat)
    (h : i < 10) :
    get_byte (ackPlain nonce buf msg) i = get_byte (ackWritten nonce msg) i := by
  unfold ackPlain
  rw [get_byte_writeBytes_lt _ _ _ _ h]
  have := get_byte_writeBytes_mid buf (ackWritten nonce msg) 0 i
    (by rw [ackWritten_length]; exact h)
  rwa [Nat.zero_add] at this

theorem get_byte_buildFrame_zero (c : Cipher) (cfg : Config) (nonce : Nat) (buf : List Nat)
    (msg : MSG_T) (h : msg.hdr.type = TYPE_STDMSG ∨ msg.hdr.type = TYPE_ACK) :
    get_byte (buildFrame c cfg nonce buf msg).1 0
      = ((msg.hdr.version <<< 4) ||| msg.hdr.type) % 256 := by
  rcases h with h | h
  · rw [buildFrame_std _ _ _ _ _ h]
    simp only
    rw [get_byte_encodeInPlace_lt _ _ _ _ _ _ _ _ (by decide),
      get_byte_stdPlain_lt _ _ _ _ (by omega)]
    simp [stdWritten, get_byte]
  · rw [buildFrame_ack _ _ _ _ _ h]
    simp only
    rw [get_byte_encodeInPlace_lt _ _ _ _ _ _ _ _ (by decide),
      get_byte_ackPlain_lt _ _ _ _ (by omega)]
    simp [ackWritten, get_byte]

theorem buildFrame_length_pos (c : Cipher) (cfg : Config) (nonce : Nat) (buf : List Nat)
    (msg : MSG_T) (h : msg.hdr.type = TYPE_STDMSG ∨ msg.hdr.type = TYPE_ACK) :
    6 ≤ (buildFrame c cfg nonce buf msg).1.length := by
  rcases h with h | h
  · rw [buildFrame_std _ _ _ _ _ h]
    have := encodeInPlace_length_ge c cfg cfg._encryptionKey
      (host_short (stdPlain nonce buf msg) 4) (stdPlain nonce buf msg) 6
      ((msg.hdr.payloadLength + 8) % 65536)
    simp only
    omega
  · rw [buildFrame_ack _ _ _ _ _ h]
    have := encodeInPlace_length_ge c cfg cfg._encryptionKey
      (host_short (ackPlain nonce buf msg) 4) (ackPlain nonce buf msg) 6 6
    simp only
    omega

theorem retrieveMessage_of_version_ne (c : Cipher) (cfg : Config) (msg : MSG_T)
    (frameBuffer : List Nat) (h : (get_byte frameBuffer 0) >>> 4 ≠ LOWAPP_CURRENT_VERSION) :
    (retrieveMessage c cfg msg frameBuffer).1 = -4 := by
  unfold retrieveMessage
  simp only [h, ne_eq, not_false_eq_true, if_true]

/-- Claim C3: a frame whose version nibble is not `LOWAPP_CURRENT_VERSION` is
rejected with -4 whatever else it holds, and so is every frame built by
`buildFrame` from a version-1 message once one bit of its version nibble is inverted. -/
theorem retrieveMessage_version_rejected :
    (∀ (c : Cipher) (cfg : Config) (msg : MSG_T) (frameBuffer : List Nat),
      (get_byte frameBuffer 0) >>> 4 ≠ LOWAPP_CURRENT_VERSION →
        (retrieveMessage c cfg msg frameBuffer).1 = -4) ∧
    (∀ (c : Cipher) (cfg : Config) (nonce : Nat) (buf : List Nat) (m msg : MSG_T) (k : Nat),
      m.hdr.version = LOWAPP_CURRENT_VERSION →
      (m.hdr.type = TYPE_STDMSG ∨ m.hdr.type = TYPE_ACK) →
      4 ≤ k → k < 8 →
        (retrieveMessage c cfg msg (flipBit (buildFrame c cfg nonce buf m).1 0 k)).1 = -4) := by
  refine ⟨retrieveMessage_of_version_ne, ?_⟩
  intro c cfg nonce buf m msg k hv ht hk4 hk8
  apply retrieveMessage_of_version_ne
  rw [get_byte_flipBit_same _ _ _ (by have := buildFrame_length_pos c cfg nonce buf m ht; omega),
    get_byte_buildFrame_zero _ _ _ _ _ ht, hv]
  have hk : k = 4 ∨ k = 5 ∨ k = 6 ∨ k = 7 := by omega
  rcases ht with ht | ht <;> rw [ht] <;> rcases hk with hk | hk | hk | hk <;> subst hk <;> decide

theorem short_roundtrip (v : Nat) (h : v < 65536) :
    ((((v % 65536) >>> 8) % 256) <<< 8) % 65536 ||| (((v % 65536) &&& 0xFF) % 256) = v := by
  rw [Nat.mod_eq_of_lt h, Nat.shiftRight_eq_div_pow, Nat.shiftLeft_eq,
    show (0xFF : Nat) = 2 ^ 8 - 1 from rfl, Nat.and_pow_two_sub_one_eq_mod]
  have h1 : v / 2 ^ 8 % 256 * 2 ^ 8 % 65536 = 2 ^ 8 * (v / 2 ^ 8) := by omega
  have h2 : v % 2 ^ 8 % 256 = v % 2 ^ 8 := by omega
  rw [h1, h2, ← Nat.mul_add_lt_is_or (Nat.mod_lt _ (by decide))]
  omega

theorem get_short_of_wrap_short (buf : List Nat) (i v : Nat) (h : v < 65536)
    (h0 : get_byte buf i = get_byte (wrap_short v) 0)
    (h1 : get_byte buf (i + 1) = get_byte (wrap_short v) 1) :
    get_short buf i = v := by
  unfold get_short
  rw [h0, h1]
  simp only [wrap_short, wrap_byte, get_byte, List.singleton_append, List.getD_cons_zero,
    List.getD_cons_succ]
  exact short_roundtrip v h

theorem ComputeCrcBit_fst_lt (p : Nat) (s : Nat × Nat) : (ComputeCrcBit p s).1 < 65536 := by
  unfold ComputeCrcBit
  split
  · exact Nat.xor_lt_two_pow (n := 16) (Nat.mod_lt _ (by decide)) (Nat.mod_lt _ (by decide))
  · exact Nat.mod_lt _ (by decide)

theorem ComputeCrc_lt (crc data p : Nat) : ComputeCrc crc data p < 65536 := by
  unfold ComputeCrc
  rw [show (8 : Nat) = 7 + 1 from rfl, Function.iterate_succ_apply']
  exact ComputeCrcBit_fst_lt _ _

theorem foldl_ComputeCrc_lt (p : Nat) (l : List Nat) (seed : Nat) (h : seed < 65536) :
    l.foldl (fun crc b => ComputeCrc crc b p) seed < 65536 := by
  induction l generalizing seed with
  | nil => simpa using h
  | cons x xs ih => exact ih _ (ComputeCrc_lt _ _ _)

theorem PacketComputeCrc_lt (buf : List Nat) (n t : Nat) : PacketComputeCrc buf n t < 65536 := by
  unfold PacketComputeCrc
  simp only
  have hs : (if t % 256 = POLYNOMIAL_IBM then CRC_IBM_SEED else CRC_CCITT_SEED_XMODEM) < 65536 := by
    split <;> decide
  split
  · exact Nat.xor_lt_two_pow (n := 16) (foldl_ComputeCrc_lt _ _ _ hs) (by decide)
  · exact foldl_ComputeCrc_lt _ _ _ hs

theorem PacketComputeCrc_congr (a b : List Nat) (n t : Nat)
    (h : ∀ i, i < n % 256 → get_byte a i = get_byte b i) :
    PacketComputeCrc a n t = PacketComputeCrc b n t := by
  unfold PacketComputeCrc
  simp only
  rw [readBytes_ext a b 0 0 (n % 256) (fun i hi => by simpa using h i hi)]

theorem get_short_congr (a b : List Nat) (i : Nat)
    (h0 : get_byte a i = get_byte b i) (h1 : get_byte a (i + 1) = get_byte b (i + 1)) :
    get_short a i = get_short b i := by
  unfold get_short
  rw [h0, h1]

theorem get_byte_lt_of_IsBytes (l : List Nat) (h : IsBytes l) (i : Nat) : get_byte l i < 256 := by
  by_cases hi : i < l.length
  · rw [get_byte_lt_length _ _ hi]
    exact h _ (List.get_mem _ _ _)
  · rw [get_byte_ge_length _ _ (by omega)]
    decide

theorem IsBytes_readBytes (l : List Nat) (h : IsBytes l) (off n : Nat) :
    IsBytes (readBytes l off n) := by
  intro x hx
  simp only [readBytes, List.mem_map, List.mem_range] at hx
  obtain ⟨i, _, rfl⟩ := hx
  exact get_byte_lt_of_IsBytes l h _

theorem IsBytes_append (a b : List Nat) (ha : IsBytes a) (hb : IsBytes b) : IsBytes (a ++ b) := by
  intro x hx
  rcases List.mem_append.mp hx with h | h
  · exact ha x h
  · exact hb x h

theorem IsBytes_writeBytes (buf bytes : List Nat) (off : Nat) (h1 : IsBytes buf)
    (h2 : IsBytes bytes) : IsBytes (writeBytes buf off bytes) := by
  unfold writeBytes
  refine IsBytes_append _ _ (IsBytes_append _ _ (IsBytes_readBytes _ h1 _ _) h2) ?_
  intro x hx
  exact h1 x (List.mem_of_mem_drop hx)

theorem IsBytes_wrap_byte (v : Nat) : IsBytes (wrap_byte v) := by
  intro x hx
  simp only [wrap_byte, List.mem_singleton] at hx
  omega

theorem IsBytes_wrap_short (v : Nat) : IsBytes (wrap_short v) :=
  IsBytes_append _ _ (IsBytes_wrap_byte _) (IsBytes_wrap_byte _)

theorem IsBytes_stdWritten (nonce : Nat) (msg : MSG_T) (h : IsBytes msg.content.toStd.payload) :
    IsBytes (stdWritten nonce msg) := by
  unfold stdWritten
  refine IsBytes_append _ _ (IsBytes_append _ _ (IsBytes_append _ _ (IsBytes_append _ _
    (IsBytes_append _ _ (IsBytes_append _ _ (IsBytes_append _ _ ?_ (IsBytes_wrap_byte _))
    (IsBytes_wrap_short _)) (IsBytes_wrap_short _)) (IsBytes_wrap_byte _)) (IsBytes_wrap_byte _))
    (IsBytes_wrap_byte _)) (IsBytes_readBytes _ h _ _)
  intro x hx
  simp only [List.mem_singleton] at hx
  omega

theorem IsBytes_ackWritten (nonce : Nat) (msg : MSG_T) : IsBytes (ackWritten nonce msg) := by
  unfold ackWritten
  refine IsBytes_append _ _ (IsBytes_append _ _ (IsBytes_append _ _ (IsBytes_append _ _
    (IsBytes_append _ _ (IsBytes_append _ _ (IsBytes_append _ _ ?_ (IsBytes_wrap_byte _))
    (IsBytes_wrap_short _)) (IsBytes_wrap_short _)) (IsBytes_wrap_byte _)) (IsBytes_wrap_byte _))
    (IsBytes_wrap_byte _)) (IsBytes_wrap_byte _)
  intro x hx
  simp only [List.mem_singleton] at hx
  omega

theorem IsBytes_stdPlain (nonce : Nat) (buf : List Nat) (msg : MSG_T) (hb : IsBytes buf)
    (h : IsBytes msg.content.toStd.payload) : IsBytes (stdPlain nonce buf msg) :=
  IsBytes_writeBytes _ _ _ (IsBytes_writeBytes _ _ _ hb (IsBytes_stdWritten _ _ h))
    (IsBytes_wrap_short _)

theorem IsBytes_ackPlain (nonce : Nat) (buf : List Nat) (msg : MSG_T) (hb : IsBytes buf) :
    IsBytes (ackPlain nonce buf msg) :=
  IsBytes_writeBytes _ _ _ (IsBytes_writeBytes _ _ _ hb (IsBytes_ackWritten _ _))
    (IsBytes_wrap_short _)

theorem get_byte_decode_encode (c : Cipher) (hc : c.Inverts) (cfg1 cfg2 : Config)
    (key : List Nat) (n1 n2 : Nat) (buf : List Nat) (off sz : Nat)
    (hb : IsBytes (readBytes buf off sz)) (i : Nat) :
    get_byte (decodeInPlace c cfg2 key n2 (encodeInPlace c cfg1 key n1 buf off sz) off sz) i
      = get_byte buf i := by
  obtain ⟨hlen, hinv⟩ := hc (readBytes buf off sz) key hb
  rw [readBytes_length] at hlen
  have hE : readBytes (c.LoRaMacPayloadEncrypt (readBytes buf off sz) key 0 0 0) 0 sz
      = c.LoRaMacPayloadEncrypt (readBytes buf off sz) key 0 0 0 := by
    have := readBytes_eq_self (c.LoRaMacPayloadEncrypt (readBytes buf off sz) key 0 0 0)
    rwa [hlen] at this
  have hF : encodeInPlace c cfg1 key n1 buf off sz
      = writeBytes buf off (c.LoRaMacPayloadEncrypt (readBytes buf off sz) key 0 0 0) := by
    unfold encodeInPlace
    simp only [hE]
  have hR : readBytes (encodeInPlace c cfg1 key n1 buf off sz) off sz
      = c.LoRaMacPayloadEncrypt (readBytes buf off sz) key 0 0 0 := by
    rw [hF]
    have := readBytes_writeBytes_same buf
      (c.LoRaMacPayloadEncrypt (readBytes buf off sz) key 0 0 0) off
    rwa [hlen] at this
  have hD : decodeInPlace c cfg2 key n2 (encodeInPlace c cfg1 key n1 buf off sz) off sz
      = writeBytes (encodeInPlace c cfg1 key n1 buf off sz) off (readBytes buf off sz) := by
    unfold decodeInPlace
    simp only [hR, hinv]
    congr 1
    have := readBytes_eq_self (readBytes buf off sz)
    rwa [readBytes_length] at this
  rw [hD]
  by_cases h1 : i < off
  · rw [get_byte_writeBytes_lt _ _ _ _ h1, get_byte_encodeInPlace_lt _ _ _ _ _ _ _ _ h1]
  · by_cases h2 : i < off + sz
    · obtain ⟨j, rfl⟩ : ∃ j, i = off + j := ⟨i - off, by omega⟩
      rw [get_byte_writeBytes_mid _ _ _ _ (by simp; omega), get_byte_readBytes _ _ _ _ (by omega)]
    · rw [get_byte_writeBytes_ge _ _ _ _ (by simp; omega), hF,
        get_byte_writeBytes_ge _ _ _ _ (by omega)]

theorem retrieveMessage_std (c : Cipher) (cfg : Config) (msg : MSG_T) (fb : List Nat)
    (hv : (get_byte fb 0) >>> 4 = LOWAPP_CURRENT_VERSION)
    (ht : (get_byte fb 0) &&& 0xF = TYPE_STDMSG) :
    retrieveMessage c cfg msg fb = retrieveStd cfg msg (parsedHdr fb) (decodedStd c cfg fb) := by
  unfold retrieveMessage
  show (if ¬ ((get_byte fb 0) >>> 4 = LOWAPP_CURRENT_VERSION) then _
    else if (get_byte fb 0) &&& 0xF = TYPE_STDMSG then _ else _) = _
  rw [if_neg (not_not.mpr hv), if_pos ht]
  rfl

theorem retrieveMessage_ack (c : Cipher) (cfg : Config) (msg : MSG_T) (fb : List Nat)
    (hv : (get_byte fb 0) >>> 4 = LOWAPP_CURRENT_VERSION)
    (ht : (get_byte fb 0) &&& 0xF = TYPE_ACK) :
    retrieveMessage c cfg msg fb = retrieveAck cfg msg (parsedHdr fb) (decodedAck c cfg fb) := by
  have hne : ¬ ((get_byte fb 0) &&& 0xF = TYPE_STDMSG) := by rw [ht]; decide
  unfold retrieveMessage
  show (if ¬ ((get_byte fb 0) >>> 4 = LOWAPP_CURRENT_VERSION) then _
    else if (get_byte fb 0) &&& 0xF = TYPE_STDMSG then _
    else if (get_byte fb 0) &&& 0xF = TYPE_ACK then _ else _) = _
  rw [if_neg (not_not.mpr hv), if_neg hne, if_pos ht]
  rfl

theorem retrieveStd_congr (cfg : Config) (msg : MSG_T) (hdr : LORA_HDR) (d e : List Nat)
    (h : ∀ i, get_byte d i = get_byte e i) :
    retrieveStd cfg msg hdr d = retrieveStd cfg msg hdr e := by
  unfold retrieveStd
  rw [PacketComputeCrc_congr d e _ _ (fun i _ => h i), get_short_congr d e _ (h _) (h _),
    readBytes_ext d e 9 9 hdr.payloadLength (fun i _ => h _)]
  simp only [h]

theorem retrieveAck_congr (cfg : Config) (msg : MSG_T) (hdr : LORA_HDR) (d e : List Nat)
    (h : ∀ i, get_byte d i = get_byte e i) :
    retrieveAck cfg msg hdr d = retrieveAck cfg msg hdr e := by
  unfold retrieveAck
  rw [PacketComputeCrc_congr d e _ _ (fun i _ => h i), get_short_congr d e _ (h _) (h _)]
  simp only [h]

theorem get_byte_stdWritten_hdr (nonce : Nat) (msg : MSG_T) :
    get_byte (stdWritten nonce msg) 0 = ((msg.hdr.version <<< 4) ||| msg.hdr.type) % 256 ∧
    get_byte (stdWritten nonce msg) 1 = msg.hdr.payloadLength % 256 ∧
    get_byte (stdWritten nonce msg) 6 = msg.content.toStd.destId % 256 ∧
    get_byte (stdWritten nonce msg) 7 = msg.content.toStd.srcId % 256 ∧
    get_byte (stdWritten nonce msg) 8 = msg.content.toStd.txSeq % 256 := by
  simp [stdWritten, wrap_byte, wrap_short, get_byte]

theorem get_byte_stdWritten_payload (nonce : Nat) (msg : MSG_T) (i : Nat)
    (h : i < msg.hdr.payloadLength) :
    get_byte (stdWritten nonce msg) (9 + i) = get_byte msg.content.toStd.payload i := by
  unfold stdWritten
  rw [get_byte_append_right _ _ _ (by simp [wrap_byte, wrap_short])]
  simp only [wrap_byte, wrap_short, List.length_append, List.length_singleton]
  rw [show 9 + i - (1 + 1 + (1 + 1) + (1 + 1) + 1 + 1 + 1) = i by omega,
    get_byte_readBytes _ _ _ _ h, Nat.zero_add]

theorem get_byte_ackWritten (nonce : Nat) (msg : MSG_T) :
    get_byte (ackWritten nonce msg) 0 = ((msg.hdr.version <<< 4) ||| msg.hdr.type) % 256 ∧
    get_byte (ackWritten nonce msg) 1 = msg.hdr.payloadLength % 256 ∧
    get_byte (ackWritten nonce msg) 6 = msg.content.toAck.destId % 256 ∧
    get_byte (ackWritten nonce msg) 7 = msg.content.toAck.srcId % 256 ∧
    get_byte (ackWritten nonce msg) 8 = msg.content.toAck.rxdSeq % 256 ∧
    get_byte (ackWritten nonce msg) 9 = msg.content.toAck.expectedSeq % 256 := by
  simp [ackWritten, wrap_byte, wrap_short, get_byte]

theorem stdPlain_crc_ok (nonce : Nat) (buf : List Nat) (msg : MSG_T) :
    PacketComputeCrc (stdPlain nonce buf msg) (8 + 1 + msg.hdr.payloadLength) POLYNOMIAL_IBM
      = get_short (stdPlain nonce buf msg) (8 + 1 + msg.hdr.payloadLength) := by
  rw [show 8 + 1 + msg.hdr.payloadLength = 9 + msg.hdr.payloadLength by omega]
  have hcrc := PacketComputeCrc_lt (writeBytes buf 0 (stdWritten nonce msg))
    (9 + msg.hdr.payloadLength) POLYNOMIAL_IBM
  rw [get_short_of_wrap_short (stdPlain nonce buf msg) (9 + msg.hdr.payloadLength) _ hcrc
    (by unfold stdPlain
        exact get_byte_writeBytes_mid _ _ _ 0 (by simp [wrap_short, wrap_byte]))
    (by unfold stdPlain
        exact get_byte_writeBytes_mid _ _ _ 1 (by simp [wrap_short, wrap_byte]))]
  apply PacketComputeCrc_congr
  intro i hi
  unfold stdPlain
  exact get_byte_writeBytes_lt _ _ _ _ (lt_of_lt_of_le hi (Nat.mod_le _ _))

theorem ackPlain_crc_ok (nonce : Nat) (buf : List Nat) (msg : MSG_T) :
    PacketComputeCrc (ackPlain nonce buf msg) (8 + 2) POLYNOMIAL_IBM
      = get_short (ackPlain nonce buf msg) (8 + 2) := by
  have hcrc := PacketComputeCrc_lt (writeBytes buf 0 (ackWritten nonce msg)) 10 POLYNOMIAL_IBM
  rw [get_short_of_wrap_short (ackPlain nonce buf msg) 10 _ hcrc
    (by unfold ackPlain
        exact get_byte_writeBytes_mid _ _ _ 0 (by simp [wrap_short, wrap_byte]))
    (by unfold ackPlain
        exact get_byte_writeBytes_mid _ _ _ 1 (by simp [wrap_short, wrap_byte]))]
  apply PacketComputeCrc_congr
  intro i hi
  unfold ackPlain
  exact get_byte_writeBytes_lt _ _ _ _ (lt_of_lt_of_le hi (Nat.mod_le _ _))

theorem retrieveMessage_buildFrame_std (c : Cipher) (hc : c.Inverts) (cfg cfg2 : Config)
    (hkey : cfg2._encryptionKey = cfg._encryptionKey)
    (nonce : Nat) (buf : List Nat) (m msg : MSG_T) (hm : m.IsStd) (hbuf : IsBytes buf) :
    retrieveMessage c cfg2 msg (buildFrame c cfg nonce buf m).1
      = retrieveStd cfg2 msg (parsedHdr (buildFrame c cfg nonce buf m).1)
          (stdPlain nonce buf m) ∧
    (parsedHdr (buildFrame c cfg nonce buf m).1).payloadLength = m.hdr.payloadLength := by
  obtain ⟨hver, htype, hN, hd, hs, ht, hpl, hpb⟩ := hm
  have hN2 : m.hdr.payloadLength ≤ 246 := hN
  have h0 := get_byte_buildFrame_zero c cfg nonce buf m (Or.inl htype)
  rw [hver, htype] at h0
  have hF := buildFrame_std c cfg nonce buf m htype
  have hsz : (m.hdr.payloadLength + 8) % 65536 = m.hdr.payloadLength + 8 := by omega
  rw [hsz] at hF
  have h1 : get_byte (buildFrame c cfg nonce buf m).1 1 = m.hdr.payloadLength := by
    rw [hF]
    simp only
    rw [get_byte_encodeInPlace_lt _ _ _ _ _ _ _ _ (by decide),
      get_byte_stdPlain_lt _ _ _ _ (by omega), (get_byte_stdWritten_hdr nonce m).2.1]
    omega
  have hpay : (parsedHdr (buildFrame c cfg nonce buf m).1).payloadLength = m.hdr.payloadLength := h1
  refine ⟨?_, hpay⟩
  rw [retrieveMessage_std c cfg2 msg _ (by rw [h0]; decide) (by rw [h0]; decide)]
  apply retrieveStd_congr
  intro i
  unfold decodedStd
  rw [h1, hsz, hkey]
  rw [hF]
  simp only
  exact get_byte_decode_encode c hc cfg cfg2 _ _ _ _ 6 _
    (IsBytes_readBytes _ (IsBytes_stdPlain nonce buf m hbuf hpb) _ _) i

theorem readBytes_eq_take (l : List Nat) (n : Nat) (h : n ≤ l.length) :
    readBytes l 0 n = l.take n := by
  apply List.ext_getElem
  · simp [h]
  · intro i h1 h2
    simp only [readBytes_length] at h1
    simp [readBytes, get_byte, List.getD_eq_getElem?_getD,
      List.getElem?_eq_getElem (show i < l.length by omega)]

theorem readBytes_stdPlain_payload (nonce : Nat) (buf : List Nat) (m : MSG_T)
    (h : m.hdr.payloadLength ≤ m.content.toStd.payload.length) :
    readBytes (stdPlain nonce buf m) 9 m.hdr.payloadLength
      = m.content.toStd.payload.take m.hdr.payloadLength := by
  rw [← readBytes_eq_take _ _ h]
  apply readBytes_ext
  intro i hi
  rw [get_byte_stdPlain_lt _ _ _ _ (by omega), get_byte_stdWritten_payload _ _ _ hi, Nat.zero_add]

/-- Claim C1: round trip of Standard frames.  For every Standard message `m`
(version 1, payload length at most 246, one-byte fields) addressed to this node
or to 0xFF, every nonce and every content of the output buffer, `retrieveMessage`
run on the buffer that `buildFrame` filled returns 0 and yields the same destId,
srcId, txSeq, payloadLength and payload bytes, provided the cipher's decryption
inverts its encryption. -/
theorem retrieveMessage_buildFrame_roundtrip (c : Cipher) (hc : c.Inverts) (cfg : Config)
    (nonce : Nat) (buf : List Nat) (m msg : MSG_T) (hm : m.IsStd) (hbuf : IsBytes buf)
    (hdest : m.content.toStd.destId = cfg._deviceId ∨
      m.content.toStd.destId = LOWAPP_ID_BROADCAST) :
    (retrieveMessage c cfg msg (buildFrame c cfg nonce buf m).1).1 = 0 ∧
    (retrieveMessage c cfg msg (buildFrame c cfg nonce buf m).1).2.hdr.payloadLength
      = m.hdr.payloadLength ∧
    (retrieveMessage c cfg msg (buildFrame c cfg nonce buf m).1).2.content.toStd.destId
      = m.content.toStd.destId ∧
    (retrieveMessage c cfg msg (buildFrame c cfg nonce buf m).1).2.content.toStd.srcId
      = m.content.toStd.srcId ∧
    (retrieveMessage c cfg msg (buildFrame c cfg nonce buf m).1).2.content.toStd.txSeq
      = m.content.toStd.txSeq ∧
    ((retrieveMessage c cfg msg (buildFrame c cfg nonce buf m).1).2.content.toStd.payload).take
        m.hdr.payloadLength
      = m.content.toStd.payload.take m.hdr.payloadLength := by
  obtain ⟨hr, hpay⟩ := retrieveMessage_buildFrame_std c hc cfg cfg rfl nonce buf m msg hm hbuf
  obtain ⟨hver, htype, hN, hd, hs, ht, hpl, hpb⟩ := hm
  rw [hr]
  generalize parsedHdr (buildFrame c cfg nonce buf m).1 = hdr at hpay
  have hcrc := stdPlain_crc_ok nonce buf m
  have h6 : get_byte (stdPlain nonce buf m) 6 = m.content.toStd.destId := by
    rw [get_byte_stdPlain_lt _ _ _ _ (by omega), (get_byte_stdWritten_hdr nonce m).2.2.1,
      Nat.mod_eq_of_lt hd]
  have h7 : get_byte (stdPlain nonce buf m) 7 = m.content.toStd.srcId := by
    rw [get_byte_stdPlain_lt _ _ _ _ (by omega), (get_byte_stdWritten_hdr nonce m).2.2.2.1,
      Nat.mod_eq_of_lt hs]
  have h8 : get_byte (stdPlain nonce buf m) 8 = m.content.toStd.txSeq := by
    rw [get_byte_stdPlain_lt _ _ _ _ (by omega), (get_byte_stdWritten_hdr nonce m).2.2.2.2,
      Nat.mod_eq_of_lt ht]
  unfold retrieveStd
  simp only [hpay, h6, h7, h8]
  rw [if_neg (not_not.mpr hcrc), if_pos hdest]
  refine ⟨rfl, hpay, rfl, rfl, rfl, ?_⟩
  show (memcpy msg.content.toStd.payload
    (readBytes (stdPlain nonce buf m) 9 m.hdr.payloadLength)).take m.hdr.payloadLength = _
  unfold memcpy
  rw [List.take_append_of_le_length (by simp), readBytes_stdPlain_payload _ _ _ hpl,
    List.take_take, Nat.min_self]

theorem xorCipher_inverts : xorCipher.Inverts := by
  intro buf key _
  refine ⟨by simp [xorCipher], ?_⟩
  apply List.ext_getElem
  · simp [xorCipher]
  · intro i h1 h2
    simp only [xorCipher, List.getElem_map, List.getElem_range, List.length_map,
      List.length_range]
    rw [get_byte_lt_length _ _ (by simpa using h2)]
    simp only [List.get_eq_getElem, List.getElem_map, List.getElem_range]
    rw [Nat.xor_assoc, Nat.xor_self, Nat.xor_zero, get_byte_lt_length _ _ h2]
    rfl

/-- Witness of claim C1 on a concrete message, nonce and cipher. -/
theorem retrieveMessage_buildFrame_roundtrip_witness :
    (retrieveMessage xorCipher cfgA msgZero (buildFrame xorCipher cfgA 0xBEEF [] msgHello).1).1 = 0 ∧
    (retrieveMessage xorCipher cfgA msgZero
      (buildFrame xorCipher cfgA 0xBEEF [] msgHello).1).2.hdr.payloadLength
      = msgHello.hdr.payloadLength ∧
    (retrieveMessage xorCipher cfgA msgZero
      (buildFrame xorCipher cfgA 0xBEEF [] msgHello).1).2.content.toStd.destId
      = msgHello.content.toStd.destId ∧
    (retrieveMessage xorCipher cfgA msgZero
      (buildFrame xorCipher cfgA 0xBEEF [] msgHello).1).2.content.toStd.srcId
      = msgHello.content.toStd.srcId ∧
    (retrieveMessage xorCipher cfgA msgZero
      (buildFrame xorCipher cfgA 0xBEEF [] msgHello).1).2.content.toStd.txSeq
      = msgHello.content.toStd.txSeq ∧
    ((retrieveMessage xorCipher cfgA msgZero
      (buildFrame xorCipher cfgA 0xBEEF [] msgHello).1).2.content.toStd.payload).take
        msgHello.hdr.payloadLength
      = msgHello.content.toStd.payload.take msgHello.hdr.payloadLength :=
  retrieveMessage_buildFrame_roundtrip xorCipher xorCipher_inverts cfgA 0xBEEF [] msgHello
    msgZero (by decide) (by decide) (by decide)

theorem retrieveMessage_buildFrame_ack (c : Cipher) (hc : c.Inverts) (cfg cfg2 : Config)
    (hkey : cfg2._encryptionKey = cfg._encryptionKey)
    (nonce : Nat) (buf : List Nat) (m msg : MSG_T) (hm : m.IsAck) (hbuf : IsBytes buf) :
    retrieveMessage c cfg2 msg (buildFrame c cfg nonce buf m).1
      = retrieveAck cfg2 msg (parsedHdr (buildFrame c cfg nonce buf m).1)
          (ackPlain nonce buf m) := by
  obtain ⟨hver, htype, hN, hd, hs, hr, he⟩ := hm
  have h0 := get_byte_buildFrame_zero c cfg nonce buf m (Or.inr htype)
  rw [hver, htype] at h0
  have hF := buildFrame_ack c cfg nonce buf m htype
  rw [retrieveMessage_ack c cfg2 msg _ (by rw [h0]; decide) (by rw [h0]; decide)]
  apply retrieveAck_congr
  intro i
  unfold decodedAck
  rw [hkey, hF]
  simp only
  exact get_byte_decode_encode c hc cfg cfg2 _ _ _ _ 6 _
    (IsBytes_readBytes _ (IsBytes_ackPlain nonce buf m hbuf) _ _) i

/-- Claim C9: for an Ack message `buildFrame` returns `ACK_FRAME_LENGTH` = 12
and leaves every byte of the buffer from offset 12 on untouched, whatever the
header's payloadLength holds; and when the Ack is addressed to this node,
`retrieveMessage` on the built buffer returns 0 with the same destId, srcId,
rxdSeq and expectedSeq, provided the cipher's decryption inverts its encryption. -/
theorem buildFrame_ack_roundtrip (c : Cipher) (cfg : Config) (nonce : Nat) (buf : List Nat)
    (m msg : MSG_T) (htype : m.hdr.type = TYPE_ACK) :
    (buildFrame c cfg nonce buf m).2 = ACK_FRAME_LENGTH ∧
    (∀ i, ACK_FRAME_LENGTH ≤ i → get_byte (buildFrame c cfg nonce buf m).1 i = get_byte buf i) ∧
    (c.Inverts → m.IsAck → IsBytes buf → m.content.toAck.destId = cfg._deviceId →
      (retrieveMessage c cfg msg (buildFrame c cfg nonce buf m).1).1 = 0 ∧
      (retrieveMessage c cfg msg (buildFrame c cfg nonce buf m).1).2.content.toAck.destId
        = m.content.toAck.destId ∧
      (retrieveMessage c cfg msg (buildFrame c cfg nonce buf m).1).2.content.toAck.srcId
        = m.content.toAck.srcId ∧
      (retrieveMessage c cfg msg (buildFrame c cfg nonce buf m).1).2.content.toAck.rxdSeq
        = m.content.toAck.rxdSeq ∧
      (retrieveMessage c cfg msg (buildFrame c cfg nonce buf m).1).2.content.toAck.expectedSeq
        = m.content.toAck.expectedSeq) := by
  refine ⟨?_, ?_, ?_⟩
  · rw [buildFrame_ack _ _ _ _ _ htype]
    rfl
  · intro i hi
    have hi2 : 12 ≤ i := hi
    rw [buildFrame_ack _ _ _ _ _ htype]
    simp only [encodeInPlace, ackPlain]
    rw [get_byte_writeBytes_ge _ _ _ _ (by simp; omega),
      get_byte_writeBytes_ge _ _ _ _ (by simp [wrap_short, wrap_byte]; omega),
      get_byte_writeBytes_ge _ _ _ _ (by rw [ackWritten_length]; omega)]
  · intro hc hm hbuf hdest
    rw [retrieveMessage_buildFrame_ack c hc cfg cfg rfl nonce buf m msg hm hbuf]
    obtain ⟨hver, _, hN, hd, hs, hr, he⟩ := hm
    generalize parsedHdr (buildFrame c cfg nonce buf m).1 = hdr
    have hcrc := ackPlain_crc_ok nonce buf m
    have hw := get_byte_ackWritten nonce m
    have h6 : get_byte (ackPlain nonce buf m) 6 = m.content.toAck.destId := by
      rw [get_byte_ackPlain_lt _ _ _ _ (by omega), hw.2.2.1, Nat.mod_eq_of_lt hd]
    have h7 : get_byte (ackPlain nonce buf m) 7 = m.content.toAck.srcId := by
      rw [get_byte_ackPlain_lt _ _ _ _ (by omega), hw.2.2.2.1, Nat.mod_eq_of_lt hs]
    have h8 : get_byte (ackPlain nonce buf m) 8 = m.content.toAck.rxdSeq := by
      rw [get_byte_ackPlain_lt _ _ _ _ (by omega), hw.2.2.2.2.1, Nat.mod_eq_of_lt hr]
    have h9 : get_byte (ackPlain nonce buf m) 9 = m.content.toAck.expectedSeq := by
      rw [get_byte_ackPlain_lt _ _ _ _ (by omega), hw.2.2.2.2.2, Nat.mod_eq_of_lt he]
    unfold retrieveAck
    simp only [h6, h7, h8, h9]
    rw [if_neg (not_not.mpr hcrc), if_pos hdest]
    exact ⟨rfl, rfl, rfl, rfl, rfl⟩

/-- Witness of claim C9 on a concrete Ack whose header announces 200 payload bytes. -/
theorem buildFrame_ack_roundtrip_witness :
    (buildFrame xorCipher cfgA 0xBEEF [] msgAck).2 = ACK_FRAME_LENGTH ∧
    (retrieveMessage xorCipher cfgA msgZero (buildFrame xorCipher cfgA 0xBEEF [] msgAck).1).1 = 0 :=
  ⟨(buildFrame_ack_roundtrip xorCipher cfgA 0xBEEF [] msgAck msgZero (by decide)).1,
   ((buildFrame_ack_roundtrip xorCipher cfgA 0xBEEF [] msgAck msgZero (by decide)).2.2
      xorCipher_inverts (by decide) (by decide) (by decide)).1⟩

/-- Claim C2: destination filtering.  For a frame with the supported version
whose CRC field is valid after decryption, a Standard frame is accepted (0)
exactly when its destId is this node's id or 0xFF, an Ack frame exactly when
its destId is this node's id (so an Ack to 0xFF is rejected by every node
whose id is not 0xFF); every other such frame yields -2, never the CRC
result -3. -/
theorem retrieveMessage_destination_filter (c : Cipher) (cfg : Config) (msg : MSG_T)
    (fb : List Nat) (hv : (get_byte fb 0) >>> 4 = LOWAPP_CURRENT_VERSION) :
    ((get_byte fb 0) &&& 0xF = TYPE_STDMSG →
      crcFieldValid (decodedStd c cfg fb) (9 + get_byte fb 1) →
        ((retrieveMessage c cfg msg fb).1 = 0 ↔
          (get_byte (decodedStd c cfg fb) 6 = cfg._deviceId ∨
           get_byte (decodedStd c cfg fb) 6 = LOWAPP_ID_BROADCAST)) ∧
        ((retrieveMessage c cfg msg fb).1 ≠ 0 → (retrieveMessage c cfg msg fb).1 = -2) ∧
        (retrieveMessage c cfg msg fb).1 ≠ -3) ∧
    ((get_byte fb 0) &&& 0xF = TYPE_ACK →
      crcFieldValid (decodedAck c cfg fb) 10 →
        ((retrieveMessage c cfg msg fb).1 = 0 ↔
          get_byte (decodedAck c cfg fb) 6 = cfg._deviceId) ∧
        ((retrieveMessage c cfg msg fb).1 ≠ 0 → (retrieveMessage c cfg msg fb).1 = -2) ∧
        (retrieveMessage c cfg msg fb).1 ≠ -3 ∧
        (get_byte (decodedAck c cfg fb) 6 = LOWAPP_ID_BROADCAST →
          cfg._deviceId ≠ LOWAPP_ID_BROADCAST → (retrieveMessage c cfg msg fb).1 = -2)) := by
  constructor
  · intro ht hcrc
    rw [retrieveMessage_std c cfg msg fb hv ht]
    unfold retrieveStd
    have hcrc2 : PacketComputeCrc (decodedStd c cfg fb) (8 + 1 + (parsedHdr fb).payloadLength)
        POLYNOMIAL_IBM
        = get_short (decodedStd c cfg fb) (8 + 1 + (parsedHdr fb).payloadLength) := hcrc
    simp only
    rw [if_neg (not_not.mpr hcrc2)]
    by_cases hd : get_byte (decodedStd c cfg fb) 6 = cfg._deviceId ∨
        get_byte (decodedStd c cfg fb) 6 = LOWAPP_ID_BROADCAST
    · rw [if_pos hd]
      simp [hd]
    · rw [if_neg hd]
      simp [hd]
  · intro ht hcrc
    rw [retrieveMessage_ack c cfg msg fb hv ht]
    unfold retrieveAck
    have hcrc2 : PacketComputeCrc (decodedAck c cfg fb) (8 + 2) POLYNOMIAL_IBM
        = get_short (decodedAck c cfg fb) (8 + 2) := hcrc
    simp only
    rw [if_neg (not_not.mpr hcrc2)]
    by_cases hd : get_byte (decodedAck c cfg fb) 6 = cfg._deviceId
    · rw [if_pos hd]
      refine ⟨by simp [hd], by simp, by simp, ?_⟩
      intro h1 h2
      exact absurd (hd.symm.trans h1) h2
    · rw [if_neg hd]
      simp [hd]

/-- Witness of claim C2: a Standard frame addressed to this node is accepted,
an Ack frame addressed to 0xFF is answered with -2. -/
theorem retrieveMessage_destination_filter_witness :
    (retrieveMessage xorCipher cfgA msgZero (buildFrame xorCipher cfgA 0xBEEF [] msgHello).1).1 = 0 ∧
    (retrieveMessage xorCipher cfgA msgZero
      (buildFrame xorCipher cfgA 0xBEEF [] msgAckBroadcast).1).1 = -2 :=
  ⟨((retrieveMessage_destination_filter xorCipher cfgA msgZero
      (buildFrame xorCipher cfgA 0xBEEF [] msgHello).1 (by decide)).1
      (by decide) (by decide)).1.mpr (by decide),
   ((retrieveMessage_destination_filter xorCipher cfgA msgZero
      (buildFrame xorCipher cfgA 0xBEEF [] msgAckBroadcast).1 (by decide)).2
      (by decide) (by decide)).2.2.2 (by decide) (by decide)⟩

/-- Claim C6 (fails on the code): `encodeInPlace` and `decodeInPlace` hand the
cipher the configured key `_appKey` itself; the derived array `actualKey` is
computed and not used, so the output does not depend on the group id or the
nonce.  On the probe cipher the key observed is the configured key, which
differs from the derived key. -/
theorem encodeInPlace_hands_configured_key :
    (∀ (c : Cipher) (cfg : Config) (key : List Nat) (n : Nat) (buf : List Nat) (off sz : Nat),
      encodeInPlace c cfg key n buf off sz
        = writeBytes buf off
            (readBytes (c.LoRaMacPayloadEncrypt (readBytes buf off sz) key 0 0 0) 0 sz) ∧
      decodeInPlace c cfg key n buf off sz
        = writeBytes buf off
            (readBytes (c.LoRaMacPayloadDecrypt (readBytes buf off sz) key 0 0 0) 0 sz)) ∧
    encodeInPlace keyProbe cfgA cfgA._encryptionKey 0xBEEF [] 0 16 = cfgA._encryptionKey ∧
    encodeInPlace keyProbe cfgA cfgA._encryptionKey 0xBEEF [] 0 16
      = encodeInPlace keyProbe cfgB cfgB._encryptionKey 0x0001 [] 0 16 ∧
    actualKey cfgA 0xBEEF ≠ cfgA._encryptionKey ∧
    actualKey cfgA 0xBEEF ≠ actualKey cfgB 0x0001 := by
  refine ⟨fun c cfg key n buf off sz => ⟨rfl, rfl⟩, by decide, by decide, by decide, by decide⟩

/-- Claim C5 (fails on the code): the result of `retrieveMessage` does not
depend on the receiver's group id, and a frame built under group 0x1234 is
accepted (0, not -3) by the addressed node holding the same key under group
0x4321. -/
theorem retrieveMessage_ignores_groupId :
    (∀ (c : Cipher) (cfg : Config) (g : Nat) (msg : MSG_T) (fb : List Nat),
      retrieveMessage c { cfg with _groupId := g } msg fb = retrieveMessage c cfg msg fb) ∧
    cfgB._groupId ≠ cfgA._groupId ∧ cfgB._encryptionKey = cfgA._encryptionKey ∧
    (retrieveMessage xorCipher cfgB msgZero (buildFrame xorCipher cfgA 0xBEEF [] msgHello).1).1
      = 0 := by
  refine ⟨fun c cfg g msg fb => rfl, by decide, by decide, by decide⟩

/-- Claim C7 (fails on the code): the CRC of a frame is `PacketComputeCrc`
called with `POLYNOMIAL_IBM` as its `crcType`, which narrows to 5: the
polynomial is 0x1021, the seed 0 and the result is not inverted.  On the bytes
"123456789" the frame CRC is 0x31C3 and differs from the IBM-variant CRC for
either seed. -/
theorem frame_crc_is_not_ibm :
    (∀ (buf : List Nat) (n : Nat),
      PacketComputeCrc buf n POLYNOMIAL_IBM
        = (readBytes buf 0 (n % 256)).foldl
            (fun crc b => ComputeCrc crc b POLYNOMIAL_CCITT) CRC_CCITT_SEED_XMODEM) ∧
    PacketComputeCrc [0x31, 0x32, 0x33, 0x34, 0x35, 0x36, 0x37, 0x38, 0x39] 9 POLYNOMIAL_IBM
      = 0x31C3 ∧
    ibmVariantCrc CRC_IBM_SEED [0x31, 0x32, 0x33, 0x34, 0x35, 0x36, 0x37, 0x38, 0x39] ≠ 0x31C3 ∧
    ibmVariantCrc 0 [0x31, 0x32, 0x33, 0x34, 0x35, 0x36, 0x37, 0x38, 0x39] ≠ 0x31C3 := by
  refine ⟨fun buf n => rfl, by decide, by decide, by decide⟩

theorem frameSize_eq_buildFrame_std (c : Cipher) (cfg : Config) (nonce : Nat) (buf : List Nat)
    (m : MSG_T) (ht : m.hdr.type = TYPE_STDMSG) (hN : m.hdr.payloadLength ≤ 244) :
    frameSize m = 11 + m.hdr.payloadLength ∧
    (buildFrame c cfg nonce buf m).2 = 11 + m.hdr.payloadLength := by
  rw [buildFrame_std _ _ _ _ _ ht]
  simp only [frameSize, ht, if_true, sizeof_LORA_HDR_T]
  omega

theorem frameSize_eq_buildFrame_ack (c : Cipher) (cfg : Config) (nonce : Nat) (buf : List Nat)
    (m : MSG_T) (ht : m.hdr.type = TYPE_ACK) :
    frameSize m = 12 ∧ (buildFrame c cfg nonce buf m).2 = 12 := by
  have hne : ¬ (TYPE_ACK = TYPE_STDMSG) := by decide
  rw [buildFrame_ack _ _ _ _ _ ht]
  simp only [frameSize, ht, hne, if_true, if_false, and_true]
  rfl

/-- Claim C8 (fails on the code for payload lengths 245 and 246): `frameSize`
narrows 11 + N to `uint8_t`; for the 245-byte payload it returns 0 while
`buildFrame` returns 256, and for 246 bytes it returns 1 against 257. -/
theorem frameSize_truncates :
    frameSize msg245 = 0 ∧ (buildFrame xorCipher cfgA 0xBEEF [] msg245).2 = 256 ∧
    frameSize { msg245 with hdr := { msg245.hdr with payloadLength := 246 } } = 1 ∧
    (buildFrame xorCipher cfgA 0xBEEF []
      { msg245 with hdr := { msg245.hdr with payloadLength := 246 } }).2 = 257 := by
  refine ⟨by decide, by decide, by decide, by decide⟩

theorem flip_low (d : Nat) (hd : d < 256) (j : Nat) (hj : j < 7) :
    ((d ^^^ (1 <<< j)) <<< 1) % 256 = ((d <<< 1) % 256) ^^^ (1 <<< (j+1)) ∧
    ((d ^^^ (1 <<< j)) &&& 0x80) = (d &&& 0x80) := by
  revert d j
  decide

theorem flip_top (d : Nat) (hd : d < 256) :
    ((d ^^^ (1 <<< 7)) <<< 1) % 256 = (d <<< 1) % 256 ∧
    ((d ^^^ (1 <<< 7)) &&& 0x80) ≠ (d &&& 0x80) := by
  revert d
  decide

theorem crcCond_iff (s d : Nat) :
    (((s &&& 0x8000) >>> 8) ^^^ (d &&& 0x80)) ≠ 0 ↔ s.testBit 15 ≠ d.testBit 7 := by
  rw [Nat.xor_ne_zero, show (0x8000 : Nat) = 2 ^ 15 from rfl, show (0x80 : Nat) = 2 ^ 7 from rfl,
    Nat.and_two_pow, Nat.and_two_pow, Nat.shiftRight_eq_div_pow]
  cases s.testBit 15 <;> cases d.testBit 7 <;> decide

theorem testBit15_eq (s : Nat) (h : s < 65536) : s.testBit 15 = decide (32768 ≤ s) := by
  rw [Nat.testBit_to_div_mod]
  congr 1
  apply propext
  omega

theorem ComputeCrcBit_fst (p : Nat) (s d : Nat) :
    (ComputeCrcBit p (s, d)).1 =
      ((s <<< 1) % 65536) ^^^ (if s.testBit 15 ≠ d.testBit 7 then p % 65536 else 0) := by
  unfold ComputeCrcBit
  by_cases h : s.testBit 15 ≠ d.testBit 7
  · rw [if_pos ((crcCond_iff s d).mpr h), if_pos h]
  · rw [if_neg (fun h2 => h ((crcCond_iff s d).mp h2)), if_neg h]
    simp

theorem ComputeCrcBit_snd (p : Nat) (s d : Nat) :
    (ComputeCrcBit p (s, d)).2 = (d <<< 1) % 256 := by
  unfold ComputeCrcBit
  split <;> rfl

theorem ComputeCrcBit_testBit_zero (p : Nat) (hp : p % 2 = 1) (s d : Nat) :
    (ComputeCrcBit p (s, d)).1.testBit 0 = (s.testBit 15 != d.testBit 7) := by
  rw [ComputeCrcBit_fst, Nat.testBit_xor]
  have h1 : ((s <<< 1) % 65536).testBit 0 = false := by
    rw [Nat.testBit_zero, Nat.shiftLeft_eq]
    simp
    omega
  rw [h1]
  by_cases h : s.testBit 15 ≠ d.testBit 7
  · rw [if_pos h]
    have : (p % 65536).testBit 0 = true := by
      rw [Nat.testBit_zero]
      simp
      omega
    rw [this]
    revert h
    cases s.testBit 15 <;> cases d.testBit 7 <;> simp
  · rw [if_neg h]
    revert h
    cases s.testBit 15 <;> cases d.testBit 7 <;> simp

theorem ComputeCrcBit_state_inj (p : Nat) (hp : p % 2 = 1) (s1 s2 d1 d2 : Nat)
    (h1 : s1 < 65536) (h2 : s2 < 65536) (hd : d1.testBit 7 = d2.testBit 7)
    (h : (ComputeCrcBit p (s1, d1)).1 = (ComputeCrcBit p (s2, d2)).1) : s1 = s2 := by
  have hb := congrArg (fun x => Nat.testBit x 0) h
  simp only [ComputeCrcBit_testBit_zero p hp, hd] at hb
  have hb2 : s1.testBit 15 = s2.testBit 15 := by
    revert hb
    cases s1.testBit 15 <;> cases s2.testBit 15 <;> cases d2.testBit 7 <;> simp
  rw [ComputeCrcBit_fst, ComputeCrcBit_fst, hd, hb2, Nat.xor_left_inj] at h
  rw [testBit15_eq s1 h1, testBit15_eq s2 h2] at hb2
  simp only [Nat.shiftLeft_eq] at h
  have := decide_eq_decide.mp hb2
  omega

theorem ComputeCrcBit_data_sens (p : Nat) (hp : p % 2 = 1) (s d1 d2 : Nat)
    (hd : d1.testBit 7 ≠ d2.testBit 7) :
    (ComputeCrcBit p (s, d1)).1 ≠ (ComputeCrcBit p (s, d2)).1 := by
  intro h
  have hb := congrArg (fun x => Nat.testBit x 0) h
  simp only [ComputeCrcBit_testBit_zero p hp] at hb
  revert hb hd
  cases s.testBit 15 <;> cases d1.testBit 7 <;> cases d2.testBit 7 <;> simp

theorem flip_low_testBit (d : Nat) (hd : d < 256) (j : Nat) (hj : j < 7) :
    ((d ^^^ (1 <<< j)) <<< 1) % 256 = ((d <<< 1) % 256) ^^^ (1 <<< (j+1)) ∧
    (d ^^^ (1 <<< j)).testBit 7 = d.testBit 7 := by
  revert d j
  decide

theorem flip_top_testBit (d : Nat) (hd : d < 256) :
    ((d ^^^ (1 <<< 7)) <<< 1) % 256 = (d <<< 1) % 256 ∧
    (d ^^^ (1 <<< 7)).testBit 7 ≠ d.testBit 7 := by
  revert d
  decide

theorem FlipInv_step (p : Nat) (hp : p % 2 = 1) (j : Nat) (m m' : Nat × Nat)
    (h : FlipInv j m m') : FlipInv (j + 1) (ComputeCrcBit p m) (ComputeCrcBit p m') := by
  obtain ⟨s, d⟩ := m
  obtain ⟨s', d'⟩ := m'
  rcases h with ⟨hj, hs, hd, hlt⟩ | ⟨hj, hs, hd, h1, h2⟩
  · simp only at hs hd hlt
    subst hs hd
    by_cases h7 : j = 7
    · subst h7
      right
      obtain ⟨ha, hb⟩ := flip_top_testBit d hlt
      refine ⟨by omega, ?_, ?_, ComputeCrcBit_fst_lt _ _, ComputeCrcBit_fst_lt _ _⟩
      · exact ComputeCrcBit_data_sens p hp s _ _ (Ne.symm hb)
      · rw [ComputeCrcBit_snd, ComputeCrcBit_snd, ha]
    · left
      obtain ⟨ha, hb⟩ := flip_low_testBit d hlt j (by omega)
      refine ⟨by omega, ?_, ?_, ?_⟩
      · rw [ComputeCrcBit_fst, ComputeCrcBit_fst, hb]
      · rw [ComputeCrcBit_snd, ComputeCrcBit_snd, ha]
      · rw [ComputeCrcBit_snd]
        exact Nat.mod_lt _ (by decide)
  · simp only at hs hd h1 h2
    subst hd
    right
    refine ⟨by omega, ?_, ?_, ComputeCrcBit_fst_lt _ _, ComputeCrcBit_fst_lt _ _⟩
    · intro h
      exact hs (ComputeCrcBit_state_inj p hp s s' d d h1 h2 rfl h)
    · rw [ComputeCrcBit_snd, ComputeCrcBit_snd]

theorem FlipInv_iterate (p : Nat) (hp : p % 2 = 1) (j : Nat) (m m' : Nat × Nat)
    (h : FlipInv j m m') (k : Nat) :
    FlipInv (j + k) ((ComputeCrcBit p)^[k] m) ((ComputeCrcBit p)^[k] m') := by
  induction k with
  | zero => simpa using h
  | succ k ih =>
    rw [Function.iterate_succ_apply', Function.iterate_succ_apply']
    exact FlipInv_step p hp (j + k) _ _ ih

theorem ComputeCrc_flip (p : Nat) (hp : p % 2 = 1) (s d b : Nat) (hd : d < 256) (hb : b < 8) :
    ComputeCrc s (d ^^^ (1 <<< b)) p ≠ ComputeCrc s d p := by
  have hlt : d ^^^ (1 <<< b) < 256 :=
    Nat.xor_lt_two_pow (n := 8) hd (by revert b; decide)
  unfold ComputeCrc
  rw [Nat.mod_eq_of_lt hlt, Nat.mod_eq_of_lt hd]
  have h := FlipInv_iterate p hp b (s % 65536, d) (s % 65536, d ^^^ (1 <<< b))
    (Or.inl ⟨by omega, rfl, rfl, hd⟩) 8
  rcases h with ⟨h1, _⟩ | ⟨_, h2, _⟩
  · omega
  · exact Ne.symm h2

theorem ComputeCrc_state_ne (p : Nat) (hp : p % 2 = 1) (s s' d : Nat) (hs : s < 65536)
    (hs' : s' < 65536) (h : s ≠ s') : ComputeCrc s d p ≠ ComputeCrc s' d p := by
  unfold ComputeCrc
  rw [Nat.mod_eq_of_lt hs, Nat.mod_eq_of_lt hs']
  have h := FlipInv_iterate p hp 8 (s, d % 256) (s', d % 256)
    (Or.inr ⟨by omega, h, rfl, hs, hs'⟩) 8
  rcases h with ⟨h1, _⟩ | ⟨_, h2, _⟩
  · omega
  · exact h2

theorem foldl_ComputeCrc_ne (p : Nat) (hp : p % 2 = 1) (l : List Nat) (s s' : Nat)
    (hs : s < 65536) (hs' : s' < 65536) (h : s ≠ s') :
    l.foldl (fun crc b => ComputeCrc crc b p) s ≠ l.foldl (fun crc b => ComputeCrc crc b p) s' := by
  induction l generalizing s s' with
  | nil => simpa using h
  | cons x xs ih =>
    simp only [List.foldl_cons]
    exact ih _ _ (ComputeCrc_lt _ _ _) (ComputeCrc_lt _ _ _) (ComputeCrc_state_ne p hp s s' x hs hs' h)

theorem list_eq_of_get_byte (a b : List Nat) (hl : a.length = b.length)
    (h : ∀ i, i < a.length → get_byte a i = get_byte b i) : a = b := by
  apply List.ext_getElem hl
  intro i h1 h2
  have := h i h1
  rwa [get_byte_lt_length _ _ h1, get_byte_lt_length _ _ h2] at this

theorem readBytes_split (buf : List Nat) (n j : Nat) (hj : j < n) :
    readBytes buf 0 n = readBytes buf 0 j ++ [get_byte buf j] ++ readBytes buf (j + 1) (n - j - 1) := by
  apply list_eq_of_get_byte
  · simp; omega
  · intro i hi
    simp only [readBytes_length] at hi
    rw [get_byte_readBytes _ _ _ _ hi, Nat.zero_add]
    by_cases h1 : i < j
    · rw [List.append_assoc, get_byte_append_left _ _ _ (by simpa using h1),
        get_byte_readBytes _ _ _ _ h1, Nat.zero_add]
    · by_cases h2 : i = j
      · subst h2
        rw [get_byte_append_left _ _ _ (by simp), get_byte_append_right _ _ _ (by simp)]
        simp [get_byte]
      · rw [get_byte_append_right _ _ _ (by simp; omega)]
        simp only [List.length_append, readBytes_length, List.length_singleton]
        rw [get_byte_readBytes _ _ _ _ (by omega)]
        congr 1
        omega

theorem PacketComputeCrc_flipBit (buf : List Nat) (n t j b : Nat) (hj : j < n % 256)
    (hlen : j < buf.length) (hbyte : get_byte buf j < 256) (hb : b < 8) :
    PacketComputeCrc (flipBit buf j b) n t ≠ PacketComputeCrc buf n t := by
  have hpre : readBytes (flipBit buf j b) 0 j = readBytes buf 0 j :=
    readBytes_ext _ _ _ _ _ (fun i hi => get_byte_flipBit_ne _ _ _ _ (by omega))
  have hpost : readBytes (flipBit buf j b) (j + 1) (n % 256 - j - 1)
      = readBytes buf (j + 1) (n % 256 - j - 1) :=
    readBytes_ext _ _ _ _ _ (fun i hi => get_byte_flipBit_ne _ _ _ _ (by omega))
  have hkey : ∀ (p seed : Nat), p % 2 = 1 → seed < 65536 →
      (readBytes (flipBit buf j b) 0 (n % 256)).foldl (fun crc x => ComputeCrc crc x p) seed
        ≠ (readBytes buf 0 (n % 256)).foldl (fun crc x => ComputeCrc crc x p) seed := by
    intro p seed hp hseed
    rw [readBytes_split _ _ _ hj, readBytes_split buf _ _ hj, hpre, hpost,
      get_byte_flipBit_same _ _ _ hlen]
    simp only [List.foldl_append, List.foldl_cons, List.foldl_nil]
    exact foldl_ComputeCrc_ne p hp _ _ _ (ComputeCrc_lt _ _ _) (ComputeCrc_lt _ _ _)
      (ComputeCrc_flip p hp _ _ _ hbyte hb)
  unfold PacketComputeCrc
  simp only
  have hseed : (if t % 256 = POLYNOMIAL_IBM then CRC_IBM_SEED else CRC_CCITT_SEED_XMODEM)
      < 65536 := by
    split <;> decide
  generalize (if t % 256 = POLYNOMIAL_IBM then CRC_IBM_SEED else CRC_CCITT_SEED_XMODEM)
    = seed at hseed ⊢
  by_cases ht : t % 256 = CRC_TYPE_IBM
  · simp only [ht, if_true]
    intro h
    exact hkey POLYNOMIAL_IBM _ (by decide) hseed (Nat.xor_left_inj.mp h)
  · simp only [ht, if_false]
    exact hkey POLYNOMIAL_CCITT _ (by decide) hseed

theorem get_byte_map_range (f : Nat → Nat) (n i : Nat) (h : i < n) :
    get_byte ((List.range n).map f) i = f i := by
  rw [get_byte_lt_length _ _ (by simpa using h)]
  simp

theorem one_shiftLeft_lt (b : Nat) (hb : b < 8) : 1 <<< b < 2 ^ 8 := by
  revert b
  decide

theorem get_byte_decode_flip_encode (c : Cipher) (hc : c.IsKeystream) (cfg1 cfg2 : Config)
    (key : List Nat) (n1 n2 : Nat) (buf : List Nat) (off sz : Nat)
    (hbytes : IsBytes (readBytes buf off sz)) (j b : Nat) (hj1 : off ≤ j) (hj2 : j < off + sz)
    (hlen : j < buf.length) (hb : b < 8) (i : Nat) :
    get_byte (decodeInPlace c cfg2 key n2
        (flipBit (encodeInPlace c cfg1 key n1 buf off sz) j b) off sz) i
      = get_byte (flipBit buf j b) i := by
  obtain ⟨ks, hks, hxor⟩ := hc
  have hE := (hxor (readBytes buf off sz) key hbytes).1
  rw [readBytes_length] at hE
  have hElen : (c.LoRaMacPayloadEncrypt (readBytes buf off sz) key 0 0 0).length = sz := by
    rw [hE]; simp
  have hEr : readBytes (c.LoRaMacPayloadEncrypt (readBytes buf off sz) key 0 0 0) 0 sz
      = c.LoRaMacPayloadEncrypt (readBytes buf off sz) key 0 0 0 := by
    have := readBytes_eq_self (c.LoRaMacPayloadEncrypt (readBytes buf off sz) key 0 0 0)
    rwa [hElen] at this
  have hF : encodeInPlace c cfg1 key n1 buf off sz
      = writeBytes buf off (c.LoRaMacPayloadEncrypt (readBytes buf off sz) key 0 0 0) := by
    unfold encodeInPlace
    simp only [hEr]
  -- bytes of the encrypted buffer
  have hFmid : ∀ k, k < sz → get_byte (encodeInPlace c cfg1 key n1 buf off sz) (off + k)
      = (get_byte buf (off + k)) ^^^ (ks key k) := by
    intro k hk
    rw [hF, get_byte_writeBytes_mid _ _ _ _ (by rw [hElen]; exact hk), hE,
      get_byte_map_range _ _ _ hk, get_byte_readBytes _ _ _ _ hk]
  have hFlen : j < (encodeInPlace c cfg1 key n1 buf off sz).length := by
    have := encodeInPlace_length_ge c cfg1 key n1 buf off sz
    omega
  have hbuf : ∀ k, k < sz → get_byte buf (off + k) < 256 := by
    intro k hk
    have := get_byte_lt_of_IsBytes _ hbytes k
    rwa [get_byte_readBytes _ _ _ _ hk] at this
  -- bytes of the tampered buffer
  have hF' : ∀ k, k < sz →
      get_byte (flipBit (encodeInPlace c cfg1 key n1 buf off sz) j b) (off + k)
        = (get_byte (flipBit buf j b) (off + k)) ^^^ (ks key k) := by
    intro k hk
    by_cases hkj : off + k = j
    · rw [hkj, get_byte_flipBit_same _ _ _ hFlen, get_byte_flipBit_same _ _ _ hlen, ← hkj,
        hFmid k hk, Nat.xor_assoc, Nat.xor_assoc, Nat.xor_comm (ks key k)]
    · rw [get_byte_flipBit_ne _ _ _ _ hkj, get_byte_flipBit_ne _ _ _ _ hkj, hFmid k hk]
  have hbuf' : ∀ k, k < sz → get_byte (flipBit buf j b) (off + k) < 256 := by
    intro k hk
    by_cases hkj : off + k = j
    · rw [hkj, get_byte_flipBit_same _ _ _ hlen, ← hkj]
      exact Nat.xor_lt_two_pow (n := 8) (hbuf k hk) (one_shiftLeft_lt b hb)
    · rw [get_byte_flipBit_ne _ _ _ _ hkj]
      exact hbuf k hk
  have hE'bytes : IsBytes (readBytes (flipBit (encodeInPlace c cfg1 key n1 buf off sz) j b)
      off sz) := by
    intro x hx
    simp only [readBytes, List.mem_map, List.mem_range] at hx
    obtain ⟨k, hk, rfl⟩ := hx
    rw [hF' k hk]
    exact Nat.xor_lt_two_pow (n := 8) (hbuf' k hk) (hks key k)
  have hD := (hxor _ key hE'bytes).2
  rw [readBytes_length] at hD
  have hDlen : (c.LoRaMacPayloadDecrypt
      (readBytes (flipBit (encodeInPlace c cfg1 key n1 buf off sz) j b) off sz) key 0 0 0).length
      = sz := by
    rw [hD]; simp
  have hDr : readBytes (c.LoRaMacPayloadDecrypt
      (readBytes (flipBit (encodeInPlace c cfg1 key n1 buf off sz) j b) off sz) key 0 0 0) 0 sz
      = c.LoRaMacPayloadDecrypt
      (readBytes (flipBit (encodeInPlace c cfg1 key n1 buf off sz) j b) off sz) key 0 0 0 := by
    have := readBytes_eq_self (c.LoRaMacPayloadDecrypt
      (readBytes (flipBit (encodeInPlace c cfg1 key n1 buf off sz) j b) off sz) key 0 0 0)
    rwa [hDlen] at this
  unfold decodeInPlace
  simp only [hDr]
  by_cases h1 : i < off
  · rw [get_byte_writeBytes_lt _ _ _ _ h1, get_byte_flipBit_ne _ _ _ _ (by omega),
      get_byte_flipBit_ne _ _ _ _ (by omega), get_byte_encodeInPlace_lt _ _ _ _ _ _ _ _ h1]
  · by_cases h2 : i < off + sz
    · obtain ⟨k, rfl⟩ : ∃ k, i = off + k := ⟨i - off, by omega⟩
      have hk : k < sz := by omega
      rw [get_byte_writeBytes_mid _ _ _ _ (by rw [hDlen]; exact hk), hD,
        get_byte_map_range _ _ _ hk, get_byte_readBytes _ _ _ _ hk, hF' k hk,
        Nat.xor_assoc, Nat.xor_self, Nat.xor_zero]
    · rw [get_byte_writeBytes_ge _ _ _ _ (by rw [hDlen]; omega),
        get_byte_flipBit_ne _ _ _ _ (by omega), get_byte_flipBit_ne _ _ _ _ (by omega), hF,
        get_byte_writeBytes_ge _ _ _ _ (by rw [hElen]; omega)]

theorem get_short_eq_add (buf : List Nat) (i : Nat) (h0 : get_byte buf i < 256)
    (h1 : get_byte buf (i + 1) < 256) :
    get_short buf i = 2 ^ 8 * get_byte buf i + get_byte buf (i + 1) := by
  unfold get_short
  rw [Nat.shiftLeft_eq, Nat.mul_add_lt_is_or h1]
  congr 1
  omega

theorem xor_one_shiftLeft_ne (x b : Nat) : x ^^^ (1 <<< b) ≠ x := by
  intro h
  have h2 : x ^^^ (1 <<< b) = x ^^^ 0 := by rw [h, Nat.xor_zero]
  have h3 := Nat.xor_right_inj.mp h2
  rw [Nat.shiftLeft_eq, Nat.one_mul] at h3
  exact absurd h3 (Nat.pos_iff_ne_zero.mp (Nat.two_pow_pos b))

theorem get_short_flipBit_ne (buf : List Nat) (i j b : Nat) (h0 : get_byte buf i < 256)
    (h1 : get_byte buf (i + 1) < 256) (hj : j = i ∨ j = i + 1) (hlen : j < buf.length)
    (hb : b < 8) : get_short (flipBit buf j b) i ≠ get_short buf i := by
  rcases hj with hj | hj
  · subst hj
    have hx : get_byte (flipBit buf j b) j < 256 := by
      rw [get_byte_flipBit_same _ _ _ hlen]
      exact Nat.xor_lt_two_pow (n := 8) h0 (one_shiftLeft_lt b hb)
    have hy : get_byte (flipBit buf j b) (j + 1) = get_byte buf (j + 1) :=
      get_byte_flipBit_ne _ _ _ _ (by omega)
    rw [get_short_eq_add _ _ hx (by rw [hy]; exact h1), get_short_eq_add _ _ h0 h1, hy,
      get_byte_flipBit_same _ _ _ hlen]
    have := xor_one_shiftLeft_ne (get_byte buf j) b
    omega
  · subst hj
    have hx : get_byte (flipBit buf (i + 1) b) (i + 1) < 256 := by
      rw [get_byte_flipBit_same _ _ _ hlen]
      exact Nat.xor_lt_two_pow (n := 8) h1 (one_shiftLeft_lt b hb)
    have hy : get_byte (flipBit buf (i + 1) b) i = get_byte buf i :=
      get_byte_flipBit_ne _ _ _ _ (by omega)
    rw [get_short_eq_add _ _ (by rw [hy]; exact h0) hx, get_short_eq_add _ _ h0 h1, hy,
      get_byte_flipBit_same _ _ _ hlen]
    have := xor_one_shiftLeft_ne (get_byte buf (i + 1)) b
    omega

theorem stdPlain_length_ge (nonce : Nat) (buf : List Nat) (m : MSG_T) :
    11 + m.hdr.payloadLength ≤ (stdPlain nonce buf m).length := by
  unfold stdPlain
  have h2 : ∀ v, (wrap_short v).length = 2 := fun v => rfl
  have := writeBytes_length_ge (writeBytes buf 0 (stdWritten nonce m)) (wrap_short
    (PacketComputeCrc (writeBytes buf 0 (stdWritten nonce m)) (9 + m.hdr.payloadLength)
      POLYNOMIAL_IBM)) (9 + m.hdr.payloadLength)
  rw [h2] at this
  omega

/-- Claim C4: tamper detection.  For every frame built by `buildFrame` from a
Standard message and every bit of its encrypted region (bytes 6 to 10 + N, from
the destination field to the end of the CRC), `retrieveMessage` on the frame
with that bit inverted returns -3, provided the cipher is a keystream XOR. -/
theorem retrieveMessage_tampered (c : Cipher) (hc : c.IsKeystream) (cfg : Config)
    (nonce : Nat) (buf : List Nat) (m msg : MSG_T) (hm : m.IsStd) (hbuf : IsBytes buf)
    (j b : Nat) (hj1 : 6 ≤ j) (hj2 : j < 11 + m.hdr.payloadLength) (hb : b < 8) :
    (retrieveMessage c cfg msg (flipBit (buildFrame c cfg nonce buf m).1 j b)).1 = -3 := by
  obtain ⟨hver, htype, hN, hd, hs, ht, hpl, hpb⟩ := hm
  have hN2 : m.hdr.payloadLength ≤ 246 := hN
  have hsz : (m.hdr.payloadLength + 8) % 65536 = m.hdr.payloadLength + 8 := by omega
  have hF := buildFrame_std c cfg nonce buf m htype
  rw [hsz] at hF
  have h0 : get_byte (flipBit (buildFrame c cfg nonce buf m).1 j b) 0 = 17 := by
    rw [get_byte_flipBit_ne _ _ _ _ (by omega),
      get_byte_buildFrame_zero c cfg nonce buf m (Or.inl htype), hver, htype]
    rfl
  have h1 : get_byte (flipBit (buildFrame c cfg nonce buf m).1 j b) 1 = m.hdr.payloadLength := by
    rw [get_byte_flipBit_ne _ _ _ _ (by omega), hF]
    simp only
    rw [get_byte_encodeInPlace_lt _ _ _ _ _ _ _ _ (by decide),
      get_byte_stdPlain_lt _ _ _ _ (by omega), (get_byte_stdWritten_hdr nonce m).2.1]
    omega
  have hPlen := stdPlain_length_ge nonce buf m
  have hPbytes := IsBytes_stdPlain nonce buf m hbuf hpb
  rw [retrieveMessage_std c cfg msg _ (by rw [h0]; decide) (by rw [h0]; decide)]
  have hdec : ∀ i, get_byte (decodedStd c cfg (flipBit (buildFrame c cfg nonce buf m).1 j b)) i
      = get_byte (flipBit (stdPlain nonce buf m) j b) i := by
    intro i
    unfold decodedStd
    rw [h1, hsz, hF]
    simp only
    exact get_byte_decode_flip_encode c hc cfg cfg _ _ _ _ 6 _
      (IsBytes_readBytes _ hPbytes _ _) j b hj1 (by omega) (by omega) hb i
  rw [retrieveStd_congr _ _ _ _ _ hdec]
  have hpay : (parsedHdr (flipBit (buildFrame c cfg nonce buf m).1 j b)).payloadLength
      = m.hdr.payloadLength := h1
  generalize parsedHdr (flipBit (buildFrame c cfg nonce buf m).1 j b) = hdr at hpay
  have hcrc := stdPlain_crc_ok nonce buf m
  have hne : PacketComputeCrc (flipBit (stdPlain nonce buf m) j b)
      (8 + 1 + m.hdr.payloadLength) POLYNOMIAL_IBM
      ≠ get_short (flipBit (stdPlain nonce buf m) j b) (8 + 1 + m.hdr.payloadLength) := by
    by_cases hjc : j < 8 + 1 + m.hdr.payloadLength
    · rw [get_short_congr (flipBit (stdPlain nonce buf m) j b) (stdPlain nonce buf m) _
        (get_byte_flipBit_ne _ _ _ _ (by omega)) (get_byte_flipBit_ne _ _ _ _ (by omega)),
        ← hcrc]
      exact PacketComputeCrc_flipBit _ _ _ j b (by omega) (by omega)
        (get_byte_lt_of_IsBytes _ hPbytes _) hb
    · rw [PacketComputeCrc_congr (flipBit (stdPlain nonce buf m) j b) (stdPlain nonce buf m) _ _
        (fun i hi => get_byte_flipBit_ne _ _ _ _ (by
          have := Nat.mod_le (8 + 1 + m.hdr.payloadLength) 256
          omega)), hcrc]
      exact (get_short_flipBit_ne _ _ j b (get_byte_lt_of_IsBytes _ hPbytes _)
        (get_byte_lt_of_IsBytes _ hPbytes _) (by omega) (by omega) hb).symm
  unfold retrieveStd
  simp only [hpay]
  rw [if_pos hne]

theorem xorCipher_isKeystream : xorCipher.IsKeystream :=
  ⟨fun key i => get_byte key (i % 16) % 256, fun _ _ => Nat.mod_lt _ (by decide),
    fun _ _ _ => ⟨rfl, rfl⟩⟩

/-- Witness of claim C4: bit 3 of byte 9 (the first payload byte) of a built frame is inverted. -/
theorem retrieveMessage_tampered_witness :
    (retrieveMessage xorCipher cfgA msgZero
      (flipBit (buildFrame xorCipher cfgA 0xBEEF [] msgHello).1 9 3)).1 = -3 :=
  retrieveMessage_tampered xorCipher xorCipher_isKeystream cfgA 0xBEEF [] msgHello msgZero
    (by decide) (by decide) 9 3 (by decide) (by decide) (by decide)

theorem add_to_queue_not_full (q : QFIXED_T) (d : DATA) (dlen : Nat) (h : q.count < MAXQSZ) :
    (add_to_queue q d dlen).1 ≠ -1 ∧
    (add_to_queue q d dlen).2.count = q.count + 1 ∧
    (add_to_queue q d dlen).2.head = (q.head + 1) % MAXQSZ ∧
    (add_to_queue q d dlen).2.tail = q.tail := by
  have h16 : q.count < 16 := h
  have hne : ¬ (q.count = MAXQSZ) := by
    intro h2
    rw [h2] at h
    exact absurd h (lt_irrefl _)
  unfold add_to_queue
  rw [if_neg hne]
  have hm : (q.count + 1) % 256 = q.count + 1 := by omega
  refine ⟨?_, hm, rfl, rfl⟩
  simp only [toInt8, hm]
  have : q.count + 1 < 128 := by omega
  rw [if_pos this]
  omega

/-- Claim C10: inbound sequence, exact match.  When `state_rxing` processes an
RXMSG event whose frame `retrieveMessage` accepts, which is not a broadcast,
while the RX queue has room, and the frame's txSeq equals the in_expected
value E recorded for the sender p, then the next state is WAIT_SLOT_TX_ACK,
in_expected of p becomes (E mod 255) + 1, the message queued for the
application has duplicate_flag = 0 and missing_frames = 0, and the Ack
prepared in currentTxMsg carries rxdSeq = txSeq and expectedSeq = E. -/
theorem state_rxing_exact_match (c : Cipher) (s : Core) (now : Nat) (uninit uninitAck : MSG_T)
    (frame : List Nat) (len dlen : Nat) (rssi snr : Int)
    (hacc : (retrieveMessage c s.cfg uninit frame).1 = 0)
    (huni : (retrieveMessage c s.cfg uninit frame).2.content.toStd.destId ≠ LOWAPP_ID_BROADCAST)
    (hq : s._rx_pkt_list.count < MAXQSZ)
    (hseq : (retrieveMessage c s.cfg uninit frame).2.content.toStd.txSeq
      = (s.peers (retrieveMessage c s.cfg uninit frame).2.content.toStd.srcId).in_expected) :
    (state_rxing c s now uninit uninitAck
      { type := EVENTS.RXMSG,
        data := DATA.rxdone { data := some frame, length := len, rssi := rssi, snr := snr },
        datalen := dlen }).1 = STATES.WAIT_SLOT_TX_ACK ∧
    ((state_rxing c s now uninit uninitAck
      { type := EVENTS.RXMSG,
        data := DATA.rxdone { data := some frame, length := len, rssi := rssi, snr := snr },
        datalen := dlen }).2.peers
        (retrieveMessage c s.cfg uninit frame).2.content.toStd.srcId).in_expected
      = ((s.peers (retrieveMessage c s.cfg uninit frame).2.content.toStd.srcId).in_expected
          % 255) + 1 ∧
    ((state_rxing c s now uninit uninitAck
      { type := EVENTS.RXMSG,
        data := DATA.rxdone { data := some frame, length := len, rssi := rssi, snr := snr },
        datalen := dlen }).2._rx_pkt_list.els s._rx_pkt_list.head).data
      = DATA.rxapp { state := { duplicate_flag := 0, missing_frames := 0 },
                     msg := (retrieveMessage c s.cfg uninit frame).2,
                     rssi := rssi, snr := snr } ∧
    (state_rxing c s now uninit uninitAck
      { type := EVENTS.RXMSG,
        data := DATA.rxdone { data := some frame, length := len, rssi := rssi, snr := snr },
        datalen := dlen }).2._rx_pkt_list.count = s._rx_pkt_list.count + 1 ∧
    (state_rxing c s now uninit uninitAck
      { type := EVENTS.RXMSG,
        data := DATA.rxdone { data := some frame, length := len, rssi := rssi, snr := snr },
        datalen := dlen }).2.currentTxMsg
      = some
        { hdr := { uninitAck.hdr with
            payloadLength := 0, type := TYPE_ACK, version := LOWAPP_CURRENT_VERSION },
          content := FMSG.ack
            { destId := (retrieveMessage c s.cfg uninit frame).2.content.toStd.srcId,
              srcId := s.cfg._deviceId,
              rxdSeq := (retrieveMessage c s.cfg uninit frame).2.content.toStd.txSeq,
              expectedSeq :=
                (s.peers (retrieveMessage c s.cfg uninit frame).2.content.toStd.srcId).in_expected } } := by
  obtain ⟨hr, hcount, _, _⟩ := add_to_queue_not_full s._rx_pkt_list
    (DATA.rxapp { state := { duplicate_flag := 0, missing_frames := 0 },
                  msg := (retrieveMessage c s.cfg uninit frame).2, rssi := rssi, snr := snr })
    sizeof_MSG_RX_APP_T hq
  have hreset : ¬ ((retrieveMessage c s.cfg uninit frame).2.content.toStd.txSeq = 0 ∧
      (s.peers (retrieveMessage c s.cfg uninit frame).2.content.toStd.srcId).in_expected ≠ 0) := by
    rintro ⟨h1, h2⟩
    exact h2 (hseq ▸ h1)
  simp only [state_rxing, hacc, if_true, hr, ne_eq, not_false_eq_true, huni, if_false, hreset,
    hseq, Function.update_same, hcount, and_self, and_true, true_and, and_not_self]

/-- Witness of claim C10: the frame of `msgHello` (txSeq 7 from peer 1) arrives
while in_expected of peer 1 is 7. -/
theorem state_rxing_exact_match_witness :
    (state_rxing xorCipher coreA 1000 msgZero msgZero
      { type := EVENTS.RXMSG,
        data := DATA.rxdone { data := some (buildFrame xorCipher cfgA 0xBEEF [] msgHello).1,
                              length := 16, rssi := -40, snr := 5 },
        datalen := 12 }).1 = STATES.WAIT_SLOT_TX_ACK ∧
    ((state_rxing xorCipher coreA 1000 msgZero msgZero
      { type := EVENTS.RXMSG,
        data := DATA.rxdone { data := some (buildFrame xorCipher cfgA 0xBEEF [] msgHello).1,
                              length := 16, rssi := -40, snr := 5 },
        datalen := 12 }).2.peers
        (retrieveMessage xorCipher coreA.cfg msgZero
          (buildFrame xorCipher cfgA 0xBEEF [] msgHello).1).2.content.toStd.srcId).in_expected
      = ((coreA.peers (retrieveMessage xorCipher coreA.cfg msgZero
          (buildFrame xorCipher cfgA 0xBEEF [] msgHello).1).2.content.toStd.srcId).in_expected
          % 255) + 1 :=
  ⟨(state_rxing_exact_match xorCipher coreA 1000 msgZero msgZero
      (buildFrame xorCipher cfgA 0xBEEF [] msgHello).1 16 12 (-40) 5
      (by decide) (by decide) (by decide) (by decide)).1,
   (state_rxing_exact_match xorCipher coreA 1000 msgZero msgZero
      (buildFrame xorCipher cfgA 0xBEEF [] msgHello).1 16 12 (-40) 5
      (by decide) (by decide) (by decide) (by decide)).2.1⟩

/-- Witness of claim C3: a frame whose version nibble is 2, and a built frame
with bit 5 of its first byte inverted. -/
theorem retrieveMessage_version_rejected_witness :
    (retrieveMessage xorCipher cfgA msgZero [0x21, 0, 0, 0, 0, 0]).1 = -4 ∧
    (retrieveMessage xorCipher cfgA msgZero
      (flipBit (buildFrame xorCipher cfgA 0xBEEF [] msgHello).1 0 5)).1 = -4 :=
  ⟨retrieveMessage_version_rejected.1 xorCipher cfgA msgZero [0x21, 0, 0, 0, 0, 0] (by decide),
   retrieveMessage_version_rejected.2 xorCipher cfgA 0xBEEF [] msgHello msgZero 5
     (by decide) (by decide) (by decide) (by decide)⟩

/-- The part of `state_rxing` after a unicast frame was accepted and queued:
the next state, the new peer table and the flags of the queued message, as a
function of the sender, the frame's txSeq and the peer table. -/
theorem state_rxing_accepted (c : Cipher) (s : Core) (now : Nat) (uninit uninitAck : MSG_T)
    (frame : List Nat) (len dlen : Nat) (rssi snr : Int) (p R : Nat)
    (hacc : (retrieveMessage c s.cfg uninit frame).1 = 0)
    (huni : (retrieveMessage c s.cfg uninit frame).2.content.toStd.destId ≠ LOWAPP_ID_BROADCAST)
    (hq : s._rx_pkt_list.count < MAXQSZ)
    (hp : (retrieveMessage c s.cfg uninit frame).2.content.toStd.srcId = p)
    (hR : (retrieveMessage c s.cfg uninit frame).2.content.toStd.txSeq = R)
    (hreset : ¬ (R = 0 ∧ (s.peers p).in_expected ≠ 0)) :
    (state_rxing c s now uninit uninitAck (rxmsgEvent frame len dlen rssi snr)).1
      = STATES.WAIT_SLOT_TX_ACK ∧
    (state_rxing c s now uninit uninitAck (rxmsgEvent frame len dlen rssi snr)).2.peers
      = (if R = (s.peers p).in_expected then
          Function.update s.peers p
            { s.peers p with in_expected := ((s.peers p).in_expected % 255) + 1 }
        else if R > (s.peers p).in_expected ∨
            (R < SEQ_ROLLOVER_LOW_THRESHOLD ∧
              (s.peers p).in_expected > SEQ_ROLLOVER_HIGH_THRESHOLD) then
          Function.update s.peers p { s.peers p with in_expected := (R % 255) + 1 }
        else s.peers) ∧
    deliveredState
        (state_rxing c s now uninit uninitAck (rxmsgEvent frame len dlen rssi snr)).2
        s._rx_pkt_list.head
      = some (if R = (s.peers p).in_expected then { duplicate_flag := 0, missing_frames := 0 }
        else if R > (s.peers p).in_expected ∨
            (R < SEQ_ROLLOVER_LOW_THRESHOLD ∧
              (s.peers p).in_expected > SEQ_ROLLOVER_HIGH_THRESHOLD) then
          { duplicate_flag := 0,
            missing_frames := (R + 256 - (s.peers p).in_expected % 256) % 256 }
        else if (R < (s.peers p).in_expected ∨
            (R > SEQ_ROLLOVER_HIGH_THRESHOLD ∧
              (s.peers p).in_expected < SEQ_ROLLOVER_LOW_THRESHOLD)) ∧
            (((s.peers p).in_expected : Int) - (R : Int) < 10) then
          { duplicate_flag := 1, missing_frames := 0 }
        else { duplicate_flag := 0, missing_frames := 0 }) := by
  obtain ⟨hr, hcount, _, _⟩ := add_to_queue_not_full s._rx_pkt_list
    (DATA.rxapp { state := { duplicate_flag := 0, missing_frames := 0 },
                  msg := (retrieveMessage c s.cfg uninit frame).2, rssi := rssi, snr := snr })
    sizeof_MSG_RX_APP_T hq
  simp only [state_rxing, rxmsgEvent, deliveredState, hacc, if_true, hr, ne_eq,
    not_false_eq_true, huni, if_false, hp, hR, hreset, Function.update_same, true_and]
  split_ifs <;> simp

/-- Claim C11: inbound sequence, gap.  When `state_rxing` accepts and queues a
unicast Standard frame from peer p whose txSeq R (one byte) is greater than the
in_expected value E recorded for p, the queued message has duplicate_flag = 0
and missing_frames = R - E, and in_expected of p becomes (R mod 255) + 1. -/
theorem state_rxing_gap (c : Cipher) (s : Core) (now : Nat) (uninit uninitAck : MSG_T)
    (frame : List Nat) (len dlen : Nat) (rssi snr : Int) (p R E : Nat)
    (hacc : (retrieveMessage c s.cfg uninit frame).1 = 0)
    (huni : (retrieveMessage c s.cfg uninit frame).2.content.toStd.destId ≠ LOWAPP_ID_BROADCAST)
    (hq : s._rx_pkt_list.count < MAXQSZ)
    (hp : (retrieveMessage c s.cfg uninit frame).2.content.toStd.srcId = p)
    (hR : (retrieveMessage c s.cfg uninit frame).2.content.toStd.txSeq = R)
    (hE : (s.peers p).in_expected = E)
    (hbyte : R < 256) (hgap : R > E) :
    (state_rxing c s now uninit uninitAck (rxmsgEvent frame len dlen rssi snr)).1
      = STATES.WAIT_SLOT_TX_ACK ∧
    deliveredState
        (state_rxing c s now uninit uninitAck (rxmsgEvent frame len dlen rssi snr)).2
        s._rx_pkt_list.head
      = some { duplicate_flag := 0, missing_frames := R - E } ∧
    ((state_rxing c s now uninit uninitAck (rxmsgEvent frame len dlen rssi snr)).2.peers
        p).in_expected = (R % 255) + 1 := by
  have hreset : ¬ (R = 0 ∧ (s.peers p).in_expected ≠ 0) := by
    rintro ⟨h0, _⟩
    omega
  obtain ⟨h1, h2, h3⟩ := state_rxing_accepted c s now uninit uninitAck frame len dlen rssi snr
    p R hacc huni hq hp hR hreset
  have hne : ¬ (R = E) := by omega
  have hsub : (R + 256 - E % 256) % 256 = R - E := by omega
  rw [hE] at h2 h3
  rw [if_neg hne, if_pos (Or.inl hgap)] at h2 h3
  refine ⟨h1, ?_, ?_⟩
  · rw [h3, hsub]
  · rw [h2, Function.update_same]

/-- Witness of claim C11: in_expected is 5 and the frame carries txSeq 8. -/
theorem state_rxing_gap_witness :
    deliveredState
        (state_rxing xorCipher (coreE 5) 1000 msgZero msgZero
          (rxmsgEvent (buildFrame xorCipher cfgA 0xBEEF [] (msgSeq 8)).1 16 12 (-40) 5)).2 0
      = some { duplicate_flag := 0, missing_frames := 3 } ∧
    ((state_rxing xorCipher (coreE 5) 1000 msgZero msgZero
          (rxmsgEvent (buildFrame xorCipher cfgA 0xBEEF [] (msgSeq 8)).1 16 12 (-40) 5)).2.peers
        1).in_expected = 9 :=
  (state_rxing_gap xorCipher (coreE 5) 1000 msgZero msgZero
    (buildFrame xorCipher cfgA 0xBEEF [] (msgSeq 8)).1 16 12 (-40) 5 1 8 5
    (by decide) (by decide) (by decide) (by decide) (by decide) (by decide)
    (by decide) (by decide)).2

/-- Claim C12: inbound sequence, duplicate.  When `state_rxing` accepts and
queues a unicast Standard frame from peer p whose txSeq R satisfies 1 <= R < E,
E - R < 10 and not (R < 30 and E > 230), where E is the in_expected value
recorded for p, the queued message has duplicate_flag = 1 and
missing_frames = 0, and the peer table is left as it was. -/
theorem state_rxing_duplicate (c : Cipher) (s : Core) (now : Nat) (uninit uninitAck : MSG_T)
    (frame : List Nat) (len dlen : Nat) (rssi snr : Int) (p R E : Nat)
    (hacc : (retrieveMessage c s.cfg uninit frame).1 = 0)
    (huni : (retrieveMessage c s.cfg uninit frame).2.content.toStd.destId ≠ LOWAPP_ID_BROADCAST)
    (hq : s._rx_pkt_list.count < MAXQSZ)
    (hp : (retrieveMessage c s.cfg uninit frame).2.content.toStd.srcId = p)
    (hR : (retrieveMessage c s.cfg uninit frame).2.content.toStd.txSeq = R)
    (hE : (s.peers p).in_expected = E)
    (hpos : 1 ≤ R) (hlt : R < E) (hnear : E - R < 10)
    (hnoroll : ¬ (R < 30 ∧ E > 230)) :
    (state_rxing c s now uninit uninitAck (rxmsgEvent frame len dlen rssi snr)).1
      = STATES.WAIT_SLOT_TX_ACK ∧
    deliveredState
        (state_rxing c s now uninit uninitAck (rxmsgEvent frame len dlen rssi snr)).2
        s._rx_pkt_list.head
      = some { duplicate_flag := 1, missing_frames := 0 } ∧
    (state_rxing c s now uninit uninitAck (rxmsgEvent frame len dlen rssi snr)).2.peers
      = s.peers := by
  have hreset : ¬ (R = 0 ∧ (s.peers p).in_expected ≠ 0) := by
    rintro ⟨h0, _⟩
    omega
  obtain ⟨h1, h2, h3⟩ := state_rxing_accepted c s now uninit uninitAck frame len dlen rssi snr
    p R hacc huni hq hp hR hreset
  have hne : ¬ (R = E) := by omega
  have hngap : ¬ (R > E ∨ (R < SEQ_ROLLOVER_LOW_THRESHOLD ∧ E > SEQ_ROLLOVER_HIGH_THRESHOLD)) := by
    rintro (h | h)
    · omega
    · exact hnoroll h
  have hdup : (R < E ∨ (R > SEQ_ROLLOVER_HIGH_THRESHOLD ∧ E < SEQ_ROLLOVER_LOW_THRESHOLD)) ∧
      ((E : Int) - (R : Int) < 10) := ⟨Or.inl hlt, by omega⟩
  rw [hE] at h2 h3
  rw [if_neg hne, if_neg hngap] at h2 h3
  rw [if_pos hdup] at h3
  exact ⟨h1, h3, h2⟩

/-- Witness of claim C12: in_expected is 9 and the frame carries txSeq 7. -/
theorem state_rxing_duplicate_witness :
    deliveredState
        (state_rxing xorCipher (coreE 9) 1000 msgZero msgZero
          (rxmsgEvent (buildFrame xorCipher cfgA 0xBEEF [] (msgSeq 7)).1 16 12 (-40) 5)).2 0
      = some { duplicate_flag := 1, missing_frames := 0 } ∧
    (state_rxing xorCipher (coreE 9) 1000 msgZero msgZero
          (rxmsgEvent (buildFrame xorCipher cfgA 0xBEEF [] (msgSeq 7)).1 16 12 (-40) 5)).2.peers
      = (coreE 9).peers :=
  (state_rxing_duplicate xorCipher (coreE 9) 1000 msgZero msgZero
    (buildFrame xorCipher cfgA 0xBEEF [] (msgSeq 7)).1 16 12 (-40) 5 1 7 9
    (by decide) (by decide) (by decide) (by decide) (by decide) (by decide)
    (by decide) (by decide) (by decide) (by decide)).2

/-- Repeated successor in the sequence space 1..255, in closed form. -/
theorem seqSucc_iterate (k E : Nat) (h1 : 1 ≤ E) (h2 : E ≤ 255) :
    seqSucc^[k] E = (E - 1 + k) % 255 + 1 := by
  induction k with
  | zero =>
    show E = (E - 1 + 0) % 255 + 1
    omega
  | succ n ih =>
    rw [Function.iterate_succ_apply', ih]
    unfold seqSucc
    omega

/-- Claim C13: inbound sequence, rollover.  For E > 230 (one byte) and
1 <= R < 30, `state_rxing` classifies the frame as a forward gap
(duplicate_flag = 0) and sets in_expected to R + 1, but the missing_frames it
records is R + 256 - E, the difference modulo 256, whereas the number of
successor steps x -> (x mod 255) + 1 that lead from E to R is R + 255 - E: the
recorded count is one more, and that many steps lead from E to R + 1. -/
theorem state_rxing_rollover_count (c : Cipher) (s : Core) (now : Nat)
    (uninit uninitAck : MSG_T)
    (frame : List Nat) (len dlen : Nat) (rssi snr : Int) (p R E : Nat)
    (hacc : (retrieveMessage c s.cfg uninit frame).1 = 0)
    (huni : (retrieveMessage c s.cfg uninit frame).2.content.toStd.destId ≠ LOWAPP_ID_BROADCAST)
    (hq : s._rx_pkt_list.count < MAXQSZ)
    (hp : (retrieveMessage c s.cfg uninit frame).2.content.toStd.srcId = p)
    (hR : (retrieveMessage c s.cfg uninit frame).2.content.toStd.txSeq = R)
    (hE : (s.peers p).in_expected = E)
    (hhigh : E > 230) (hbyte : E < 256) (hpos : 1 ≤ R) (hlow : R < 30) :
    deliveredState
        (state_rxing c s now uninit uninitAck (rxmsgEvent frame len dlen rssi snr)).2
        s._rx_pkt_list.head
      = some { duplicate_flag := 0, missing_frames := R + 256 - E } ∧
    ((state_rxing c s now uninit uninitAck (rxmsgEvent frame len dlen rssi snr)).2.peers
        p).in_expected = R + 1 ∧
    seqSucc^[R + 255 - E] E = R ∧
    seqSucc^[R + 256 - E] E = R + 1 ∧
    (∀ k, k < R + 255 - E → seqSucc^[k] E ≠ R) := by
  have hreset : ¬ (R = 0 ∧ (s.peers p).in_expected ≠ 0) := by
    rintro ⟨h0, _⟩
    omega
  obtain ⟨h1, h2, h3⟩ := state_rxing_accepted c s now uninit uninitAck frame len dlen rssi snr
    p R hacc huni hq hp hR hreset
  have hne : ¬ (R = E) := by omega
  have hgap : R > E ∨ (R < SEQ_ROLLOVER_LOW_THRESHOLD ∧ E > SEQ_ROLLOVER_HIGH_THRESHOLD) :=
    Or.inr ⟨hlow, hhigh⟩
  have hsub : (R + 256 - E % 256) % 256 = R + 256 - E := by omega
  have hmod : R % 255 + 1 = R + 1 := by omega
  rw [hE] at h2 h3
  rw [if_neg hne, if_pos hgap] at h2 h3
  refine ⟨?_, ?_, ?_, ?_, ?_⟩
  · rw [h3, hsub]
  · rw [h2, Function.update_same, hmod]
  · rw [seqSucc_iterate _ _ (by omega) (by omega)]
    omega
  · rw [seqSucc_iterate _ _ (by omega) (by omega)]
    omega
  · intro k hk
    rw [seqSucc_iterate _ _ (by omega) (by omega)]
    omega

/-- Witness of claim C13: in_expected is 250 and the frame carries txSeq 3; the
recorded count is 9 while 8 sequence numbers were skipped. -/
theorem state_rxing_rollover_count_witness :
    deliveredState
        (state_rxing xorCipher (coreE 250) 1000 msgZero msgZero
          (rxmsgEvent (buildFrame xorCipher cfgA 0xBEEF [] (msgSeq 3)).1 16 12 (-40) 5)).2 0
      = some { duplicate_flag := 0, missing_frames := 9 } ∧
    seqSucc^[8] 250 = 3 :=
  ⟨(state_rxing_rollover_count xorCipher (coreE 250) 1000 msgZero msgZero
    (buildFrame xorCipher cfgA 0xBEEF [] (msgSeq 3)).1 16 12 (-40) 5 1 3 250
    (by decide) (by decide) (by decide) (by decide) (by decide) (by decide)
    (by decide) (by decide) (by decide) (by decide)).1,
   (state_rxing_rollover_count xorCipher (coreE 250) 1000 msgZero msgZero
    (buildFrame xorCipher cfgA 0xBEEF [] (msgSeq 3)).1 16 12 (-40) 5 1 3 250
    (by decide) (by decide) (by decide) (by decide) (by decide) (by decide)
    (by decide) (by decide) (by decide) (by decide)).2.2.1⟩

/-- A wrapping one-byte counter of the zeros of `f` over a list of fewer than
256 indices counts them exactly. -/
theorem zeroCount_foldl (f : Nat → Nat) (l : List Nat) (j0 : Nat) (h : j0 + l.length < 256) :
    l.foldl (fun j i => if f i = 0 then (j + 1) % 256 else j) j0
      = j0 + l.countP (fun i => decide (f i = 0)) := by
  induction l generalizing j0 with
  | nil => rfl
  | cons a t ih =>
    have hlen : (a :: t).length = t.length + 1 := rfl
    rw [hlen] at h
    rw [List.foldl_cons, List.countP_cons]
    by_cases ha : f a = 0
    · have hm : (j0 + 1) % 256 = j0 + 1 := by omega
      rw [if_pos ha, hm, ih (j0 + 1) (by omega)]
      simp only [ha, decide_True, if_true]
      omega
    · rw [if_neg ha, ih j0 (by omega)]
      simp only [ha, decide_False, Bool.false_eq_true, if_false]
      omega

/-- The counter of `check_configuration` reaches 16 exactly when the 16 key
bytes are all zero. -/
theorem zeroCount_eq_iff (key : List Nat) :
    (List.range ENCKEY_SIZE).foldl
        (fun j i => if get_byte key i = 0 then (j + 1) % 256 else j) 0 = ENCKEY_SIZE
      ↔ ∀ i, i < 16 → get_byte key i = 0 := by
  rw [zeroCount_foldl (fun i => get_byte key i) (List.range ENCKEY_SIZE) 0
    (by rw [List.length_range]; decide), Nat.zero_add]
  have hlen : ENCKEY_SIZE = (List.range ENCKEY_SIZE).length := (List.length_range _).symm
  conv_lhs => rhs; rw [hlen]
  rw [List.countP_eq_length]
  constructor
  · intro h i hi
    have := h i (List.mem_range.mpr hi)
    simpa using this
  · intro h i hi
    have := h i (List.mem_range.mp hi)
    simpa using this

/-- Claim C19: `check_configuration` returns true if and only if at least one
of the 16 key bytes is non-zero, _preambleLen is non-zero, 1 <= _deviceId <= 250,
7 <= _rsf <= 12 and _rchanId <= 15. -/
theorem check_configuration_iff (cfg : Config) :
    check_configuration cfg = true ↔
      (∃ i, i < 16 ∧ get_byte cfg._encryptionKey i ≠ 0) ∧
      cfg._preambleLen ≠ 0 ∧
      (1 ≤ cfg._deviceId ∧ cfg._deviceId ≤ 250) ∧
      (7 ≤ cfg._rsf ∧ cfg._rsf ≤ 12) ∧
      cfg._rchanId ≤ 15 := by
  have hkey := zeroCount_eq_iff cfg._encryptionKey
  have hex : (∃ i, i < 16 ∧ get_byte cfg._encryptionKey i ≠ 0) ↔
      ¬ (∀ i, i < 16 → get_byte cfg._encryptionKey i = 0) := by
    constructor
    · rintro ⟨i, hi, hne⟩ hall
      exact hne (hall i hi)
    · intro hn
      by_contra hcon
      apply hn
      intro i hi
      by_contra hne
      exact hcon ⟨i, hi, hne⟩
  rw [hex, ← hkey]
  unfold check_configuration
  simp only [MAX_DEVICE_ID, MIN_DEVICE_ID, MIN_SPREADINGFACTOR, MAX_SPREADINGFACTOR,
    MAX_RCHAN_ID]
  split_ifs with h1 h2 h3 h4 h5
  · simp [h1]
  · simp [h1, h2]
  · simp only [h1, h2, not_false_eq_true, ne_eq, true_and, Bool.false_eq_true, false_iff]
    omega
  · simp only [h1, h2, not_false_eq_true, ne_eq, true_and, Bool.false_eq_true, false_iff]
    omega
  · simp only [h1, h2, not_false_eq_true, ne_eq, true_and, Bool.false_eq_true, false_iff]
    omega
  · simp only [h1, h2, not_false_eq_true, ne_eq, true_and, true_iff]
    omega

/-- Claim C20: configuration gating of connect.  When the node is
disconnected, `cmd_connect` sets _connected and arms the periodic timer with
_cad_interval (and answers "OK CONNECT", returning 0) if `check_configuration`
holds; if it does not hold, `cmd_connect` returns the error code with the
message "Invalid configuration", makes no call to the system layer and leaves
_connected false. -/
theorem cmd_connect_gated (s : Core) (hdis : s.cfg._connected = false) :
    (check_configuration s.cfg = true →
      (cmd_connect s).1 = 0 ∧
      (cmd_connect s).2.2.cfg._connected = true ∧
      (cmd_connect s).2.2.calls = s.calls ++
        [SysCall.setRepetitiveTimer s.cfg._cad_interval, SysCall.cmdResponse "OK CONNECT"]) ∧
    (check_configuration s.cfg = false →
      (cmd_connect s).1 = LOWAPP_ERR_INVAL ∧
      (cmd_connect s).2.1 = some "Invalid configuration" ∧
      (cmd_connect s).2.2.cfg._connected = false ∧
      (cmd_connect s).2.2.calls = s.calls) := by
  have hmode : check_configuration
      { _deviceId := s.cfg._deviceId, _groupId := s.cfg._groupId,
        _encryptionKey := s.cfg._encryptionKey, _preambleLen := s.cfg._preambleLen,
        _rsf := s.cfg._rsf, _rchanId := s.cfg._rchanId, _connected := false,
        _opMode := NODE_MODE_T.PULL, _cad_interval := s.cfg._cad_interval }
      = check_configuration s.cfg := rfl
  constructor
  · intro h
    simp only [cmd_connect, hdis, hmode, h, Bool.false_eq_true, not_false_eq_true, if_true,
      List.append_assoc, List.singleton_append, and_self]
  · intro h
    simp only [cmd_connect, hdis, hmode, h, Bool.false_eq_true, not_false_eq_true, if_true,
      if_false, and_self]

/-- Witness of claim C20: a disconnected node with a complete configuration
connects and arms the timer; with an all-zero key it does not. -/
theorem cmd_connect_gated_witness :
    ((cmd_connect { coreA with cfg := cfgValid }).2.2.cfg._connected = true ∧
      (cmd_connect { coreA with cfg := cfgValid }).2.2.calls =
        [SysCall.setRepetitiveTimer 2000, SysCall.cmdResponse "OK CONNECT"]) ∧
    ((cmd_connect { coreA with cfg := cfgZeroKey }).1 = -1 ∧
      (cmd_connect { coreA with cfg := cfgZeroKey }).2.2.cfg._connected = false ∧
      (cmd_connect { coreA with cfg := cfgZeroKey }).2.2.calls = []) :=
  ⟨((cmd_connect_gated { coreA with cfg := cfgValid } rfl).1 (by decide)).2,
   ⟨((cmd_connect_gated { coreA with cfg := cfgZeroKey } rfl).2 (by decide)).1,
    ((cmd_connect_gated { coreA with cfg := cfgZeroKey } rfl).2 (by decide)).2.2⟩⟩

/-- A push on a ring buffer that is not full appends the item. -/
theorem RingRep_push {α : Type} (h t c : Nat) (sl : Nat → α) (l : List α) (x : α)
    (hr : RingRep h t c sl l) (hlt : l.length < 16) :
    RingRep ((h + 1) % 16) t ((c + 1) % 256) (Function.update sl h x) (l ++ [x]) := by
  obtain ⟨ht, hc, hle, hh, hs⟩ := hr
  have hlen : (l ++ [x]).length = l.length + 1 := by
    rw [List.length_append]
    rfl
  refine ⟨ht, ?_, ?_, ?_, ?_⟩
  · rw [hlen]
    omega
  · rw [hlen]
    omega
  · rw [hlen]
    omega
  · intro i hi
    rw [hlen] at hi
    by_cases hil : i < l.length
    · have hne : (t + i) % 16 ≠ h := by omega
      rw [List.getElem?_append_left hil, Function.update_noteq hne]
      exact hs i hil
    · have hi2 : i = l.length := by omega
      have hidx : (t + i) % 16 = h := by omega
      rw [hidx, Function.update_same, hi2]
      simp

/-- A pop on a ring buffer that holds an item returns the oldest item and
leaves the others. -/
theorem RingRep_pop {α : Type} (h t c : Nat) (sl : Nat → α) (x : α) (l : List α) (reset : α)
    (hr : RingRep h t c sl (x :: l)) :
    sl t = x ∧
    RingRep h ((t + 1) % 16) ((c + 255) % 256) (Function.update sl t reset) l := by
  obtain ⟨ht, hc, hle, hh, hs⟩ := hr
  have hlen : (x :: l).length = l.length + 1 := rfl
  rw [hlen] at hc hle hh
  have h0 := hs 0 (by rw [hlen]; omega)
  have ht0 : (t + 0) % 16 = t := by omega
  rw [ht0] at h0
  have hx : sl t = x := by
    simpa using h0.symm
  refine ⟨hx, ?_, ?_, ?_, ?_, ?_⟩
  · omega
  · omega
  · omega
  · omega
  · intro i hi
    have h1 := hs (i + 1) (by rw [hlen]; omega)
    have hidx : ((t + 1) % 16 + i) % 16 = (t + (i + 1)) % 16 := by omega
    have hne : (t + (i + 1)) % 16 ≠ t := by omega
    rw [hidx, Function.update_noteq hne, ← h1]
    simp

/-- The function `add_event` on a queue that holds `l` is the push of the
bounded FIFO. -/
theorem add_event_holds (q : QEVENT_T) (l : List EVENT_T) (t : EVENTS) (d : DATA) (dlen : Nat)
    (hq : q.Holds l) (hd : dlen < 65536) :
    (add_event q t d dlen).1 = (fifoPush l { type := t, data := d, datalen := dlen }).1 ∧
    (add_event q t d dlen).2.Holds (fifoPush l { type := t, data := d, datalen := dlen }).2 := by
  have hq2 := hq
  obtain ⟨ht, hc, hle, hh, hs⟩ := hq2
  by_cases hlt : l.length < 16
  · have hne : ¬ (q.count = MAXQSZ) := by
      show ¬ (q.count = 16)
      omega
    have hm : dlen % 65536 = dlen := Nat.mod_eq_of_lt hd
    unfold add_event fifoPush
    rw [if_neg hne, if_pos hlt, hm]
    refine ⟨?_, RingRep_push _ _ _ _ _ _ hq hlt⟩
    show toInt8 ((q.count + 1) % 256) = _
    have h1 : (q.count + 1) % 256 = l.length + 1 := by omega
    have h2 : (l.length + 1) % 256 < 128 := by omega
    have h3 : (l.length + 1) % 256 = l.length + 1 := by omega
    rw [h1]
    unfold toInt8
    rw [if_pos h2, h3]
  · have heq : q.count = MAXQSZ := by
      show q.count = 16
      omega
    unfold add_event fifoPush
    rw [if_pos heq, if_neg hlt]
    exact ⟨rfl, hq⟩

/-- The function `get_event` on a queue that holds `l` is the pop of the
bounded FIFO. -/
theorem get_event_holds (q : QEVENT_T) (l : List EVENT_T) (out : EVENT_T) (hq : q.Holds l) :
    (get_event q out).1 = (fifoPop l out).1 ∧
    (get_event q out).2.1 = (fifoPop l out).2.1 ∧
    (get_event q out).2.2.Holds (fifoPop l out).2.2 := by
  cases l with
  | nil =>
    have hc : q.count = 0 := hq.2.1
    unfold get_event
    rw [if_pos hc]
    exact ⟨rfl, rfl, hq⟩
  | cons x t =>
    have hc : q.count = t.length + 1 := hq.2.1
    have hle : t.length + 1 ≤ 16 := hq.2.2.1
    have hne : ¬ (q.count = 0) := by omega
    obtain ⟨hx, hrep⟩ := RingRep_pop q.head q.tail q.count q.evts x t
      { type := EVENTS.STATE_ENTER, data := DATA.null, datalen := 0 } hq
    unfold get_event
    rw [if_neg hne]
    refine ⟨?_, hx, hrep⟩
    show toInt8 ((q.count + 255) % 256) = ((t.length : Nat) : Int)
    have h1 : (q.count + 255) % 256 = t.length := by omega
    have h2 : t.length % 256 < 128 := by omega
    have h3 : t.length % 256 = t.length := by omega
    rw [h1]
    unfold toInt8
    rw [if_pos h2, h3]

/-- The function `add_to_queue` on a queue that holds `l` is the push of the
bounded FIFO. -/
theorem add_to_queue_holds (q : QFIXED_T) (l : List QEL_T) (d : DATA) (dlen : Nat)
    (hq : q.Holds l) (hd : dlen < 65536) :
    (add_to_queue q d dlen).1 = (fifoPush l { data := d, datalen := dlen }).1 ∧
    (add_to_queue q d dlen).2.Holds (fifoPush l { data := d, datalen := dlen }).2 := by
  have hq2 := hq
  obtain ⟨ht, hc, hle, hh, hs⟩ := hq2
  by_cases hlt : l.length < 16
  · have hne : ¬ (q.count = MAXQSZ) := by
      show ¬ (q.count = 16)
      omega
    have hm : dlen % 65536 = dlen := Nat.mod_eq_of_lt hd
    unfold add_to_queue fifoPush
    rw [if_neg hne, if_pos hlt, hm]
    refine ⟨?_, RingRep_push _ _ _ _ _ _ hq hlt⟩
    show toInt8 ((q.count + 1) % 256) = _
    have h1 : (q.count + 1) % 256 = l.length + 1 := by omega
    have h2 : (l.length + 1) % 256 < 128 := by omega
    have h3 : (l.length + 1) % 256 = l.length + 1 := by omega
    rw [h1]
    unfold toInt8
    rw [if_pos h2, h3]
  · have heq : q.count = MAXQSZ := by
      show q.count = 16
      omega
    unfold add_to_queue fifoPush
    rw [if_pos heq, if_neg hlt]
    exact ⟨rfl, hq⟩

/-- The function `get_from_queue` on a queue that holds `l` is the pop of the
bounded FIFO. -/
theorem get_from_queue_holds (q : QFIXED_T) (l : List QEL_T) (out : QEL_T) (hq : q.Holds l) :
    (get_from_queue q out).1 = (fifoPop l out).1 ∧
    (get_from_queue q out).2.1 = (fifoPop l out).2.1 ∧
    (get_from_queue q out).2.2.Holds (fifoPop l out).2.2 := by
  cases l with
  | nil =>
    have hc : q.count = 0 := hq.2.1
    unfold get_from_queue
    rw [if_pos hc]
    exact ⟨rfl, rfl, hq⟩
  | cons x t =>
    have hc : q.count = t.length + 1 := hq.2.1
    have hle : t.length + 1 ≤ 16 := hq.2.2.1
    have hne : ¬ (q.count = 0) := by omega
    obtain ⟨hx, hrep⟩ := RingRep_pop q.head q.tail q.count q.els x t
      { data := DATA.null, datalen := 0 } hq
    unfold get_from_queue
    rw [if_neg hne]
    refine ⟨?_, hx, hrep⟩
    show toInt8 ((q.count + 255) % 256) = ((t.length : Nat) : Int)
    have h1 : (q.count + 255) % 256 = t.length := by omega
    have h2 : t.length % 256 < 128 := by omega
    have h3 : t.length % 256 = t.length := by omega
    rw [h1]
    unfold toInt8
    rw [if_pos h2, h3]

/-- A zero-initialised event queue holds nothing. -/
theorem emptyEventQueue_holds : emptyEventQueue.Holds [] :=
  ⟨by decide, rfl, by decide, rfl, fun i hi => absurd hi (Nat.not_lt_zero i)⟩

/-- A zero-initialised generic queue holds nothing. -/
theorem emptyQueue_holds : emptyQueue.Holds [] :=
  ⟨by decide, rfl, by decide, rfl, fun i hi => absurd hi (Nat.not_lt_zero i)⟩

/-- From a queue that holds `l`, every sequence of `add_event` and `get_event`
calls is observed as the same calls on the bounded FIFO that holds `l`. -/
theorem runEventQueue_refines (ops : List (QOp EVENT_T)) (q : QEVENT_T) (l : List EVENT_T)
    (out : EVENT_T) (hq : q.Holds l) (hf : QOp.fits EVENT_T.datalen ops = true) :
    runEventQueue ops q out = runFifo ops l out := by
  induction ops generalizing q l out with
  | nil => rfl
  | cons op ops ih =>
    cases op with
    | push x =>
      have hf2 : (decide (x.datalen < 65536) && QOp.fits EVENT_T.datalen ops) = true := hf
      rw [Bool.and_eq_true, decide_eq_true_eq] at hf2
      obtain ⟨h1, h2⟩ := add_event_holds q l x.type x.data x.datalen hq hf2.1
      show QObs.pushed _ :: runEventQueue ops _ out = QObs.pushed _ :: runFifo ops _ out
      rw [h1, ih _ _ out h2 hf2.2]
    | pop =>
      obtain ⟨h1, h2, h3⟩ := get_event_holds q l out hq
      show QObs.popped _ _ :: runEventQueue ops _ _ = QObs.popped _ _ :: runFifo ops _ _
      rw [h1, h2, ih _ _ _ h3 hf]

/-- From a queue that holds `l`, every sequence of `add_to_queue` and
`get_from_queue` calls is observed as the same calls on the bounded FIFO that
holds `l`. -/
theorem runQueue_refines (ops : List (QOp QEL_T)) (q : QFIXED_T) (l : List QEL_T)
    (out : QEL_T) (hq : q.Holds l) (hf : QOp.fits QEL_T.datalen ops = true) :
    runQueue ops q out = runFifo ops l out := by
  induction ops generalizing q l out with
  | nil => rfl
  | cons op ops ih =>
    cases op with
    | push x =>
      have hf2 : (decide (x.datalen < 65536) && QOp.fits QEL_T.datalen ops) = true := hf
      rw [Bool.and_eq_true, decide_eq_true_eq] at hf2
      obtain ⟨h1, h2⟩ := add_to_queue_holds q l x.data x.datalen hq hf2.1
      show QObs.pushed _ :: runQueue ops _ out = QObs.pushed _ :: runFifo ops _ out
      rw [h1, ih _ _ out h2 hf2.2]
    | pop =>
      obtain ⟨h1, h2, h3⟩ := get_from_queue_holds q l out hq
      show QObs.popped _ _ :: runQueue ops _ _ = QObs.popped _ _ :: runFifo ops _ _
      rw [h1, h2, ih _ _ _ h3 hf]

/-- Pops on a queue that holds `l` return the events of `l` in order. -/
theorem drainEvents_holds (l : List EVENT_T) (q : QEVENT_T) (out : EVENT_T) (hq : q.Holds l) :
    drainEvents l.length q out = l := by
  induction l generalizing q out with
  | nil => rfl
  | cons x t ih =>
    obtain ⟨_, h2, h3⟩ := get_event_holds q (x :: t) out hq
    show (get_event q out).2.1 :: drainEvents t.length _ _ = x :: t
    rw [ih _ _ h3, h2]
    rfl

/-- Pops on a queue that holds `l` return the elements of `l` in order. -/
theorem drainQueue_holds (l : List QEL_T) (q : QFIXED_T) (out : QEL_T) (hq : q.Holds l) :
    drainQueue l.length q out = l := by
  induction l generalizing q out with
  | nil => rfl
  | cons x t ih =>
    obtain ⟨_, h2, h3⟩ := get_from_queue_holds q (x :: t) out hq
    show (get_from_queue q out).2.1 :: drainQueue t.length _ _ = x :: t
    rw [ih _ _ h3, h2]
    rfl

/-- Claim C16: a push on a full queue is rejected atomically.  When the count
of an event queue or of a generic queue is MAXQSZ = 16, `add_event` and
`add_to_queue` return -1 and leave the queue as it was (head, tail, count and
every slot), so that 16 pops afterwards return the 16 items held, oldest
first. -/
theorem push_on_full_rejected (qe : QEVENT_T) (t : EVENTS) (d : DATA) (dlen : Nat)
    (qf : QFIXED_T) (d2 : DATA) (dlen2 : Nat)
    (hqe : qe.count = MAXQSZ) (hqf : qf.count = MAXQSZ) :
    add_event qe t d dlen = (-1, qe) ∧
    add_to_queue qf d2 dlen2 = (-1, qf) ∧
    (∀ l out, qe.Holds l → drainEvents 16 (add_event qe t d dlen).2 out = l) ∧
    (∀ l out, qf.Holds l → drainQueue 16 (add_to_queue qf d2 dlen2).2 out = l) := by
  have h1 : add_event qe t d dlen = (-1, qe) := by
    unfold add_event
    rw [if_pos hqe]
  have h2 : add_to_queue qf d2 dlen2 = (-1, qf) := by
    unfold add_to_queue
    rw [if_pos hqf]
  refine ⟨h1, h2, ?_, ?_⟩
  · intro l out hl
    have hlen : l.length = 16 := by
      have := hl.2.1
      rw [hqe] at this
      exact this.symm
    rw [h1, ← hlen]
    exact drainEvents_holds l qe out hl
  · intro l out hl
    have hlen : l.length = 16 := by
      have := hl.2.1
      rw [hqf] at this
      exact this.symm
    rw [h2, ← hlen]
    exact drainQueue_holds l qf out hl

/-- Witness of claim C16: a 17th push on the queues filled with the items
0, 1, ..., 15. -/
theorem push_on_full_rejected_witness :
    add_event (eventQueueOf 16) EVENTS.RXMSG DATA.null 0 = (-1, eventQueueOf 16) ∧
    add_to_queue (queueOf 16) DATA.null 0 = (-1, queueOf 16) ∧
    drainEvents 16 (add_event (eventQueueOf 16) EVENTS.RXMSG DATA.null 0).2
        { type := EVENTS.STATE_ENTER, data := DATA.null, datalen := 0 }
      = (List.range 16).map
          (fun i => { type := EVENTS.TXREQ, data := DATA.value i, datalen := 4 }) ∧
    drainQueue 16 (add_to_queue (queueOf 16) DATA.null 0).2
        { data := DATA.null, datalen := 0 }
      = (List.range 16).map (fun i => { data := DATA.value i, datalen := 4 }) :=
  ⟨(push_on_full_rejected (eventQueueOf 16) EVENTS.RXMSG DATA.null 0
      (queueOf 16) DATA.null 0 (by decide) (by decide)).1,
   (push_on_full_rejected (eventQueueOf 16) EVENTS.RXMSG DATA.null 0
      (queueOf 16) DATA.null 0 (by decide) (by decide)).2.1,
   (push_on_full_rejected (eventQueueOf 16) EVENTS.RXMSG DATA.null 0
      (queueOf 16) DATA.null 0 (by decide) (by decide)).2.2.1 _ _ (by decide),
   (push_on_full_rejected (eventQueueOf 16) EVENTS.RXMSG DATA.null 0
      (queueOf 16) DATA.null 0 (by decide) (by decide)).2.2.2 _ _ (by decide)⟩

/-- Claim C17: the ring buffers refine a bounded FIFO.  Starting from a
zero-initialised queue, every sequence of `add_event` and `get_event` calls,
and every sequence of `add_to_queue` and `get_from_queue` calls, whose lengths
fit the 16-bit parameter, is observed (return values and output parameters)
exactly as the same calls on a list of capacity 16, where a push appends at the
back and returns the new length or returns -1 when 16 items are held, and a
pop returns the oldest item intact and the new length, or returns -1 and
changes nothing when the list is empty. -/
theorem queues_refine_bounded_fifo (evOps : List (QOp EVENT_T)) (elOps : List (QOp QEL_T))
    (evOut : EVENT_T) (elOut : QEL_T)
    (hev : QOp.fits EVENT_T.datalen evOps = true)
    (hel : QOp.fits QEL_T.datalen elOps = true) :
    runEventQueue evOps emptyEventQueue evOut = runFifo evOps [] evOut ∧
    runQueue elOps emptyQueue elOut = runFifo elOps [] elOut :=
  ⟨runEventQueue_refines evOps emptyEventQueue [] evOut emptyEventQueue_holds hev,
   runQueue_refines elOps emptyQueue [] elOut emptyQueue_holds hel⟩

/-- Witness of claim C17: two pushes followed by three pops, on each kind of
queue. -/
theorem queues_refine_bounded_fifo_witness :
    runEventQueue evOpsA emptyEventQueue
        { type := EVENTS.STATE_ENTER, data := DATA.null, datalen := 0 }
      = [QObs.pushed 1, QObs.pushed 2,
         QObs.popped 1 { type := EVENTS.TXREQ, data := DATA.value 1, datalen := 4 },
         QObs.popped 0 { type := EVENTS.RXMSG, data := DATA.value 2, datalen := 8 },
         QObs.popped (-1) { type := EVENTS.RXMSG, data := DATA.value 2, datalen := 8 }] ∧
    runQueue elOpsA emptyQueue { data := DATA.null, datalen := 0 }
      = [QObs.pushed 1, QObs.pushed 2,
         QObs.popped 1 { data := DATA.value 1, datalen := 4 },
         QObs.popped 0 { data := DATA.value 2, datalen := 8 },
         QObs.popped (-1) { data := DATA.value 2, datalen := 8 }] :=
  ⟨(queues_refine_bounded_fifo evOpsA elOpsA
      { type := EVENTS.STATE_ENTER, data := DATA.null, datalen := 0 }
      { data := DATA.null, datalen := 0 } rfl rfl).1.trans rfl,
   (queues_refine_bounded_fifo evOpsA elOpsA
      { type := EVENTS.STATE_ENTER, data := DATA.null, datalen := 0 }
      { data := DATA.null, datalen := 0 } rfl rfl).2.trans rfl⟩

/-- Claim C15: the peer-reboot case of `process_ack`.  For every Ack with
expectedSeq = 0 and rxdSeq different from 0, `process_ack` sets the record of
the Ack's source peer to out_txseq = 1, out_rxseq = 1, in_expected = 0,
whatever it held, leaves the other records as they were, and answers
"OK TX". -/
theorem process_ack_peer_reboot (s : Core) (msg : MSG_T)
    (hexp : msg.content.toAck.expectedSeq = 0) (hrxd : msg.content.toAck.rxdSeq ≠ 0) :
    (process_ack s msg).peers msg.content.toAck.srcId
      = { out_txseq := 1, out_rxseq := 1, in_expected := 0 } ∧
    (∀ p, p ≠ msg.content.toAck.srcId → (process_ack s msg).peers p = s.peers p) ∧
    (process_ack s msg).calls = s.calls ++ [SysCall.cmdResponse "OK TX"] := by
  have hcond : msg.content.toAck.expectedSeq = 0 ∧ msg.content.toAck.rxdSeq ≠ 0 := ⟨hexp, hrxd⟩
  unfold process_ack
  simp only [if_pos hcond, Function.update_same, and_true, true_and]
  intro p hp
  exact Function.update_noteq hp _ _

/-- Witness of claim C15: the Ack `msgAckReboot` from peer 2, whose record
held in_expected 7. -/
theorem process_ack_peer_reboot_witness :
    (process_ack coreA msgAckReboot).peers 2
      = { out_txseq := 1, out_rxseq := 1, in_expected := 0 } ∧
    (process_ack coreA msgAckReboot).calls = [SysCall.cmdResponse "OK TX"] :=
  ⟨(process_ack_peer_reboot coreA msgAckReboot (by decide) (by decide)).1,
   (process_ack_peer_reboot coreA msgAckReboot (by decide) (by decide)).2.2⟩

/-- The function `process_ack` on an Ack whose rxdSeq and expectedSeq both
equal the out_rxseq recorded for its sender. -/
theorem process_ack_in_step (s : Core) (msg : MSG_T)
    (h1 : msg.content.toAck.rxdSeq = msg.content.toAck.expectedSeq)
    (h2 : (s.peers msg.content.toAck.srcId).out_rxseq = msg.content.toAck.expectedSeq) :
    (process_ack s msg).peers
      = Function.update s.peers msg.content.toAck.srcId
          { s.peers msg.content.toAck.srcId with
            out_rxseq := (msg.content.toAck.expectedSeq % 255) + 1 } ∧
    (process_ack s msg).calls = s.calls ++ [SysCall.cmdResponse "OK TX"] := by
  have hcond : ¬ (msg.content.toAck.expectedSeq = 0 ∧ msg.content.toAck.rxdSeq ≠ 0) := by
    rintro ⟨h0, hne⟩
    exact hne (h1.trans h0)
  unfold process_ack
  simp only [if_neg hcond, if_pos h1, if_pos h2, h2, if_true, and_self]

/-- The TXDONE branch of `state_txing` for a unicast message. -/
theorem state_txing_txdone_unicast (s : Core) (preambleMs r : Nat) (m : MSG_T) (d : DATA)
    (dlen : Nat) (hcur : s.currentTxMsg = some m)
    (huni : m.content.toStd.destId ≠ LOWAPP_ID_BROADCAST) :
    state_txing s preambleMs r { type := EVENTS.TXDONE, data := d, datalen := dlen }
      = some (STATES.WAIT_BEFORE_LISTENING_FOR_ACK,
          { s with
            peers := Function.update s.peers s.lastDestination
              { s.peers s.lastDestination with
                out_txseq := ((s.peers s.lastDestination).out_txseq % 255) + 1 },
            txFrameFilled := false, txBlocked := true, currentTxMsg := none }) := by
  simp only [state_txing, hcur, if_neg huni]

/-- The Ack that `state_rxing` prepares when it accepts and queues a unicast
frame; the configuration is left as it was. -/
theorem state_rxing_accepted_ack (c : Cipher) (s : Core) (now : Nat) (uninit uninitAck : MSG_T)
    (frame : List Nat) (len dlen : Nat) (rssi snr : Int) (p R : Nat)
    (hacc : (retrieveMessage c s.cfg uninit frame).1 = 0)
    (huni : (retrieveMessage c s.cfg uninit frame).2.content.toStd.destId ≠ LOWAPP_ID_BROADCAST)
    (hq : s._rx_pkt_list.count < MAXQSZ)
    (hp : (retrieveMessage c s.cfg uninit frame).2.content.toStd.srcId = p)
    (hR : (retrieveMessage c s.cfg uninit frame).2.content.toStd.txSeq = R)
    (hreset : ¬ (R = 0 ∧ (s.peers p).in_expected ≠ 0)) :
    (state_rxing c s now uninit uninitAck (rxmsgEvent frame len dlen rssi snr)).2.currentTxMsg
      = some
        { hdr := { uninitAck.hdr with
            payloadLength := 0, type := TYPE_ACK, version := LOWAPP_CURRENT_VERSION },
          content := FMSG.ack
            { destId := p, srcId := s.cfg._deviceId, rxdSeq := R,
              expectedSeq := (s.peers p).in_expected } } ∧
    (state_rxing c s now uninit uninitAck (rxmsgEvent frame len dlen rssi snr)).2.cfg
      = s.cfg := by
  obtain ⟨hr, hcount, _, _⟩ := add_to_queue_not_full s._rx_pkt_list
    (DATA.rxapp { state := { duplicate_flag := 0, missing_frames := 0 },
                  msg := (retrieveMessage c s.cfg uninit frame).2, rssi := rssi, snr := snr })
    sizeof_MSG_RX_APP_T hq
  simp only [state_rxing, rxmsgEvent, hacc, if_true, hr, ne_eq,
    not_false_eq_true, huni, if_false, hp, hR, hreset, and_self]

/-- A built Standard frame is accepted by a node of the same key to which it
is addressed, with the fields of the message. -/
theorem retrieveMessage_buildFrame_std_fields (c : Cipher) (hc : c.Inverts) (cfg cfg2 : Config)
    (hkey : cfg2._encryptionKey = cfg._encryptionKey)
    (nonce : Nat) (buf : List Nat) (m msg : MSG_T) (hm : m.IsStd) (hbuf : IsBytes buf)
    (hdest : m.content.toStd.destId = cfg2._deviceId ∨
      m.content.toStd.destId = LOWAPP_ID_BROADCAST) :
    (retrieveMessage c cfg2 msg (buildFrame c cfg nonce buf m).1).1 = 0 ∧
    (retrieveMessage c cfg2 msg (buildFrame c cfg nonce buf m).1).2.content.toStd.destId
      = m.content.toStd.destId ∧
    (retrieveMessage c cfg2 msg (buildFrame c cfg nonce buf m).1).2.content.toStd.srcId
      = m.content.toStd.srcId ∧
    (retrieveMessage c cfg2 msg (buildFrame c cfg nonce buf m).1).2.content.toStd.txSeq
      = m.content.toStd.txSeq := by
  obtain ⟨hr, hpay⟩ := retrieveMessage_buildFrame_std c hc cfg cfg2 hkey nonce buf m msg hm hbuf
  obtain ⟨hver, htype, hN, hd, hs, ht, hpl, hpb⟩ := hm
  rw [hr]
  generalize parsedHdr (buildFrame c cfg nonce buf m).1 = hdr at hpay
  have hcrc := stdPlain_crc_ok nonce buf m
  have h6 : get_byte (stdPlain nonce buf m) 6 = m.content.toStd.destId := by
    rw [get_byte_stdPlain_lt _ _ _ _ (by omega), (get_byte_stdWritten_hdr nonce m).2.2.1,
      Nat.mod_eq_of_lt hd]
  have h7 : get_byte (stdPlain nonce buf m) 7 = m.content.toStd.srcId := by
    rw [get_byte_stdPlain_lt _ _ _ _ (by omega), (get_byte_stdWritten_hdr nonce m).2.2.2.1,
      Nat.mod_eq_of_lt hs]
  have h8 : get_byte (stdPlain nonce buf m) 8 = m.content.toStd.txSeq := by
    rw [get_byte_stdPlain_lt _ _ _ _ (by omega), (get_byte_stdWritten_hdr nonce m).2.2.2.2,
      Nat.mod_eq_of_lt ht]
  unfold retrieveStd
  simp only [hpay, h6, h7, h8]
  rw [if_neg (not_not.mpr hcrc), if_pos hdest]
  exact ⟨rfl, rfl, rfl, rfl⟩

/-- A built Ack frame is accepted by a node of the same key to which it is
addressed, with the type and the fields of the Ack. -/
theorem retrieveMessage_buildFrame_ack_fields (c : Cipher) (hc : c.Inverts) (cfg cfg2 : Config)
    (hkey : cfg2._encryptionKey = cfg._encryptionKey)
    (nonce : Nat) (buf : List Nat) (m msg : MSG_T) (hm : m.IsAck) (hbuf : IsBytes buf)
    (hdest : m.content.toAck.destId = cfg2._deviceId) :
    (retrieveMessage c cfg2 msg (buildFrame c cfg nonce buf m).1).1 = 0 ∧
    (retrieveMessage c cfg2 msg (buildFrame c cfg nonce buf m).1).2.hdr.type = TYPE_ACK ∧
    (retrieveMessage c cfg2 msg (buildFrame c cfg nonce buf m).1).2.content.toAck.srcId
      = m.content.toAck.srcId ∧
    (retrieveMessage c cfg2 msg (buildFrame c cfg nonce buf m).1).2.content.toAck.rxdSeq
      = m.content.toAck.rxdSeq ∧
    (retrieveMessage c cfg2 msg (buildFrame c cfg nonce buf m).1).2.content.toAck.expectedSeq
      = m.content.toAck.expectedSeq := by
  rw [retrieveMessage_buildFrame_ack c hc cfg cfg2 hkey nonce buf m msg hm hbuf]
  obtain ⟨hver, htype, hN, hd, hs, hr, he⟩ := hm
  have h0 := get_byte_buildFrame_zero c cfg nonce buf m (Or.inr htype)
  rw [hver, htype] at h0
  have hty : (parsedHdr (buildFrame c cfg nonce buf m).1).type = TYPE_ACK := by
    show (get_byte (buildFrame c cfg nonce buf m).1 0) &&& 0xF = TYPE_ACK
    rw [h0]
    decide
  generalize parsedHdr (buildFrame c cfg nonce buf m).1 = hdr at hty
  have hcrc := ackPlain_crc_ok nonce buf m
  have hw := get_byte_ackWritten nonce m
  have h6 : get_byte (ackPlain nonce buf m) 6 = m.content.toAck.destId := by
    rw [get_byte_ackPlain_lt _ _ _ _ (by omega), hw.2.2.1, Nat.mod_eq_of_lt hd]
  have h7 : get_byte (ackPlain nonce buf m) 7 = m.content.toAck.srcId := by
    rw [get_byte_ackPlain_lt _ _ _ _ (by omega), hw.2.2.2.1, Nat.mod_eq_of_lt hs]
  have h8 : get_byte (ackPlain nonce buf m) 8 = m.content.toAck.rxdSeq := by
    rw [get_byte_ackPlain_lt _ _ _ _ (by omega), hw.2.2.2.2.1, Nat.mod_eq_of_lt hr]
  have h9 : get_byte (ackPlain nonce buf m) 9 = m.content.toAck.expectedSeq := by
    rw [get_byte_ackPlain_lt _ _ _ _ (by omega), hw.2.2.2.2.2, Nat.mod_eq_of_lt he]
  unfold retrieveAck
  simp only [h6, h7, h8, h9]
  rw [if_neg (not_not.mpr hcrc), if_pos hdest]
  exact ⟨rfl, hty, rfl, rfl, rfl⟩

/-- Claim C14: a lossless exchange keeps both ends in step.  When the sender
holds out_txseq = out_rxseq = s for the receiver, the receiver holds
in_expected = s for the sender and has room in its RX queue, and the sender has
sent a unicast Standard frame stamped s, then the exchange takes place (TXDONE
in `state_txing`, reception in `state_rxing`, the receiver's Ack accepted by
the sender with result 0 and type Ack, `process_ack`), the sender answers
"OK TX" and nothing else, the delivered message has duplicate_flag = 0 and
missing_frames = 0, and out_txseq and out_rxseq of the sender and in_expected
of the receiver all become (s mod 255) + 1: the three values are equal again,
also when s is 0 or 255.  The cipher's decryption inverts its encryption and
the two nodes hold the same key. -/
theorem lossless_exchange_in_step (c : Cipher) (hc : c.Inverts) (a b : Core)
    (env : ExchangeEnv) (m : MSG_T) (s : Nat)
    (hkey : b.cfg._encryptionKey = a.cfg._encryptionKey)
    (hcur : a.currentTxMsg = some m) (hm : m.IsStd)
    (hbuf : IsBytes env.buf) (hbufAck : IsBytes env.bufAck)
    (hdst : m.content.toStd.destId = b.cfg._deviceId)
    (hsrc : m.content.toStd.srcId = a.cfg._deviceId)
    (huni : b.cfg._deviceId ≠ LOWAPP_ID_BROADCAST)
    (hlast : a.lastDestination = b.cfg._deviceId)
    (hseq : m.content.toStd.txSeq = s)
    (htx : (a.peers b.cfg._deviceId).out_txseq = s)
    (hrx : (a.peers b.cfg._deviceId).out_rxseq = s)
    (hexp : (b.peers a.cfg._deviceId).in_expected = s)
    (hq : b._rx_pkt_list.count < MAXQSZ) :
    ∃ a2 b2 flags, losslessExchange c a b env
        = some { sender := a2, receiver := b2, delivered := flags } ∧
      a2.calls = a.calls ++ [SysCall.cmdResponse "OK TX"] ∧
      flags = some { duplicate_flag := 0, missing_frames := 0 } ∧
      (a2.peers b.cfg._deviceId).out_txseq = (s % 255) + 1 ∧
      (a2.peers b.cfg._deviceId).out_rxseq = (s % 255) + 1 ∧
      (b2.peers a.cfg._deviceId).in_expected = (s % 255) + 1 := by
  have hm2 := hm
  obtain ⟨hver, htype, hN, hd, hs, ht, hpl, hpb⟩ := hm2
  have hunim : m.content.toStd.destId ≠ LOWAPP_ID_BROADCAST := by
    rw [hdst]
    exact huni
  have hA := state_txing_txdone_unicast a env.preambleMs env.r m DATA.null 0 hcur hunim
  obtain ⟨hB0, hBd, hBs, hBt⟩ := retrieveMessage_buildFrame_std_fields c hc a.cfg b.cfg hkey
    env.nonce env.buf m env.uninit hm hbuf (Or.inl hdst)
  have huniB : (retrieveMessage c b.cfg env.uninit
      (buildFrame c a.cfg env.nonce env.buf m).1).2.content.toStd.destId
      ≠ LOWAPP_ID_BROADCAST := by
    rw [hBd]
    exact hunim
  have hreset : ¬ (s = 0 ∧ (b.peers a.cfg._deviceId).in_expected ≠ 0) := by
    rw [hexp]
    rintro ⟨h0, h1⟩
    exact h1 h0
  obtain ⟨hS1, hS2, hS3⟩ := state_rxing_accepted c b env.now env.uninit env.uninitAck
    (buildFrame c a.cfg env.nonce env.buf m).1 env.len env.dlen env.rssi env.snr
    a.cfg._deviceId s hB0 huniB hq (hBs.trans hsrc) (hBt.trans hseq) hreset
  obtain ⟨hS4, hS5⟩ := state_rxing_accepted_ack c b env.now env.uninit env.uninitAck
    (buildFrame c a.cfg env.nonce env.buf m).1 env.len env.dlen env.rssi env.snr
    a.cfg._deviceId s hB0 huniB hq (hBs.trans hsrc) (hBt.trans hseq) hreset
  rw [hexp] at hS2 hS3 hS4
  rw [if_pos rfl] at hS2 hS3
  have hsA : a.cfg._deviceId < 256 := by
    rw [← hsrc]
    exact hs
  have hsB : b.cfg._deviceId < 256 := by
    rw [← hdst]
    exact hd
  have hs256 : s < 256 := by
    rw [← hseq]
    exact ht
  have hack : MSG_T.IsAck
      { hdr := { env.uninitAck.hdr with
          payloadLength := 0, type := TYPE_ACK, version := LOWAPP_CURRENT_VERSION },
        content := FMSG.ack
          { destId := a.cfg._deviceId, srcId := b.cfg._deviceId, rxdSeq := s,
            expectedSeq := s } } :=
    ⟨rfl, rfl, Nat.zero_lt_succ 255, hsA, hsB, hs256, hs256⟩
  obtain ⟨hG0, hGt, hGs, hGr, hGe⟩ := retrieveMessage_buildFrame_ack_fields c hc b.cfg a.cfg
    hkey.symm env.nonceAck env.bufAck _ env.uninitRx hack hbufAck rfl
  have hGs2 : (retrieveMessage c a.cfg env.uninitRx (buildFrame c b.cfg env.nonceAck env.bufAck
      { hdr := { env.uninitAck.hdr with
          payloadLength := 0, type := TYPE_ACK, version := LOWAPP_CURRENT_VERSION },
        content := FMSG.ack
          { destId := a.cfg._deviceId, srcId := b.cfg._deviceId, rxdSeq := s,
            expectedSeq := s } }).1).2.content.toAck.srcId = b.cfg._deviceId := hGs
  have hGr2 : (retrieveMessage c a.cfg env.uninitRx (buildFrame c b.cfg env.nonceAck env.bufAck
      { hdr := { env.uninitAck.hdr with
          payloadLength := 0, type := TYPE_ACK, version := LOWAPP_CURRENT_VERSION },
        content := FMSG.ack
          { destId := a.cfg._deviceId, srcId := b.cfg._deviceId, rxdSeq := s,
            expectedSeq := s } }).1).2.content.toAck.rxdSeq = s := hGr
  have hGe2 : (retrieveMessage c a.cfg env.uninitRx (buildFrame c b.cfg env.nonceAck env.bufAck
      { hdr := { env.uninitAck.hdr with
          payloadLength := 0, type := TYPE_ACK, version := LOWAPP_CURRENT_VERSION },
        content := FMSG.ack
          { destId := a.cfg._deviceId, srcId := b.cfg._deviceId, rxdSeq := s,
            expectedSeq := s } }).1).2.content.toAck.expectedSeq = s := hGe
  obtain ⟨hP1, hP2⟩ := process_ack_in_step
    { a with
      peers := Function.update a.peers a.lastDestination
        { a.peers a.lastDestination with
          out_txseq := ((a.peers a.lastDestination).out_txseq % 255) + 1 },
      txFrameFilled := false, txBlocked := true, currentTxMsg := none }
    (retrieveMessage c a.cfg env.uninitRx (buildFrame c b.cfg env.nonceAck env.bufAck
      { hdr := { env.uninitAck.hdr with
          payloadLength := 0, type := TYPE_ACK, version := LOWAPP_CURRENT_VERSION },
        content := FMSG.ack
          { destId := a.cfg._deviceId, srcId := b.cfg._deviceId, rxdSeq := s,
            expectedSeq := s } }).1).2
    (hGr2.trans hGe2.symm)
    (by
      rw [hGs2, hGe2, hlast]
      simp only [Function.update_same]
      exact hrx)
  refine ⟨process_ack
      { a with
        peers := Function.update a.peers a.lastDestination
          { a.peers a.lastDestination with
            out_txseq := ((a.peers a.lastDestination).out_txseq % 255) + 1 },
        txFrameFilled := false, txBlocked := true, currentTxMsg := none }
      (retrieveMessage c a.cfg env.uninitRx
        (buildFrame c b.cfg env.nonceAck env.bufAck
          { hdr := { env.uninitAck.hdr with
              payloadLength := 0, type := TYPE_ACK, version := LOWAPP_CURRENT_VERSION },
            content := FMSG.ack
              { destId := a.cfg._deviceId, srcId := b.cfg._deviceId, rxdSeq := s,
                expectedSeq := s } }).1).2,
    (state_rxing c b env.now env.uninit env.uninitAck
      (rxmsgEvent (buildFrame c a.cfg env.nonce env.buf m).1
        env.len env.dlen env.rssi env.snr)).2,
    deliveredState (state_rxing c b env.now env.uninit env.uninitAck
      (rxmsgEvent (buildFrame c a.cfg env.nonce env.buf m).1
        env.len env.dlen env.rssi env.snr)).2 b._rx_pkt_list.head, ?_, ?_⟩
  · simp only [losslessExchange, hcur, hA, hS1, hS4, hS5, hG0, hGt, if_true, and_self]
  · refine ⟨hP2, hS3, ?_, ?_, ?_⟩
    · rw [hP1, hGs2, hGe2, hlast]
      simp only [Function.update_same, htx]
    · rw [hP1, hGs2, hGe2, hlast]
      simp only [Function.update_same]
    · rw [hS2]
      simp only [Function.update_same]

/-- Witness of claim C14: node 1 and node 2 in step at sequence number 255,
the last before the wrap; both end at 1. -/
theorem lossless_exchange_in_step_witness :
    ∃ a2 b2 flags, losslessExchange xorCipher (coreS 255) (coreE 255) envA
        = some { sender := a2, receiver := b2, delivered := flags } ∧
      a2.calls = [SysCall.cmdResponse "OK TX"] ∧
      flags = some { duplicate_flag := 0, missing_frames := 0 } ∧
      (a2.peers 2).out_txseq = 1 ∧
      (a2.peers 2).out_rxseq = 1 ∧
      (b2.peers 1).in_expected = 1 :=
  lossless_exchange_in_step xorCipher xorCipher_inverts (coreS 255) (coreE 255) envA
    (msgSeq 255) 255 (by decide) rfl (by decide) (by decide) (by decide) (by decide)
    (by decide) (by decide) (by decide) (by decide) (by decide) (by decide) (by decide)
    (by decide)

/-- The first half of a turn of `sm_run` takes an event from the cold queue
only after `get_event` on the standard queue returned a negative value and in
state IDLE; in any other state, and whenever the standard queue gave an event,
it leaves the cold queue as it was. -/
theorem sm_fetch_guard (s : Core) (evt : EVENT_T) :
    (∀ e s', sm_fetch s evt = Fetched.event EventSource.cold e s' →
      (get_event s._eventQ evt).1 < 0 ∧ s._currentState = STATES.IDLE) ∧
    (s._currentState ≠ STATES.IDLE → (sm_fetch s evt).core._coldEventQ = s._coldEventQ) ∧
    (0 ≤ (get_event s._eventQ evt).1 → (sm_fetch s evt).core._coldEventQ = s._coldEventQ) := by
  by_cases hq : (get_event s._eventQ evt).1 < 0
  · by_cases hi : s._currentState = STATES.IDLE
    · refine ⟨fun _ _ _ => ⟨hq, hi⟩, fun h => absurd hi h, fun h => absurd hq (not_lt.mpr h)⟩
    · refine ⟨?_, fun _ => ?_, fun h => absurd hq (not_lt.mpr h)⟩
      · intro e s' h
        simp only [sm_fetch, hq, hi, if_true, if_false] at h
        split at h <;> exact absurd h (by simp)
      · simp only [sm_fetch, hq, hi, if_true, if_false]
        split <;> rfl
  · refine ⟨?_, fun _ => ?_, fun _ => ?_⟩
    · intro e s' h
      simp only [sm_fetch, hq, if_false] at h
      exact absurd h (by simp)
    · simp only [sm_fetch, hq, if_false]
      rfl
    · simp only [sm_fetch, hq, if_false]
      rfl

/-- On a queue whose count is within the capacity, `get_event` returns a
negative value exactly when the queue is empty. -/
theorem get_event_neg_iff (q : QEVENT_T) (evt : EVENT_T) (h : q.count ≤ MAXQSZ) :
    (get_event q evt).1 < 0 ↔ q.count = 0 := by
  have h16 : q.count ≤ 16 := h
  constructor
  · intro hneg
    by_contra hne
    unfold get_event at hneg
    rw [if_neg hne] at hneg
    have h1 : ((q.count + 255) % 256) % 256 < 128 := by omega
    have hneg2 : toInt8 ((q.count + 255) % 256) < 0 := hneg
    unfold toInt8 at hneg2
    rw [if_pos h1] at hneg2
    omega
  · intro h0
    unfold get_event
    rw [if_pos h0]
    show (-1 : Int) < 0
    decide

/-- Every turn recorded by `sm_run` starts with `sm_fetch` on the globals and
the content of `evt` recorded for it. -/
theorem sm_run_turns (SM : STATES → Core → EVENT_T → STATES × Core) (uninitEvt : Nat → EVENT_T)
    (fuel n : Nat) (s : Core) (t : Turn) (ht : t ∈ (sm_run SM uninitEvt fuel n s).1) :
    t.fetched = sm_fetch t.before t.evt0 := by
  induction fuel generalizing n s with
  | zero => exact absurd ht (List.not_mem_nil t)
  | succ k ih =>
    unfold sm_run at ht
    split at ht
    · next code s' hf =>
      rw [List.mem_singleton] at ht
      rw [ht]
      exact hf.symm
    · next src e s' hf =>
      split at ht
      · rw [List.mem_singleton] at ht
        rw [ht]
        exact hf.symm
      · next s2 hd =>
        rw [List.mem_cons] at ht
        rcases ht with ht | ht
        · rw [ht]
          exact hf.symm
        · exact ih (n + 1) s2 ht

/-- Claim C18: the cold-queue guard of `sm_run`.  In every turn of the loop of
`sm_run`, whatever the table of state functions, an event is taken from the
cold queue only if `get_event` on the standard queue returned a negative value
in that turn (the queue was empty, when its count is within the capacity) and
the current state is IDLE; when the state is not IDLE the turn leaves the cold
queue as it was and the event it dispatches, if any, is not a cold-queue
event; and a turn that got an event from the standard queue leaves the cold
queue as it was. -/
theorem sm_run_cold_guard (SM : STATES → Core → EVENT_T → STATES × Core)
    (uninitEvt : Nat → EVENT_T) (fuel n : Nat) (s : Core) (t : Turn)
    (ht : t ∈ (sm_run SM uninitEvt fuel n s).1) :
    t.fetched = sm_fetch t.before t.evt0 ∧
    (∀ e s', t.fetched = Fetched.event EventSource.cold e s' →
      (get_event t.before._eventQ t.evt0).1 < 0 ∧
      (t.before._eventQ.count ≤ MAXQSZ → t.before._eventQ.count = 0) ∧
      t.before._currentState = STATES.IDLE) ∧
    (t.before._currentState ≠ STATES.IDLE →
      t.fetched.core._coldEventQ = t.before._coldEventQ ∧
      ∀ e s', t.fetched ≠ Fetched.event EventSource.cold e s') ∧
    (0 ≤ (get_event t.before._eventQ t.evt0).1 →
      t.fetched.core._coldEventQ = t.before._coldEventQ) := by
  have hf := sm_run_turns SM uninitEvt fuel n s t ht
  obtain ⟨h1, h2, h3⟩ := sm_fetch_guard t.before t.evt0
  rw [← hf] at h1 h2 h3
  refine ⟨hf, ?_, ?_, h3⟩
  · intro e s' he
    obtain ⟨ha, hb⟩ := h1 e s' he
    exact ⟨ha, fun hc => (get_event_neg_iff _ _ hc).mp ha, hb⟩
  · intro hne
    refine ⟨h2 hne, ?_⟩
    intro e s' he
    exact hne (h1 e s' he).2

/-- Witness of claim C18: from `coreW` the loop takes the TXTIMEOUT event in
state TXING without touching the cold queue, then, in IDLE with the standard
queue empty, one TXREQ event from the cold queue, then returns in state TXING
with the other TXREQ event still in the cold queue. -/
theorem sm_run_cold_guard_witness :
    turnsW.map Turn.summary
      = [(STATES.TXING, 1, some EventSource.hot, 2, 2),
         (STATES.IDLE, 0, some EventSource.cold, 2, 1),
         (STATES.TXING, 0, none, 1, 1)] ∧
    turnW.summary = (STATES.IDLE, 0, some EventSource.cold, 2, 1) ∧
    turnW.fetched = sm_fetch turnW.before turnW.evt0 ∧
    (∀ e s', turnW.fetched = Fetched.event EventSource.cold e s' →
      (get_event turnW.before._eventQ turnW.evt0).1 < 0 ∧
      (turnW.before._eventQ.count ≤ MAXQSZ → turnW.before._eventQ.count = 0) ∧
      turnW.before._currentState = STATES.IDLE) :=
  ⟨by decide, by decide,
   (sm_run_cold_guard smSample _ 3 0 coreW turnW (List.get_mem turnsW 1 (by decide))).1,
   (sm_run_cold_guard smSample _ 3 0 coreW turnW (List.get_mem turnsW 1 (by decide))).2.1⟩

/-- The TXDONE branch of `state_txing` for a broadcast message. -/
theorem state_txing_txdone_broadcast (s : Core) (preambleMs r : Nat) (m : MSG_T) (d : DATA)
    (dlen : Nat) (hcur : s.currentTxMsg = some m)
    (hb : m.content.toStd.destId = LOWAPP_ID_BROADCAST) :
    state_txing s preambleMs r { type := EVENTS.TXDONE, data := d, datalen := dlen }
      = some (STATES.IDLE,
          { s with
            peers := Function.update s.peers s.lastDestination
              { s.peers s.lastDestination with
                out_txseq := ((s.peers s.lastDestination).out_txseq % 255) + 1 },
            txFrameFilled := false, txBlocked := true,
            calls := s.calls ++ [SysCall.setTimer2 ((preambleMs + r) % 4294967296)],
            currentTxMsg := none }) := by
  simp only [state_txing, hcur, hb, if_true, setTimerForUnblockingTx]

/-- Claim C22: TXDONE in Txing.  With a message in `currentTxMsg`, the handler
returns IDLE when the message's destId is 0xFF and
WAIT_BEFORE_LISTENING_FOR_ACK for every other destination; it sets out_txseq
of peers[lastDestination] to (old mod 255) + 1 and leaves the two other fields
of that record and every other record as they were; it clears txFrameFilled
and sets txBlocked. -/
theorem state_txing_txdone (s : Core) (preambleMs r : Nat) (m : MSG_T) (d : DATA) (dlen : Nat)
    (hcur : s.currentTxMsg = some m) :
    ∃ s2, state_txing s preambleMs r { type := EVENTS.TXDONE, data := d, datalen := dlen }
        = some (if m.content.toStd.destId = LOWAPP_ID_BROADCAST then STATES.IDLE
                else STATES.WAIT_BEFORE_LISTENING_FOR_ACK, s2) ∧
      (s2.peers s.lastDestination).out_txseq
        = ((s.peers s.lastDestination).out_txseq % 255) + 1 ∧
      (s2.peers s.lastDestination).out_rxseq = (s.peers s.lastDestination).out_rxseq ∧
      (s2.peers s.lastDestination).in_expected = (s.peers s.lastDestination).in_expected ∧
      (∀ p, p ≠ s.lastDestination → s2.peers p = s.peers p) ∧
      s2.txFrameFilled = false ∧ s2.txBlocked = true := by
  by_cases hb : m.content.toStd.destId = LOWAPP_ID_BROADCAST
  · rw [if_pos hb]
    refine ⟨_, state_txing_txdone_broadcast s preambleMs r m d dlen hcur hb, ?_⟩
    refine ⟨?_, ?_, ?_, ?_, rfl, rfl⟩
    · simp only [Function.update_same]
    · simp only [Function.update_same]
    · simp only [Function.update_same]
    · intro p hp
      exact Function.update_noteq hp _ _
  · rw [if_neg hb]
    refine ⟨_, state_txing_txdone_unicast s preambleMs r m d dlen hcur hb, ?_⟩
    refine ⟨?_, ?_, ?_, ?_, rfl, rfl⟩
    · simp only [Function.update_same]
    · simp only [Function.update_same]
    · simp only [Function.update_same]
    · intro p hp
      exact Function.update_noteq hp _ _

/-- Witness of claim C22: TXDONE for a unicast message to node 2, whose
out_txseq was 255. -/
theorem state_txing_txdone_witness :
    ∃ s2, state_txing (coreS 255) 50 3 (simpleEvent EVENTS.TXDONE)
        = some (STATES.WAIT_BEFORE_LISTENING_FOR_ACK, s2) ∧
      (s2.peers 2).out_txseq = 1 ∧
      (s2.peers 2).out_rxseq = 255 ∧
      (s2.peers 2).in_expected = 0 ∧
      (∀ p, p ≠ 2 → s2.peers p = (coreS 255).peers p) ∧
      s2.txFrameFilled = false ∧ s2.txBlocked = true :=
  state_txing_txdone (coreS 255) 50 3 (msgSeq 255) DATA.null 0 rfl

/-- When `get_event` returns a negative value and leaves a count within the
capacity, the queue is empty and was not changed. -/
theorem get_event_neg_count (q : QEVENT_T) (evt : EVENT_T) (hneg : (get_event q evt).1 < 0)
    (hc : (get_event q evt).2.2.count ≤ MAXQSZ) :
    (get_event q evt).2.2.count = 0 ∧ (get_event q evt).2.2 = q := by
  by_cases h0 : q.count = 0
  · unfold get_event
    rw [if_pos h0]
    exact ⟨h0, rfl⟩
  · exfalso
    unfold get_event at hneg hc
    rw [if_neg h0] at hneg hc
    have hc2 : (q.count + 255) % 256 ≤ 16 := hc
    have hneg2 : toInt8 ((q.count + 255) % 256) < 0 := hneg
    have h1 : ((q.count + 255) % 256) % 256 < 128 := by omega
    unfold toInt8 at hneg2
    rw [if_pos h1] at hneg2
    omega

/-- What `sm_fetch` has found when it makes `sm_run` return. -/
theorem sm_fetch_returned (s : Core) (evt : EVENT_T) (code : Nat) (s2 : Core)
    (h : sm_fetch s evt = Fetched.returned code s2) :
    (get_event s._eventQ evt).1 < 0 ∧
    s2._eventQ = (get_event s._eventQ evt).2.2 ∧
    s2._currentState = s._currentState ∧
    (s._currentState = STATES.IDLE →
      code = LOWAPP_SM_DEEP_SLEEP ∧
      (get_event s._coldEventQ (get_event s._eventQ evt).2.1).1 < 0 ∧
      s2._coldEventQ = (get_event s._coldEventQ (get_event s._eventQ evt).2.1).2.2) ∧
    (s._currentState = STATES.TXING ∨ s._currentState = STATES.TXING_ACK →
      code = LOWAPP_SM_TX) ∧
    (s._currentState = STATES.RXING ∨ s._currentState = STATES.RXING_ACK →
      code = LOWAPP_SM_RX) ∧
    (s._currentState ≠ STATES.IDLE → s._currentState ≠ STATES.TXING →
      s._currentState ≠ STATES.TXING_ACK → s._currentState ≠ STATES.RXING →
      s._currentState ≠ STATES.RXING_ACK → code = LOWAPP_SM_SHALLOW_SLEEP) := by
  by_cases hq : (get_event s._eventQ evt).1 < 0
  · by_cases hi : s._currentState = STATES.IDLE
    · by_cases hcq : (get_event s._coldEventQ (get_event s._eventQ evt).2.1).1 < 0
      · simp only [sm_fetch, hq, hi, hcq, if_true, Fetched.returned.injEq] at h
        obtain ⟨h1, h2⟩ := h
        subst h2
        subst h1
        simp [hi, hq, hcq]
      · simp only [sm_fetch, hq, hi, hcq, if_true, if_false] at h
        exact absurd h (by simp)
    · simp only [sm_fetch, hq, hi, if_true, if_false] at h
      refine ⟨hq, ?_⟩
      rcases hst : s._currentState with _ | _ | _ | _ | _ | _ | _ | _ | _ | _
      all_goals first
        | exact absurd hst hi
        | (simp only [hst, Fetched.returned.injEq] at h ⊢
           obtain ⟨h1, h2⟩ := h
           subst h2
           subst h1
           simp [hst])
  · simp only [sm_fetch, hq, if_false] at h
    exact absurd h (by simp)

/-- A value returned by `sm_run` is one that `sm_fetch` returned in some turn. -/
theorem sm_run_returned (SM : STATES → Core → EVENT_T → STATES × Core)
    (uninitEvt : Nat → EVENT_T) (fuel n : Nat) (s : Core) (code : Nat) (s2 : Core)
    (h : (sm_run SM uninitEvt fuel n s).2 = some (code, s2)) :
    ∃ s0 e0, sm_fetch s0 e0 = Fetched.returned code s2 := by
  induction fuel generalizing n s with
  | zero => exact absurd h (by simp [sm_run])
  | succ k ih =>
    unfold sm_run at h
    split at h
    · next c1 s1 hf =>
      simp only [Option.some.injEq, Prod.mk.injEq] at h
      obtain ⟨h1, h2⟩ := h
      subst h1
      subst h2
      exact ⟨s, uninitEvt n, hf⟩
    · next src e s1 hf =>
      split at h
      · exact absurd h (by simp)
      · next s3 hd => exact ih (n + 1) s3 h

/-- Claim C24: the status `sm_run` returns.  Whatever the table of state
functions, when `sm_run` returns the standard queue is empty (its count is 0
whenever it is within the capacity); the status is LOWAPP_SM_DEEP_SLEEP
exactly when the state is IDLE, and then the cold queue is empty too;
LOWAPP_SM_TX exactly when the state is TXING or TXING_ACK; LOWAPP_SM_RX
exactly when the state is RXING or RXING_ACK; LOWAPP_SM_SHALLOW_SLEEP exactly
in the five other states. -/
theorem sm_run_return_status (SM : STATES → Core → EVENT_T → STATES × Core)
    (uninitEvt : Nat → EVENT_T) (fuel n : Nat) (s : Core) (code : Nat) (s2 : Core)
    (h : (sm_run SM uninitEvt fuel n s).2 = some (code, s2)) :
    (s2._eventQ.count ≤ MAXQSZ → s2._eventQ.count = 0) ∧
    (code = LOWAPP_SM_DEEP_SLEEP ↔ s2._currentState = STATES.IDLE) ∧
    (s2._currentState = STATES.IDLE → s2._coldEventQ.count ≤ MAXQSZ →
      s2._coldEventQ.count = 0) ∧
    (code = LOWAPP_SM_TX ↔
      s2._currentState = STATES.TXING ∨ s2._currentState = STATES.TXING_ACK) ∧
    (code = LOWAPP_SM_RX ↔
      s2._currentState = STATES.RXING ∨ s2._currentState = STATES.RXING_ACK) ∧
    (code = LOWAPP_SM_SHALLOW_SLEEP ↔
      s2._currentState = STATES.SKIPPING_ACK ∨ s2._currentState = STATES.WAIT_SLOT_TX_ACK ∨
      s2._currentState = STATES.WAIT_BEFORE_LISTENING_FOR_ACK ∨
      s2._currentState = STATES.CAD ∨ s2._currentState = STATES.RESTART) := by
  obtain ⟨s0, e0, hf⟩ := sm_run_returned SM uninitEvt fuel n s code s2 h
  obtain ⟨hneg, hq, hst, hidle, htx, hrx, hother⟩ := sm_fetch_returned s0 e0 code s2 hf
  rw [← hst] at hidle htx hrx hother
  refine ⟨?_, ?_, ?_, ?_, ?_, ?_⟩
  · intro hc
    rw [hq] at hc ⊢
    exact (get_event_neg_count _ _ hneg hc).1
  · rcases hs : s2._currentState with _ | _ | _ | _ | _ | _ | _ | _ | _ | _ <;>
      rw [hs] at hidle htx hrx hother <;>
      first
        | (have hc := (hidle rfl).1
           subst hc
           decide)
        | (have hc := htx (by decide)
           subst hc
           decide)
        | (have hc := hrx (by decide)
           subst hc
           decide)
        | (have hc := hother (by decide) (by decide) (by decide) (by decide) (by decide)
           subst hc
           decide)
  · intro hi hc
    obtain ⟨_, hcneg, hcq⟩ := hidle hi
    rw [hcq] at hc ⊢
    exact (get_event_neg_count _ _ hcneg hc).1
  · rcases hs : s2._currentState with _ | _ | _ | _ | _ | _ | _ | _ | _ | _ <;>
      rw [hs] at hidle htx hrx hother <;>
      first
        | (have hc := (hidle rfl).1
           subst hc
           decide)
        | (have hc := htx (by decide)
           subst hc
           decide)
        | (have hc := hrx (by decide)
           subst hc
           decide)
        | (have hc := hother (by decide) (by decide) (by decide) (by decide) (by decide)
           subst hc
           decide)
  · rcases hs : s2._currentState with _ | _ | _ | _ | _ | _ | _ | _ | _ | _ <;>
      rw [hs] at hidle htx hrx hother <;>
      first
        | (have hc := (hidle rfl).1
           subst hc
           decide)
        | (have hc := htx (by decide)
           subst hc
           decide)
        | (have hc := hrx (by decide)
           subst hc
           decide)
        | (have hc := hother (by decide) (by decide) (by decide) (by decide) (by decide)
           subst hc
           decide)
  · rcases hs : s2._currentState with _ | _ | _ | _ | _ | _ | _ | _ | _ | _ <;>
      rw [hs] at hidle htx hrx hother <;>
      first
        | (have hc := (hidle rfl).1
           subst hc
           decide)
        | (have hc := htx (by decide)
           subst hc
           decide)
        | (have hc := hrx (by decide)
           subst hc
           decide)
        | (have hc := hother (by decide) (by decide) (by decide) (by decide) (by decide)
           subst hc
           decide)

/-- Witness of claim C24: from `coreW` the loop returns LOWAPP_SM_TX in state
TXING with the standard queue empty. -/
theorem sm_run_return_status_witness :
    (sm_run smSample (fun _ => simpleEvent EVENTS.STATE_ENTER) 3 0 coreW).2
      = some (LOWAPP_SM_TX, coreWEnd) ∧
    coreWEnd._currentState = STATES.TXING ∧
    (coreWEnd._eventQ.count ≤ MAXQSZ → coreWEnd._eventQ.count = 0) ∧
    (LOWAPP_SM_TX = LOWAPP_SM_TX ↔
      coreWEnd._currentState = STATES.TXING ∨ coreWEnd._currentState = STATES.TXING_ACK) :=
  ⟨rfl, by decide,
   (sm_run_return_status smSample (fun _ => simpleEvent EVENTS.STATE_ENTER) 3 0 coreW
      LOWAPP_SM_TX coreWEnd rfl).1,
   (sm_run_return_status smSample (fun _ => simpleEvent EVENTS.STATE_ENTER) 3 0 coreW
      LOWAPP_SM_TX coreWEnd rfl).2.2.2.1⟩

/-- Claim C28: unimplemented message types are rejected.  For every frame
whose version nibble is the supported version and whose type nibble is neither
Standard nor Ack, `retrieveMessage` returns -1 and only the header of the
message has been filled, whatever the cipher and the key (nothing is decrypted
and no CRC is compared); for a message of such a type `buildFrame` returns 0
and leaves the buffer as it was, and `frameSize` returns 0. -/
theorem unknown_type_rejected :
    (∀ (c : Cipher) (cfg : Config) (msg : MSG_T) (frame : List Nat),
      (get_byte frame 0) >>> 4 = LOWAPP_CURRENT_VERSION →
      (get_byte frame 0) &&& 0xF ≠ TYPE_STDMSG → (get_byte frame 0) &&& 0xF ≠ TYPE_ACK →
      retrieveMessage c cfg msg frame = (-1, { msg with hdr := parsedHdr frame })) ∧
    (∀ (c : Cipher) (cfg : Config) (nonce : Nat) (buf : List Nat) (m : MSG_T),
      m.hdr.type ≠ TYPE_STDMSG → m.hdr.type ≠ TYPE_ACK →
      buildFrame c cfg nonce buf m = (buf, 0) ∧ frameSize m = 0) := by
  constructor
  · intro c cfg msg frame hv hs ha
    have hv2 : ¬ ((get_byte frame 0) >>> 4 ≠ LOWAPP_CURRENT_VERSION) := not_not.mpr hv
    simp only [retrieveMessage, parsedHdr, hv2, hs, ha, if_false]
  · intro c cfg nonce buf m hs ha
    constructor
    · simp only [buildFrame, hs, ha, if_false]
    · simp only [frameSize, hs, ha, if_false, Nat.zero_mod]

/-- Witness of claim C28: a frame whose first byte is 0x13 (version 1, type 3)
and a message of type 3. -/
theorem unknown_type_rejected_witness :
    retrieveMessage xorCipher cfgA msgZero [0x13, 5, 0, 0, 0xBE, 0xEF, 1, 2, 3]
      = (-1, { msgZero with hdr := parsedHdr [0x13, 5, 0, 0, 0xBE, 0xEF, 1, 2, 3] }) ∧
    buildFrame xorCipher cfgA 0xBEEF [9, 9, 9] msgGwOut = ([9, 9, 9], 0) ∧
    frameSize msgGwOut = 0 :=
  ⟨unknown_type_rejected.1 xorCipher cfgA msgZero [0x13, 5, 0, 0, 0xBE, 0xEF, 1, 2, 3]
      (by decide) (by decide) (by decide),
   unknown_type_rejected.2 xorCipher cfgA 0xBEEF [9, 9, 9] msgGwOut (by decide) (by decide)⟩

/-- Claim C29: unknown events are ignored.  For every state and every event
that the state's function does not treat in a case of its own, the function
returns `_currentState` (the state itself, when it is run as the function of
the current state) and leaves all globals as they were, making no call to the
system layer.  This covers STATE_EXIT in every state and CADTIMEOUT, TXREQ,
RXAT and TXUNBLOCK in every state other than IDLE. -/
theorem unhandled_events_ignored (env : SMEnv) (st : STATES) (s : Core) (evt : EVENT_T)
    (h : handled st evt.type = false) :
    SM env st s evt = some (s._currentState, s) ∧
    (s._currentState = st → SM env st s evt = some (st, s)) ∧
    (∀ st2, handled st2 EVENTS.STATE_EXIT = false) ∧
    (∀ st2, st2 ≠ STATES.IDLE →
      handled st2 EVENTS.CADTIMEOUT = false ∧ handled st2 EVENTS.TXREQ = false ∧
      handled st2 EVENTS.RXAT = false ∧ handled st2 EVENTS.TXUNBLOCK = false) := by
  have hmain : SM env st s evt = some (s._currentState, s) := by
    obtain ⟨t, d, dl⟩ := evt
    cases st <;> cases t <;> first
      | rfl
      | exact absurd h (Bool.true_eq_false_eq_False ▸ not_false)
      | exact Bool.noConfusion h
  refine ⟨hmain, ?_, ?_, ?_⟩
  · intro hs
    rw [hmain, hs]
  · intro st2
    cases st2 <;> rfl
  · intro st2 hne
    cases st2 <;> first
      | exact absurd rfl hne
      | exact ⟨rfl, rfl, rfl, rfl⟩

/-- Witness of claim C29: a TXREQ event reaches the function of state TXING. -/
theorem unhandled_events_ignored_witness :
    SM envSM STATES.TXING (coreS 7) (simpleEvent EVENTS.TXREQ) = some (STATES.TXING, coreS 7) :=
  (unhandled_events_ignored envSM STATES.TXING (coreS 7) (simpleEvent EVENTS.TXREQ) rfl).2.1 rfl

/-- Claim C30: the CAD flag on Idle entry.  When `state_idle` handles
STATE_ENTER with no AT command waiting, in pull mode, and starts no
transmission (TX is blocked, or no frame is pending and the TX queue is
empty), it returns `_currentState` and leaves the globals as they were,
whatever the value of cad_flag: with the flag raised in state IDLE it returns
IDLE, not CAD. -/
theorem state_idle_enter_ignores_cad_flag (env : SMEnv) (s : Core) (d : DATA) (dlen : Nat)
    (hat : queue_size s._atcmd_list = 0) (hpull : s.cfg._opMode = NODE_MODE_T.PULL)
    (hno : s.txBlocked = true ∨ (s.txFrameFilled = false ∧ queue_size s._tx_pkt_list = 0)) :
    state_idle env s { type := EVENTS.STATE_ENTER, data := d, datalen := dlen }
      = some (s._currentState, s) := by
  have hat2 : ¬ (queue_size s._atcmd_list > 0) := by omega
  have hpush : ¬ (s.cfg._opMode = NODE_MODE_T.PUSH ∧ queue_size s._rx_pkt_list > 0) := by
    rintro ⟨h1, _⟩
    rw [hpull] at h1
    exact absurd h1 (by decide)
  rcases hno with hb | ⟨hf, hq⟩
  · simp only [state_idle, hat2, hpush, if_false, hb, not_true_eq_false]
  · have hq2 : ¬ (queue_size s._tx_pkt_list > 0) := by omega
    by_cases hb : s.txBlocked = true
    · simp only [state_idle, hat2, hpush, if_false, hb, not_true_eq_false]
    · simp only [state_idle, hat2, hpush, if_false, hb, not_false_eq_true, if_true,
        state_idle_tx, hf, Bool.false_eq_true, hq2]

/-- Witness of claim C30: Idle is entered with cad_flag = 1 while TX is
blocked; the handler returns IDLE. -/
theorem state_idle_enter_ignores_cad_flag_witness :
    coreIdleCad.cad_flag = 1 ∧
    state_idle envSM coreIdleCad (simpleEvent EVENTS.STATE_ENTER)
      = some (STATES.IDLE, coreIdleCad) :=
  ⟨rfl, state_idle_enter_ignores_cad_flag envSM coreIdleCad DATA.null 0 (by decide)
    (by decide) (Or.inl rfl)⟩

/-- Claim C23: the unblock in RxingAck.  On RXERROR, RXTIMEOUT and TIMEOUT,
and on RXMSG with a frame, `state_rxing_ack` returns IDLE having set txBlocked
and armed timer 2 with the preamble time plus the random delay.  On RXMSG
without a payload (a null event data, or a reception record whose data is
null) it returns IDLE after the three calls that restore the reception
configuration only: txBlocked is left as it was and timer 2 is not armed. -/
theorem state_rxing_ack_unblock (c : Cipher) (s : Core) (uninit : MSG_T) (preambleMs r : Nat)
    (d : DATA) (dlen len : Nat) (rssi snr : Int) (frame : List Nat) :
    ((state_rxing_ack c s uninit preambleMs r
        { type := EVENTS.RXMSG,
          data := DATA.rxdone { data := some frame, length := len, rssi := rssi, snr := snr },
          datalen := dlen }).1 = STATES.IDLE ∧
      (state_rxing_ack c s uninit preambleMs r
        { type := EVENTS.RXMSG,
          data := DATA.rxdone { data := some frame, length := len, rssi := rssi, snr := snr },
          datalen := dlen }).2.txBlocked = true ∧
      SysCall.setTimer2 ((preambleMs + r) % 4294967296) ∈
        (state_rxing_ack c s uninit preambleMs r
          { type := EVENTS.RXMSG,
            data := DATA.rxdone { data := some frame, length := len, rssi := rssi, snr := snr },
            datalen := dlen }).2.calls) ∧
    (∀ t, t = EVENTS.RXERROR ∨ t = EVENTS.RXTIMEOUT ∨ t = EVENTS.TIMEOUT →
      (state_rxing_ack c s uninit preambleMs r { type := t, data := d, datalen := dlen }).1
        = STATES.IDLE ∧
      (state_rxing_ack c s uninit preambleMs r
        { type := t, data := d, datalen := dlen }).2.txBlocked = true ∧
      SysCall.setTimer2 ((preambleMs + r) % 4294967296) ∈
        (state_rxing_ack c s uninit preambleMs r
          { type := t, data := d, datalen := dlen }).2.calls) ∧
    state_rxing_ack c s uninit preambleMs r
        { type := EVENTS.RXMSG,
          data := DATA.rxdone { data := none, length := len, rssi := rssi, snr := snr },
          datalen := dlen } = (STATES.IDLE, rxConfigStandard s) ∧
    state_rxing_ack c s uninit preambleMs r
        { type := EVENTS.RXMSG, data := DATA.null, datalen := dlen }
      = (STATES.IDLE, rxConfigStandard s) ∧
    (rxConfigStandard s).txBlocked = s.txBlocked ∧
    (rxConfigStandard s).calls = s.calls ++
      [SysCall.radioSetRxFixLen false 0, SysCall.radioSetPreamble s.cfg._preambleLen,
       SysCall.radioSetRxContinuous true] := by
  refine ⟨⟨rfl, rfl, ?_⟩, ?_, rfl, rfl, rfl, rfl⟩
  · simp only [state_rxing_ack, setTimerForUnblockingTx]
    exact List.mem_append_right _ (List.mem_singleton_self _)
  · intro t ht
    rcases ht with ht | ht | ht <;> subst ht <;> refine ⟨rfl, rfl, ?_⟩ <;>
      simp [state_rxing_ack, setTimerForUnblockingTx, rxConfigStandard]

/-- Witness of claim C23: in `coreAckWait` an RXMSG event without data leads
to IDLE with TX still blocked and no timer armed, while RXTIMEOUT arms
timer 2. -/
theorem state_rxing_ack_unblock_witness :
    state_rxing_ack xorCipher coreAckWait msgZero 50 3 (simpleEvent EVENTS.RXMSG)
      = (STATES.IDLE, rxConfigStandard coreAckWait) ∧
    (rxConfigStandard coreAckWait).txBlocked = true ∧
    (rxConfigStandard coreAckWait).calls =
      [SysCall.radioSetRxFixLen false 0, SysCall.radioSetPreamble 0,
       SysCall.radioSetRxContinuous true] ∧
    SysCall.setTimer2 53 ∈
      (state_rxing_ack xorCipher coreAckWait msgZero 50 3
        { type := EVENTS.RXTIMEOUT, data := DATA.null, datalen := 0 }).2.calls :=
  ⟨(state_rxing_ack_unblock xorCipher coreAckWait msgZero 50 3 DATA.null 0 0 0 0 []).2.2.2.1,
   rfl,
   (state_rxing_ack_unblock xorCipher coreAckWait msgZero 50 3 DATA.null 0 0 0 0 []).2.2.2.2.2,
   ((state_rxing_ack_unblock xorCipher coreAckWait msgZero 50 3 DATA.null 0 0 0 0 []).2.1
      EVENTS.RXTIMEOUT (Or.inr (Or.inl rfl))).2.2⟩

/-- A round of the retry cycle that ends with a timeout while the retry
counter stays below the maximum: a retry notification with the new count, the
frame and its message kept. -/
theorem retryRound_retry (env : SMEnv) (s : Core) (t : EVENTS) (k : Nat)
    (hlbt : env.radioLBT = true) (hf : s.txFrameFilled = true) (hk : s.retryTxFrame = k)
    (hk2 : k + 1 < MAX_TX_FRAME_RETRY) (ht : t = EVENTS.TIMEOUT ∨ t = EVENTS.TXTIMEOUT) :
    retryRound env t s = some (STATES.IDLE,
      { s with txBlocked := true, retryTxFrame := k + 1,
               calls := s.calls ++ roundCalls env s
                 (jsonPrefixNokTxRetry ++ FillBuffer8_t (k + 1) ++ jsonSuffix) }) := by
  have hk3 : k + 1 < 3 := hk2
  have hm : (k + 1) % 256 = k + 1 := by omega
  rcases ht with ht | ht <;> subst ht <;>
    simp only [retryRound, state_idle, simpleEvent, state_idle_tx, hf, if_true, tryTxFrame,
      hlbt, state_txing, setTimerForUnblockingTx, hk, hm, hk2, roundCalls, List.append_assoc,
      List.singleton_append, List.cons_append, List.nil_append]

/-- A round of the retry cycle that ends with a timeout when the retry
counter reaches the maximum: the failure is reported and the frame and its
message are dropped. -/
theorem retryRound_fail (env : SMEnv) (s : Core) (t : EVENTS) (k : Nat)
    (hlbt : env.radioLBT = true) (hf : s.txFrameFilled = true) (hk : s.retryTxFrame = k)
    (hk2 : MAX_TX_FRAME_RETRY ≤ k + 1) (hk3 : k < 255)
    (ht : t = EVENTS.TIMEOUT ∨ t = EVENTS.TXTIMEOUT) :
    retryRound env t s = some (STATES.IDLE,
      { s with txBlocked := true, retryTxFrame := k + 1, txFrameFilled := false,
               currentTxMsg := none,
               calls := s.calls ++ roundCalls env s jsonErrorTxFail }) := by
  have hm : (k + 1) % 256 = k + 1 := by omega
  have hn : ¬ (k + 1 < MAX_TX_FRAME_RETRY) := not_lt.mpr hk2
  rcases ht with ht | ht <;> subst ht <;>
    simp only [retryRound, state_idle, simpleEvent, state_idle_tx, hf, if_true, tryTxFrame,
      hlbt, state_txing, setTimerForUnblockingTx, hk, hm, hn, if_false, roundCalls,
      List.append_assoc, List.singleton_append, List.cons_append, List.nil_append]

/-- Counterexample to claim C21 as stated: from a freshly built frame, three
transmissions that each end with TIMEOUT give two retry notifications (counts
1 and 2) and then the report FAILED; after the third timeout the frame is no
longer pending.  The frame was sent three times, so it was retried twice, not
three times. -/
theorem tx_retry_third_timeout_fails :
    (retryRounds envSM [EVENTS.TIMEOUT, EVENTS.TIMEOUT, EVENTS.TIMEOUT] corePending).map
        (fun s => (s.txFrameFilled, s.retryTxFrame, s.calls.filterMap responseText,
          (sentFrames s.calls).length))
      = some (false, 3,
          ["NOK TX \x7b\"retry\":\"1\"\x7d", "NOK TX \x7b\"retry\":\"2\"\x7d",
           "NOK TX \x7b\"status\":\"FAILED\"\x7d"], 3) := by
  decide

/-- Claim C21, amended: the transmit retry budget.  Starting from a pending
frame with retry counter 0, when the channel is free at each attempt and each
transmission ends with TIMEOUT or TXTIMEOUT in Txing, the first and the second
timeout each produce a retry notification carrying the count (1, then 2),
block TX, arm timer 2 and keep the frame and its message; the third timeout
reports the status FAILED, clears txFrameFilled and drops the message.  The
frame is transmitted three times in all. -/
theorem tx_retry_budget (env : SMEnv) (s : Core) (t1 t2 t3 : EVENTS)
    (hlbt : env.radioLBT = true) (hf : s.txFrameFilled = true) (hk : s.retryTxFrame = 0)
    (h1 : t1 = EVENTS.TIMEOUT ∨ t1 = EVENTS.TXTIMEOUT)
    (h2 : t2 = EVENTS.TIMEOUT ∨ t2 = EVENTS.TXTIMEOUT)
    (h3 : t3 = EVENTS.TIMEOUT ∨ t3 = EVENTS.TXTIMEOUT) :
    ∃ s1 s2 s3,
      retryRound env t1 s = some (STATES.IDLE, s1) ∧
      s1.calls = s.calls ++ roundCalls env s
        (jsonPrefixNokTxRetry ++ FillBuffer8_t 1 ++ jsonSuffix) ∧
      s1.txFrameFilled = true ∧ s1.currentTxMsg = s.currentTxMsg ∧
      retryRound env t2 s1 = some (STATES.IDLE, s2) ∧
      s2.calls = s1.calls ++ roundCalls env s
        (jsonPrefixNokTxRetry ++ FillBuffer8_t 2 ++ jsonSuffix) ∧
      s2.txFrameFilled = true ∧ s2.currentTxMsg = s.currentTxMsg ∧
      retryRound env t3 s2 = some (STATES.IDLE, s3) ∧
      s3.calls = s2.calls ++ roundCalls env s jsonErrorTxFail ∧
      s3.txFrameFilled = false ∧ s3.currentTxMsg = none := by
  have r1 := retryRound_retry env s t1 0 hlbt hf hk (by decide) h1
  have r2 := retryRound_retry env
    { s with txBlocked := true, retryTxFrame := 0 + 1,
             calls := s.calls ++ roundCalls env s
               (jsonPrefixNokTxRetry ++ FillBuffer8_t (0 + 1) ++ jsonSuffix) }
    t2 1 hlbt hf rfl (by decide) h2
  have r3 := retryRound_fail env
    { s with txBlocked := true, retryTxFrame := 1 + 1,
             calls := (s.calls ++ roundCalls env s
               (jsonPrefixNokTxRetry ++ FillBuffer8_t (0 + 1) ++ jsonSuffix)) ++
               roundCalls env s (jsonPrefixNokTxRetry ++ FillBuffer8_t (1 + 1) ++ jsonSuffix) }
    t3 2 hlbt hf rfl (by decide) (by decide) h3
  exact ⟨_, _, _, r1, rfl, hf, rfl, r2, rfl, hf, rfl, r3, rfl, rfl, rfl⟩

/-- Witness of the amended claim C21 on the node `corePending`. -/
theorem tx_retry_budget_witness :
    ∃ s1 s2 s3,
      retryRound envSM EVENTS.TIMEOUT corePending = some (STATES.IDLE, s1) ∧
      s1.calls = corePending.calls ++ roundCalls envSM corePending
        (jsonPrefixNokTxRetry ++ FillBuffer8_t 1 ++ jsonSuffix) ∧
      s1.txFrameFilled = true ∧ s1.currentTxMsg = corePending.currentTxMsg ∧
      retryRound envSM EVENTS.TXTIMEOUT s1 = some (STATES.IDLE, s2) ∧
      s2.calls = s1.calls ++ roundCalls envSM corePending
        (jsonPrefixNokTxRetry ++ FillBuffer8_t 2 ++ jsonSuffix) ∧
      s2.txFrameFilled = true ∧ s2.currentTxMsg = corePending.currentTxMsg ∧
      retryRound envSM EVENTS.TIMEOUT s2 = some (STATES.IDLE, s3) ∧
      s3.calls = s2.calls ++ roundCalls envSM corePending jsonErrorTxFail ∧
      s3.txFrameFilled = false ∧ s3.currentTxMsg = none :=
  tx_retry_budget envSM corePending EVENTS.TIMEOUT EVENTS.TXTIMEOUT EVENTS.TIMEOUT
    rfl rfl rfl (Or.inl rfl) (Or.inr rfl) (Or.inl rfl)

/-- Claim C26: accepted payloads and the frame buffer.  `cmd_send` accepts a
payload of 245 characters (it returns 0 and queues a Standard message whose
payloadLength is 245), and the frame `buildFrame` makes of that message is 256
bytes long, one more than MAX_FRAME_SIZE = 255: `frameSize` returns 0 for it,
and when the state machine sends it the length handed to the radio is 0. -/
theorem cmd_send_accepts_oversize_frame :
    (cmd_send coreConn (some [48, 50]) (some payload245) msgZero 0).1 = 0 ∧
    (cmd_send coreConn (some [48, 50]) (some payload245) msgZero 0).2.1 = none ∧
    (queuedMsg (cmd_send coreConn (some [48, 50]) (some payload245) msgZero 0).2.2._tx_pkt_list
        0).map
        (fun m => (m.hdr.payloadLength, m.content.toStd.destId, frameSize m,
          (buildFrame xorCipher cfgValid 0xBEEF (List.replicate MAX_FRAME_SIZE 0) m).2))
      = some (245, 2, 0, 256) ∧
    MAX_FRAME_SIZE < 256 ∧
    (state_idle envSM (cmd_send coreConn (some [48, 50]) (some payload245) msgZero 0).2.2
        (simpleEvent EVENTS.TXREQ)).map
        (fun x => (x.1, x.2.currentTxLength, sentLengths x.2.calls))
      = some (STATES.TXING, 256, [0]) := by
  decide

/-- The search loop of `add_to_statqueue` keeps its invariant. -/
theorem statLoop_inv (els0 : Nat → STAT_T) (d : STAT_T) (n : Nat) (hn : n < MAXQSZ) :
    StatLoopInv els0 d n ((List.range n).foldl (statLoop d) (els0, MAXQSZ, 0)) ∧
    StatLoopInv els0 d (n + 1) ((List.range (n + 1)).foldl (statLoop d) (els0, MAXQSZ, 0)) := by
  have hn16 : n < 16 := hn
  induction n with
  | zero =>
    have h0 : StatLoopInv els0 d 0 ((List.range 0).foldl (statLoop d) (els0, MAXQSZ, 0)) := by
      refine ⟨fun j => ?_, fun _ => rfl, ?_, fun _ => ⟨Or.inr ⟨rfl, rfl⟩, ?_⟩⟩
      · simp
      · rintro ⟨j, hj, _⟩
        exact absurd hj (Nat.not_lt_zero j)
      · intro j hj
        exact absurd hj (Nat.not_lt_zero j)
    refine ⟨h0, ?_⟩
    show StatLoopInv els0 d 1 (statLoop d (els0, MAXQSZ, 0) 0)
    unfold statLoop
    by_cases hm : (els0 0).deviceId = d.deviceId
    · simp only [hm, if_true]
      refine ⟨fun j => ?_, fun hno => absurd hm (hno 0 Nat.one_pos), fun _ => Nat.one_pos,
        fun hno => absurd hm (hno 0 Nat.one_pos)⟩
      by_cases hj : j = 0
      · subst hj
        simp [hm]
      · show Function.update els0 0 d j = _
        rw [Function.update_noteq hj]
        have : ¬ (j < 1) := by omega
        simp [this]
    · simp only [hm, if_false, lt_self_iff_false]
      refine ⟨fun j => ?_, fun _ => rfl, ?_, fun _ => ⟨Or.inl Nat.one_pos, ?_⟩⟩
      · by_cases hj : j = 0
        · subst hj
          simp [hm]
        · have : ¬ (j < 1) := by omega
          simp [this]
      · rintro ⟨j, hj, hjm⟩
        have : j = 0 := by omega
        subst this
        exact absurd hjm hm
      · intro j hj
        have : j = 0 := by omega
        subst this
        exact le_refl _
  | succ k ih =>
    have ih2 := (ih (by omega) (by omega)).2
    refine ⟨ih2, ?_⟩
    rw [List.range_succ, List.foldl_append]
    generalize (List.range (k + 1)).foldl (statLoop d) (els0, MAXQSZ, 0) = st at ih2
    obtain ⟨hels, hnone, hsome, hold⟩ := ih2
    show StatLoopInv els0 d (k + 1 + 1) (statLoop d st (k + 1))
    have hcur : st.1 (k + 1) = els0 (k + 1) := by
      rw [hels]
      simp
    unfold statLoop
    rw [hcur]
    by_cases hm : (els0 (k + 1)).deviceId = d.deviceId
    · simp only [hm, if_true]
      refine ⟨fun j => ?_, fun hno => absurd hm (hno (k + 1) (by omega)),
        fun _ => Nat.lt_succ_self (k + 1), fun hno => absurd hm (hno (k + 1) (by omega))⟩
      by_cases hj : j = k + 1
      · subst hj
        simp [hm]
      · show Function.update st.1 (k + 1) d j = _
        rw [Function.update_noteq hj, hels]
        by_cases hjk : j < k + 1
        · have : j < k + 1 + 1 := by omega
          simp [hjk, this]
        · have : ¬ (j < k + 1 + 1) := by omega
          simp [hjk, this]
    · have hext : ∀ j, st.1 j
          = if j < k + 1 + 1 ∧ (els0 j).deviceId = d.deviceId then d else els0 j := by
        intro j
        rw [hels]
        by_cases hj : j = k + 1
        · subst hj
          simp [hm]
        · by_cases hjk : j < k + 1
          · have : j < k + 1 + 1 := by omega
            simp [hjk, this]
          · have : ¬ (j < k + 1 + 1) := by omega
            simp [hjk, this]
      have hnone2 : (∀ j, j < k + 1 + 1 → (els0 j).deviceId ≠ d.deviceId) →
          st.2.1 = MAXQSZ := fun hno => hnone (fun j hj => hno j (by omega))
      have hsome2 : (∃ j, j < k + 1 + 1 ∧ (els0 j).deviceId = d.deviceId) →
          st.2.1 < k + 1 + 1 := by
        rintro ⟨j, hj, hjm⟩
        have hjk : j < k + 1 := by
          rcases Nat.lt_or_ge j (k + 1) with h | h
          · exact h
          · have : j = k + 1 := by omega
            subst this
            exact absurd hjm hm
        have := hsome ⟨j, hjk, hjm⟩
        omega
      simp only [hm, if_false]
      by_cases hlt : (els0 (k + 1)).lastSeen < (st.1 st.2.2).lastSeen
      · simp only [hlt, if_true]
        refine ⟨hext, hnone2, hsome2, fun hno => ⟨Or.inl (Nat.lt_succ_self (k + 1)), ?_⟩⟩
        show ∀ j, j < k + 1 + 1 → (els0 (k + 1)).lastSeen ≤ (els0 j).lastSeen
        have hno1 : ∀ j, j < k + 1 → (els0 j).deviceId ≠ d.deviceId :=
          fun j hj => hno j (by omega)
        obtain ⟨hpos, hmin⟩ := hold hno1
        have hold_lt : st.2.2 < k + 1 := by
          rcases hpos with h | ⟨h, _⟩
          · exact h
          · omega
        have hsame : st.1 st.2.2 = els0 st.2.2 := by
          rw [hels]
          simp [hno1 st.2.2 hold_lt]
        rw [hsame] at hlt
        intro j hj
        by_cases hjk : j = k + 1
        · subst hjk
          exact le_refl _
        · have := hmin j (by omega)
          omega
      · simp only [hlt, if_false]
        refine ⟨hext, hnone2, hsome2, fun hno => ?_⟩
        have hno1 : ∀ j, j < k + 1 → (els0 j).deviceId ≠ d.deviceId :=
          fun j hj => hno j (by omega)
        obtain ⟨hpos, hmin⟩ := hold hno1
        have hold_lt : st.2.2 < k + 1 := by
          rcases hpos with h | ⟨h, _⟩
          · exact h
          · omega
        have hsame : st.1 st.2.2 = els0 st.2.2 := by
          rw [hels]
          simp [hno1 st.2.2 hold_lt]
        rw [hsame] at hlt
        refine ⟨Or.inl (Nat.lt_succ_of_lt hold_lt), ?_⟩
        show ∀ j, j < k + 1 + 1 → (els0 st.2.2).lastSeen ≤ (els0 j).lastSeen
        intro j hj
        by_cases hjk : j = k + 1
        · subst hjk
          omega
        · exact hmin j (by omega)

/-- The invariant of the search loop holds after as many turns as the table
has entries. -/
theorem statLoop_inv_count (els0 : Nat → STAT_T) (d : STAT_T) (n : Nat) (hn : n ≤ MAXQSZ) :
    StatLoopInv els0 d n ((List.range n).foldl (statLoop d) (els0, MAXQSZ, 0)) := by
  cases n with
  | zero => exact (statLoop_inv els0 d 0 (by decide)).1
  | succ k => exact (statLoop_inv els0 d k (Nat.lt_of_succ_le hn)).2

/-- The function `add_to_statqueue` in terms of what its search loop found. -/
theorem add_to_statqueue_eq (q : QSTAT_T) (d : STAT_T) (hc : q.count ≤ MAXQSZ) :
    ∃ st, StatLoopInv q.els d q.count st ∧
      (add_to_statqueue q d).2 =
        (if st.2.1 = MAXQSZ then
          if q.count = MAXQSZ then { q with els := Function.update st.1 st.2.2 d }
          else { count := (q.count + 1) % 256, els := Function.update st.1 q.count d }
        else { q with els := st.1 }) ∧
      (add_to_statqueue q d).1 = toInt8 (add_to_statqueue q d).2.count := by
  have hc16 : q.count ≤ 16 := hc
  have hm : q.count % 256 = q.count := by omega
  refine ⟨(List.range q.count).foldl (statLoop d) (q.els, MAXQSZ, 0),
    statLoop_inv_count q.els d q.count hc, ?_, ?_⟩
  · simp only [add_to_statqueue, hm]
  · simp only [add_to_statqueue, hm]

/-- Claim C25: the statistics table.  On a table of at most 16 entries,
`add_to_statqueue` leaves at most 16 entries and returns the count; for a
device id already present it replaces by the new record the entries of that
device (one entry, when the ids of the table are distinct) and changes neither
the count nor any other entry; for a device id not present it stores the
record after the last entry and adds one to the count while fewer than 16
entries exist, and when 16 entries exist it stores the record over an entry
of smallest lastSeen and leaves the 15 others and the count as they were. -/
theorem add_to_statqueue_eviction (q : QSTAT_T) (d : STAT_T) (hc : q.count ≤ MAXQSZ) :
    (add_to_statqueue q d).2.count ≤ MAXQSZ ∧
    (add_to_statqueue q d).1 = (((add_to_statqueue q d).2.count : Nat) : Int) ∧
    ((∃ i, i < q.count ∧ (q.els i).deviceId = d.deviceId) →
      (add_to_statqueue q d).2.count = q.count ∧
      ∀ j, (add_to_statqueue q d).2.els j
        = if j < q.count ∧ (q.els j).deviceId = d.deviceId then d else q.els j) ∧
    ((∀ i, i < q.count → (q.els i).deviceId ≠ d.deviceId) → q.count < MAXQSZ →
      (add_to_statqueue q d).2.count = q.count + 1 ∧
      (add_to_statqueue q d).2.els = Function.update q.els q.count d) ∧
    ((∀ i, i < q.count → (q.els i).deviceId ≠ d.deviceId) → q.count = MAXQSZ →
      (add_to_statqueue q d).2.count = MAXQSZ ∧
      ∃ k, k < MAXQSZ ∧ (∀ j, j < MAXQSZ → (q.els k).lastSeen ≤ (q.els j).lastSeen) ∧
        (add_to_statqueue q d).2.els = Function.update q.els k d) := by
  have hc16 : q.count ≤ 16 := hc
  obtain ⟨st, ⟨hels, hnone, hsome, hold⟩, heq, hret⟩ := add_to_statqueue_eq q d hc
  have hsame : (∀ i, i < q.count → (q.els i).deviceId ≠ d.deviceId) → st.1 = q.els := by
    intro hno
    funext j
    rw [hels]
    by_cases hj : j < q.count
    · simp [hno j hj]
    · simp [hj]
  have hpresent : (∃ i, i < q.count ∧ (q.els i).deviceId = d.deviceId) →
      (add_to_statqueue q d).2 = { q with els := st.1 } := by
    intro hex
    have hlt := hsome hex
    have hne : ¬ (st.2.1 = MAXQSZ) := by
      intro h
      rw [h] at hlt
      exact absurd (Nat.lt_of_lt_of_le hlt hc) (lt_irrefl _)
    rw [heq, if_neg hne]
  have habsent1 : (∀ i, i < q.count → (q.els i).deviceId ≠ d.deviceId) → q.count < MAXQSZ →
      (add_to_statqueue q d).2
        = { count := (q.count + 1) % 256, els := Function.update q.els q.count d } := by
    intro hno hlt
    have hne : ¬ (q.count = MAXQSZ) := Nat.ne_of_lt hlt
    rw [heq, if_pos (hnone hno), if_neg hne, hsame hno]
  have habsent2 : (∀ i, i < q.count → (q.els i).deviceId ≠ d.deviceId) → q.count = MAXQSZ →
      (add_to_statqueue q d).2 = { q with els := Function.update q.els st.2.2 d } := by
    intro hno hfull
    rw [heq, if_pos (hnone hno), if_pos hfull, hsame hno]
  have hcount : (add_to_statqueue q d).2.count ≤ MAXQSZ := by
    by_cases hex : ∃ i, i < q.count ∧ (q.els i).deviceId = d.deviceId
    · rw [hpresent hex]
      exact hc
    · have hno : ∀ i, i < q.count → (q.els i).deviceId ≠ d.deviceId :=
        fun i hi h => hex ⟨i, hi, h⟩
      by_cases hfull : q.count = MAXQSZ
      · rw [habsent2 hno hfull]
        exact hc
      · have hlt : q.count < MAXQSZ := Nat.lt_of_le_of_ne hc hfull
        have hlt16 : q.count < 16 := hlt
        rw [habsent1 hno hlt]
        show (q.count + 1) % 256 ≤ 16
        omega
  refine ⟨hcount, ?_, ?_, ?_, ?_⟩
  · rw [hret]
    have h16 : (add_to_statqueue q d).2.count ≤ 16 := hcount
    unfold toInt8
    have h1 : (add_to_statqueue q d).2.count % 256 < 128 := by omega
    have h2 : (add_to_statqueue q d).2.count % 256 = (add_to_statqueue q d).2.count := by omega
    rw [if_pos h1, h2]
  · intro hex
    rw [hpresent hex]
    exact ⟨rfl, hels⟩
  · intro hno hlt
    have hlt16 : q.count < 16 := hlt
    rw [habsent1 hno hlt]
    refine ⟨?_, rfl⟩
    show (q.count + 1) % 256 = q.count + 1
    omega
  · intro hno hfull
    rw [habsent2 hno hfull]
    refine ⟨hfull, ?_⟩
    obtain ⟨hpos, hmin⟩ := hold hno
    have hk : st.2.2 < MAXQSZ := by
      rcases hpos with h | ⟨h, _⟩
      · rw [hfull] at h
        exact h
      · rw [hfull] at h
        exact absurd h (by decide)
    refine ⟨st.2.2, hk, ?_, rfl⟩
    intro j hj
    rw [← hfull] at hj
    exact hmin j hj

/-- Witness of claim C25: on the full table `statTable 16` a record of the
unknown device 40 replaces the entry of index 15, the one last seen first; a
record of device 3 replaces the entry of index 2. -/
theorem add_to_statqueue_eviction_witness :
    ((add_to_statqueue (statTable 16) { deviceId := 40, lastRssi := -50, lastSeen := 500 }).2.count
        = MAXQSZ ∧
      ∃ k, k < MAXQSZ ∧
        (∀ j, j < MAXQSZ → ((statTable 16).els k).lastSeen ≤ ((statTable 16).els j).lastSeen) ∧
        (add_to_statqueue (statTable 16)
            { deviceId := 40, lastRssi := -50, lastSeen := 500 }).2.els
          = Function.update (statTable 16).els k
              { deviceId := 40, lastRssi := -50, lastSeen := 500 }) ∧
    (add_to_statqueue (statTable 16) { deviceId := 3, lastRssi := -50, lastSeen := 500 }).2.count
      = 16 :=
  ⟨(add_to_statqueue_eviction (statTable 16) { deviceId := 40, lastRssi := -50, lastSeen := 500 }
      (by decide)).2.2.2.2 (by decide) rfl,
   ((add_to_statqueue_eviction (statTable 16) { deviceId := 3, lastRssi := -50, lastSeen := 500 }
      (by decide)).2.2.1 ⟨2, by decide, rfl⟩).1⟩

/-! ### Loading the configuration -/

theorem load_gwMask_keeps (env : ConfigEnv) (st : LoadState) :
    (load_gwMask env st).s.cfg._rsf = st.s.cfg._rsf ∧
    (load_gwMask env st).s.preambleTime = st.s.preambleTime ∧
    (load_gwMask env st).updateRadioAttr = st.updateRadioAttr ∧
    ((load_gwMask env st).ret = 0 → st.ret = 0) := by
  unfold load_gwMask
  cases env.getConfig strGwMask with
  | none => simp
  | some value =>
    simp only
    split_ifs <;> simp

theorem load_deviceId_keeps (env : ConfigEnv) (st : LoadState) :
    (load_deviceId env st).s.cfg._rsf = st.s.cfg._rsf ∧
    (load_deviceId env st).s.preambleTime = st.s.preambleTime ∧
    (load_deviceId env st).updateRadioAttr = st.updateRadioAttr ∧
    ((load_deviceId env st).ret = 0 → st.ret = 0) := by
  unfold load_deviceId
  cases env.getConfig strDeviceId with
  | none => simp
  | some value =>
    simp only
    split_ifs <;> simp

theorem load_groupId_keeps (env : ConfigEnv) (st : LoadState) :
    (load_groupId env st).s.cfg._rsf = st.s.cfg._rsf ∧
    (load_groupId env st).s.preambleTime = st.s.preambleTime ∧
    (load_groupId env st).updateRadioAttr = st.updateRadioAttr ∧
    ((load_groupId env st).ret = 0 → st.ret = 0) := by
  unfold load_groupId
  cases env.getConfig strGroupId with
  | none => simp
  | some value =>
    simp only
    split_ifs <;> simp

theorem load_rchanId_keeps (env : ConfigEnv) (uninit : Nat) (st : LoadState) :
    (load_rchanId env uninit st).s.cfg._rsf = st.s.cfg._rsf ∧
    (load_rchanId env uninit st).s.preambleTime = st.s.preambleTime ∧
    (load_rchanId env uninit st).updateRadioAttr = st.updateRadioAttr ∧
    ((load_rchanId env uninit st).ret = 0 → st.ret = 0) := by
  unfold load_rchanId
  cases env.getConfig strRchanId with
  | none => simp
  | some value =>
    simp only
    split_ifs <;> simp

theorem load_encKey_keeps (env : ConfigEnv) (st : LoadState) :
    (load_encKey env st).s.cfg._rsf = st.s.cfg._rsf ∧
    (load_encKey env st).s.preambleTime = st.s.preambleTime ∧
    (load_encKey env st).updateRadioAttr = st.updateRadioAttr ∧
    ((load_encKey env st).ret = 0 → st.ret = 0) := by
  unfold load_encKey
  cases env.getConfig strEncKey with
  | none => simp
  | some value =>
    simp only
    split_ifs <;> simp

/-- The spreading-factor block counts a change exactly when it stores a new
value, whenever it leaves `ret` at 0. -/
theorem load_rsf_counts (env : ConfigEnv) (st : LoadState) :
    (load_rsf env st).s.preambleTime = st.s.preambleTime ∧
    ((load_rsf env st).ret = 0 → st.ret = 0) ∧
    (st.updateRadioAttr = 0 → (load_rsf env st).s.cfg._rsf ≠ st.s.cfg._rsf →
      (load_rsf env st).updateRadioAttr = 1) := by
  unfold load_rsf
  cases env.getConfig strRsf with
  | none => simp
  | some value =>
    simp only
    split_ifs with h1 h2
    · simp
    · refine ⟨rfl, fun h => h, fun h _ => ?_⟩
      simp [h]
    · simp

/-- The preamble-time block counts a change exactly when it stores a new
value; it never lowers the count of changes below one. -/
theorem load_preambleTime_counts (env : ConfigEnv) (st : LoadState) :
    (load_preambleTime env st).s.cfg._rsf = st.s.cfg._rsf ∧
    ((load_preambleTime env st).ret = 0 → st.ret = 0) ∧
    (st.updateRadioAttr ≤ 1 → (load_preambleTime env st).s.preambleTime ≠ st.s.preambleTime →
      0 < (load_preambleTime env st).updateRadioAttr) ∧
    (st.updateRadioAttr = 1 → 0 < (load_preambleTime env st).updateRadioAttr) := by
  unfold load_preambleTime
  cases env.getConfig strPreambleTime with
  | none =>
    simp only
    exact ⟨trivial, fun h => absurd h (by decide), fun _ h => absurd rfl h, fun h => by omega⟩
  | some value =>
    simp only
    split_ifs with h1 h2
    · exact ⟨rfl, fun h => absurd h (show ¬ ((-2 : Int) = 0) by decide),
        fun _ h => absurd rfl h, fun h => Nat.lt_of_lt_of_eq Nat.zero_lt_one h.symm⟩
    · refine ⟨rfl, fun h => h, fun h _ => ?_, fun h => ?_⟩
      · show 0 < (st.updateRadioAttr + 1) % 256
        omega
      · show 0 < (st.updateRadioAttr + 1) % 256
        omega
    · exact ⟨rfl, fun h => h, fun _ h => absurd rfl h,
        fun h => Nat.lt_of_lt_of_eq Nat.zero_lt_one h.symm⟩

/-- The last block returns `ret` and leaves the spreading factor and the
preamble time as loaded. -/
theorem load_finish_keeps (env : ConfigEnv) (st : LoadState) :
    (load_finish env st).1 = st.ret ∧
    (load_finish env st).2.cfg._rsf = st.s.cfg._rsf ∧
    (load_finish env st).2.preambleTime = st.s.preambleTime := by
  unfold load_finish
  split_ifs with h
  · simp only [update_safeguard_timers]
    split_ifs <;> simp
  · simp

/-- What the last block establishes when the configuration is valid and a
radio attribute changed. -/
theorem load_finish_recomputes (env : ConfigEnv) (st : LoadState)
    (h0 : st.ret = 0) (hu : 0 < st.updateRadioAttr) :
    (load_finish env st).2.cfg._preambleLen =
      (env.preamble_timems_to_symbols (load_finish env st).2.cfg._rsf
        (load_finish env st).2._bandwidth (load_finish env st).2.preambleTime % 65536 + 10)
        % 65536 ∧
    (load_finish env st).2.cfg._cad_interval =
      env.preamble_symbols_to_timems (load_finish env st).2.cfg._rsf
        (load_finish env st).2._bandwidth
        (((load_finish env st).2.cfg._preambleLen + 65536 - 10) % 65536) % 4294967296 ∧
    (∃ callsAck callsStd,
      (load_finish env st).2.timer_safeguard_txing_ack =
        env.ceilScaled (env.radioTimeOnAir callsAck ACK_FRAME_LENGTH) % 65536 ∧
      (load_finish env st).2.timer_safeguard_rxing_std =
        env.ceilScaled (env.radioTimeOnAir callsStd MAX_FRAME_SIZE) % 65536) ∧
    (load_finish env st).2.timer_safeguard_rxing_ack =
      (TIMER_ACK_SLOT_LENGTH + (load_finish env st).2.timer_safeguard_txing_ack) % 65536 ∧
    (load_finish env st).2.timer_safeguard_txing_std =
      (load_finish env st).2.timer_safeguard_rxing_std ∧
    SysCall.radioSetTxTimeout (load_finish env st).2.timer_safeguard_txing_std ∈
      (load_finish env st).2.calls ∧
    ((load_finish env st).2.cfg._connected = true →
      (load_finish env st).2.calls.getLast? =
        some (SysCall.setRepetitiveTimer (load_finish env st).2.cfg._cad_interval)) := by
  unfold load_finish
  rw [if_pos ⟨h0, hu⟩]
  simp only [update_safeguard_timers]
  split_ifs with hc
  · refine ⟨rfl, rfl, ⟨_, _, rfl, rfl⟩, rfl, rfl, ?_, fun _ => ?_⟩
    · simp
    · simp
  · refine ⟨rfl, rfl, ⟨_, _, rfl, rfl⟩, rfl, rfl, ?_, fun h => absurd h hc⟩
    simp

/-- Counterexample to claim C27 as written: with the store `storeNoMask`, which
holds no gateway mask, `load_full_config` returns -1; the spreading factor
goes from 7 to 8 and the preamble time from 0 to 500, but `_preambleLen` stays
8 where the conversion of the new values gives 249, `_cad_interval` stays 2000
where the conversion of 249 - 10 symbols gives 498 (and that of the held
length gives another value still), the safeguard timers keep their values, and the
periodic timer of the connected node is not re-armed: the only system call is
the channel change. -/
theorem load_full_config_invalid_keeps_timing :
    (load_full_config envNoMask 0 coreConn).1 = -1 ∧
    coreConn.cfg._rsf = 7 ∧ (load_full_config envNoMask 0 coreConn).2.cfg._rsf = 8 ∧
    coreConn.preambleTime = 0 ∧ (load_full_config envNoMask 0 coreConn).2.preambleTime = 500 ∧
    (load_full_config envNoMask 0 coreConn).2.cfg._preambleLen = 8 ∧
    (envNoMask.preamble_timems_to_symbols 8 0 500 % 65536 + 10) % 65536 = 249 ∧
    (load_full_config envNoMask 0 coreConn).2.cfg._cad_interval = 2000 ∧
    envNoMask.preamble_symbols_to_timems 8 0 ((249 + 65536 - 10) % 65536) % 4294967296 = 498 ∧
    envNoMask.preamble_symbols_to_timems 8 0 ((8 + 65536 - 10) % 65536) % 4294967296 ≠ 2000 ∧
    (load_full_config envNoMask 0 coreConn).2.cfg._connected = true ∧
    (load_full_config envNoMask 0 coreConn).2.calls = [SysCall.radioSetChannel 864025000] ∧
    (load_full_config envNoMask 0 coreConn).2.timer_safeguard_txing_std =
      coreConn.timer_safeguard_txing_std := by
  decide

/-- Claim C27, amended: after a call of `load_full_config` that returns 0 and
in which the loaded spreading factor or preamble time differs from the value
held before the call, `_preambleLen` equals
`preamble_timems_to_symbols(preambleTime) + 10` and `_cad_interval` equals
`preamble_symbols_to_timems(_preambleLen - 10)`, both computed with the new
spreading factor and preamble time, the safeguard timers have been updated
(the ack and standard timers are the scaled times on air of an ack frame and
of a frame of maximal size, the ack reception timer adds the ack slot length,
the transmission timeout of the radio is set to the standard timer), and, if
the node is connected, the last system call re-arms the periodic timer with
the new interval. -/
theorem load_full_config_recomputes (env : ConfigEnv) (uninit : Nat) (s : Core)
    (hret : (load_full_config env uninit s).1 = 0)
    (hchg : (load_full_config env uninit s).2.cfg._rsf ≠ s.cfg._rsf ∨
      (load_full_config env uninit s).2.preambleTime ≠ s.preambleTime) :
    (load_full_config env uninit s).2.cfg._preambleLen =
      (env.preamble_timems_to_symbols (load_full_config env uninit s).2.cfg._rsf
        (load_full_config env uninit s).2._bandwidth
        (load_full_config env uninit s).2.preambleTime % 65536 + 10) % 65536 ∧
    (load_full_config env uninit s).2.cfg._cad_interval =
      env.preamble_symbols_to_timems (load_full_config env uninit s).2.cfg._rsf
        (load_full_config env uninit s).2._bandwidth
        (((load_full_config env uninit s).2.cfg._preambleLen + 65536 - 10) % 65536)
        % 4294967296 ∧
    (∃ callsAck callsStd,
      (load_full_config env uninit s).2.timer_safeguard_txing_ack =
        env.ceilScaled (env.radioTimeOnAir callsAck ACK_FRAME_LENGTH) % 65536 ∧
      (load_full_config env uninit s).2.timer_safeguard_rxing_std =
        env.ceilScaled (env.radioTimeOnAir callsStd MAX_FRAME_SIZE) % 65536) ∧
    (load_full_config env uninit s).2.timer_safeguard_rxing_ack =
      (TIMER_ACK_SLOT_LENGTH + (load_full_config env uninit s).2.timer_safeguard_txing_ack)
        % 65536 ∧
    (load_full_config env uninit s).2.timer_safeguard_txing_std =
      (load_full_config env uninit s).2.timer_safeguard_rxing_std ∧
    SysCall.radioSetTxTimeout (load_full_config env uninit s).2.timer_safeguard_txing_std ∈
      (load_full_config env uninit s).2.calls ∧
    ((load_full_config env uninit s).2.cfg._connected = true →
      (load_full_config env uninit s).2.calls.getLast? =
        some (SysCall.setRepetitiveTimer (load_full_config env uninit s).2.cfg._cad_interval)) := by
  unfold load_full_config at hret hchg ⊢
  generalize h1 : load_gwMask env { ret := 0, updateRadioAttr := 0, s := s } = st1 at hret hchg ⊢
  generalize h2 : load_deviceId env st1 = st2 at hret hchg ⊢
  generalize h3 : load_groupId env st2 = st3 at hret hchg ⊢
  generalize h4 : load_rchanId env uninit st3 = st4 at hret hchg ⊢
  generalize h5 : load_rsf env st4 = st5 at hret hchg ⊢
  generalize h6 : load_preambleTime env st5 = st6 at hret hchg ⊢
  generalize h7 : load_encKey env st6 = st7 at hret hchg ⊢
  have k1 := load_gwMask_keeps env { ret := 0, updateRadioAttr := 0, s := s }
  have k2 := load_deviceId_keeps env st1
  have k3 := load_groupId_keeps env st2
  have k4 := load_rchanId_keeps env uninit st3
  have k5 := load_rsf_counts env st4
  have k6 := load_preambleTime_counts env st5
  have k7 := load_encKey_keeps env st6
  have kf := load_finish_keeps env st7
  rw [h1] at k1
  rw [h2] at k2
  rw [h3] at k3
  rw [h4] at k4
  rw [h5] at k5
  rw [h6] at k6
  rw [h7] at k7
  obtain ⟨r1, p1, u1, -⟩ := k1
  obtain ⟨r2, p2, u2, -⟩ := k2
  obtain ⟨r3, p3, u3, -⟩ := k3
  obtain ⟨r4, p4, u4, -⟩ := k4
  obtain ⟨p5, -, c5⟩ := k5
  obtain ⟨r6, -, c6, d6⟩ := k6
  obtain ⟨r7, p7, u7, z7⟩ := k7
  obtain ⟨fr, frsf, fpt⟩ := kf
  have hu4 : st4.updateRadioAttr = 0 := by rw [u4, u3, u2, u1]
  have hrsf4 : st4.s.cfg._rsf = s.cfg._rsf := by rw [r4, r3, r2, r1]
  have hpt5 : st5.s.preambleTime = s.preambleTime := by rw [p5, p4, p3, p2, p1]
  have hu5 : st5.updateRadioAttr ≤ 1 := by
    rw [← h5]
    unfold load_rsf
    cases env.getConfig strRsf with
    | none => simp [hu4]
    | some value =>
      simp only
      split_ifs <;> simp [hu4]
  have hu7 : 0 < st7.updateRadioAttr := by
    rw [u7]
    rcases hchg with hc | hc
    · rw [frsf, r7, r6, ← hrsf4] at hc
      exact d6 (c5 hu4 hc)
    · rw [fpt, p7, ← hpt5] at hc
      exact c6 hu5 hc
  exact load_finish_recomputes env st7 (fr ▸ hret) hu7

theorem load_full_config_recomputes_witness :
    (load_full_config envFull 0 coreConn).1 = 0 ∧
    (load_full_config envFull 0 coreConn).2.cfg._rsf = 8 ∧
    (load_full_config envFull 0 coreConn).2.cfg._preambleLen = 249 ∧
    (load_full_config envFull 0 coreConn).2.cfg._cad_interval =
      envFull.preamble_symbols_to_timems (load_full_config envFull 0 coreConn).2.cfg._rsf
        (load_full_config envFull 0 coreConn).2._bandwidth
        (((load_full_config envFull 0 coreConn).2.cfg._preambleLen + 65536 - 10) % 65536)
        % 4294967296 :=
  ⟨by decide, by decide, by decide,
   (load_full_config_recomputes envFull 0 coreConn (by decide) (Or.inl (by decide))).2.1⟩

/-! ### Rejected frames, sender reset and late frames in Rxing -/

/-- The type `retrieveMessage` stores in the header is the low nibble of the
first byte of the frame. -/
theorem retrieveMessage_hdr_type (c : Cipher) (cfg : Config) (msg : MSG_T) (fb : List Nat) :
    (retrieveMessage c cfg msg fb).2.hdr.type = (get_byte fb 0) &&& 0xF := by
  unfold retrieveMessage
  simp only
  split_ifs <;> rfl

/-- The values `retrieveMessage` returns. -/
theorem retrieveMessage_codes (c : Cipher) (cfg : Config) (msg : MSG_T) (fb : List Nat) :
    (retrieveMessage c cfg msg fb).1 = 0 ∨ (retrieveMessage c cfg msg fb).1 = -1 ∨
    (retrieveMessage c cfg msg fb).1 = -2 ∨ (retrieveMessage c cfg msg fb).1 = -3 ∨
    (retrieveMessage c cfg msg fb).1 = -4 := by
  unfold retrieveMessage
  simp only
  split_ifs <;> simp

/-- Claim C31: routing of rejected frames in Rxing.  On RXMSG with a frame
that `retrieveMessage` rejects (a result other than 0, which is then one of
-1, -2, -3, -4), `state_rxing` returns SKIPPING_ACK exactly when the result
is -2 and the type in the frame header is Standard, and IDLE otherwise; the
globals are returned as they were, so the peer table, the received-message
queue and the statistics table are unchanged and no Ack is prepared in
`currentTxMsg`. -/
theorem state_rxing_rejected (c : Cipher) (s : Core) (now : Nat) (uninit uninitAck : MSG_T)
    (frame : List Nat) (len dlen : Nat) (rssi snr : Int)
    (hrej : (retrieveMessage c s.cfg uninit frame).1 ≠ 0) :
    state_rxing c s now uninit uninitAck (rxmsgEvent frame len dlen rssi snr)
      = (if (retrieveMessage c s.cfg uninit frame).1 = -2 ∧
            (get_byte frame 0) &&& 0xF = TYPE_STDMSG then STATES.SKIPPING_ACK
          else STATES.IDLE, s) ∧
    ((retrieveMessage c s.cfg uninit frame).1 = -1 ∨
      (retrieveMessage c s.cfg uninit frame).1 = -2 ∨
      (retrieveMessage c s.cfg uninit frame).1 = -3 ∨
      (retrieveMessage c s.cfg uninit frame).1 = -4) ∧
    (state_rxing c s now uninit uninitAck (rxmsgEvent frame len dlen rssi snr)).2.peers
      = s.peers ∧
    (state_rxing c s now uninit uninitAck (rxmsgEvent frame len dlen rssi snr)).2._rx_pkt_list.count
      = s._rx_pkt_list.count ∧
    (state_rxing c s now uninit uninitAck (rxmsgEvent frame len dlen rssi snr)).2.statisticsWho.count
      = s.statisticsWho.count ∧
    (state_rxing c s now uninit uninitAck (rxmsgEvent frame len dlen rssi snr)).2.currentTxMsg
      = s.currentTxMsg := by
  have ht := retrieveMessage_hdr_type c s.cfg uninit frame
  have key : state_rxing c s now uninit uninitAck (rxmsgEvent frame len dlen rssi snr)
      = (if (retrieveMessage c s.cfg uninit frame).1 = -2 ∧
            (get_byte frame 0) &&& 0xF = TYPE_STDMSG then STATES.SKIPPING_ACK
          else STATES.IDLE, s) := by
    simp only [state_rxing, rxmsgEvent, if_neg hrej, ht]
    split_ifs <;> rfl
  refine ⟨key, ?_, ?_, ?_, ?_, ?_⟩
  · rcases retrieveMessage_codes c s.cfg uninit frame with h | h | h | h | h
    · exact absurd h hrej
    · exact Or.inl h
    · exact Or.inr (Or.inl h)
    · exact Or.inr (Or.inr (Or.inl h))
    · exact Or.inr (Or.inr (Or.inr h))
  all_goals rw [key]

/-- Witness of claim C31: the frame of a message for node 9 reaches node 2,
which skips the Ack window; the same frame with a corrupted payload byte fails
the CRC check and leads to IDLE. -/
theorem state_rxing_rejected_witness :
    (retrieveMessage xorCipher coreA.cfg msgZero
      (buildFrame xorCipher cfgA 0xBEEF [] msgElsewhere).1).1 = -2 ∧
    (state_rxing xorCipher coreA 1000 msgZero msgZero
      (rxmsgEvent (buildFrame xorCipher cfgA 0xBEEF [] msgElsewhere).1 16 12 (-40) 5)).1
      = STATES.SKIPPING_ACK ∧
    (state_rxing xorCipher coreA 1000 msgZero msgZero
      (rxmsgEvent (flipBit (buildFrame xorCipher cfgA 0xBEEF [] msgElsewhere).1 10 0)
        16 12 (-40) 5)).1 = STATES.IDLE :=
  ⟨by decide,
   (congrArg Prod.fst (state_rxing_rejected xorCipher coreA 1000 msgZero msgZero
      (buildFrame xorCipher cfgA 0xBEEF [] msgElsewhere).1 16 12 (-40) 5 (by decide)).1).trans
     (by decide),
   (congrArg Prod.fst (state_rxing_rejected xorCipher coreA 1000 msgZero msgZero
      (flipBit (buildFrame xorCipher cfgA 0xBEEF [] msgElsewhere).1 10 0) 16 12 (-40) 5
      (by decide)).1).trans (by decide)⟩

/-- The RXMSG branch of `state_rxing` when the accepted unicast frame carries
txSeq 0 while the record of its sender holds a non-zero in_expected. -/
theorem state_rxing_reset (c : Cipher) (s : Core) (now : Nat) (uninit uninitAck : MSG_T)
    (frame : List Nat) (len dlen : Nat) (rssi snr : Int) (p : Nat)
    (hacc : (retrieveMessage c s.cfg uninit frame).1 = 0)
    (huni : (retrieveMessage c s.cfg uninit frame).2.content.toStd.destId ≠ LOWAPP_ID_BROADCAST)
    (hq : s._rx_pkt_list.count < MAXQSZ)
    (hp : (retrieveMessage c s.cfg uninit frame).2.content.toStd.srcId = p)
    (hR : (retrieveMessage c s.cfg uninit frame).2.content.toStd.txSeq = 0)
    (hE : (s.peers p).in_expected ≠ 0) :
    (state_rxing c s now uninit uninitAck (rxmsgEvent frame len dlen rssi snr)).1
      = STATES.WAIT_SLOT_TX_ACK ∧
    (state_rxing c s now uninit uninitAck (rxmsgEvent frame len dlen rssi snr)).2.peers
      = Function.update s.peers p { out_txseq := 0, out_rxseq := 0, in_expected := 1 } ∧
    deliveredState
        (state_rxing c s now uninit uninitAck (rxmsgEvent frame len dlen rssi snr)).2
        s._rx_pkt_list.head
      = some { duplicate_flag := 0, missing_frames := 0 } ∧
    (state_rxing c s now uninit uninitAck (rxmsgEvent frame len dlen rssi snr)).2.currentTxMsg
      = some
        { hdr := { uninitAck.hdr with
            payloadLength := 0, type := TYPE_ACK, version := LOWAPP_CURRENT_VERSION },
          content := FMSG.ack
            { destId := p, srcId := s.cfg._deviceId, rxdSeq := 0, expectedSeq := 0 } } := by
  obtain ⟨hr, hcount, _, _⟩ := add_to_queue_not_full s._rx_pkt_list
    (DATA.rxapp { state := { duplicate_flag := 0, missing_frames := 0 },
                  msg := (retrieveMessage c s.cfg uninit frame).2, rssi := rssi, snr := snr })
    sizeof_MSG_RX_APP_T hq
  have hreset : (0 = 0 ∧ (s.peers p).in_expected ≠ 0) := ⟨rfl, hE⟩
  simp only [state_rxing, rxmsgEvent, deliveredState, hacc, if_true, hr, ne_eq,
    not_false_eq_true, huni, if_false, hp, hR, hreset, Function.update_same, true_and,
    and_self, Function.update_idem]

/-- Claim C32: sender-reset detection in Rxing.  When `state_rxing` accepts
and queues a unicast Standard frame with txSeq = 0 from peer p while
peers[p].in_expected is non-zero, the record of p is reset to zero before the
comparison, so that the Ack prepared in `currentTxMsg` carries rxdSeq = 0 and
expectedSeq = 0, the message queued for the application has neither the
duplicate nor the missing flag, and the record of p ends as out_txseq = 0,
out_rxseq = 0, in_expected = 1; the next state is WAIT_SLOT_TX_ACK. -/
theorem state_rxing_sender_reset (c : Cipher) (s : Core) (now : Nat)
    (uninit uninitAck : MSG_T) (frame : List Nat) (len dlen : Nat) (rssi snr : Int) (p : Nat)
    (hacc : (retrieveMessage c s.cfg uninit frame).1 = 0)
    (huni : (retrieveMessage c s.cfg uninit frame).2.content.toStd.destId ≠ LOWAPP_ID_BROADCAST)
    (hq : s._rx_pkt_list.count < MAXQSZ)
    (hp : (retrieveMessage c s.cfg uninit frame).2.content.toStd.srcId = p)
    (hR : (retrieveMessage c s.cfg uninit frame).2.content.toStd.txSeq = 0)
    (hE : (s.peers p).in_expected ≠ 0) :
    (state_rxing c s now uninit uninitAck (rxmsgEvent frame len dlen rssi snr)).1
      = STATES.WAIT_SLOT_TX_ACK ∧
    (state_rxing c s now uninit uninitAck (rxmsgEvent frame len dlen rssi snr)).2.peers p
      = { out_txseq := 0, out_rxseq := 0, in_expected := 1 } ∧
    (∀ q, q ≠ p →
      (state_rxing c s now uninit uninitAck (rxmsgEvent frame len dlen rssi snr)).2.peers q
        = s.peers q) ∧
    deliveredState
        (state_rxing c s now uninit uninitAck (rxmsgEvent frame len dlen rssi snr)).2
        s._rx_pkt_list.head
      = some { duplicate_flag := 0, missing_frames := 0 } ∧
    (∃ ack, (state_rxing c s now uninit uninitAck
          (rxmsgEvent frame len dlen rssi snr)).2.currentTxMsg = some ack ∧
      ack.hdr.type = TYPE_ACK ∧ ack.content.toAck.destId = p ∧
      ack.content.toAck.srcId = s.cfg._deviceId ∧
      ack.content.toAck.rxdSeq = 0 ∧ ack.content.toAck.expectedSeq = 0) := by
  obtain ⟨h1, h2, h3, h4⟩ := state_rxing_reset c s now uninit uninitAck frame len dlen rssi snr
    p hacc huni hq hp hR hE
  refine ⟨h1, ?_, ?_, h3, ⟨_, h4, rfl, rfl, rfl, rfl, rfl⟩⟩
  · rw [h2, Function.update_same]
  · intro q hqp
    rw [h2, Function.update_noteq hqp]

/-- Witness of claim C32: node 2 expects sequence number 9 from node 1 and
receives a frame carrying txSeq 0. -/
theorem state_rxing_sender_reset_witness :
    ((coreE 9).peers 1).in_expected = 9 ∧
    (state_rxing xorCipher (coreE 9) 1000 msgZero msgZero
      (rxmsgEvent (buildFrame xorCipher cfgA 0xBEEF [] (msgSeq 0)).1 16 12 (-40) 5)).2.peers 1
      = { out_txseq := 0, out_rxseq := 0, in_expected := 1 } :=
  ⟨by decide,
   (state_rxing_sender_reset xorCipher (coreE 9) 1000 msgZero msgZero
    (buildFrame xorCipher cfgA 0xBEEF [] (msgSeq 0)).1 16 12 (-40) 5 1
    (by decide) (by decide) (by decide) (by decide) (by decide) (by decide)).2.1⟩

/-- Claim C39: a late frame from before the wrap is never flagged duplicate.
For an accepted and queued unicast frame from peer p with txSeq R (one byte)
and recorded in_expected E: if R > 230 and E < 30 the frame is classified as a
gap (duplicate_flag = 0, missing_frames = R - E, in_expected becomes
(R mod 255) + 1); and whenever the queued message is flagged duplicate, R < E
holds, so the rollover disjunct (R > 230 and E < 30) of the duplicate test
never decides. -/
theorem state_rxing_late_frame (c : Cipher) (s : Core) (now : Nat) (uninit uninitAck : MSG_T)
    (frame : List Nat) (len dlen : Nat) (rssi snr : Int) (p R E : Nat)
    (hacc : (retrieveMessage c s.cfg uninit frame).1 = 0)
    (huni : (retrieveMessage c s.cfg uninit frame).2.content.toStd.destId ≠ LOWAPP_ID_BROADCAST)
    (hq : s._rx_pkt_list.count < MAXQSZ)
    (hp : (retrieveMessage c s.cfg uninit frame).2.content.toStd.srcId = p)
    (hR : (retrieveMessage c s.cfg uninit frame).2.content.toStd.txSeq = R)
    (hE : (s.peers p).in_expected = E)
    (hbyte : R < 256) :
    (R > SEQ_ROLLOVER_HIGH_THRESHOLD → E < SEQ_ROLLOVER_LOW_THRESHOLD →
      (state_rxing c s now uninit uninitAck (rxmsgEvent frame len dlen rssi snr)).1
        = STATES.WAIT_SLOT_TX_ACK ∧
      deliveredState
          (state_rxing c s now uninit uninitAck (rxmsgEvent frame len dlen rssi snr)).2
          s._rx_pkt_list.head
        = some { duplicate_flag := 0, missing_frames := R - E } ∧
      ((state_rxing c s now uninit uninitAck (rxmsgEvent frame len dlen rssi snr)).2.peers
          p).in_expected = (R % 255) + 1) ∧
    (∀ st, deliveredState
          (state_rxing c s now uninit uninitAck (rxmsgEvent frame len dlen rssi snr)).2
          s._rx_pkt_list.head = some st →
      st.duplicate_flag = 1 → R < E ∧ E - R < 10) := by
  by_cases hreset : R = 0 ∧ (s.peers p).in_expected ≠ 0
  · obtain ⟨h1, h2, h3, h4⟩ := state_rxing_reset c s now uninit uninitAck frame len dlen rssi
      snr p hacc huni hq hp (hR.trans hreset.1) hreset.2
    refine ⟨fun hh _ => ?_, fun st hst hd => ?_⟩
    · have : R = 0 := hreset.1
      have hh2 : R > 230 := hh
      omega
    · rw [h3] at hst
      cases hst
      exact absurd hd (show ¬ ((0 : Nat) = 1) by decide)
  · obtain ⟨h1, h2, h3⟩ := state_rxing_accepted c s now uninit uninitAck frame len dlen rssi snr
      p R hacc huni hq hp hR hreset
    rw [hE] at h2 h3
    refine ⟨fun hh hl => ?_, fun st hst hd => ?_⟩
    · have hh2 : R > 230 := hh
      have hl2 : E < 30 := hl
      have hne : ¬ (R = E) := by omega
      have hgap : R > E ∨ (R < SEQ_ROLLOVER_LOW_THRESHOLD ∧ E > SEQ_ROLLOVER_HIGH_THRESHOLD) :=
        Or.inl (by omega)
      rw [if_neg hne, if_pos hgap] at h2 h3
      refine ⟨h1, ?_, ?_⟩
      · rw [h3]
        have : (R + 256 - E % 256) % 256 = R - E := by omega
        rw [this]
      · rw [h2, Function.update_same]
    · rw [h3] at hst
      by_cases hne : R = E
      · rw [if_pos hne] at hst
        cases hst
        exact absurd hd (show ¬ ((0 : Nat) = 1) by decide)
      · rw [if_neg hne] at hst
        by_cases hgap : R > E ∨
            (R < SEQ_ROLLOVER_LOW_THRESHOLD ∧ E > SEQ_ROLLOVER_HIGH_THRESHOLD)
        · rw [if_pos hgap] at hst
          cases hst
          exact absurd hd (show ¬ ((0 : Nat) = 1) by decide)
        · rw [if_neg hgap] at hst
          by_cases hdup : (R < E ∨
              (R > SEQ_ROLLOVER_HIGH_THRESHOLD ∧ E < SEQ_ROLLOVER_LOW_THRESHOLD)) ∧
              ((E : Int) - (R : Int) < 10)
          · have hle : ¬ (R > E) := fun h => hgap (Or.inl h)
            have : R < E := by omega
            exact ⟨this, by omega⟩
          · rw [if_neg hdup] at hst
            cases hst
            exact absurd hd (show ¬ ((0 : Nat) = 1) by decide)

/-- Witness of claim C39: node 2 expects sequence number 5 from node 1 and
receives a frame carrying txSeq 250. -/
theorem state_rxing_late_frame_witness :
    deliveredState
        (state_rxing xorCipher (coreE 5) 1000 msgZero msgZero
          (rxmsgEvent (buildFrame xorCipher cfgA 0xBEEF [] (msgSeq 250)).1 16 12 (-40) 5)).2 0
      = some { duplicate_flag := 0, missing_frames := 245 } ∧
    ((state_rxing xorCipher (coreE 5) 1000 msgZero msgZero
          (rxmsgEvent (buildFrame xorCipher cfgA 0xBEEF [] (msgSeq 250)).1 16 12 (-40) 5)).2.peers
        1).in_expected = 251 :=
  ((state_rxing_late_frame xorCipher (coreE 5) 1000 msgZero msgZero
    (buildFrame xorCipher cfgA 0xBEEF [] (msgSeq 250)).1 16 12 (-40) 5 1 250 5
    (by decide) (by decide) (by decide) (by decide) (by decide) (by decide) (by decide)).1
    (by decide) (by decide)).2

/-! ### Range of the sequence counters -/

theorem seqSucc_range (x : Nat) : 1 ≤ seqSucc x ∧ seqSucc x ≤ 255 := by
  unfold seqSucc
  omega

/-- On 1..255 the successor is a single cycle of length 255. -/
theorem seqSucc_cycle (x k : Nat) (h1 : 1 ≤ x) (h2 : x ≤ 255) :
    seqSucc^[k] x = x ↔ 255 ∣ k := by
  rw [seqSucc_iterate k x h1 h2]
  omega

/-- What `state_txing` does to the record of a peer: at most out_txseq moves,
to its successor. -/
theorem state_txing_peers (s : Core) (preambleMs r : Nat) (evt : EVENT_T) (st : STATES)
    (s2 : Core) (p : Nat) (h : state_txing s preambleMs r evt = some (st, s2)) :
    (s2.peers p).out_rxseq = (s.peers p).out_rxseq ∧
    (s2.peers p).in_expected = (s.peers p).in_expected ∧
    ((s2.peers p).out_txseq = (s.peers p).out_txseq ∨
      (s2.peers p).out_txseq = ((s.peers p).out_txseq % 255) + 1) := by
  rcases evt with ⟨t, d, dl⟩
  cases t <;> simp only [state_txing, setTimerForUnblockingTx] at h
  all_goals first
    | (obtain ⟨-, rfl⟩ := Prod.mk.inj (Option.some.inj h); exact ⟨rfl, rfl, Or.inl rfl⟩)
    | skip
  · cases hm : s.currentTxMsg with
    | none => rw [hm] at h; cases h
    | some m =>
      rw [hm] at h
      simp only at h
      split_ifs at h <;>
        (obtain ⟨-, rfl⟩ := Prod.mk.inj (Option.some.inj h)
         by_cases hp : p = s.lastDestination
         · subst hp
           simp [Function.update_same]
         · simp [Function.update_noteq hp])
  all_goals
    split_ifs at h <;>
      (obtain ⟨-, rfl⟩ := Prod.mk.inj (Option.some.inj h); exact ⟨rfl, rfl, Or.inl rfl⟩)

/-- What `process_ack` does to the record of a peer: either the Ack announces
a re-initialised peer and its record is set to (1, 1, 0), or at most
out_rxseq moves, to a value in 1..255. -/
theorem process_ack_peers (s : Core) (msg : MSG_T) (p : Nat) :
    (msg.content.toAck.expectedSeq = 0 ∧ msg.content.toAck.rxdSeq ≠ 0 ∧
      (process_ack s msg).peers = Function.update s.peers msg.content.toAck.srcId
        { out_txseq := 1, out_rxseq := 1, in_expected := 0 }) ∨
    (((process_ack s msg).peers p).out_txseq = (s.peers p).out_txseq ∧
      ((process_ack s msg).peers p).in_expected = (s.peers p).in_expected ∧
      (((process_ack s msg).peers p).out_rxseq = (s.peers p).out_rxseq ∨
        (1 ≤ ((process_ack s msg).peers p).out_rxseq ∧
          ((process_ack s msg).peers p).out_rxseq ≤ 255))) := by
  unfold process_ack
  simp only
  by_cases hp : p = msg.content.toAck.srcId
  · subst hp
    split_ifs with h1 <;>
      first
      | exact Or.inl ⟨h1.1, h1.2, rfl⟩
      | (refine Or.inr ?_
         simp only [Function.update_same, Function.update_idem]
         refine ⟨trivial, trivial, ?_⟩
         first | exact Or.inl rfl | exact Or.inl trivial | (right; omega))
  · split_ifs with h1 <;>
      first
      | exact Or.inl ⟨h1.1, h1.2, rfl⟩
      | (refine Or.inr ?_
         simp [Function.update_noteq hp])

/-- What `state_rxing` does to the record of a peer: in_expected is left or
set to a value in 1..255; the two outbound counters are left, unless the
record is reset on a frame with txSeq 0, which leaves it at (0, 0, 1). -/
theorem state_rxing_peers (c : Cipher) (s : Core) (now : Nat) (uninit uninitAck : MSG_T)
    (evt : EVENT_T) (p : Nat) :
    (((state_rxing c s now uninit uninitAck evt).2.peers p).in_expected
        = (s.peers p).in_expected ∨
      (1 ≤ ((state_rxing c s now uninit uninitAck evt).2.peers p).in_expected ∧
        ((state_rxing c s now uninit uninitAck evt).2.peers p).in_expected ≤ 255)) ∧
    ((((state_rxing c s now uninit uninitAck evt).2.peers p).out_txseq = (s.peers p).out_txseq ∧
        ((state_rxing c s now uninit uninitAck evt).2.peers p).out_rxseq
          = (s.peers p).out_rxseq) ∨
      ((s.peers p).in_expected ≠ 0 ∧
        (state_rxing c s now uninit uninitAck evt).2.peers p
          = { out_txseq := 0, out_rxseq := 0, in_expected := 1 })) := by
  rcases evt with ⟨t, d, dl⟩
  cases t
  case RXMSG =>
    cases d with
    | rxdone rx =>
      rcases rx with ⟨data, l, rssi, snr⟩
      cases data with
      | none => simp [state_rxing]
      | some frame =>
        simp only [state_rxing]
        generalize retrieveMessage c s.cfg uninit frame = rm
        by_cases hp : p = rm.2.content.toStd.srcId
        · subst hp
          split_ifs <;>
            first
            | exact ⟨Or.inl rfl, Or.inl ⟨rfl, rfl⟩⟩
            | exact ⟨Or.inl trivial, Or.inl ⟨trivial, trivial⟩⟩
            | (simp only [Function.update_same, Function.update_idem] at *
               refine ⟨?_, ?_⟩
               · first | exact Or.inl rfl | exact Or.inl trivial | (right; omega)
               · first
                 | exact Or.inl ⟨rfl, rfl⟩
                 | exact Or.inl ⟨trivial, trivial⟩
                 | (right; refine ⟨by tauto, ?_⟩; simp_all))
        · split_ifs <;>
            first
            | exact ⟨Or.inl rfl, Or.inl ⟨rfl, rfl⟩⟩
            | exact ⟨Or.inl trivial, Or.inl ⟨trivial, trivial⟩⟩
            | (simp [Function.update_noteq hp])
    | _ => simp [state_rxing]
  all_goals exact ⟨Or.inl rfl, Or.inl ⟨rfl, rfl⟩⟩

/-- Claim C33: the sequence counters stay in range.  The successor
x -> (x mod 255) + 1 maps every value into 1..255 and is a single cycle of
length 255 on 1..255 (k steps lead back to the start exactly when 255 divides
k).  `state_txing` changes no counter but out_txseq, which it leaves or moves
to its successor.  `state_rxing` leaves in_expected or stores a value in
1..255, and leaves the outbound counters unless it resets the record on a
frame with txSeq 0 (the record then ends as 0, 0, 1).  `process_ack` either
re-initialises the record to (1, 1, 0) on an Ack with expectedSeq 0 and a
non-zero rxdSeq, or changes no counter but out_rxseq, which it leaves or sets
to a value in 1..255.  So a counter holds 0 only after initialisation or one
of the two resets. -/
theorem sequence_counters_in_range :
    (∀ x, 1 ≤ seqSucc x ∧ seqSucc x ≤ 255) ∧
    (∀ x k, 1 ≤ x → x ≤ 255 → (seqSucc^[k] x = x ↔ 255 ∣ k)) ∧
    (∀ (s : Core) (preambleMs r : Nat) (evt : EVENT_T) (st : STATES) (s2 : Core) (p : Nat),
      state_txing s preambleMs r evt = some (st, s2) →
      (s2.peers p).out_rxseq = (s.peers p).out_rxseq ∧
      (s2.peers p).in_expected = (s.peers p).in_expected ∧
      ((s2.peers p).out_txseq = (s.peers p).out_txseq ∨
        (s2.peers p).out_txseq = seqSucc (s.peers p).out_txseq)) ∧
    (∀ (c : Cipher) (s : Core) (now : Nat) (uninit uninitAck : MSG_T) (evt : EVENT_T) (p : Nat),
      (((state_rxing c s now uninit uninitAck evt).2.peers p).in_expected
          = (s.peers p).in_expected ∨
        (1 ≤ ((state_rxing c s now uninit uninitAck evt).2.peers p).in_expected ∧
          ((state_rxing c s now uninit uninitAck evt).2.peers p).in_expected ≤ 255)) ∧
      ((((state_rxing c s now uninit uninitAck evt).2.peers p).out_txseq
            = (s.peers p).out_txseq ∧
          ((state_rxing c s now uninit uninitAck evt).2.peers p).out_rxseq
            = (s.peers p).out_rxseq) ∨
        ((s.peers p).in_expected ≠ 0 ∧
          (state_rxing c s now uninit uninitAck evt).2.peers p
            = { out_txseq := 0, out_rxseq := 0, in_expected := 1 }))) ∧
    (∀ (s : Core) (msg : MSG_T) (p : Nat),
      (msg.content.toAck.expectedSeq = 0 ∧ msg.content.toAck.rxdSeq ≠ 0 ∧
        (process_ack s msg).peers = Function.update s.peers msg.content.toAck.srcId
          { out_txseq := 1, out_rxseq := 1, in_expected := 0 }) ∨
      (((process_ack s msg).peers p).out_txseq = (s.peers p).out_txseq ∧
        ((process_ack s msg).peers p).in_expected = (s.peers p).in_expected ∧
        (((process_ack s msg).peers p).out_rxseq = (s.peers p).out_rxseq ∨
          (1 ≤ ((process_ack s msg).peers p).out_rxseq ∧
            ((process_ack s msg).peers p).out_rxseq ≤ 255)))) :=
  ⟨seqSucc_range, seqSucc_cycle,
   fun s preambleMs r evt st s2 p h => state_txing_peers s preambleMs r evt st s2 p h,
   state_rxing_peers, process_ack_peers⟩

/-- Witness of claim C33: the successor of 255 is 1 and 255 steps lead from 255
back to 255; a sent frame moves out_txseq of the destination from 255 to 1. -/
theorem sequence_counters_in_range_witness :
    seqSucc 255 = 1 ∧ (seqSucc^[255] 255 = 255 ↔ 255 ∣ 255) ∧
    (∀ st s2, state_txing (coreS 255) 50 3 (simpleEvent EVENTS.TXDONE) = some (st, s2) →
      (s2.peers 2).out_txseq = 255 ∨ (s2.peers 2).out_txseq = 1) :=
  ⟨by decide, sequence_counters_in_range.2.1 255 255 (by decide) (by decide),
   fun st s2 h =>
     (sequence_counters_in_range.2.2.1 (coreS 255) 50 3 (simpleEvent EVENTS.TXDONE) st s2 2
       h).2.2⟩

/-! ### The CRC of each type -/

/-- Claim C34 (fails on the code for the IBM type): `PacketComputeCrc` with
crcType = CRC_TYPE_IBM folds `ComputeCrc` with polynomial 0x8005 over the
bytes and complements the result, but it starts from 0x0000, not from
CRC_IBM_SEED = 0xFFFF: the seed is chosen by comparing the 8-bit crcType with
POLYNOMIAL_IBM (0x8005), which never holds.  With crcType = CRC_TYPE_CCITT it
folds with polynomial 0x1021 from 0x0000 without complement, as claimed.  On
the empty buffer the IBM type returns 0xFFFF where the claimed value is 0, and
on the bytes "123456789" the two values differ as well. -/
theorem PacketComputeCrc_per_type :
    (∀ (buffer : List Nat) (bufferLength : Nat),
      PacketComputeCrc buffer bufferLength CRC_TYPE_IBM
        = ibmVariantCrc CRC_CCITT_SEED_XMODEM (readBytes buffer 0 (bufferLength % 256))) ∧
    (∀ (buffer : List Nat) (bufferLength : Nat),
      PacketComputeCrc buffer bufferLength CRC_TYPE_CCITT
        = (readBytes buffer 0 (bufferLength % 256)).foldl
            (fun crc b => ComputeCrc crc b POLYNOMIAL_CCITT) CRC_CCITT_SEED_XMODEM) ∧
    PacketComputeCrc [] 0 CRC_TYPE_IBM = 0xFFFF ∧
    ibmVariantCrc CRC_IBM_SEED (readBytes [] 0 0) = 0 ∧
    PacketComputeCrc [0x31, 0x32, 0x33, 0x34, 0x35, 0x36, 0x37, 0x38, 0x39] 9 CRC_TYPE_IBM
      ≠ ibmVariantCrc CRC_IBM_SEED
          (readBytes [0x31, 0x32, 0x33, 0x34, 0x35, 0x36, 0x37, 0x38, 0x39] 0 9) := by
  refine ⟨fun buffer bufferLength => rfl, fun buffer bufferLength => rfl, ?_, ?_, ?_⟩
  · decide
  · decide
  · decide

/-! ### The nonce of the encoder and of the decoder -/

theorem encoderNonce_eq (nonce : Nat) :
    encoderNonce nonce = (nonce % 256) * 256 + nonce % 65536 / 256 := by
  unfold encoderNonce host_short wrap_short wrap_byte get_byte
  simp only [List.singleton_append, List.getD_cons_zero, List.getD_cons_succ]
  rw [Nat.shiftRight_eq_div_pow, show (0xFF : Nat) = 2 ^ 8 - 1 from rfl,
    Nat.and_pow_two_sub_one_eq_mod]
  omega

theorem get_byte_stdWritten_nonce (nonce : Nat) (msg : MSG_T) :
    get_byte (stdWritten nonce msg) 4 = get_byte (wrap_short nonce) 0 ∧
    get_byte (stdWritten nonce msg) 5 = get_byte (wrap_short nonce) 1 := by
  simp [stdWritten, wrap_byte, wrap_short, get_byte]

theorem get_byte_ackWritten_nonce (nonce : Nat) (msg : MSG_T) :
    get_byte (ackWritten nonce msg) 4 = get_byte (wrap_short nonce) 0 ∧
    get_byte (ackWritten nonce msg) 5 = get_byte (wrap_short nonce) 1 := by
  simp [ackWritten, wrap_byte, wrap_short, get_byte]

theorem host_short_stdPlain (nonce : Nat) (buf : List Nat) (msg : MSG_T) :
    host_short (stdPlain nonce buf msg) 4 = encoderNonce nonce := by
  unfold host_short encoderNonce host_short
  rw [get_byte_stdPlain_lt _ _ _ _ (by omega), get_byte_stdPlain_lt _ _ _ _ (by omega),
    (get_byte_stdWritten_nonce nonce msg).1, (get_byte_stdWritten_nonce nonce msg).2]

theorem host_short_ackPlain (nonce : Nat) (buf : List Nat) (msg : MSG_T) :
    host_short (ackPlain nonce buf msg) 4 = encoderNonce nonce := by
  unfold host_short encoderNonce host_short
  rw [get_byte_ackPlain_lt _ _ _ _ (by omega), get_byte_ackPlain_lt _ _ _ _ (by omega),
    (get_byte_ackWritten_nonce nonce msg).1, (get_byte_ackWritten_nonce nonce msg).2]

theorem get_short_buildFrame_nonce (c : Cipher) (cfg : Config) (nonce : Nat) (buf : List Nat)
    (msg : MSG_T) (h : msg.hdr.type = TYPE_STDMSG ∨ msg.hdr.type = TYPE_ACK) :
    get_short (buildFrame c cfg nonce buf msg).1 4 = nonce % 65536 := by
  have hw : ∀ b : List Nat, get_byte b 4 = get_byte (wrap_short nonce) 0 →
      get_byte b 5 = get_byte (wrap_short nonce) 1 → get_short b 4 = nonce % 65536 := by
    intro b h0 h1
    have := get_short_of_wrap_short b 4 (nonce % 65536) (Nat.mod_lt _ (by decide))
      (by rw [h0]; simp [wrap_short]) (by rw [h1]; simp [wrap_short])
    exact this
  rcases h with h | h
  · rw [buildFrame_std _ _ _ _ _ h]
    apply hw
    · rw [get_byte_encodeInPlace_lt _ _ _ _ _ _ _ _ (by decide),
        get_byte_stdPlain_lt _ _ _ _ (by omega)]
      exact (get_byte_stdWritten_nonce nonce msg).1
    · rw [get_byte_encodeInPlace_lt _ _ _ _ _ _ _ _ (by decide),
        get_byte_stdPlain_lt _ _ _ _ (by omega)]
      exact (get_byte_stdWritten_nonce nonce msg).2
  · rw [buildFrame_ack _ _ _ _ _ h]
    apply hw
    · rw [get_byte_encodeInPlace_lt _ _ _ _ _ _ _ _ (by decide),
        get_byte_ackPlain_lt _ _ _ _ (by omega)]
      exact (get_byte_ackWritten_nonce nonce msg).1
    · rw [get_byte_encodeInPlace_lt _ _ _ _ _ _ _ _ (by decide),
        get_byte_ackPlain_lt _ _ _ _ (by omega)]
      exact (get_byte_ackWritten_nonce nonce msg).2

/-- Claim C35 (fails on the code): the nonce of the encoder and of the decoder.
`buildFrame` hands `encodeInPlace` the 16-bit value it reads back from bytes
4..5 of the frame through a `uint16_t` pointer, which on the little-endian
target is the nonce with its two bytes swapped (`encoderNonce`), while
`retrieveMessage` hands `decodeInPlace` the big-endian value of the same
bytes, which is the nonce itself.  The two values agree only when both bytes
of the nonce are equal: for the nonce 0x1234 the encoder is handed 0x3412 and
the decoder 0x1234, and the keys derived from them differ. -/
theorem buildFrame_nonce_byte_order :
    (∀ (c : Cipher) (cfg : Config) (nonce : Nat) (buf : List Nat) (msg : MSG_T),
      msg.hdr.type = TYPE_STDMSG →
      (buildFrame c cfg nonce buf msg).1
        = encodeInPlace c cfg cfg._encryptionKey (encoderNonce nonce)
            (stdPlain nonce buf msg) 6 ((msg.hdr.payloadLength + 8) % 65536)) ∧
    (∀ (c : Cipher) (cfg : Config) (nonce : Nat) (buf : List Nat) (msg : MSG_T),
      msg.hdr.type = TYPE_ACK →
      (buildFrame c cfg nonce buf msg).1
        = encodeInPlace c cfg cfg._encryptionKey (encoderNonce nonce)
            (ackPlain nonce buf msg) 6 6) ∧
    (∀ (c : Cipher) (cfg : Config) (msg : MSG_T) (fb : List Nat),
      (get_byte fb 0) >>> 4 = LOWAPP_CURRENT_VERSION → (get_byte fb 0) &&& 0xF = TYPE_STDMSG →
      retrieveMessage c cfg msg fb
        = retrieveStd cfg msg (parsedHdr fb)
            (decodeInPlace c cfg cfg._encryptionKey (get_short fb 4) fb 6
              ((get_byte fb 1 + 8) % 65536))) ∧
    (∀ (c : Cipher) (cfg : Config) (msg : MSG_T) (fb : List Nat),
      (get_byte fb 0) >>> 4 = LOWAPP_CURRENT_VERSION → (get_byte fb 0) &&& 0xF = TYPE_ACK →
      retrieveMessage c cfg msg fb
        = retrieveAck cfg msg (parsedHdr fb)
            (decodeInPlace c cfg cfg._encryptionKey (get_short fb 4) fb 6 6)) ∧
    (∀ (c : Cipher) (cfg : Config) (nonce : Nat) (buf : List Nat) (msg : MSG_T),
      msg.hdr.type = TYPE_STDMSG ∨ msg.hdr.type = TYPE_ACK →
      get_short (buildFrame c cfg nonce buf msg).1 4 = nonce % 65536) ∧
    (∀ nonce, encoderNonce nonce = (nonce % 256) * 256 + nonce % 65536 / 256) ∧
    (∀ nonce, encoderNonce nonce = nonce % 65536 ↔ nonce % 256 = nonce % 65536 / 256) ∧
    encoderNonce 0x1234 = 0x3412 ∧
    get_short (buildFrame xorCipher cfgA 0x1234 [] msgHello).1 4 = 0x1234 ∧
    actualKey cfgA 0x3412 ≠ actualKey cfgA 0x1234 := by
  refine ⟨?_, ?_, ?_, ?_, get_short_buildFrame_nonce, encoderNonce_eq, ?_, by decide, by decide,
    by decide⟩
  · intro c cfg nonce buf msg h
    rw [buildFrame_std _ _ _ _ _ h, host_short_stdPlain]
  · intro c cfg nonce buf msg h
    rw [buildFrame_ack _ _ _ _ _ h, host_short_ackPlain]
  · intro c cfg msg fb hv ht
    exact retrieveMessage_std c cfg msg fb hv ht
  · intro c cfg msg fb hv ht
    exact retrieveMessage_ack c cfg msg fb hv ht
  · intro nonce
    rw [encoderNonce_eq]
    omega

/-- Witness of claim C35: the frame of "HELLO" built with nonce 0x1234. -/
theorem buildFrame_nonce_byte_order_witness :
    (buildFrame xorCipher cfgA 0x1234 [] msgHello).1
      = encodeInPlace xorCipher cfgA cfgA._encryptionKey (encoderNonce 0x1234)
          (stdPlain 0x1234 [] msgHello) 6 ((msgHello.hdr.payloadLength + 8) % 65536) ∧
    get_short (buildFrame xorCipher cfgA 0x1234 [] msgHello).1 4 = 0x1234 % 65536 ∧
    encoderNonce 0x1234 ≠ 0x1234 % 65536 :=
  ⟨buildFrame_nonce_byte_order.1 xorCipher cfgA 0x1234 [] msgHello (by decide),
   buildFrame_nonce_byte_order.2.2.2.2.1 xorCipher cfgA 0x1234 [] msgHello (Or.inl (by decide)),
   fun h => absurd ((buildFrame_nonce_byte_order.2.2.2.2.2.2.1 0x1234).mp h) (by decide)⟩

/-! ### The count of missed Acks -/

/-- Claim C36 (fails on the code where rxdSeq = expectedSeq): the count in the
missingAck response of `process_ack`.  When the Ack's expectedSeq is ahead of
the recorded out_rxseq (and the Ack does not announce a re-initialised peer),
the branch for rxdSeq different from expectedSeq reports expectedSeq -
out_rxseq as an 8-bit difference, but the branch for rxdSeq = expectedSeq
reports the retry counter `retryTxFrame` of the pending frame instead. -/
theorem process_ack_missing_ack_count (s : Core) (msg : MSG_T)
    (hreboot : ¬ (msg.content.toAck.expectedSeq = 0 ∧ msg.content.toAck.rxdSeq ≠ 0))
    (hahead : (s.peers msg.content.toAck.srcId).out_rxseq < msg.content.toAck.expectedSeq ∨
      ((s.peers msg.content.toAck.srcId).out_rxseq > SEQ_ROLLOVER_HIGH_THRESHOLD ∧
        msg.content.toAck.expectedSeq < SEQ_ROLLOVER_LOW_THRESHOLD)) :
    (msg.content.toAck.rxdSeq = msg.content.toAck.expectedSeq →
      (process_ack s msg).calls = s.calls ++
        [SysCall.cmdResponse (jsonMissingAck ++ FillBuffer8_t s.retryTxFrame ++ jsonSuffix)]) ∧
    (msg.content.toAck.rxdSeq ≠ msg.content.toAck.expectedSeq →
      (process_ack s msg).calls = s.calls ++
        [SysCall.cmdResponse (jsonMissingAck ++
          FillBuffer8_t ((msg.content.toAck.expectedSeq + 256
            - (s.peers msg.content.toAck.srcId).out_rxseq % 256) % 256) ++ jsonSuffix)]) := by
  have hne : ¬ ((s.peers msg.content.toAck.srcId).out_rxseq = msg.content.toAck.expectedSeq) := by
    intro h
    rw [h] at hahead
    rcases hahead with h1 | ⟨h1, h2⟩
    · exact Nat.lt_irrefl _ h1
    · have h3 : msg.content.toAck.expectedSeq > 230 := h1
      have h4 : msg.content.toAck.expectedSeq < 30 := h2
      omega
  refine ⟨fun heq => ?_, fun hneq => ?_⟩
  · unfold process_ack
    simp only [if_neg hreboot, if_pos heq, if_neg hne, if_pos hahead]
  · unfold process_ack
    simp only [if_neg hreboot, if_neg hneq, if_neg hne, if_pos hahead]
    split_ifs <;> rfl

/-- Witness of claim C36: the record holds out_rxseq = 3 and the retry counter
is 0.  An Ack with rxdSeq = expectedSeq = 5 is answered with a count of 0,
although two Acks were missed; an Ack with rxdSeq 6 and expectedSeq 5 is
answered with the count 2. -/
theorem process_ack_missing_ack_count_witness :
    ((coreS 3).peers 2).out_rxseq = 3 ∧ (coreS 3).retryTxFrame = 0 ∧
    (process_ack (coreS 3) msgAckAhead).calls
      = [SysCall.cmdResponse "OK TX \x7b\"missingAck\":0\"\x7d"] ∧
    (process_ack (coreS 3) msgAckAheadGap).calls
      = [SysCall.cmdResponse "OK TX \x7b\"missingAck\":2\"\x7d"] :=
  ⟨by decide, by decide,
   ((process_ack_missing_ack_count (coreS 3) msgAckAhead (by decide) (by decide)).1
      (by decide)).trans (by decide),
   ((process_ack_missing_ack_count (coreS 3) msgAckAheadGap (by decide) (by decide)).2
      (by decide)).trans (by decide)⟩

/-! ### The representation invariant of the ring buffers -/

theorem RingInv_push {α : Type} (cleared : α) (head tail count : Nat) (slots : Nat → α) (x : α)
    (h : RingInv cleared head tail count slots) (hn : count ≠ 16) :
    RingInv cleared ((head + 1) % 16) tail ((count + 1) % 256) (Function.update slots head x) := by
  obtain ⟨hh, ht, hc, hd, hs⟩ := h
  have hc1 : (count + 1) % 256 = count + 1 := by omega
  rw [hc1]
  refine ⟨by omega, ht, by omega, by omega, ?_⟩
  intro i hi hout
  have hne : i ≠ head := by
    rw [hd]
    exact hout count (by omega)
  rw [Function.update_noteq hne]
  exact hs i hi (fun k hk => hout k (by omega))

theorem RingInv_pop {α : Type} (cleared : α) (head tail count : Nat) (slots : Nat → α)
    (h : RingInv cleared head tail count slots) (hn : count ≠ 0) :
    RingInv cleared head ((tail + 1) % 16) ((count + 255) % 256)
      (Function.update slots tail cleared) := by
  obtain ⟨hh, ht, hc, hd, hs⟩ := h
  have hc1 : (count + 255) % 256 = count - 1 := by omega
  rw [hc1]
  refine ⟨hh, by omega, by omega, by omega, ?_⟩
  intro i hi hout
  by_cases hit : i = tail
  · rw [hit, Function.update_same]
  · rw [Function.update_noteq hit]
    apply hs i hi
    intro k hk
    rcases k with _ | k
    · rw [Nat.add_zero, Nat.mod_eq_of_lt ht]
      exact hit
    · have := hout k (by omega)
      have e : ((tail + 1) % 16 + k) % 16 = (tail + (k + 1)) % 16 := by omega
      rwa [e] at this

theorem add_event_inv (q : QEVENT_T) (t : EVENTS) (d : DATA) (dlen : Nat) (h : q.Inv) :
    (add_event q t d dlen).2.Inv := by
  unfold add_event
  split_ifs with hf
  · exact h
  · exact RingInv_push _ _ _ _ _ _ h hf

theorem get_event_inv (q : QEVENT_T) (out : EVENT_T) (h : q.Inv) :
    (get_event q out).2.2.Inv := by
  unfold get_event
  split_ifs with hf
  · exact h
  · exact RingInv_pop _ _ _ _ _ h hf

theorem add_to_queue_inv (q : QFIXED_T) (d : DATA) (dlen : Nat) (h : q.Inv) :
    (add_to_queue q d dlen).2.Inv := by
  unfold add_to_queue
  split_ifs with hf
  · exact h
  · exact RingInv_push _ _ _ _ _ _ h hf

theorem get_from_queue_inv (q : QFIXED_T) (out : QEL_T) (h : q.Inv) :
    (get_from_queue q out).2.2.Inv := by
  unfold get_from_queue
  split_ifs with hf
  · exact h
  · exact RingInv_pop _ _ _ _ _ h hf

theorem emptyEventQueue_inv : emptyEventQueue.Inv :=
  ⟨by decide, by decide, by decide, by decide, fun _ _ _ => rfl⟩

theorem emptyQueue_inv : emptyQueue.Inv :=
  ⟨by decide, by decide, by decide, by decide, fun _ _ _ => rfl⟩

theorem eventQueueAfter_inv (ops : List (QOp EVENT_T)) :
    ∀ (q : QEVENT_T) (out : EVENT_T), q.Inv → (eventQueueAfter ops q out).Inv := by
  induction ops with
  | nil => intro q out h; exact h
  | cons op ops ih =>
    intro q out h
    cases op with
    | push x => exact ih _ _ (add_event_inv q x.type x.data x.datalen h)
    | pop => exact ih _ _ (get_event_inv q out h)

theorem queueAfter_inv (ops : List (QOp QEL_T)) :
    ∀ (q : QFIXED_T) (out : QEL_T), q.Inv → (queueAfter ops q out).Inv := by
  induction ops with
  | nil => intro q out h; exact h
  | cons op ops ih =>
    intro q out h
    cases op with
    | push x => exact ih _ _ (add_to_queue_inv q x.data x.datalen h)
    | pop => exact ih _ _ (get_from_queue_inv q out h)

/-- Claim C40: the ring-buffer representation invariant.  In every state
reached from a zero-initialised event queue by `add_event` and `get_event`
calls, and from a zero-initialised generic queue by `add_to_queue` and
`get_from_queue` calls: head < 16, tail < 16, count <= 16,
head = (tail + count) mod 16, and every slot that is not one of the `count`
slots starting at the tail holds the cleared value (event type STATE_ENTER,
data NULL, datalen 0). -/
theorem ring_buffer_invariant :
    (∀ (ops : List (QOp EVENT_T)) (out : EVENT_T),
      (eventQueueAfter ops emptyEventQueue out).head < 16 ∧
      (eventQueueAfter ops emptyEventQueue out).tail < 16 ∧
      (eventQueueAfter ops emptyEventQueue out).count ≤ 16 ∧
      (eventQueueAfter ops emptyEventQueue out).head
        = ((eventQueueAfter ops emptyEventQueue out).tail
            + (eventQueueAfter ops emptyEventQueue out).count) % 16 ∧
      ∀ i, i < 16 →
        (∀ k, k < (eventQueueAfter ops emptyEventQueue out).count →
          i ≠ ((eventQueueAfter ops emptyEventQueue out).tail + k) % 16) →
        (eventQueueAfter ops emptyEventQueue out).evts i
          = { type := EVENTS.STATE_ENTER, data := DATA.null, datalen := 0 }) ∧
    (∀ (ops : List (QOp QEL_T)) (out : QEL_T),
      (queueAfter ops emptyQueue out).head < 16 ∧
      (queueAfter ops emptyQueue out).tail < 16 ∧
      (queueAfter ops emptyQueue out).count ≤ 16 ∧
      (queueAfter ops emptyQueue out).head
        = ((queueAfter ops emptyQueue out).tail + (queueAfter ops emptyQueue out).count) % 16 ∧
      ∀ i, i < 16 →
        (∀ k, k < (queueAfter ops emptyQueue out).count →
          i ≠ ((queueAfter ops emptyQueue out).tail + k) % 16) →
        (queueAfter ops emptyQueue out).els i = { data := DATA.null, datalen := 0 }) :=
  ⟨fun ops out => eventQueueAfter_inv ops emptyEventQueue out emptyEventQueue_inv,
   fun ops out => queueAfter_inv ops emptyQueue out emptyQueue_inv⟩

/-- Witness of claim C40: after two pushes and three pops on a zero-initialised
event queue, head and tail are both 2, the queue is empty and slot 0, which
held the first event, is cleared. -/
theorem ring_buffer_invariant_witness :
    (eventQueueAfter evOpsA emptyEventQueue clearedEvent).head = 2 ∧
    (eventQueueAfter evOpsA emptyEventQueue clearedEvent).tail = 2 ∧
    (eventQueueAfter evOpsA emptyEventQueue clearedEvent).count = 0 ∧
    (eventQueueAfter evOpsA emptyEventQueue clearedEvent).evts 0
      = { type := EVENTS.STATE_ENTER, data := DATA.null, datalen := 0 } :=
  ⟨by decide, by decide, by decide,
   (ring_buffer_invariant.1 evOpsA clearedEvent).2.2.2.2 0 (by decide)
     (fun k hk => absurd hk (Nat.not_lt_zero k))⟩

/-! ### The transition loop over the table `SM` -/

/-- For state functions that always return, the two embeddings of the
transition loop agree. -/
theorem sm_transition_opt_total (T : STATES → Core → EVENT_T → STATES × Core) (fuel : Nat) :
    ∀ (n : Nat) (s : Core) (evt : EVENT_T) (Y : STATES),
      (sm_transition_opt (fun st s e => some (T st s e)) fuel n s evt Y).core
        = sm_transition T fuel s evt Y := by
  induction fuel with
  | zero =>
    intro n s evt Y
    simp only [sm_transition_opt, sm_transition]
    split_ifs <;> rfl
  | succ f ih =>
    intro n s evt Y
    simp only [sm_transition_opt, sm_transition]
    split_ifs
    · exact ih _ _ _ _
    · rfl

/-- Every state function ignores STATE_EXIT. -/
theorem SM_state_exit (env : SMEnv) (st : STATES) (s : Core) (evt : EVENT_T) :
    SM env st s { evt with type := EVENTS.STATE_EXIT } = some (s._currentState, s) := by
  cases st <;> rfl

theorem tryTxFrame_state (s : Core) (lbt : Bool) (t r : Nat) :
    (tryTxFrame s lbt t r).1 ≠ STATES.RESTART ∧ (tryTxFrame s lbt t r).1 ≠ STATES.IDLE ∧
    (tryTxFrame s lbt t r).2._currentState = s._currentState := by
  unfold tryTxFrame
  simp only
  split_ifs <;> exact ⟨fun h => STATES.noConfusion h, fun h => STATES.noConfusion h, rfl⟩

theorem tryTxCurrent_state (c : Cipher) (nonce : Nat) (s : Core) (lbt : Bool) (t r : Nat)
    (Y : STATES) (s2 : Core) (h : tryTxCurrent c nonce s lbt t r = some (Y, s2)) :
    Y ≠ STATES.RESTART ∧ s2._currentState = s._currentState := by
  unfold tryTxCurrent at h
  cases hm : s.currentTxMsg with
  | none => rw [hm] at h; cases h
  | some m =>
    rw [hm] at h
    simp only at h
    split_ifs at h
    · obtain ⟨rfl, rfl⟩ := Prod.mk.inj (Option.some.inj h)
      exact ⟨(tryTxFrame_state _ _ _ _).1, (tryTxFrame_state _ _ _ _).2.2⟩
    · obtain ⟨rfl, rfl⟩ := Prod.mk.inj (Option.some.inj h)
      exact ⟨by decide, rfl⟩
    · obtain ⟨rfl, rfl⟩ := Prod.mk.inj (Option.some.inj h)
      exact ⟨by decide, rfl⟩

theorem tryTxFromQueue_state (c : Cipher) (nonce : Nat) (s : Core) (lbt : Bool) (t r : Nat)
    (Y : STATES) (s2 : Core) (h : tryTxFromQueue c nonce s lbt t r = some (Y, s2)) :
    Y ≠ STATES.RESTART ∧ s2._currentState = s._currentState := by
  unfold tryTxFromQueue at h
  simp only at h
  split at h
  · have := tryTxCurrent_state _ _ _ _ _ _ _ _ h
    exact this
  · have := tryTxCurrent_state _ _ _ _ _ _ _ _ h
    exact this
  · cases h

theorem state_idle_tx_state (env : SMEnv) (s : Core) (Y : STATES) (s2 : Core)
    (h : state_idle_tx env s = some (Y, s2)) :
    (Y ≠ STATES.RESTART ∨ Y = s2._currentState) ∧ s2._currentState = s._currentState := by
  unfold state_idle_tx at h
  split_ifs at h
  · obtain ⟨rfl, rfl⟩ := Prod.mk.inj (Option.some.inj h)
    exact ⟨Or.inl (tryTxFrame_state _ _ _ _).1, (tryTxFrame_state _ _ _ _).2.2⟩
  · have := tryTxFromQueue_state _ _ _ _ _ _ _ _ h
    exact ⟨Or.inl this.1, this.2⟩
  · obtain ⟨rfl, rfl⟩ := Prod.mk.inj (Option.some.inj h)
    exact ⟨Or.inr rfl, rfl⟩


theorem state_idle_state (env : SMEnv)
    (hat : ∀ s, (env.at_queue_process s)._currentState = s._currentState)
    (hrx : ∀ s, (env.response_rx_packets s)._currentState = s._currentState)
    (s : Core) (evt : EVENT_T) (Y : STATES) (s2 : Core)
    (h : state_idle env s evt = some (Y, s2)) :
    (Y ≠ STATES.RESTART ∨ Y = s2._currentState) ∧ s2._currentState = s._currentState := by
  have hA : ∀ s : Core, (if queue_size s._atcmd_list > 0 then env.at_queue_process s
      else s)._currentState = s._currentState := by
    intro s
    split_ifs
    · exact hat s
    · rfl
  have hB : ∀ s : Core, (if s.cfg._opMode = NODE_MODE_T.PUSH ∧ queue_size s._rx_pkt_list > 0
      then env.response_rx_packets s else s)._currentState = s._currentState := by
    intro s
    split_ifs
    · exact hrx s
    · rfl
  have key : ∀ s1 : Core, s1._currentState = s._currentState →
      (if ¬ s1.txBlocked then state_idle_tx env s1 else some (s1._currentState, s1))
        = some (Y, s2) →
      (Y ≠ STATES.RESTART ∨ Y = s2._currentState) ∧ s2._currentState = s._currentState := by
    intro s1 hs1 h1
    split_ifs at h1
    · obtain ⟨rfl, rfl⟩ := Prod.mk.inj (Option.some.inj h1)
      exact ⟨Or.inr rfl, hs1⟩
    · have := state_idle_tx_state _ _ _ _ h1
      exact ⟨this.1, this.2.trans hs1⟩
  rcases evt with ⟨t, d, dl⟩
  cases t
  case STATE_ENTER =>
    exact key
      (if (if queue_size s._atcmd_list > 0 then env.at_queue_process s else s).cfg._opMode
            = NODE_MODE_T.PUSH ∧
          queue_size (if queue_size s._atcmd_list > 0 then env.at_queue_process s
            else s)._rx_pkt_list > 0 then
        env.response_rx_packets
          (if queue_size s._atcmd_list > 0 then env.at_queue_process s else s)
      else (if queue_size s._atcmd_list > 0 then env.at_queue_process s else s))
      ((hB _).trans (hA s)) h
  case TXUNBLOCK => exact state_idle_tx_state _ _ _ _ h
  case RXAT =>
    obtain ⟨rfl, rfl⟩ := Prod.mk.inj (Option.some.inj h)
    exact ⟨Or.inr rfl, hA s⟩
  case TXREQ => exact key s rfl h
  case CADTIMEOUT =>
    obtain ⟨rfl, rfl⟩ := Prod.mk.inj (Option.some.inj h)
    exact ⟨Or.inl (by decide), rfl⟩
  all_goals
    obtain ⟨rfl, rfl⟩ := Prod.mk.inj (Option.some.inj h)
    exact ⟨Or.inr rfl, rfl⟩

theorem process_ack_currentState (s : Core) (msg : MSG_T) :
    (process_ack s msg)._currentState = s._currentState := by
  unfold process_ack
  simp only
  split_ifs <;> rfl

theorem state_rxing_state (c : Cipher) (s : Core) (now : Nat) (uninit uninitAck : MSG_T)
    (evt : EVENT_T) :
    ((state_rxing c s now uninit uninitAck evt).1 ≠ STATES.RESTART ∨
      (state_rxing c s now uninit uninitAck evt).1
        = (state_rxing c s now uninit uninitAck evt).2._currentState) ∧
    (state_rxing c s now uninit uninitAck evt).2._currentState = s._currentState := by
  rcases evt with ⟨t, d, dl⟩
  cases t
  case RXMSG =>
    cases d with
    | rxdone rx =>
      rcases rx with ⟨data, l, rssi, snr⟩
      cases data with
      | none => exact ⟨Or.inl (fun h => STATES.noConfusion h), rfl⟩
      | some frame =>
        simp only [state_rxing]
        split_ifs <;> exact ⟨Or.inl (fun h => STATES.noConfusion h), rfl⟩
    | _ => exact ⟨Or.inl (fun h => STATES.noConfusion h), rfl⟩
  all_goals first
    | exact ⟨Or.inr rfl, rfl⟩
    | exact ⟨Or.inl (fun h => STATES.noConfusion h), rfl⟩

theorem state_rxing_ack_state (c : Cipher) (s : Core) (uninit : MSG_T) (preambleMs r : Nat)
    (evt : EVENT_T) :
    ((state_rxing_ack c s uninit preambleMs r evt).1 ≠ STATES.RESTART ∨
      (state_rxing_ack c s uninit preambleMs r evt).1
        = (state_rxing_ack c s uninit preambleMs r evt).2._currentState) ∧
    (state_rxing_ack c s uninit preambleMs r evt).2._currentState = s._currentState := by
  rcases evt with ⟨t, d, dl⟩
  cases t
  case RXMSG =>
    cases d with
    | rxdone rx =>
      rcases rx with ⟨data, l, rssi, snr⟩
      cases data with
      | none => exact ⟨Or.inl (fun h => STATES.noConfusion h), rfl⟩
      | some frame =>
        simp only [state_rxing_ack, setTimerForUnblockingTx]
        refine ⟨Or.inl (fun h => STATES.noConfusion h), ?_⟩
        split_ifs
        · exact process_ack_currentState _ _
        · rfl
    | _ => exact ⟨Or.inl (fun h => STATES.noConfusion h), rfl⟩
  all_goals first
    | exact ⟨Or.inr rfl, rfl⟩
    | exact ⟨Or.inl (fun h => STATES.noConfusion h), rfl⟩

theorem state_cad_state (s : Core) (evt : EVENT_T) (Y : STATES) (s2 : Core)
    (h : state_cad s evt = some (Y, s2)) :
    (Y ≠ STATES.RESTART ∨ Y = s2._currentState) ∧ s2._currentState = s._currentState := by
  rcases evt with ⟨t, d, dl⟩
  cases t <;> simp only [state_cad] at h
  case CADDONE =>
    cases d <;> simp only at h
    case value v =>
      obtain ⟨rfl, rfl⟩ := Prod.mk.inj (Option.some.inj h)
      refine ⟨Or.inl ?_, rfl⟩
      split_ifs <;> decide
    case null =>
      obtain ⟨rfl, rfl⟩ := Prod.mk.inj (Option.some.inj h)
      exact ⟨Or.inl (by decide), rfl⟩
    all_goals cases h
  all_goals
    obtain ⟨rfl, rfl⟩ := Prod.mk.inj (Option.some.inj h)
    exact ⟨Or.inr rfl, rfl⟩

theorem state_txing_state (s : Core) (preambleMs r : Nat) (evt : EVENT_T) (Y : STATES)
    (s2 : Core) (h : state_txing s preambleMs r evt = some (Y, s2)) :
    (Y ≠ STATES.RESTART ∨ Y = s2._currentState) ∧ s2._currentState = s._currentState := by
  rcases evt with ⟨t, d, dl⟩
  cases t <;> simp only [state_txing, setTimerForUnblockingTx] at h
  case TXDONE =>
    cases hm : s.currentTxMsg with
    | none => rw [hm] at h; cases h
    | some m =>
      rw [hm] at h
      simp only at h
      split_ifs at h <;>
        (obtain ⟨rfl, rfl⟩ := Prod.mk.inj (Option.some.inj h)
         exact ⟨Or.inl (by decide), rfl⟩)
  case TIMEOUT =>
    split_ifs at h <;>
      (obtain ⟨rfl, rfl⟩ := Prod.mk.inj (Option.some.inj h)
       exact ⟨Or.inl (by decide), rfl⟩)
  case TXTIMEOUT =>
    split_ifs at h <;>
      (obtain ⟨rfl, rfl⟩ := Prod.mk.inj (Option.some.inj h)
       exact ⟨Or.inl (by decide), rfl⟩)
  all_goals
    obtain ⟨rfl, rfl⟩ := Prod.mk.inj (Option.some.inj h)
    exact ⟨Or.inr rfl, rfl⟩

theorem state_wait_slot_tx_ack_state (env : SMEnv) (s : Core) (evt : EVENT_T) (Y : STATES)
    (s2 : Core) (h : state_wait_slot_tx_ack env s evt = some (Y, s2)) :
    (Y ≠ STATES.RESTART ∨ Y = s2._currentState) ∧ s2._currentState = s._currentState := by
  rcases evt with ⟨t, d, dl⟩
  cases t <;> simp only [state_wait_slot_tx_ack] at h
  case TIMEOUT =>
    have := tryTxCurrent_state _ _ _ _ _ _ _ _ h
    exact ⟨Or.inl this.1, this.2⟩
  all_goals
    obtain ⟨rfl, rfl⟩ := Prod.mk.inj (Option.some.inj h)
    exact ⟨Or.inr rfl, rfl⟩

theorem simple_handlers_state (s : Core) (evt : EVENT_T) :
    (((state_skipping_ack s evt).1 ≠ STATES.RESTART ∨
        (state_skipping_ack s evt).1 = (state_skipping_ack s evt).2._currentState) ∧
      (state_skipping_ack s evt).2._currentState = s._currentState) ∧
    (((state_txingack s evt).1 ≠ STATES.RESTART ∨
        (state_txingack s evt).1 = (state_txingack s evt).2._currentState) ∧
      (state_txingack s evt).2._currentState = s._currentState) ∧
    (((state_wait_before_listening_ack s evt).1 ≠ STATES.RESTART ∨
        (state_wait_before_listening_ack s evt).1
          = (state_wait_before_listening_ack s evt).2._currentState) ∧
      (state_wait_before_listening_ack s evt).2._currentState = s._currentState) ∧
    (((state_restart s evt).1 ≠ STATES.RESTART ∨
        (state_restart s evt).1 = (state_restart s evt).2._currentState) ∧
      (state_restart s evt).2._currentState = s._currentState) := by
  rcases evt with ⟨t, d, dl⟩
  refine ⟨?_, ?_, ?_, ?_⟩ <;> cases t <;>
    first
    | exact ⟨Or.inr rfl, rfl⟩
    | exact ⟨Or.inl (fun h => STATES.noConfusion h), rfl⟩

/-- What every state function guarantees about the state it returns: it is
never RESTART unless RESTART is the current state, and `_currentState` itself
is left as it was. -/
theorem SM_state (env : SMEnv)
    (hat : ∀ s, (env.at_queue_process s)._currentState = s._currentState)
    (hrx : ∀ s, (env.response_rx_packets s)._currentState = s._currentState)
    (st : STATES) (s : Core) (evt : EVENT_T) (Y : STATES) (s2 : Core)
    (h : SM env st s evt = some (Y, s2)) :
    (Y ≠ STATES.RESTART ∨ Y = s2._currentState) ∧ s2._currentState = s._currentState := by
  cases st <;> simp only [SM] at h
  case IDLE => exact state_idle_state env hat hrx s evt Y s2 h
  case RXING =>
    obtain ⟨rfl, rfl⟩ := Prod.mk.inj (Option.some.inj h)
    exact state_rxing_state _ _ _ _ _ _
  case SKIPPING_ACK =>
    obtain ⟨rfl, rfl⟩ := Prod.mk.inj (Option.some.inj h)
    exact (simple_handlers_state s evt).1
  case WAIT_SLOT_TX_ACK => exact state_wait_slot_tx_ack_state env s evt Y s2 h
  case TXING_ACK =>
    obtain ⟨rfl, rfl⟩ := Prod.mk.inj (Option.some.inj h)
    exact (simple_handlers_state s evt).2.1
  case TXING => exact state_txing_state s _ _ evt Y s2 h
  case WAIT_BEFORE_LISTENING_FOR_ACK =>
    obtain ⟨rfl, rfl⟩ := Prod.mk.inj (Option.some.inj h)
    exact (simple_handlers_state s evt).2.2.1
  case RXING_ACK =>
    obtain ⟨rfl, rfl⟩ := Prod.mk.inj (Option.some.inj h)
    exact state_rxing_ack_state _ _ _ _ _ _
  case CAD => exact state_cad_state s evt Y s2 h
  case RESTART =>
    obtain ⟨rfl, rfl⟩ := Prod.mk.inj (Option.some.inj h)
    exact (simple_handlers_state s evt).2.2.2

/-- On STATE_ENTER every state function but those of IDLE and RESTART returns
the current state. -/
theorem SM_state_enter (env : SMEnv) (st : STATES) (s : Core) (evt : EVENT_T)
    (h1 : st ≠ STATES.IDLE) (h2 : st ≠ STATES.RESTART) :
    ∃ s2, SM env st s { evt with type := EVENTS.STATE_ENTER } = some (s._currentState, s2) ∧
      s2._currentState = s._currentState := by
  cases st
  case IDLE => exact absurd rfl h1
  case RESTART => exact absurd rfl h2
  all_goals exact ⟨_, rfl, rfl⟩


theorem sm_transition_opt_stop (SM : STATES → Core → EVENT_T → Option (STATES × Core))
    (fuel n : Nat) (s : Core) (evt : EVENT_T) (Y : STATES) (h : Y = s._currentState) :
    sm_transition_opt SM fuel n s evt Y = LoopEnd.stopped n s := by
  cases fuel <;> simp [sm_transition_opt, h]

theorem sm_transition_opt_step (SM : STATES → Core → EVENT_T → Option (STATES × Core))
    (fuel n : Nat) (s : Core) (evt : EVENT_T) (Y : STATES) (h : Y ≠ s._currentState) :
    sm_transition_opt SM (fuel + 1) n s evt Y
      = match SM s._currentState s { evt with type := EVENTS.STATE_EXIT } with
        | none => LoopEnd.noReturn
        | some x =>
          match SM Y { x.2 with _currentState := Y } { evt with type := EVENTS.STATE_ENTER } with
          | none => LoopEnd.noReturn
          | some r =>
            sm_transition_opt SM fuel (n + 1) r.2 { evt with type := EVENTS.STATE_ENTER } r.1 := by
  rw [sm_transition_opt, if_pos h]

/-- The transition loop over the table `SM` from a state the dispatch has left
with the next state `Y`: it stops after at most two state changes, unless a
state function does not return. -/
theorem sm_transition_opt_bounded (env : SMEnv)
    (hat : ∀ s, (env.at_queue_process s)._currentState = s._currentState)
    (hrx : ∀ s, (env.response_rx_packets s)._currentState = s._currentState)
    (fuel : Nat) (s1 : Core) (evt : EVENT_T) (Y : STATES)
    (hY : Y ≠ STATES.RESTART ∨ Y = s1._currentState) :
    sm_transition_opt (SM env) (fuel + 2) 0 s1 evt Y = LoopEnd.noReturn ∨
    ∃ n s2, sm_transition_opt (SM env) (fuel + 2) 0 s1 evt Y = LoopEnd.stopped n s2 ∧ n ≤ 2 := by
  by_cases h0 : Y = s1._currentState
  · exact Or.inr ⟨0, s1, sm_transition_opt_stop _ _ _ _ _ _ h0, by decide⟩
  · have hYR : Y ≠ STATES.RESTART := hY.resolve_right h0
    rw [sm_transition_opt_step _ _ _ _ _ _ h0, SM_state_exit]
    simp only
    cases h1 : SM env Y { s1 with _currentState := Y }
        { evt with type := EVENTS.STATE_ENTER } with
    | none => exact Or.inl rfl
    | some r1 =>
      rcases r1 with ⟨Z, s3⟩
      simp only
      obtain ⟨hZ, hs3⟩ := SM_state env hat hrx _ _ _ _ _ h1
      by_cases h2 : Z = s3._currentState
      · exact Or.inr ⟨1, s3, sm_transition_opt_stop _ _ _ _ _ _ h2, by decide⟩
      · have hZR : Z ≠ STATES.RESTART := hZ.resolve_right h2
        have hYI : Y = STATES.IDLE := by
          by_contra hne
          obtain ⟨s4, e4, -⟩ := SM_state_enter env Y { s1 with _currentState := Y } evt hne hYR
          rw [e4] at h1
          obtain ⟨rfl, rfl⟩ := Prod.mk.inj (Option.some.inj h1)
          exact h2 hs3.symm
        have hs3I : s3._currentState = STATES.IDLE := hs3.trans hYI
        have hZI : Z ≠ STATES.IDLE := fun h => h2 (h.trans hs3I.symm)
        rw [sm_transition_opt_step _ _ _ _ _ _ h2, SM_state_exit]
        simp only
        obtain ⟨s5, e5, hs5⟩ := SM_state_enter env Z { s3 with _currentState := Z }
          { evt with type := EVENTS.STATE_ENTER } hZI hZR
        rw [e5]
        exact Or.inr ⟨2, s5, sm_transition_opt_stop _ _ _ _ _ _ hs5.symm, le_refl 2⟩

/-- Claim C37: the transition loop of `sm_run` is bounded.  For every state
and every dispatched event, given at least two turns of fuel, the loop
`while (newState != _currentState)` either meets a state function that does
not return (one that dereferences a null pointer) or stops after at most two
state changes.  The two functions of the AT layer that `state_idle` calls are
taken to leave `_currentState` as it is (only `sm_run` assigns it). -/
theorem sm_run_transition_bounded (env : SMEnv)
    (hat : ∀ s, (env.at_queue_process s)._currentState = s._currentState)
    (hrx : ∀ s, (env.response_rx_packets s)._currentState = s._currentState)
    (s : Core) (evt : EVENT_T) (fuel : Nat) (hfuel : 2 ≤ fuel) :
    sm_dispatch_opt (SM env) fuel s evt = LoopEnd.noReturn ∨
    ∃ n s2, sm_dispatch_opt (SM env) fuel s evt = LoopEnd.stopped n s2 ∧ n ≤ 2 := by
  obtain ⟨f, rfl⟩ : ∃ f, fuel = f + 2 := ⟨fuel - 2, by omega⟩
  unfold sm_dispatch_opt
  cases h0 : SM env s._currentState s evt with
  | none => exact Or.inl rfl
  | some r0 =>
    rcases r0 with ⟨Y, s1⟩
    exact sm_transition_opt_bounded env hat hrx f s1 evt Y
      (SM_state env hat hrx _ _ _ _ _ h0).1

/-- Witness of claim C37: in SKIPPING_ACK with a pending frame, the TIMEOUT
event leads to IDLE, whose entry sends the frame and leads to TXING: the loop
stops after two state changes. -/
theorem sm_run_transition_bounded_witness :
    (sm_dispatch_opt (SM envSM) 2 coreSkipping (simpleEvent EVENTS.TIMEOUT)).changes = some 2 ∧
    (sm_dispatch_opt (SM envSM) 2 coreSkipping (simpleEvent EVENTS.TIMEOUT) = LoopEnd.noReturn ∨
      ∃ n s2, sm_dispatch_opt (SM envSM) 2 coreSkipping (simpleEvent EVENTS.TIMEOUT)
        = LoopEnd.stopped n s2 ∧ n ≤ 2) :=
  ⟨by decide,
   sm_run_transition_bounded envSM (fun _ => rfl) (fun _ => rfl) coreSkipping
     (simpleEvent EVENTS.TIMEOUT) 2 (le_refl 2)⟩

/-! ### The message of a pending frame -/

/-- Claim C38 (fails on the code): a pending frame does not keep its message.
Node 2 is started by `core_init`, connects and is asked to send "A" to node 1.
`tryTxCurrent` builds the frame and sets `txFrameFilled`, `tryTxFrame` finds
the channel busy and the node listens (RXING) with the frame pending and
`currentTxMsg` pointing to its Standard message.  The frame that kept the
channel busy is for node 2: `state_rxing` accepts it and stores the Ack it
prepares in `currentTxMsg`; once the Ack is sent `tryTxCurrent` sets
`currentTxMsg` to null.  `txFrameFilled` is true all along.  When timer 2
unblocks TX the pending frame is sent, and on its TXDONE event `state_txing`
reads the destination through the null `currentTxMsg`: `sm_run` does not
return. -/
theorem pending_frame_loses_message :
    (runStimuli stimuliPending (core_init coreStatic)).map pendingView
      = some (STATES.RXING, true, some TYPE_STDMSG) ∧
    (runStimuli stimuliAckPrepared (core_init coreStatic)).map pendingView
      = some (STATES.WAIT_SLOT_TX_ACK, true, some TYPE_ACK) ∧
    (runStimuli stimuliAckSent (core_init coreStatic)).map pendingView
      = some (STATES.TXING_ACK, true, none) ∧
    (runStimuli stimuliResent (core_init coreStatic)).map pendingView
      = some (STATES.TXING, true, none) ∧
    (runStimuli stimuliResent (core_init coreStatic)).map
        (fun s => (s._eventQ.count, (s._eventQ.evts s._eventQ.tail).type))
      = some (1, EVENTS.TXDONE) ∧
    (runStimuli stimuliResent (core_init coreStatic)).map
        (fun s => (state_txing s envSM.preambleMs envSM.randr
          (simpleEvent EVENTS.TXDONE)).isNone)
      = some true ∧
    (runStimuli stimuliResent (core_init coreStatic)).map
        (fun s => (sm_run_opt (SM envSM) (fun _ => simpleEvent EVENTS.STATE_ENTER) 4 0 s).failed)
      = some true := by
  refine ⟨?_, ?_, ?_, ?_, ?_, ?_, ?_⟩ <;> decide

end Lowapp
